import Mathlib

/-!
# The STM32F10x I2C adapter of `flight/PiOS/STM32F10x/pios_i2c.c`

A shallow embedding of the interrupt-driven I2C master driver: the transition
table, the entry actions, the event engine, the bus reset, the two interrupt
handlers and `PIOS_I2C_Transfer`.

Conventions of the embedding.

* The adapter record, the caller's transaction list and the board (peripheral,
  pins, semaphore, mutex) are one state value that every function passes on.
* Every call into the peripheral library, the GPIO library, the delay, the
  interrupt mask, the semaphore and the mutex is appended to the field `ops`,
  in program order.  Three ghost entries, `state_write`, `entry_fn` and
  `byte_access`, record the assignments to `curr_state`, the calls of a state's
  entry action and the dereferences of `active_byte`.
* Values the code reads from the outside world (data register, pin levels,
  status register 2) come from oracles indexed by the number of reads done so
  far.  The latched status of an interrupt is an argument of its handler.
* Pointers into the transaction array are integer indices; the byte cursors
  are integer offsets into the buffer of transaction `byte_txn`.
* `PIOS_DEBUG_Assert` is compiled out in the flight build and has no effect.
-/

namespace PiosI2C

/-! ## Types declared in headers -/

/-- Modelled from the spec: the state enumeration of `pios_i2c_priv.h`, which is
not among the sources.  The states are those the transition table names; the
enumerator with value zero is `I2C_STATE_FSM_FAULT`, so that a table slot
without an initialiser, which C fills with zero, names the fault state
("absent mappings are fatal"). -/
inductive i2c_adapter_state
  | I2C_STATE_FSM_FAULT
  | I2C_STATE_BUS_ERROR
  | I2C_STATE_STOPPED
  | I2C_STATE_STOPPING
  | I2C_STATE_STARTING
  | I2C_STATE_R_MORE_TXN_ADDR
  | I2C_STATE_R_MORE_TXN_PRE_ONE
  | I2C_STATE_R_MORE_TXN_PRE_FIRST
  | I2C_STATE_R_MORE_TXN_PRE_MIDDLE
  | I2C_STATE_R_MORE_TXN_PRE_LAST
  | I2C_STATE_R_MORE_TXN_POST_LAST
  | I2C_STATE_R_LAST_TXN_ADDR
  | I2C_STATE_R_LAST_TXN_PRE_ONE
  | I2C_STATE_R_LAST_TXN_PRE_FIRST
  | I2C_STATE_R_LAST_TXN_PRE_MIDDLE
  | I2C_STATE_R_LAST_TXN_PRE_LAST
  | I2C_STATE_R_LAST_TXN_POST_LAST
  | I2C_STATE_W_MORE_TXN_ADDR
  | I2C_STATE_W_MORE_TXN_MIDDLE
  | I2C_STATE_W_MORE_TXN_LAST
  | I2C_STATE_W_LAST_TXN_ADDR
  | I2C_STATE_W_LAST_TXN_MIDDLE
  | I2C_STATE_W_LAST_TXN_LAST
  | I2C_STATE_NACK
  deriving DecidableEq, Repr

/-- Modelled from the spec: the event enumeration of `pios_i2c_priv.h`, which is
not among the sources; the events are those the table and the handlers name. -/
inductive i2c_adapter_event
  | I2C_EVENT_BUS_ERROR
  | I2C_EVENT_START
  | I2C_EVENT_STARTED_MORE_TXN_READ
  | I2C_EVENT_STARTED_MORE_TXN_WRITE
  | I2C_EVENT_STARTED_LAST_TXN_READ
  | I2C_EVENT_STARTED_LAST_TXN_WRITE
  | I2C_EVENT_ADDR_SENT_LEN_EQ_0
  | I2C_EVENT_ADDR_SENT_LEN_EQ_1
  | I2C_EVENT_ADDR_SENT_LEN_EQ_2
  | I2C_EVENT_ADDR_SENT_LEN_GT_2
  | I2C_EVENT_TRANSFER_DONE_LEN_EQ_0
  | I2C_EVENT_TRANSFER_DONE_LEN_EQ_1
  | I2C_EVENT_TRANSFER_DONE_LEN_EQ_2
  | I2C_EVENT_TRANSFER_DONE_LEN_GT_2
  | I2C_EVENT_NACK
  | I2C_EVENT_STOPPED
  | I2C_EVENT_AUTO
  deriving DecidableEq, Repr

open i2c_adapter_state i2c_adapter_event

/-- Direction of a transaction (`enum pios_i2c_txn_direction`). -/
inductive pios_i2c_txn_direction
  | PIOS_I2C_TXN_READ
  | PIOS_I2C_TXN_WRITE
  deriving DecidableEq, Repr

open pios_i2c_txn_direction

/-- One transaction (`struct pios_i2c_txn`).  The C pair `buf`, `len` is the
list `buf`; `len` is its length. -/
structure pios_i2c_txn where
  addr : Nat
  rw : pios_i2c_txn_direction
  buf : List Nat
  deriving DecidableEq, Repr

/-- The field `len` of a transaction. -/
def pios_i2c_txn.len (t : pios_i2c_txn) : Nat := t.buf.length

instance : Inhabited pios_i2c_txn := ⟨⟨0, PIOS_I2C_TXN_READ, []⟩⟩

/-- The two bus lines. -/
inductive Pin
  | scl
  | sda
  deriving DecidableEq, Repr

/-- Pin configuration handed to `GPIO_Init`: open-drain output for the manual
clocking, or the alternate-function setting of the adapter configuration. -/
inductive PinMode
  | GPIO_Mode_Out_OD
  | cfg_init
  deriving DecidableEq, Repr

/-- Direction argument of `I2C_Send7bitAddress`. -/
inductive I2C_Direction
  | I2C_Direction_Transmitter
  | I2C_Direction_Receiver
  deriving DecidableEq, Repr

/-- One externally visible call, or one ghost record. -/
inductive Op
  | I2C_ITConfig (mask : Nat) (enable : Bool)
  | I2C_AcknowledgeConfig (enable : Bool)
  | I2C_GenerateSTART
  | I2C_GenerateSTOP
  | I2C_Send7bitAddress (address : Nat) (dir : I2C_Direction)
  | I2C_SendData (data : Nat)
  | I2C_ReceiveData
  | I2C_ClearFlag (flag : Nat)
  | I2C_DeInit
  | I2C_Init
  | I2C_SoftwareResetCmd (enable : Bool)
  | GPIO_SetBits (pin : Pin)
  | GPIO_ResetBits (pin : Pin)
  | GPIO_Init (pin : Pin) (mode : PinMode)
  | GPIO_ReadInputDataBit (pin : Pin)
  | PIOS_DELAY_WaituS (us : Nat)
  | PIOS_IRQ_Disable
  | PIOS_IRQ_Enable
  | PIOS_Semaphore_Give_FromISR
  | PIOS_Semaphore_Take (timeout : Bool)
  | PIOS_Mutex_Lock (acquired : Bool)
  | PIOS_Mutex_Unlock
  | state_write (s : i2c_adapter_state)
  | entry_fn (s : i2c_adapter_state)
  | byte_access (txn : Int) (active_byte : Int) (last_byte : Int)
  deriving DecidableEq, Repr

/-! ## Constants -/

def MAX_I2C_RETRY_COUNT : Nat := 10

def EVENT_MASK : Nat := 0x000700FF

def I2C_BUSY : Nat := 0x20

def I2C_CR1_STOP_REQUESTED : Nat := 0x0200

/-- Modelled from the spec: interrupt-enable bits of the peripheral library
header `stm32f10x_i2c.h`, which is not among the sources. -/
def I2C_IT_BUF : Nat := 0x0400

/-- Modelled from the spec: see `I2C_IT_BUF`. -/
def I2C_IT_EVT : Nat := 0x0200

/-- Modelled from the spec: see `I2C_IT_BUF`. -/
def I2C_IT_ERR : Nat := 0x0100

/-- Modelled from the spec: acknowledge-failure flag of `stm32f10x_i2c.h`. -/
def I2C_FLAG_AF : Nat := 0x10000400

/-- Modelled from the spec: status EV5 of `stm32f10x_i2c.h` (BUSY, MSL, SB). -/
def I2C_EVENT_MASTER_MODE_SELECT : Nat := 0x00030001

/-- Modelled from the spec: status EV6, transmitter, of `stm32f10x_i2c.h`. -/
def I2C_EVENT_MASTER_TRANSMITTER_MODE_SELECTED : Nat := 0x00070082

/-- Modelled from the spec: status EV6, receiver, of `stm32f10x_i2c.h`. -/
def I2C_EVENT_MASTER_RECEIVER_MODE_SELECTED : Nat := 0x00030002

/-- Modelled from the spec: status EV7 of `stm32f10x_i2c.h`. -/
def I2C_EVENT_MASTER_BYTE_RECEIVED : Nat := 0x00030040

/-- Modelled from the spec: status EV8 of `stm32f10x_i2c.h`. -/
def I2C_EVENT_MASTER_BYTE_TRANSMITTING : Nat := 0x00070080

/-- Modelled from the spec: status EV8_2 of `stm32f10x_i2c.h`. -/
def I2C_EVENT_MASTER_BYTE_TRANSMITTED : Nat := 0x00070084

/-! ## The adapter and its surroundings -/

/-- The adapter (`struct pios_i2c_adapter`) together with the memory its
cursors point into and the board it drives.

* `curr_state` .. `bus_error` are fields of the C structure; a byte cursor is
  the pair of the transaction whose buffer it points into (`byte_txn`, shared by
  both cursors, which are only ever assigned together) and an offset.
* `retry_count`, `retry_count_clk` are the function-static `uint8_t` counters of
  `i2c_adapter_reset_bus`.
* `txns` is the caller's transaction array with its buffers; distinct
  transactions have distinct buffers.
* `sem_ready` is the binary completion semaphore (true: given).
* `rx_data`, `sda_in`, `scl_in`, `sr2`, `cr1` are the values the next reads of
  the data register, the pins, status register 2 and control register 1 return;
  `n_rx`, `n_sda`, `n_scl`, `n_sr2`, `n_cr1` count the reads done.
* The handle is valid: the magic word is written once at allocation, so the
  `PIOS_Assert(valid)` of every entry point passes. -/
structure pios_i2c_adapter where
  curr_state : i2c_adapter_state
  active_txn : Int
  last_txn : Int
  byte_txn : Int
  active_byte : Int
  last_byte : Int
  bus_error : Bool
  retry_count : Nat
  retry_count_clk : Nat
  txns : List pios_i2c_txn
  sem_ready : Bool
  ops : List Op
  rx_data : Nat → Nat
  n_rx : Nat
  sda_in : Nat → Bool
  n_sda : Nat
  scl_in : Nat → Bool
  n_scl : Nat
  sr2 : Nat → Nat
  n_sr2 : Nat
  cr1 : Nat → Nat
  n_cr1 : Nat

/-- The element `txn_list[i]`; an index outside the array reads an empty
transaction. -/
def txn_at (l : List pios_i2c_txn) (i : Int) : pios_i2c_txn :=
  if 0 ≤ i then l.getD i.toNat default else default

/-- Append one call to the trace. -/
def emit (a : pios_i2c_adapter) (o : Op) : pios_i2c_adapter :=
  { a with ops := a.ops ++ [o] }

/-- Assignment to `curr_state`. -/
def set_state (a : pios_i2c_adapter) (s : i2c_adapter_state) : pios_i2c_adapter :=
  { a with curr_state := s, ops := a.ops ++ [Op.state_write s] }

/-- `I2C_ReceiveData`: the next value of the data register, as `uint8_t`. -/
def I2C_ReceiveData (a : pios_i2c_adapter) : Nat × pios_i2c_adapter :=
  (a.rx_data a.n_rx % 256,
   { a with n_rx := a.n_rx + 1, ops := a.ops ++ [Op.I2C_ReceiveData] })

/-- `GPIO_ReadInputDataBit`: true is `Bit_SET`, false is `Bit_RESET`. -/
def GPIO_ReadInputDataBit (a : pios_i2c_adapter) (pin : Pin) : Bool × pios_i2c_adapter :=
  match pin with
  | Pin.sda =>
    (a.sda_in a.n_sda,
     { a with n_sda := a.n_sda + 1, ops := a.ops ++ [Op.GPIO_ReadInputDataBit Pin.sda] })
  | Pin.scl =>
    (a.scl_in a.n_scl,
     { a with n_scl := a.n_scl + 1, ops := a.ops ++ [Op.GPIO_ReadInputDataBit Pin.scl] })

/-- A read of `regs->SR2`. -/
def read_SR2 (a : pios_i2c_adapter) : Nat × pios_i2c_adapter :=
  (a.sr2 a.n_sr2, { a with n_sr2 := a.n_sr2 + 1 })

/-- A read of `regs->CR1`. -/
def read_CR1 (a : pios_i2c_adapter) : Nat × pios_i2c_adapter :=
  (a.cr1 a.n_cr1, { a with n_cr1 := a.n_cr1 + 1 })

/-- The byte at offset `off` of a buffer; outside the buffer the model reads
zero. -/
def byte_at (buf : List Nat) (off : Int) : Nat :=
  if 0 ≤ off then buf.getD off.toNat 0 else 0

/-- The byte at offset `off` of the buffer of transaction `i`. -/
def load_byte (txns : List pios_i2c_txn) (i off : Int) : Nat :=
  byte_at (txn_at txns i).buf off

/-- The byte `*(active_byte)`; the ghost record shows where it was read. -/
def load_active_byte (a : pios_i2c_adapter) : Nat × pios_i2c_adapter :=
  (load_byte a.txns a.byte_txn a.active_byte,
   emit a (Op.byte_access a.byte_txn a.active_byte a.last_byte))

/-- The memory after a store of `v` at offset `off` of the buffer of transaction
`i`; a store outside the array or below the buffer leaves the modelled memory as
it is, and so does one beyond the end of the buffer. -/
def store_byte (txns : List pios_i2c_txn) (i off : Int) (v : Nat) : List pios_i2c_txn :=
  if 0 ≤ i ∧ 0 ≤ off then
    txns.set i.toNat { txn_at txns i with buf := (txn_at txns i).buf.set off.toNat v }
  else txns

/-- The store `*(active_byte) = v`; the ghost record shows where it went. -/
def store_active_byte (a : pios_i2c_adapter) (v : Nat) : pios_i2c_adapter :=
  { a with txns := store_byte a.txns a.byte_txn a.active_byte v,
           ops := a.ops ++ [Op.byte_access a.byte_txn a.active_byte a.last_byte] }

/-! ## Bus reset -/

/-- Assignment to the static counter `retry_count`. -/
def set_retry_count (a : pios_i2c_adapter) (n : Nat) : pios_i2c_adapter :=
  { a with retry_count := n }

/-- Assignment to the static counter `retry_count_clk`. -/
def set_retry_count_clk (a : pios_i2c_adapter) (n : Nat) : pios_i2c_adapter :=
  { a with retry_count_clk := n }

/-- The loop `while (GPIO_ReadInputDataBit(pin) == Bit_RESET &&
retry_count++ < MAX_I2C_RETRY_COUNT) PIOS_DELAY_WaituS(1);`.  The first argument
bounds the number of iterations unfolded; the post-increment is taken only when
the pin reads low, in `uint8_t`. -/
def wait_line_high (pin : Pin) : Nat → pios_i2c_adapter → pios_i2c_adapter
  | 0, a => a
  | fuel + 1, a =>
    let r := GPIO_ReadInputDataBit a pin
    if r.1 = false then
      let old := r.2.retry_count
      let a2 := set_retry_count r.2 ((old + 1) % 256)
      if old < MAX_I2C_RETRY_COUNT then
        wait_line_high pin fuel (emit a2 (Op.PIOS_DELAY_WaituS 1))
      else a2
    else r.2

/-- The body of the SDA recovery loop: one manual clock pulse on SCL. -/
def clock_pulse (a : pios_i2c_adapter) : pios_i2c_adapter :=
  let a := set_retry_count a 0
  let a := emit a (Op.GPIO_SetBits Pin.scl)
  let a := wait_line_high Pin.scl 256 a
  let a := emit a (Op.PIOS_DELAY_WaituS 2)
  let a := emit a (Op.GPIO_ResetBits Pin.scl)
  let a := emit a (Op.PIOS_DELAY_WaituS 2)
  let a := emit a (Op.GPIO_SetBits Pin.scl)
  emit a (Op.PIOS_DELAY_WaituS 2)

/-- The loop `while (GPIO_ReadInputDataBit(sda) == Bit_RESET &&
(retry_count_clk++ < MAX_I2C_RETRY_COUNT)) { ... }`. -/
def clock_out_sda : Nat → pios_i2c_adapter → pios_i2c_adapter
  | 0, a => a
  | fuel + 1, a =>
    let r := GPIO_ReadInputDataBit a Pin.sda
    if r.1 = false then
      let old := r.2.retry_count_clk
      let a2 := set_retry_count_clk r.2 ((old + 1) % 256)
      if old < MAX_I2C_RETRY_COUNT then clock_out_sda fuel (clock_pulse a2)
      else a2
    else r.2

def i2c_adapter_reset_bus (a : pios_i2c_adapter) : pios_i2c_adapter :=
  -- Reset the I2C block
  let a := emit a Op.I2C_DeInit
  -- Make sure the bus is free by clocking it until any slaves release the bus.
  let a := emit a (Op.GPIO_SetBits Pin.scl)
  let a := emit a (Op.GPIO_Init Pin.scl PinMode.GPIO_Mode_Out_OD)
  let a := emit a (Op.GPIO_SetBits Pin.sda)
  let a := emit a (Op.GPIO_Init Pin.sda PinMode.GPIO_Mode_Out_OD)
  let a := set_retry_count_clk a 0
  let a := clock_out_sda 256 a
  -- Generate a start then stop condition
  let a := emit a (Op.GPIO_SetBits Pin.scl)
  let a := emit a (Op.PIOS_DELAY_WaituS 2)
  let a := emit a (Op.GPIO_ResetBits Pin.sda)
  let a := emit a (Op.PIOS_DELAY_WaituS 2)
  let a := emit a (Op.GPIO_SetBits Pin.sda)
  let a := emit a (Op.PIOS_DELAY_WaituS 2)
  -- Set data and clock high and wait for any clock stretching to finish.
  let a := emit a (Op.GPIO_SetBits Pin.sda)
  let a := emit a (Op.GPIO_SetBits Pin.scl)
  let a := set_retry_count a 0
  let a := wait_line_high Pin.scl 256 a
  -- Wait for data to be high
  let a := set_retry_count a 0
  let a := wait_line_high Pin.sda 256 a
  -- Initialize the GPIO pins to the peripheral function
  let a := emit a (Op.GPIO_Init Pin.scl PinMode.cfg_init)
  let a := emit a (Op.GPIO_Init Pin.sda PinMode.cfg_init)
  -- Reset the I2C block
  let a := emit a Op.I2C_DeInit
  -- Initialize the I2C block
  let a := emit a Op.I2C_Init
  let r := read_SR2 a
  if r.1 &&& I2C_BUSY ≠ 0 then
    -- Reset the I2C block
    let a := emit r.2 (Op.I2C_SoftwareResetCmd true)
    emit a (Op.I2C_SoftwareResetCmd false)
  else r.2

/-! ## Entry actions -/

/-- The mask `I2C_IT_EVT | I2C_IT_BUF | I2C_IT_ERR`. -/
def IT_ALL : Nat := I2C_IT_EVT ||| I2C_IT_BUF ||| I2C_IT_ERR

def go_fsm_fault (a : pios_i2c_adapter) : pios_i2c_adapter :=
  -- Note that this transfer has hit a bus error
  let a := { a with bus_error := true }
  i2c_adapter_reset_bus a

def go_bus_error (a : pios_i2c_adapter) : pios_i2c_adapter :=
  -- Note that this transfer has hit a bus error
  let a := { a with bus_error := true }
  i2c_adapter_reset_bus a

def go_stopping (a : pios_i2c_adapter) : pios_i2c_adapter :=
  let a := emit a (Op.I2C_ITConfig IT_ALL false)
  -- wake up blocked PIOS_I2C_Transfer()
  let a := emit a Op.PIOS_Semaphore_Give_FromISR
  { a with sem_ready := true }

def go_stopped (a : pios_i2c_adapter) : pios_i2c_adapter :=
  let a := emit a (Op.I2C_ITConfig IT_ALL false)
  emit a (Op.I2C_AcknowledgeConfig true)

/-- The entry action of STARTING.  `last_byte = &buf[len - 1]`: for `len = 0` the
unsigned index wraps and the 32-bit address is one below `&buf[0]`. -/
def go_starting (a : pios_i2c_adapter) : pios_i2c_adapter :=
  let t := txn_at a.txns a.active_txn
  let a := { a with byte_txn := a.active_txn, active_byte := 0,
                    last_byte := (t.len : Int) - 1 }
  let a := emit a Op.I2C_GenerateSTART
  if t.rw = PIOS_I2C_TXN_READ then
    emit a (Op.I2C_ITConfig IT_ALL true)
  else
    -- For write operations, do not enable the IT_BUF events.
    emit a (Op.I2C_ITConfig (I2C_IT_EVT ||| I2C_IT_ERR) true)

/-- The address argument is `uint8_t`: the shifted address is truncated to eight
bits at the call. -/
def go_r_any_txn_addr (a : pios_i2c_adapter) : pios_i2c_adapter :=
  emit a (Op.I2C_Send7bitAddress (((txn_at a.txns a.active_txn).addr <<< 1) % 256)
    I2C_Direction.I2C_Direction_Receiver)

def go_r_more_txn_pre_one (a : pios_i2c_adapter) : pios_i2c_adapter :=
  let a := emit a (Op.I2C_AcknowledgeConfig false)
  emit a Op.I2C_GenerateSTART

def go_r_last_txn_pre_one (a : pios_i2c_adapter) : pios_i2c_adapter :=
  let a := emit a (Op.I2C_AcknowledgeConfig false)
  emit a Op.I2C_GenerateSTOP

def go_r_any_txn_pre_first (a : pios_i2c_adapter) : pios_i2c_adapter :=
  emit a (Op.I2C_AcknowledgeConfig true)

def go_r_any_txn_pre_middle (a : pios_i2c_adapter) : pios_i2c_adapter :=
  let r := I2C_ReceiveData a
  let a := store_active_byte r.2 r.1
  -- Move to the next byte
  { a with active_byte := a.active_byte + 1 }

def go_r_more_txn_pre_last (a : pios_i2c_adapter) : pios_i2c_adapter :=
  let a := emit a (Op.I2C_AcknowledgeConfig false)
  let a := emit a Op.PIOS_IRQ_Disable
  let a := emit a (Op.I2C_ITConfig IT_ALL false)
  let a := emit a Op.I2C_GenerateSTART
  let r := I2C_ReceiveData a
  let a := store_active_byte r.2 r.1
  let a := emit a (Op.I2C_ITConfig IT_ALL true)
  let a := emit a Op.PIOS_IRQ_Enable
  -- Move to the next byte
  { a with active_byte := a.active_byte + 1 }

def go_r_last_txn_pre_last (a : pios_i2c_adapter) : pios_i2c_adapter :=
  let a := emit a (Op.I2C_AcknowledgeConfig false)
  let a := emit a Op.PIOS_IRQ_Disable
  let a := emit a (Op.I2C_ITConfig IT_ALL false)
  let a := emit a Op.I2C_GenerateSTOP
  let r := I2C_ReceiveData a
  let a := store_active_byte r.2 r.1
  let a := emit a (Op.I2C_ITConfig IT_ALL true)
  let a := emit a Op.PIOS_IRQ_Enable
  -- Move to the next byte
  { a with active_byte := a.active_byte + 1 }

def go_r_any_txn_post_last (a : pios_i2c_adapter) : pios_i2c_adapter :=
  let r := I2C_ReceiveData a
  let a := store_active_byte r.2 r.1
  -- Move to the next byte
  let a := { a with active_byte := a.active_byte + 1 }
  -- Move to the next transaction
  { a with active_txn := a.active_txn + 1 }

def go_w_any_txn_addr (a : pios_i2c_adapter) : pios_i2c_adapter :=
  emit a (Op.I2C_Send7bitAddress (((txn_at a.txns a.active_txn).addr <<< 1) % 256)
    I2C_Direction.I2C_Direction_Transmitter)

def go_w_any_txn_middle (a : pios_i2c_adapter) : pios_i2c_adapter :=
  let r := load_active_byte a
  let a := emit r.2 (Op.I2C_SendData r.1)
  -- Move to the next byte
  { a with active_byte := a.active_byte + 1 }

def go_w_more_txn_last (a : pios_i2c_adapter) : pios_i2c_adapter :=
  let r := load_active_byte a
  let a := emit r.2 (Op.I2C_SendData r.1)
  -- Move to the next byte
  let a := { a with active_byte := a.active_byte + 1 }
  -- Move to the next transaction
  { a with active_txn := a.active_txn + 1 }

def go_w_last_txn_last (a : pios_i2c_adapter) : pios_i2c_adapter :=
  let a := emit a (Op.I2C_ITConfig I2C_IT_BUF false)
  let r := load_active_byte a
  let a := emit r.2 (Op.I2C_SendData r.1)
  let a := emit a Op.I2C_GenerateSTOP
  -- Move to the next byte
  { a with active_byte := a.active_byte + 1 }

def go_nack (a : pios_i2c_adapter) : pios_i2c_adapter :=
  let a := emit a (Op.I2C_ITConfig IT_ALL false)
  let a := emit a (Op.I2C_AcknowledgeConfig false)
  emit a Op.I2C_GenerateSTOP

/-! ## The transition table -/

/-- One row of the table (`struct i2c_adapter_transition`): the entry action,
a function pointer that may be null, and the successor for each event. -/
structure i2c_adapter_transition where
  entry_fn : Option (pios_i2c_adapter → pios_i2c_adapter)
  next_state : i2c_adapter_event → i2c_adapter_state

/-- The table `i2c_adapter_transitions`.  Each row lists the designated
initialisers of the source; every other slot of `next_state` is zero, the value
of `I2C_STATE_FSM_FAULT`. -/
def i2c_adapter_transitions : i2c_adapter_state → i2c_adapter_transition
  | I2C_STATE_FSM_FAULT =>
    { entry_fn := some go_fsm_fault,
      next_state := fun e => match e with
        | I2C_EVENT_AUTO => I2C_STATE_STOPPING
        | _ => I2C_STATE_FSM_FAULT }
  | I2C_STATE_BUS_ERROR =>
    { entry_fn := some go_bus_error,
      next_state := fun e => match e with
        | I2C_EVENT_AUTO => I2C_STATE_STOPPING
        | _ => I2C_STATE_FSM_FAULT }
  | I2C_STATE_STOPPED =>
    { entry_fn := some go_stopped,
      next_state := fun e => match e with
        | I2C_EVENT_START => I2C_STATE_STARTING
        | I2C_EVENT_BUS_ERROR => I2C_STATE_BUS_ERROR
        | _ => I2C_STATE_FSM_FAULT }
  | I2C_STATE_STOPPING =>
    { entry_fn := some go_stopping,
      next_state := fun e => match e with
        | I2C_EVENT_STOPPED => I2C_STATE_STOPPED
        | I2C_EVENT_BUS_ERROR => I2C_STATE_BUS_ERROR
        | _ => I2C_STATE_FSM_FAULT }
  | I2C_STATE_STARTING =>
    { entry_fn := some go_starting,
      next_state := fun e => match e with
        | I2C_EVENT_STARTED_MORE_TXN_READ => I2C_STATE_R_MORE_TXN_ADDR
        | I2C_EVENT_STARTED_MORE_TXN_WRITE => I2C_STATE_W_MORE_TXN_ADDR
        | I2C_EVENT_STARTED_LAST_TXN_READ => I2C_STATE_R_LAST_TXN_ADDR
        | I2C_EVENT_STARTED_LAST_TXN_WRITE => I2C_STATE_W_LAST_TXN_ADDR
        | I2C_EVENT_NACK => I2C_STATE_NACK
        | I2C_EVENT_BUS_ERROR => I2C_STATE_BUS_ERROR
        | _ => I2C_STATE_FSM_FAULT }
  | I2C_STATE_R_MORE_TXN_ADDR =>
    { entry_fn := some go_r_any_txn_addr,
      next_state := fun e => match e with
        | I2C_EVENT_ADDR_SENT_LEN_EQ_1 => I2C_STATE_R_MORE_TXN_PRE_ONE
        | I2C_EVENT_ADDR_SENT_LEN_EQ_2 => I2C_STATE_R_MORE_TXN_PRE_FIRST
        | I2C_EVENT_ADDR_SENT_LEN_GT_2 => I2C_STATE_R_MORE_TXN_PRE_FIRST
        | I2C_EVENT_BUS_ERROR => I2C_STATE_BUS_ERROR
        | _ => I2C_STATE_FSM_FAULT }
  | I2C_STATE_R_MORE_TXN_PRE_ONE =>
    { entry_fn := some go_r_more_txn_pre_one,
      next_state := fun e => match e with
        | I2C_EVENT_TRANSFER_DONE_LEN_EQ_1 => I2C_STATE_R_MORE_TXN_POST_LAST
        | I2C_EVENT_BUS_ERROR => I2C_STATE_BUS_ERROR
        | _ => I2C_STATE_FSM_FAULT }
  | I2C_STATE_R_MORE_TXN_PRE_FIRST =>
    { entry_fn := some go_r_any_txn_pre_first,
      next_state := fun e => match e with
        | I2C_EVENT_TRANSFER_DONE_LEN_EQ_2 => I2C_STATE_R_MORE_TXN_PRE_LAST
        | I2C_EVENT_TRANSFER_DONE_LEN_GT_2 => I2C_STATE_R_MORE_TXN_PRE_MIDDLE
        | I2C_EVENT_BUS_ERROR => I2C_STATE_BUS_ERROR
        | _ => I2C_STATE_FSM_FAULT }
  | I2C_STATE_R_MORE_TXN_PRE_MIDDLE =>
    { entry_fn := some go_r_any_txn_pre_middle,
      next_state := fun e => match e with
        | I2C_EVENT_TRANSFER_DONE_LEN_EQ_2 => I2C_STATE_R_MORE_TXN_PRE_LAST
        | I2C_EVENT_TRANSFER_DONE_LEN_GT_2 => I2C_STATE_R_MORE_TXN_PRE_MIDDLE
        | I2C_EVENT_BUS_ERROR => I2C_STATE_BUS_ERROR
        | _ => I2C_STATE_FSM_FAULT }
  | I2C_STATE_R_MORE_TXN_PRE_LAST =>
    { entry_fn := some go_r_more_txn_pre_last,
      next_state := fun e => match e with
        | I2C_EVENT_TRANSFER_DONE_LEN_EQ_1 => I2C_STATE_R_MORE_TXN_POST_LAST
        | I2C_EVENT_BUS_ERROR => I2C_STATE_BUS_ERROR
        | _ => I2C_STATE_FSM_FAULT }
  | I2C_STATE_R_MORE_TXN_POST_LAST =>
    { entry_fn := some go_r_any_txn_post_last,
      next_state := fun e => match e with
        | I2C_EVENT_AUTO => I2C_STATE_STARTING
        | _ => I2C_STATE_FSM_FAULT }
  | I2C_STATE_R_LAST_TXN_ADDR =>
    { entry_fn := some go_r_any_txn_addr,
      next_state := fun e => match e with
        | I2C_EVENT_ADDR_SENT_LEN_EQ_1 => I2C_STATE_R_LAST_TXN_PRE_ONE
        | I2C_EVENT_ADDR_SENT_LEN_EQ_2 => I2C_STATE_R_LAST_TXN_PRE_FIRST
        | I2C_EVENT_ADDR_SENT_LEN_GT_2 => I2C_STATE_R_LAST_TXN_PRE_FIRST
        | I2C_EVENT_BUS_ERROR => I2C_STATE_BUS_ERROR
        | _ => I2C_STATE_FSM_FAULT }
  | I2C_STATE_R_LAST_TXN_PRE_ONE =>
    { entry_fn := some go_r_last_txn_pre_one,
      next_state := fun e => match e with
        | I2C_EVENT_TRANSFER_DONE_LEN_EQ_1 => I2C_STATE_R_LAST_TXN_POST_LAST
        | I2C_EVENT_BUS_ERROR => I2C_STATE_BUS_ERROR
        | _ => I2C_STATE_FSM_FAULT }
  | I2C_STATE_R_LAST_TXN_PRE_FIRST =>
    { entry_fn := some go_r_any_txn_pre_first,
      next_state := fun e => match e with
        | I2C_EVENT_TRANSFER_DONE_LEN_EQ_2 => I2C_STATE_R_LAST_TXN_PRE_LAST
        | I2C_EVENT_TRANSFER_DONE_LEN_GT_2 => I2C_STATE_R_LAST_TXN_PRE_MIDDLE
        | I2C_EVENT_BUS_ERROR => I2C_STATE_BUS_ERROR
        | _ => I2C_STATE_FSM_FAULT }
  | I2C_STATE_R_LAST_TXN_PRE_MIDDLE =>
    { entry_fn := some go_r_any_txn_pre_middle,
      next_state := fun e => match e with
        | I2C_EVENT_TRANSFER_DONE_LEN_EQ_2 => I2C_STATE_R_LAST_TXN_PRE_LAST
        | I2C_EVENT_TRANSFER_DONE_LEN_GT_2 => I2C_STATE_R_LAST_TXN_PRE_MIDDLE
        | I2C_EVENT_BUS_ERROR => I2C_STATE_BUS_ERROR
        | _ => I2C_STATE_FSM_FAULT }
  | I2C_STATE_R_LAST_TXN_PRE_LAST =>
    { entry_fn := some go_r_last_txn_pre_last,
      next_state := fun e => match e with
        | I2C_EVENT_TRANSFER_DONE_LEN_EQ_1 => I2C_STATE_R_LAST_TXN_POST_LAST
        | I2C_EVENT_BUS_ERROR => I2C_STATE_BUS_ERROR
        | _ => I2C_STATE_FSM_FAULT }
  | I2C_STATE_R_LAST_TXN_POST_LAST =>
    { entry_fn := some go_r_any_txn_post_last,
      next_state := fun e => match e with
        | I2C_EVENT_AUTO => I2C_STATE_STOPPING
        | _ => I2C_STATE_FSM_FAULT }
  | I2C_STATE_W_MORE_TXN_ADDR =>
    { entry_fn := some go_w_any_txn_addr,
      next_state := fun e => match e with
        | I2C_EVENT_ADDR_SENT_LEN_EQ_1 => I2C_STATE_W_MORE_TXN_LAST
        | I2C_EVENT_ADDR_SENT_LEN_EQ_2 => I2C_STATE_W_MORE_TXN_MIDDLE
        | I2C_EVENT_ADDR_SENT_LEN_GT_2 => I2C_STATE_W_MORE_TXN_MIDDLE
        | I2C_EVENT_NACK => I2C_STATE_NACK
        | I2C_EVENT_BUS_ERROR => I2C_STATE_BUS_ERROR
        | _ => I2C_STATE_FSM_FAULT }
  | I2C_STATE_W_MORE_TXN_MIDDLE =>
    { entry_fn := some go_w_any_txn_middle,
      next_state := fun e => match e with
        | I2C_EVENT_TRANSFER_DONE_LEN_EQ_1 => I2C_STATE_W_MORE_TXN_LAST
        | I2C_EVENT_TRANSFER_DONE_LEN_EQ_2 => I2C_STATE_W_MORE_TXN_MIDDLE
        | I2C_EVENT_TRANSFER_DONE_LEN_GT_2 => I2C_STATE_W_MORE_TXN_MIDDLE
        | I2C_EVENT_NACK => I2C_STATE_NACK
        | I2C_EVENT_BUS_ERROR => I2C_STATE_BUS_ERROR
        | _ => I2C_STATE_FSM_FAULT }
  | I2C_STATE_W_MORE_TXN_LAST =>
    { entry_fn := some go_w_more_txn_last,
      next_state := fun e => match e with
        | I2C_EVENT_TRANSFER_DONE_LEN_EQ_0 => I2C_STATE_STARTING
        | I2C_EVENT_NACK => I2C_STATE_NACK
        | I2C_EVENT_BUS_ERROR => I2C_STATE_BUS_ERROR
        | _ => I2C_STATE_FSM_FAULT }
  | I2C_STATE_W_LAST_TXN_ADDR =>
    { entry_fn := some go_w_any_txn_addr,
      next_state := fun e => match e with
        | I2C_EVENT_ADDR_SENT_LEN_EQ_1 => I2C_STATE_W_LAST_TXN_LAST
        | I2C_EVENT_ADDR_SENT_LEN_EQ_2 => I2C_STATE_W_LAST_TXN_MIDDLE
        | I2C_EVENT_ADDR_SENT_LEN_GT_2 => I2C_STATE_W_LAST_TXN_MIDDLE
        | I2C_EVENT_NACK => I2C_STATE_NACK
        | I2C_EVENT_BUS_ERROR => I2C_STATE_BUS_ERROR
        | _ => I2C_STATE_FSM_FAULT }
  | I2C_STATE_W_LAST_TXN_MIDDLE =>
    { entry_fn := some go_w_any_txn_middle,
      next_state := fun e => match e with
        | I2C_EVENT_TRANSFER_DONE_LEN_EQ_1 => I2C_STATE_W_LAST_TXN_LAST
        | I2C_EVENT_TRANSFER_DONE_LEN_EQ_2 => I2C_STATE_W_LAST_TXN_MIDDLE
        | I2C_EVENT_TRANSFER_DONE_LEN_GT_2 => I2C_STATE_W_LAST_TXN_MIDDLE
        | I2C_EVENT_NACK => I2C_STATE_NACK
        | I2C_EVENT_BUS_ERROR => I2C_STATE_BUS_ERROR
        | _ => I2C_STATE_FSM_FAULT }
  | I2C_STATE_W_LAST_TXN_LAST =>
    { entry_fn := some go_w_last_txn_last,
      next_state := fun e => match e with
        | I2C_EVENT_TRANSFER_DONE_LEN_EQ_0 => I2C_STATE_STOPPING
        | I2C_EVENT_NACK => I2C_STATE_NACK
        | I2C_EVENT_BUS_ERROR => I2C_STATE_BUS_ERROR
        | _ => I2C_STATE_FSM_FAULT }
  | I2C_STATE_NACK =>
    { entry_fn := some go_nack,
      next_state := fun e => match e with
        | I2C_EVENT_AUTO => I2C_STATE_STOPPING
        | _ => I2C_STATE_FSM_FAULT }

/-! ## The event engine -/

/-- The call `if (entry_fn) entry_fn(i2c_adapter)` for the current state. -/
def call_entry_fn (a : pios_i2c_adapter) : pios_i2c_adapter :=
  match (i2c_adapter_transitions a.curr_state).entry_fn with
  | some f => f (emit a (Op.entry_fn a.curr_state))
  | none => a

/-- The loop of `i2c_adapter_process_auto`: while the AUTO slot of the current
row is non-zero (not `I2C_STATE_FSM_FAULT`), move there and run its entry
action.  The first argument bounds the number of iterations unfolded. -/
def process_auto_loop : Nat → pios_i2c_adapter → pios_i2c_adapter
  | 0, a => a
  | fuel + 1, a =>
    if (i2c_adapter_transitions a.curr_state).next_state I2C_EVENT_AUTO
        ≠ I2C_STATE_FSM_FAULT then
      let a := set_state a ((i2c_adapter_transitions a.curr_state).next_state I2C_EVENT_AUTO)
      -- Call the entry function (if any) for the next state.
      process_auto_loop fuel (call_entry_fn a)
    else a

/-- Number of rows of the table (`I2C_STATE_NUM_STATES`). -/
def I2C_STATE_NUM_STATES : Nat := 24

def i2c_adapter_process_auto (a : pios_i2c_adapter) : pios_i2c_adapter :=
  let a := emit a Op.PIOS_IRQ_Disable
  let a := process_auto_loop I2C_STATE_NUM_STATES a
  emit a Op.PIOS_IRQ_Enable

def i2c_adapter_inject_event (a : pios_i2c_adapter) (event : i2c_adapter_event) :
    pios_i2c_adapter :=
  let a := emit a Op.PIOS_IRQ_Disable
  -- Move to the next state
  let a := set_state a ((i2c_adapter_transitions a.curr_state).next_state event)
  -- Call the entry function (if any) for the next state.
  let a := call_entry_fn a
  -- Process any AUTO transitions in the FSM
  let a := i2c_adapter_process_auto a
  emit a Op.PIOS_IRQ_Enable

def i2c_adapter_fsm_init (a : pios_i2c_adapter) : pios_i2c_adapter :=
  let a := i2c_adapter_reset_bus a
  set_state a I2C_STATE_STOPPED

/-- The loop `for (guard = 1e6; guard && (CR1 & I2C_CR1_STOP_REQUESTED); guard--)`:
the first argument is `guard`; the result is the value of `guard` at the exit. -/
def wait_for_stopped_loop : Nat → pios_i2c_adapter → Nat × pios_i2c_adapter
  | 0, a => (0, a)
  | guard + 1, a =>
    let r := read_CR1 a
    if r.1 &&& I2C_CR1_STOP_REQUESTED ≠ 0 then wait_for_stopped_loop guard r.2
    else (guard + 1, r.2)

def i2c_adapter_wait_for_stopped (a : pios_i2c_adapter) : Bool × pios_i2c_adapter :=
  let r := wait_for_stopped_loop 1000000 a
  if r.1 = 0 then
    -- We timed out waiting for the stop condition
    (false, r.2)
  else (true, r.2)

/-- Return true if the FSM is in a terminal state. -/
def i2c_adapter_fsm_terminated (a : pios_i2c_adapter) : Bool :=
  match a.curr_state with
  | I2C_STATE_STOPPING => true
  | I2C_STATE_STOPPED => true
  | _ => false

/-! ## Interrupt handlers -/

/-- The case EV5 of the event handler: the started event is chosen by the
direction of the active transaction and by its position in the list; when
`active_txn` is beyond `last_txn` nothing is injected. -/
def ev_master_mode_select (a : pios_i2c_adapter) : pios_i2c_adapter :=
  match (txn_at a.txns a.active_txn).rw with
  | PIOS_I2C_TXN_READ =>
    if a.active_txn = a.last_txn then
      -- Final transaction
      i2c_adapter_inject_event a I2C_EVENT_STARTED_LAST_TXN_READ
    else if a.active_txn < a.last_txn then
      -- More transactions follow
      i2c_adapter_inject_event a I2C_EVENT_STARTED_MORE_TXN_READ
    else a
  | PIOS_I2C_TXN_WRITE =>
    if a.active_txn = a.last_txn then
      -- Final transaction
      i2c_adapter_inject_event a I2C_EVENT_STARTED_LAST_TXN_WRITE
    else if a.active_txn < a.last_txn then
      -- More transactions follow
      i2c_adapter_inject_event a I2C_EVENT_STARTED_MORE_TXN_WRITE
    else a

/-- The case EV6: `switch (last_byte - active_byte + 1)`. -/
def ev_addr_sent (a : pios_i2c_adapter) : pios_i2c_adapter :=
  if a.last_byte - a.active_byte + 1 = 0 then
    i2c_adapter_inject_event a I2C_EVENT_ADDR_SENT_LEN_EQ_0
  else if a.last_byte - a.active_byte + 1 = 1 then
    i2c_adapter_inject_event a I2C_EVENT_ADDR_SENT_LEN_EQ_1
  else if a.last_byte - a.active_byte + 1 = 2 then
    i2c_adapter_inject_event a I2C_EVENT_ADDR_SENT_LEN_EQ_2
  else
    i2c_adapter_inject_event a I2C_EVENT_ADDR_SENT_LEN_GT_2

/-- The cases EV7, EV8_2 and their variants: `switch (last_byte - active_byte + 1)`. -/
def ev_transfer_done (a : pios_i2c_adapter) : pios_i2c_adapter :=
  if a.last_byte - a.active_byte + 1 = 0 then
    i2c_adapter_inject_event a I2C_EVENT_TRANSFER_DONE_LEN_EQ_0
  else if a.last_byte - a.active_byte + 1 = 1 then
    i2c_adapter_inject_event a I2C_EVENT_TRANSFER_DONE_LEN_EQ_1
  else if a.last_byte - a.active_byte + 1 = 2 then
    i2c_adapter_inject_event a I2C_EVENT_TRANSFER_DONE_LEN_EQ_2
  else
    i2c_adapter_inject_event a I2C_EVENT_TRANSFER_DONE_LEN_GT_2

/-- The event interrupt handler; `raw` is the value of `I2C_GetLastEvent`.  The
case labels of the `switch` are pairwise distinct, so the chain of tests takes
the branch the `switch` takes. -/
def PIOS_I2C_EV_IRQ_Handler (a : pios_i2c_adapter) (raw : Nat) : pios_i2c_adapter :=
  let event := raw &&& EVENT_MASK
  if event = (I2C_EVENT_MASTER_MODE_SELECT ||| 0x40) then
    -- Unexplained event: EV5 + RxNE : Extraneous Rx.
    let a := (I2C_ReceiveData a).2
    -- Fall through
    ev_master_mode_select a
  else if event = I2C_EVENT_MASTER_MODE_SELECT then
    ev_master_mode_select a
  else if event = I2C_EVENT_MASTER_TRANSMITTER_MODE_SELECTED
      ∨ event = I2C_EVENT_MASTER_RECEIVER_MODE_SELECTED then
    ev_addr_sent a
  else if event = 0x80 then
    -- TxE only. Ignore
    a
  else if event = 0 ∨ event = 0x40 ∨ event = 0x44
      ∨ event = I2C_EVENT_MASTER_BYTE_RECEIVED
      ∨ event = (I2C_EVENT_MASTER_BYTE_RECEIVED ||| 0x4)
      ∨ event = I2C_EVENT_MASTER_BYTE_TRANSMITTED
      ∨ event = 0x84 then
    ev_transfer_done a
  else if event = I2C_EVENT_MASTER_BYTE_TRANSMITTING then
    -- Ignore this event and wait for TRANSMITTED in case we can't keep up
    a
  else if event = 0x30084 ∨ event = 0x30000 ∨ event = (0x30403 &&& EVENT_MASK) then
    a
  else
    i2c_adapter_inject_event a I2C_EVENT_BUS_ERROR

/-- The error interrupt handler; `raw` is the value of `I2C_GetLastEvent`. -/
def PIOS_I2C_ER_IRQ_Handler (a : pios_i2c_adapter) (raw : Nat) : pios_i2c_adapter :=
  if raw &&& I2C_FLAG_AF ≠ 0 then
    let a := emit a (Op.I2C_ClearFlag I2C_FLAG_AF)
    i2c_adapter_inject_event a I2C_EVENT_NACK
  else
    -- Fail hard on any errors for now
    i2c_adapter_inject_event a I2C_EVENT_BUS_ERROR

/-! ## Transfer -/

/-- One interrupt served: the vector and the latched status it reads. -/
inductive Irq
  | ev (raw : Nat)
  | er (raw : Nat)
  deriving DecidableEq, Repr

/-- Run the handler of one interrupt. -/
def serve (a : pios_i2c_adapter) : Irq → pios_i2c_adapter
  | Irq.ev raw => PIOS_I2C_EV_IRQ_Handler a raw
  | Irq.er raw => PIOS_I2C_ER_IRQ_Handler a raw

/-- Run the handlers of a sequence of interrupts, in order. -/
def serve_all (a : pios_i2c_adapter) (irqs : List Irq) : pios_i2c_adapter :=
  irqs.foldl serve a

/-- What happens around one call of `PIOS_I2C_Transfer`.

* `lock_ok`: the mutex was acquired within `transfer_timeout_ms`.
* `irqs_wait`: the interrupts served while the caller is blocked in
  `PIOS_Semaphore_Take`, up to the moment the call returns.
* `irqs_spin`: the interrupts that arrive afterwards, while the caller spins on
  `i2c_adapter_fsm_terminated`.

Interrupts are served only in these two windows; once the FSM has terminated
the peripheral interrupts are disabled. -/
structure TransferEnv where
  lock_ok : Bool
  irqs_wait : List Irq
  irqs_spin : List Irq

/-- The loop `while (!i2c_adapter_fsm_terminated(i2c_adapter)) ;`.  The caller
leaves it once the state is terminal; otherwise the next interrupt is served;
with no interrupt left and a non-terminal state the loop never exits (`none`). -/
def spin_until_terminated : List Irq → pios_i2c_adapter → Option pios_i2c_adapter
  | [], a => if i2c_adapter_fsm_terminated a then some a else none
  | i :: rest, a =>
    if i2c_adapter_fsm_terminated a then some a
    else spin_until_terminated rest (serve a i)

/-- The entry of `PIOS_I2C_Transfer` once the mutex is held: install the list,
drain the semaphore, clear `bus_error`. -/
def transfer_install (a : pios_i2c_adapter) (txn_list : List pios_i2c_txn) :
    pios_i2c_adapter :=
  let a := { a with txns := txn_list, last_txn := (txn_list.length : Int) - 1,
                    active_txn := 0 }
  -- Make sure the done/ready semaphore is consumed before we start
  let a := emit { a with sem_ready := false } (Op.PIOS_Semaphore_Take false)
  { a with bus_error := false }

/-- The part of `PIOS_I2C_Transfer` between the acquisition of the mutex and
the wait on the semaphore: the entry, then the injection of START. -/
def transfer_start (a : pios_i2c_adapter) (txn_list : List pios_i2c_txn) :
    pios_i2c_adapter :=
  i2c_adapter_inject_event (transfer_install a txn_list) I2C_EVENT_START

/-- The adapter at the moment the wait on the completion semaphore ends; the
wait succeeded exactly when the semaphore has been given by then. -/
def transfer_waited (a : pios_i2c_adapter) (txn_list : List pios_i2c_txn)
    (env : TransferEnv) : pios_i2c_adapter :=
  serve_all (transfer_start (emit a (Op.PIOS_Mutex_Lock true)) txn_list) env.irqs_wait

/-- The exit path of `PIOS_I2C_Transfer` once the spin-wait is over: wait for
the STOP bit, inject STOPPED or re-initialise the FSM, compute the result,
release the mutex. -/
def transfer_finish (semaphore_success : Bool) (a : pios_i2c_adapter) :
    Int × pios_i2c_adapter :=
  let r := i2c_adapter_wait_for_stopped a
  let a := if r.1 then i2c_adapter_inject_event r.2 I2C_EVENT_STOPPED
           else i2c_adapter_fsm_init r.2
  let result : Int := if !semaphore_success then -2
                      else if a.bus_error then -1
                      else 0
  (result, emit a Op.PIOS_Mutex_Unlock)

/-- The function `PIOS_I2C_Transfer(i2c_id, txn_list, num_txns)`, with
`num_txns` the length of `txn_list`.  The result is `none` when the call never
returns. -/
def PIOS_I2C_Transfer (a : pios_i2c_adapter) (txn_list : List pios_i2c_txn)
    (env : TransferEnv) : Option (Int × pios_i2c_adapter) :=
  if env.lock_ok = false then some (-2, emit a (Op.PIOS_Mutex_Lock false))
  else
    -- Wait for the transfer to complete
    let a := transfer_waited a txn_list env
    let semaphore_success := a.sem_ready
    let a := emit { a with sem_ready := false } (Op.PIOS_Semaphore_Take true)
    -- Spin waiting for the transfer to finish
    match spin_until_terminated env.irqs_spin a with
    | none => none
    | some a => some (transfer_finish semaphore_success a)

/-! ## Well-behaved bus traffic -/

/-- An adapter at rest after initialisation on a quiet bus: state STOPPED, both
lines read high, the STOP and BUSY bits read clear, and the data register
returns `0x10, 0x11, ...`. -/
def idle_adapter : pios_i2c_adapter :=
  { curr_state := I2C_STATE_STOPPED, active_txn := 0, last_txn := 0, byte_txn := 0,
    active_byte := 0, last_byte := 0, bus_error := false, retry_count := 0,
    retry_count_clk := 0, txns := [], sem_ready := false, ops := [],
    rx_data := fun n => n + 0x10, n_rx := 0, sda_in := fun _ => true, n_sda := 0,
    scl_in := fun _ => true, n_scl := 0, sr2 := fun _ => 0, n_sr2 := 0,
    cr1 := fun _ => 0, n_cr1 := 0 }

/-- The statuses a well-behaved slave produces for one transaction: EV5, the EV6
of its direction, then one byte-received or byte-transmitted status per byte. -/
def txn_statuses (t : pios_i2c_txn) : List Irq :=
  match t.rw with
  | PIOS_I2C_TXN_READ =>
    Irq.ev I2C_EVENT_MASTER_MODE_SELECT :: Irq.ev I2C_EVENT_MASTER_RECEIVER_MODE_SELECTED
      :: List.replicate t.len (Irq.ev I2C_EVENT_MASTER_BYTE_RECEIVED)
  | PIOS_I2C_TXN_WRITE =>
    Irq.ev I2C_EVENT_MASTER_MODE_SELECT :: Irq.ev I2C_EVENT_MASTER_TRANSMITTER_MODE_SELECTED
      :: List.replicate t.len (Irq.ev I2C_EVENT_MASTER_BYTE_TRANSMITTED)

/-- The well-behaved status sequence of a transaction list. -/
def list_statuses : List pios_i2c_txn → List Irq
  | [] => []
  | t :: rest => txn_statuses t ++ list_statuses rest

/-! ## Views of the state used in the proofs -/

/-- The calls a bus reset makes: peripheral reset and initialisation, GPIO
writes and reads, delays. -/
def is_reset_op : Op → Bool
  | Op.I2C_DeInit => true
  | Op.I2C_Init => true
  | Op.I2C_SoftwareResetCmd _ => true
  | Op.GPIO_SetBits _ => true
  | Op.GPIO_ResetBits _ => true
  | Op.GPIO_Init _ _ => true
  | Op.GPIO_ReadInputDataBit _ => true
  | Op.PIOS_DELAY_WaituS _ => true
  | _ => false

/-- The trace without the calls of a bus reset. -/
def fsm_ops (ops : List Op) : List Op := ops.filter (fun o => !is_reset_op o)

/-- Everything of the state that a bus reset leaves alone: the FSM state, the
cursors, the flag, the memory, the semaphore, the trace without the reset calls,
and the oracles with the read counters of the data register and of control
register 1. -/
def fsm_view (a : pios_i2c_adapter) :=
  (a.curr_state, a.active_txn, a.last_txn, a.byte_txn, a.active_byte, a.last_byte,
   a.bus_error, a.txns, a.sem_ready, fsm_ops a.ops, a.rx_data, a.n_rx, a.sda_in, a.scl_in,
   a.sr2, a.cr1, a.n_cr1)

/-- The pure shadow of `process_auto_loop`: the state it ends in. -/
def auto_closure : Nat → i2c_adapter_state → i2c_adapter_state
  | 0, s => s
  | fuel + 1, s =>
    if (i2c_adapter_transitions s).next_state I2C_EVENT_AUTO ≠ I2C_STATE_FSM_FAULT then
      auto_closure fuel ((i2c_adapter_transitions s).next_state I2C_EVENT_AUTO)
    else s

/-- The state `i2c_adapter_inject_event` ends in, as a function of the state it
starts in and of the event. -/
def settle (s : i2c_adapter_state) (e : i2c_adapter_event) : i2c_adapter_state :=
  auto_closure I2C_STATE_NUM_STATES ((i2c_adapter_transitions s).next_state e)

/-- Events the interrupt handlers can inject: every event but START, STOPPED
and AUTO. -/
def isr_event : i2c_adapter_event → Bool
  | I2C_EVENT_START => false
  | I2C_EVENT_STOPPED => false
  | I2C_EVENT_AUTO => false
  | _ => true

/-- Ghost record of a call of `go_fsm_fault` or `go_bus_error`. -/
def is_fault_entry : Op → Bool
  | Op.entry_fn I2C_STATE_FSM_FAULT => true
  | Op.entry_fn I2C_STATE_BUS_ERROR => true
  | _ => false

/-- Number of calls of `go_fsm_fault` and `go_bus_error` recorded in a trace. -/
def fault_entries (ops : List Op) : Nat := ops.countP is_fault_entry

/-- Between `a` and `b` the flag `bus_error` was never cleared, and it was set
exactly by the fault entry actions recorded in between. -/
def flag_tracks (a b : pios_i2c_adapter) : Prop :=
  fault_entries a.ops ≤ fault_entries b.ops ∧
    (b.bus_error = true ↔ a.bus_error = true ∨ fault_entries a.ops < fault_entries b.ops)

/-! ## The expected trace of well-behaved traffic -/

/-- The trace of one injection into a state without AUTO edge: interrupts masked,
the state written, its entry action called (`body` is what the action appends),
the empty AUTO processing, interrupts unmasked. -/
def step_ops (s : i2c_adapter_state) (body : List Op) : List Op :=
  [Op.PIOS_IRQ_Disable, Op.state_write s, Op.entry_fn s] ++ body ++
    [Op.PIOS_IRQ_Disable, Op.PIOS_IRQ_Enable, Op.PIOS_IRQ_Enable]

/-- The trace of one injection into a state `s` whose AUTO edge leads to `s2`. -/
def auto_step_ops (s : i2c_adapter_state) (body : List Op) (s2 : i2c_adapter_state)
    (body2 : List Op) : List Op :=
  [Op.PIOS_IRQ_Disable, Op.state_write s, Op.entry_fn s] ++ body ++
    [Op.PIOS_IRQ_Disable, Op.state_write s2, Op.entry_fn s2] ++ body2 ++
    [Op.PIOS_IRQ_Enable, Op.PIOS_IRQ_Enable]

def r_addr (more : Bool) : i2c_adapter_state :=
  if more then I2C_STATE_R_MORE_TXN_ADDR else I2C_STATE_R_LAST_TXN_ADDR

def r_pre_one (more : Bool) : i2c_adapter_state :=
  if more then I2C_STATE_R_MORE_TXN_PRE_ONE else I2C_STATE_R_LAST_TXN_PRE_ONE

def r_pre_first (more : Bool) : i2c_adapter_state :=
  if more then I2C_STATE_R_MORE_TXN_PRE_FIRST else I2C_STATE_R_LAST_TXN_PRE_FIRST

def r_pre_middle (more : Bool) : i2c_adapter_state :=
  if more then I2C_STATE_R_MORE_TXN_PRE_MIDDLE else I2C_STATE_R_LAST_TXN_PRE_MIDDLE

def r_pre_last (more : Bool) : i2c_adapter_state :=
  if more then I2C_STATE_R_MORE_TXN_PRE_LAST else I2C_STATE_R_LAST_TXN_PRE_LAST

def r_post_last (more : Bool) : i2c_adapter_state :=
  if more then I2C_STATE_R_MORE_TXN_POST_LAST else I2C_STATE_R_LAST_TXN_POST_LAST

def w_addr (more : Bool) : i2c_adapter_state :=
  if more then I2C_STATE_W_MORE_TXN_ADDR else I2C_STATE_W_LAST_TXN_ADDR

def w_middle (more : Bool) : i2c_adapter_state :=
  if more then I2C_STATE_W_MORE_TXN_MIDDLE else I2C_STATE_W_LAST_TXN_MIDDLE

def w_last (more : Bool) : i2c_adapter_state :=
  if more then I2C_STATE_W_MORE_TXN_LAST else I2C_STATE_W_LAST_TXN_LAST

/-- The state after a transaction: STARTING when more follow, else STOPPING. -/
def next_txn_state (more : Bool) : i2c_adapter_state :=
  if more then I2C_STATE_STARTING else I2C_STATE_STOPPING

/-- The bus condition the read states request: a repeated START when more
transactions follow, a STOP after the last. -/
def chain_op (more : Bool) : Op :=
  if more then Op.I2C_GenerateSTART else Op.I2C_GenerateSTOP

/-- What `go_starting` appends for transaction `t`. -/
def starting_body (t : pios_i2c_txn) : List Op :=
  [Op.I2C_GenerateSTART,
   Op.I2C_ITConfig (if t.rw = PIOS_I2C_TXN_READ then IT_ALL else I2C_IT_EVT ||| I2C_IT_ERR) true]

/-- What `go_stopping` appends. -/
def stopping_body : List Op :=
  [Op.I2C_ITConfig IT_ALL false, Op.PIOS_Semaphore_Give_FromISR]

/-- What the entry action of the state after a transaction appends; `next` is
the transaction that follows. -/
def next_txn_body (more : Bool) (next : pios_i2c_txn) : List Op :=
  if more then starting_body next else stopping_body

/-- The trace of `k` middle bytes of a read of transaction `i`, from offset `off`. -/
def middle_ops (more : Bool) (i last : Int) : Nat → Int → List Op
  | 0, _ => []
  | k + 1, off =>
    step_ops (r_pre_middle more) [Op.I2C_ReceiveData, Op.byte_access i off last]
      ++ middle_ops more i last k (off + 1)

/-- The trace of the PRE_LAST step of a read. -/
def pre_last_ops (more : Bool) (i off last : Int) : List Op :=
  step_ops (r_pre_last more)
    [Op.I2C_AcknowledgeConfig false, Op.PIOS_IRQ_Disable, Op.I2C_ITConfig IT_ALL false,
     chain_op more, Op.I2C_ReceiveData, Op.byte_access i off last,
     Op.I2C_ITConfig IT_ALL true, Op.PIOS_IRQ_Enable]

/-- The trace of the POST_LAST step of a read and of its AUTO edge. -/
def post_last_ops (more : Bool) (i off last : Int) (next : pios_i2c_txn) : List Op :=
  auto_step_ops (r_post_last more) [Op.I2C_ReceiveData, Op.byte_access i off last]
    (next_txn_state more) (next_txn_body more next)

/-- The memory after `k` received bytes were stored from offset `off` on in the
buffer of transaction `i`; `n` is the number of reads of the data register done
before. -/
def read_fill (rx : Nat → Nat) (i : Int) : Nat → Int → Nat → List pios_i2c_txn →
    List pios_i2c_txn
  | 0, _, _, txns => txns
  | k + 1, off, n, txns => read_fill rx i k (off + 1) (n + 1) (store_byte txns i off (rx n % 256))

/-- The adapter after a read transaction: the cursors as POST_LAST and the
entry action of the next state leave them, the memory `txns`, `n` reads of the
data register, `l` appended to the trace. -/
def finish_read (more : Bool) (a : pios_i2c_adapter) (txns : List pios_i2c_txn) (n : Nat)
    (l : List Op) : pios_i2c_adapter :=
  if more then
    { a with curr_state := I2C_STATE_STARTING, active_txn := a.active_txn + 1,
             byte_txn := a.active_txn + 1, active_byte := 0,
             last_byte := ((txn_at txns (a.active_txn + 1)).len : Int) - 1,
             txns := txns, n_rx := n, ops := a.ops ++ l }
  else
    { a with curr_state := I2C_STATE_STOPPING, active_txn := a.active_txn + 1,
             active_byte := a.last_byte + 1, txns := txns, n_rx := n, sem_ready := true,
             ops := a.ops ++ l }

/-- The trace of a read transaction `t` at index `i` answered by a well-behaved
slave; `next` is the transaction that follows it. -/
def read_txn_ops (more : Bool) (i : Int) (t next : pios_i2c_txn) : List Op :=
  step_ops (r_addr more)
    [Op.I2C_Send7bitAddress ((t.addr <<< 1) % 256) I2C_Direction.I2C_Direction_Receiver] ++
  match t.len with
  | 0 => []
  | 1 =>
    step_ops (r_pre_one more) [Op.I2C_AcknowledgeConfig false, chain_op more] ++
      post_last_ops more i 0 0 next
  | k + 2 =>
    step_ops (r_pre_first more) [Op.I2C_AcknowledgeConfig true] ++
      (middle_ops more i ((k : Int) + 1) k 0 ++ pre_last_ops more i k ((k : Int) + 1) ++
        post_last_ops more i ((k : Int) + 1) ((k : Int) + 1) next)

/-- The trace of `k` middle bytes of a write of transaction `i`, from offset `off`. -/
def w_middle_ops (more : Bool) (buf : List Nat) (i last : Int) : Nat → Int → List Op
  | 0, _ => []
  | k + 1, off =>
    step_ops (w_middle more) [Op.byte_access i off last, Op.I2C_SendData (byte_at buf off)]
      ++ w_middle_ops more buf i last k (off + 1)

/-- What the entry action of the last byte of a write appends. -/
def w_last_body (more : Bool) (buf : List Nat) (i off last : Int) : List Op :=
  if more then
    [Op.byte_access i off last, Op.I2C_SendData (byte_at buf off)]
  else
    [Op.I2C_ITConfig I2C_IT_BUF false, Op.byte_access i off last,
     Op.I2C_SendData (byte_at buf off), Op.I2C_GenerateSTOP]

/-- The trace of the last byte of a write and of the step that follows it. -/
def w_last_ops (more : Bool) (buf : List Nat) (i off last : Int)
    (next : pios_i2c_txn) : List Op :=
  step_ops (w_last more) (w_last_body more buf i off last) ++
    step_ops (next_txn_state more) (next_txn_body more next)

/-- The adapter after a write transaction, with `l` appended to the trace. -/
def finish_write (more : Bool) (a : pios_i2c_adapter) (l : List Op) : pios_i2c_adapter :=
  if more then
    { a with curr_state := I2C_STATE_STARTING, active_txn := a.active_txn + 1,
             byte_txn := a.active_txn + 1, active_byte := 0,
             last_byte := ((txn_at a.txns (a.active_txn + 1)).len : Int) - 1,
             ops := a.ops ++ l }
  else
    { a with curr_state := I2C_STATE_STOPPING, active_byte := a.last_byte + 1,
             sem_ready := true, ops := a.ops ++ l }

/-- The trace of a write transaction `t` at index `i` answered by a well-behaved
slave; `next` is the transaction that follows it. -/
def write_txn_ops (more : Bool) (i : Int) (t next : pios_i2c_txn) : List Op :=
  step_ops (w_addr more)
    [Op.I2C_Send7bitAddress ((t.addr <<< 1) % 256) I2C_Direction.I2C_Direction_Transmitter] ++
  match t.len with
  | 0 => []
  | k + 1 =>
    w_middle_ops more t.buf i k k 0 ++ w_last_ops more t.buf i k k next

/-- The trace of transaction `t` at index `i` answered by a well-behaved slave. -/
def txn_ops (more : Bool) (i : Int) (t next : pios_i2c_txn) : List Op :=
  match t.rw with
  | PIOS_I2C_TXN_READ => read_txn_ops more i t next
  | PIOS_I2C_TXN_WRITE => write_txn_ops more i t next

/-- The trace of the transactions `rest`, the first of which has index `i`,
answered by a well-behaved slave. -/
def list_ops : Int → List pios_i2c_txn → List Op
  | _, [] => []
  | i, [t] => txn_ops false i t default
  | i, t :: t2 :: rest => txn_ops true i t t2 ++ list_ops (i + 1) (t2 :: rest)

/-! ## What a trace shows -/

/-- The bytes handed to `I2C_SendData`, in order. -/
def sent_bytes (ops : List Op) : List Nat :=
  ops.filterMap (fun o => match o with
    | Op.I2C_SendData d => some d
    | _ => none)

/-- The address bytes and directions handed to `I2C_Send7bitAddress`, in order. -/
def sent_addresses (ops : List Op) : List (Nat × I2C_Direction) :=
  ops.filterMap (fun o => match o with
    | Op.I2C_Send7bitAddress x d => some (x, d)
    | _ => none)

/-- Number of calls of `I2C_GenerateSTART`. -/
def start_requests (ops : List Op) : Nat := ops.count Op.I2C_GenerateSTART

/-- Number of calls of `I2C_GenerateSTOP`. -/
def stop_requests (ops : List Op) : Nat := ops.count Op.I2C_GenerateSTOP

/-- Number of calls of `I2C_ReceiveData`. -/
def data_reads (ops : List Op) : Nat := ops.count Op.I2C_ReceiveData

/-- The buffers of the WRITE transactions of a list, concatenated in list order. -/
def written_bytes : List pios_i2c_txn → List Nat
  | [] => []
  | t :: rest =>
    (match t.rw with
      | PIOS_I2C_TXN_WRITE => t.buf
      | PIOS_I2C_TXN_READ => []) ++ written_bytes rest

/-- The address byte and direction of a transaction. -/
def txn_address (t : pios_i2c_txn) : Nat × I2C_Direction :=
  ((t.addr <<< 1) % 256,
   match t.rw with
   | PIOS_I2C_TXN_READ => I2C_Direction.I2C_Direction_Receiver
   | PIOS_I2C_TXN_WRITE => I2C_Direction.I2C_Direction_Transmitter)

/-- Number of READ transactions of a list other than its last element. -/
def reads_before_last : List pios_i2c_txn → Nat
  | [] => 0
  | [_] => 0
  | t :: t2 :: rest =>
    (if t.rw = PIOS_I2C_TXN_READ then 1 else 0) + reads_before_last (t2 :: rest)

/-- The FSM rests in STARTING for the transaction at index `i`: the transaction
cursor is inside the list and the byte cursors are as `go_starting` sets them. -/
def starting_at (a : pios_i2c_adapter) (i : Nat) : Prop :=
  a.curr_state = I2C_STATE_STARTING ∧ a.active_txn = (i : Int) ∧ i < a.txns.length ∧
    a.active_txn ≤ a.last_txn ∧ a.byte_txn = a.active_txn ∧ a.active_byte = 0 ∧
    a.last_byte = ((txn_at a.txns (i : Int)).len : Int) - 1

/-! ## Bounds of the byte accesses -/

/-- A recorded dereference of `active_byte` lies inside the buffer of a
transaction of the list `l`: the transaction index is inside the list,
`last_byte` is the last element of its buffer and
`buf[0] <= active_byte <= last_byte`. -/
def access_ok (l : List pios_i2c_txn) : Op → Prop
  | Op.byte_access t act last =>
    0 ≤ t ∧ t < (l.length : Int) ∧ 0 ≤ act ∧ act ≤ last ∧
      last = ((txn_at l t).len : Int) - 1
  | _ => True

/-- Every dereference recorded in a trace lies inside its buffer. -/
def all_access_ok (l : List pios_i2c_txn) (ops : List Op) : Prop :=
  ∀ o ∈ ops, access_ok l o

/-- Facts that hold in every state during a transfer of `l`: `last_txn` points
to the last element, the buffers have kept their lengths, and every dereference
recorded so far was inside its buffer. -/
def common_ok (l : List pios_i2c_txn) (a : pios_i2c_adapter) : Prop :=
  a.last_txn = (l.length : Int) - 1 ∧
    (∀ j : Int, (txn_at a.txns j).len = (txn_at l j).len) ∧
    all_access_ok l a.ops

/-- The byte cursors point into the buffer of a transaction of the list, with
`buf[0] <= active_byte <= last_byte + 1`. -/
def cursor_ok (l : List pios_i2c_txn) (a : pios_i2c_adapter) : Prop :=
  0 ≤ a.byte_txn ∧ a.byte_txn < (l.length : Int) ∧
    a.last_byte = ((txn_at l a.byte_txn).len : Int) - 1 ∧
    0 ≤ a.active_byte ∧ a.active_byte ≤ a.last_byte + 1

/-- States of the MORE branches in which `active_txn` is still the transaction
being transferred. -/
def is_more_state : i2c_adapter_state → Bool
  | I2C_STATE_R_MORE_TXN_ADDR => true
  | I2C_STATE_R_MORE_TXN_PRE_ONE => true
  | I2C_STATE_R_MORE_TXN_PRE_FIRST => true
  | I2C_STATE_R_MORE_TXN_PRE_MIDDLE => true
  | I2C_STATE_R_MORE_TXN_PRE_LAST => true
  | I2C_STATE_W_MORE_TXN_ADDR => true
  | I2C_STATE_W_MORE_TXN_MIDDLE => true
  | _ => false

/-- The transaction cursor is inside the list; strictly before the last element
in the MORE states. -/
def txn_cursor_ok (s : i2c_adapter_state) (a : pios_i2c_adapter) : Prop :=
  0 ≤ a.active_txn ∧
    if is_more_state s = true then a.active_txn < a.last_txn else a.active_txn ≤ a.last_txn

/-- What holds whenever the FSM rests between two injections: the state is
STOPPING or STOPPED, or it is a state without AUTO edge and the cursors are
inside the list and the buffer. -/
def rest_ok (l : List pios_i2c_txn) (a : pios_i2c_adapter) : Prop :=
  match a.curr_state with
  | I2C_STATE_STOPPING => True
  | I2C_STATE_STOPPED => True
  | I2C_STATE_FSM_FAULT => False
  | I2C_STATE_BUS_ERROR => False
  | I2C_STATE_NACK => False
  | I2C_STATE_R_MORE_TXN_POST_LAST => False
  | I2C_STATE_R_LAST_TXN_POST_LAST => False
  | s => cursor_ok l a ∧ txn_cursor_ok s a

/-- What an interrupt handler knows about the adapter when it injects `e`. -/
def event_fits (a : pios_i2c_adapter) : i2c_adapter_event → Prop
  | I2C_EVENT_STARTED_MORE_TXN_READ => a.active_txn < a.last_txn
  | I2C_EVENT_STARTED_MORE_TXN_WRITE => a.active_txn < a.last_txn
  | I2C_EVENT_STARTED_LAST_TXN_READ => a.active_txn = a.last_txn
  | I2C_EVENT_STARTED_LAST_TXN_WRITE => a.active_txn = a.last_txn
  | I2C_EVENT_ADDR_SENT_LEN_EQ_0 => a.last_byte - a.active_byte + 1 = 0
  | I2C_EVENT_ADDR_SENT_LEN_EQ_1 => a.last_byte - a.active_byte + 1 = 1
  | I2C_EVENT_ADDR_SENT_LEN_EQ_2 => a.last_byte - a.active_byte + 1 = 2
  | I2C_EVENT_ADDR_SENT_LEN_GT_2 =>
    a.last_byte - a.active_byte + 1 ≠ 0 ∧ a.last_byte - a.active_byte + 1 ≠ 1 ∧
      a.last_byte - a.active_byte + 1 ≠ 2
  | I2C_EVENT_TRANSFER_DONE_LEN_EQ_0 => a.last_byte - a.active_byte + 1 = 0
  | I2C_EVENT_TRANSFER_DONE_LEN_EQ_1 => a.last_byte - a.active_byte + 1 = 1
  | I2C_EVENT_TRANSFER_DONE_LEN_EQ_2 => a.last_byte - a.active_byte + 1 = 2
  | I2C_EVENT_TRANSFER_DONE_LEN_GT_2 =>
    a.last_byte - a.active_byte + 1 ≠ 0 ∧ a.last_byte - a.active_byte + 1 ≠ 1 ∧
      a.last_byte - a.active_byte + 1 ≠ 2
  | I2C_EVENT_NACK => True
  | I2C_EVENT_BUS_ERROR => True
  | I2C_EVENT_START => False
  | I2C_EVENT_STOPPED => False
  | I2C_EVENT_AUTO => False

/-- What must hold of the adapter for the entry into state `s` to keep the
cursors inside the list and the buffer. -/
def entry_pre (l : List pios_i2c_txn) (s : i2c_adapter_state) (a : pios_i2c_adapter) : Prop :=
  match s with
  | I2C_STATE_FSM_FAULT => True
  | I2C_STATE_BUS_ERROR => True
  | I2C_STATE_NACK => True
  | I2C_STATE_STOPPING => True
  | I2C_STATE_STOPPED => True
  | I2C_STATE_STARTING => 0 ≤ a.active_txn ∧ a.active_txn ≤ a.last_txn
  | I2C_STATE_R_MORE_TXN_PRE_MIDDLE =>
    cursor_ok l a ∧ txn_cursor_ok s a ∧ 3 ≤ a.last_byte - a.active_byte + 1
  | I2C_STATE_R_LAST_TXN_PRE_MIDDLE =>
    cursor_ok l a ∧ txn_cursor_ok s a ∧ 3 ≤ a.last_byte - a.active_byte + 1
  | I2C_STATE_R_MORE_TXN_PRE_LAST =>
    cursor_ok l a ∧ txn_cursor_ok s a ∧ a.last_byte - a.active_byte + 1 = 2
  | I2C_STATE_R_LAST_TXN_PRE_LAST =>
    cursor_ok l a ∧ txn_cursor_ok s a ∧ a.last_byte - a.active_byte + 1 = 2
  | I2C_STATE_R_MORE_TXN_POST_LAST =>
    cursor_ok l a ∧ 0 ≤ a.active_txn ∧ a.active_txn < a.last_txn ∧
      a.last_byte - a.active_byte + 1 = 1
  | I2C_STATE_R_LAST_TXN_POST_LAST =>
    cursor_ok l a ∧ a.last_byte - a.active_byte + 1 = 1
  | I2C_STATE_W_MORE_TXN_MIDDLE =>
    cursor_ok l a ∧ txn_cursor_ok s a ∧ 2 ≤ a.last_byte - a.active_byte + 1
  | I2C_STATE_W_LAST_TXN_MIDDLE =>
    cursor_ok l a ∧ txn_cursor_ok s a ∧ 2 ≤ a.last_byte - a.active_byte + 1
  | I2C_STATE_W_MORE_TXN_LAST =>
    cursor_ok l a ∧ 0 ≤ a.active_txn ∧ a.active_txn < a.last_txn ∧
      a.last_byte - a.active_byte + 1 = 1
  | I2C_STATE_W_LAST_TXN_LAST =>
    cursor_ok l a ∧ txn_cursor_ok s a ∧ a.last_byte - a.active_byte + 1 = 1
  | s => cursor_ok l a ∧ txn_cursor_ok s a

/-- The injection of an event, given the state the table names for it. -/
def enter (a : pios_i2c_adapter) (s : i2c_adapter_state) : pios_i2c_adapter :=
  emit (i2c_adapter_process_auto (call_entry_fn (set_state (emit a Op.PIOS_IRQ_Disable) s)))
    Op.PIOS_IRQ_Enable

/-- The states whose row of the table holds only an AUTO edge: the FSM passes
through them inside one injection and never rests there. -/
def is_transient : i2c_adapter_state → Bool
  | I2C_STATE_FSM_FAULT => true
  | I2C_STATE_BUS_ERROR => true
  | I2C_STATE_NACK => true
  | I2C_STATE_R_MORE_TXN_POST_LAST => true
  | I2C_STATE_R_LAST_TXN_POST_LAST => true
  | _ => false

/-- The states whose row of the table has a NACK slot. -/
def accepts_nack : i2c_adapter_state → Bool
  | I2C_STATE_STARTING => true
  | I2C_STATE_W_MORE_TXN_ADDR => true
  | I2C_STATE_W_MORE_TXN_MIDDLE => true
  | I2C_STATE_W_MORE_TXN_LAST => true
  | I2C_STATE_W_LAST_TXN_ADDR => true
  | I2C_STATE_W_LAST_TXN_MIDDLE => true
  | I2C_STATE_W_LAST_TXN_LAST => true
  | _ => false

/-- The adapter at the head of the loop of `i2c_adapter_process_auto`, inside
the injection of `e`: the state of the event is written, its entry action has
run, interrupts are masked a second time. -/
def at_auto_loop (a : pios_i2c_adapter) (e : i2c_adapter_event) : pios_i2c_adapter :=
  emit (call_entry_fn (set_state (emit a Op.PIOS_IRQ_Disable)
    ((i2c_adapter_transitions a.curr_state).next_state e))) Op.PIOS_IRQ_Disable

/-- The function `PIOS_I2C_CheckClear(i2c_id)`; `lock_ok` tells whether
`PIOS_Mutex_Lock(lock, 0)` acquired the mutex.  The `||` of the line test reads
SCL only when SDA did not read low. -/
def PIOS_I2C_CheckClear (a : pios_i2c_adapter) (lock_ok : Bool) : Int × pios_i2c_adapter :=
  if lock_ok = false then (-1, emit a (Op.PIOS_Mutex_Lock false))
  else
    let a := emit a (Op.PIOS_Mutex_Lock true)
    if a.curr_state ≠ I2C_STATE_STOPPED then
      (-2, emit a Op.PIOS_Mutex_Unlock)
    else
      let sda := GPIO_ReadInputDataBit a Pin.sda
      if sda.1 = false then
        (-3, emit sda.2 Op.PIOS_Mutex_Unlock)
      else
        let scl := GPIO_ReadInputDataBit sda.2 Pin.scl
        if scl.1 = false then
          (-3, emit scl.2 Op.PIOS_Mutex_Unlock)
        else
          (0, emit scl.2 Op.PIOS_Mutex_Unlock)

/-- Trace records of reads of the input pins. -/
def is_pin_read : Op → Bool
  | Op.GPIO_ReadInputDataBit _ => true
  | _ => false

/-- The fields of the adapter the FSM works on. -/
def fsm_fields (a : pios_i2c_adapter) :
    i2c_adapter_state × Int × Int × Int × Int × Int × Bool × List pios_i2c_txn × Bool :=
  (a.curr_state, a.active_txn, a.last_txn, a.byte_txn, a.active_byte, a.last_byte,
   a.bus_error, a.txns, a.sem_ready)

/-- An idle adapter whose clock line is held low. -/
def lines_low_adapter : pios_i2c_adapter :=
  { idle_adapter with scl_in := fun _ => false }

/-- Modelled from the spec: the byte `I2C_Send7bitAddress` of the peripheral
library (`stm32f10x_i2c.c`, not among the sources) writes to the data register,
the address byte with the receiver bit set for a read and cleared for a
write. -/
def I2C_Send7bitAddress_byte (address : Nat) (dir : I2C_Direction) : Nat :=
  match dir with
  | I2C_Direction.I2C_Direction_Receiver => address ||| 1
  | I2C_Direction.I2C_Direction_Transmitter => address &&& 0xFE

/-- The address bytes on the wire, in order. -/
def wire_addresses (ops : List Op) : List Nat :=
  (sent_addresses ops).map (fun p => I2C_Send7bitAddress_byte p.1 p.2)

/-- A one-byte read from address 0x1E. -/
def read_1e : List pios_i2c_txn := [⟨0x1E, PIOS_I2C_TXN_READ, [0]⟩]

/-- The adapter at the head of the spin-wait of `PIOS_I2C_Transfer`: the wait on
the completion semaphore has ended and consumed the semaphore. -/
def transfer_at_spin (a : pios_i2c_adapter) (txn_list : List pios_i2c_txn)
    (env : TransferEnv) : pios_i2c_adapter :=
  emit { transfer_waited a txn_list env with sem_ready := false } (Op.PIOS_Semaphore_Take true)

/-- The slave stretches the clock for ever: no interrupt is delivered at all. -/
def env_stalled : TransferEnv := ⟨true, [], []⟩

/-- The event the case EV5 of the event handler injects, if any. -/
def ev_master_mode_select_event (a : pios_i2c_adapter) : Option i2c_adapter_event :=
  match (txn_at a.txns a.active_txn).rw with
  | PIOS_I2C_TXN_READ =>
    if a.active_txn = a.last_txn then some I2C_EVENT_STARTED_LAST_TXN_READ
    else if a.active_txn < a.last_txn then some I2C_EVENT_STARTED_MORE_TXN_READ
    else none
  | PIOS_I2C_TXN_WRITE =>
    if a.active_txn = a.last_txn then some I2C_EVENT_STARTED_LAST_TXN_WRITE
    else if a.active_txn < a.last_txn then some I2C_EVENT_STARTED_MORE_TXN_WRITE
    else none

/-- The event the case EV6 injects. -/
def ev_addr_sent_event (a : pios_i2c_adapter) : i2c_adapter_event :=
  if a.last_byte - a.active_byte + 1 = 0 then I2C_EVENT_ADDR_SENT_LEN_EQ_0
  else if a.last_byte - a.active_byte + 1 = 1 then I2C_EVENT_ADDR_SENT_LEN_EQ_1
  else if a.last_byte - a.active_byte + 1 = 2 then I2C_EVENT_ADDR_SENT_LEN_EQ_2
  else I2C_EVENT_ADDR_SENT_LEN_GT_2

/-- The event the cases EV7, EV8_2 and their variants inject. -/
def ev_transfer_done_event (a : pios_i2c_adapter) : i2c_adapter_event :=
  if a.last_byte - a.active_byte + 1 = 0 then I2C_EVENT_TRANSFER_DONE_LEN_EQ_0
  else if a.last_byte - a.active_byte + 1 = 1 then I2C_EVENT_TRANSFER_DONE_LEN_EQ_1
  else if a.last_byte - a.active_byte + 1 = 2 then I2C_EVENT_TRANSFER_DONE_LEN_EQ_2
  else I2C_EVENT_TRANSFER_DONE_LEN_GT_2

/-- The event the handler of one interrupt injects into the FSM, if any: the
argument of its call of `i2c_adapter_inject_event`. -/
def irq_event (a : pios_i2c_adapter) : Irq → Option i2c_adapter_event
  | Irq.ev raw =>
    let event := raw &&& EVENT_MASK
    if event = (I2C_EVENT_MASTER_MODE_SELECT ||| 0x40) then ev_master_mode_select_event a
    else if event = I2C_EVENT_MASTER_MODE_SELECT then ev_master_mode_select_event a
    else if event = I2C_EVENT_MASTER_TRANSMITTER_MODE_SELECTED
        ∨ event = I2C_EVENT_MASTER_RECEIVER_MODE_SELECTED then
      some (ev_addr_sent_event a)
    else if event = 0x80 then none
    else if event = 0 ∨ event = 0x40 ∨ event = 0x44
        ∨ event = I2C_EVENT_MASTER_BYTE_RECEIVED
        ∨ event = (I2C_EVENT_MASTER_BYTE_RECEIVED ||| 0x4)
        ∨ event = I2C_EVENT_MASTER_BYTE_TRANSMITTED
        ∨ event = 0x84 then
      some (ev_transfer_done_event a)
    else if event = I2C_EVENT_MASTER_BYTE_TRANSMITTING then none
    else if event = 0x30084 ∨ event = 0x30000 ∨ event = (0x30403 &&& EVENT_MASK) then none
    else some I2C_EVENT_BUS_ERROR
  | Irq.er raw =>
    if raw &&& I2C_FLAG_AF ≠ 0 then some I2C_EVENT_NACK else some I2C_EVENT_BUS_ERROR

/-- What the handler of one interrupt does before it injects its event: the
extraneous read of the data register of the case EV5 + RxNE, the clearing of the
acknowledge-failure flag. -/
def irq_prologue (a : pios_i2c_adapter) : Irq → pios_i2c_adapter
  | Irq.ev raw =>
    if raw &&& EVENT_MASK = (I2C_EVENT_MASTER_MODE_SELECT ||| 0x40) then (I2C_ReceiveData a).2
    else a
  | Irq.er raw =>
    if raw &&& I2C_FLAG_AF ≠ 0 then emit a (Op.I2C_ClearFlag I2C_FLAG_AF) else a

/-- One entry of the journal of injections: the state the FSM was in and the
event injected. -/
def journal_entry (a : pios_i2c_adapter) (i : Irq) : List (i2c_adapter_state × i2c_adapter_event) :=
  match irq_event a i with
  | some e => [(a.curr_state, e)]
  | none => []

/-- The injections the handlers make while a sequence of interrupts is served. -/
def served_events : pios_i2c_adapter → List Irq → List (i2c_adapter_state × i2c_adapter_event)
  | _, [] => []
  | a, i :: rest => journal_entry a i ++ served_events (serve a i) rest

/-- The injections the handlers make during the spin-wait. -/
def spun_events : List Irq → pios_i2c_adapter → List (i2c_adapter_state × i2c_adapter_event)
  | [], _ => []
  | i :: rest, a =>
    if i2c_adapter_fsm_terminated a then []
    else journal_entry a i ++ spun_events rest (serve a i)

/-- The injection of the exit path, if any. -/
def exit_events (b : pios_i2c_adapter) : List (i2c_adapter_state × i2c_adapter_event) :=
  if (i2c_adapter_wait_for_stopped b).1 then [(b.curr_state, I2C_EVENT_STOPPED)] else []

/-- Every injection of one call of `PIOS_I2C_Transfer` that acquired the mutex,
in order: START at the entry, the events of the handlers during the semaphore
wait and the spin-wait, STOPPED at the exit. -/
def transfer_events (a : pios_i2c_adapter) (txn_list : List pios_i2c_txn) (env : TransferEnv) :
    List (i2c_adapter_state × i2c_adapter_event) :=
  (a.curr_state, I2C_EVENT_START) ::
    (served_events (transfer_start (emit a (Op.PIOS_Mutex_Lock true)) txn_list) env.irqs_wait ++
      spun_events env.irqs_spin (transfer_at_spin a txn_list env) ++
      match spin_until_terminated env.irqs_spin (transfer_at_spin a txn_list env) with
      | some b => exit_events b
      | none => [])

/-- An injection that sets `bus_error`: the event is BUS_ERROR, or the row of the
state has no slot for the event. -/
def raises_bus_error (se : i2c_adapter_state × i2c_adapter_event) : Bool :=
  decide (se.2 = I2C_EVENT_BUS_ERROR ∨
    (i2c_adapter_transitions se.1).next_state se.2 = I2C_STATE_FSM_FAULT)

/-- States whose entry action sets `bus_error`. -/
def is_fault_state : i2c_adapter_state → Bool
  | I2C_STATE_FSM_FAULT => true
  | I2C_STATE_BUS_ERROR => true
  | _ => false

/-- A status of the receive phase arrives while the FSM is still in STARTING. -/
def env_stray_status : TransferEnv := ⟨true, [Irq.ev I2C_EVENT_MASTER_BYTE_RECEIVED], []⟩

/-- Trace records of operations on the mutex. -/
def is_mutex_op : Op → Bool
  | Op.PIOS_Mutex_Lock _ => true
  | Op.PIOS_Mutex_Unlock => true
  | _ => false

/-- The operations on the mutex recorded in a trace, in order. -/
def mutex_ops (ops : List Op) : List Op := ops.filter is_mutex_op

/-- The trace of `b` continues the trace of `a` without any operation on the
mutex. -/
def quiet_ext (a b : pios_i2c_adapter) : Prop :=
  a.ops <+: b.ops ∧ mutex_ops b.ops = mutex_ops a.ops

/-- Modelled from the spec: the effect of `I2C_ITConfig` of the peripheral
library (not among the sources) on the interrupt-enable bits of the 16-bit
control register 2: the bits are set when enabling and cleared when
disabling. -/
def I2C_ITConfig_mask (mask bits : Nat) (enable : Bool) : Nat :=
  if enable then mask ||| bits else mask &&& (0xFFFF ^^^ bits)

/-- The interrupt-enable mask after the calls of a trace, from the mask before
them; only `I2C_ITConfig` changes it. -/
def it_mask (mask : Nat) : List Op → Nat
  | [] => mask
  | Op.I2C_ITConfig bits enable :: rest => it_mask (I2C_ITConfig_mask mask bits enable) rest
  | _ :: rest => it_mask mask rest

/-- A single read of no byte at all. -/
def zero_length_read : List pios_i2c_txn := [⟨0x68, PIOS_I2C_TXN_READ, []⟩]

/-- The slave acknowledges the start and the address of the transaction. -/
def env_start_and_address : TransferEnv :=
  ⟨true, [Irq.ev I2C_EVENT_MASTER_MODE_SELECT,
          Irq.ev I2C_EVENT_MASTER_RECEIVER_MODE_SELECTED], []⟩

/-- The address state of a direction, for a transaction that is followed by more
(`more`) or is the last. -/
def addr_state (rw : pios_i2c_txn_direction) (more : Bool) : i2c_adapter_state :=
  match rw with
  | PIOS_I2C_TXN_READ => r_addr more
  | PIOS_I2C_TXN_WRITE => w_addr more

/-- The direction handed to `I2C_Send7bitAddress` for a transaction. -/
def addr_direction (rw : pios_i2c_txn_direction) : I2C_Direction :=
  match rw with
  | PIOS_I2C_TXN_READ => I2C_Direction.I2C_Direction_Receiver
  | PIOS_I2C_TXN_WRITE => I2C_Direction.I2C_Direction_Transmitter

/-- The case labels of the `switch` of the event handler. -/
def known_statuses : List Nat :=
  [I2C_EVENT_MASTER_MODE_SELECT ||| 0x40, I2C_EVENT_MASTER_MODE_SELECT,
   I2C_EVENT_MASTER_TRANSMITTER_MODE_SELECTED, I2C_EVENT_MASTER_RECEIVER_MODE_SELECTED,
   0x80, 0, 0x40, 0x44, I2C_EVENT_MASTER_BYTE_RECEIVED, I2C_EVENT_MASTER_BYTE_RECEIVED ||| 0x4,
   I2C_EVENT_MASTER_BYTE_TRANSMITTED, 0x84, I2C_EVENT_MASTER_BYTE_TRANSMITTING,
   0x30084, 0x30000, 0x30403 &&& EVENT_MASK]

/-- Trace records of the clearing of a status flag. -/
def is_clear_flag : Op → Bool
  | Op.I2C_ClearFlag _ => true
  | _ => false

/-- Number of calls of `I2C_ClearFlag` recorded in a trace. -/
def clear_count (ops : List Op) : Nat := ops.countP is_clear_flag

/-- A status the classifier does not know (bus busy, not master) arrives while
the one-byte read is starting. -/
def env_unknown_status : TransferEnv := ⟨true, [Irq.ev 0x20000], []⟩

/-- The events of the case EV5. -/
def is_started_event : i2c_adapter_event → Bool
  | I2C_EVENT_STARTED_MORE_TXN_READ => true
  | I2C_EVENT_STARTED_MORE_TXN_WRITE => true
  | I2C_EVENT_STARTED_LAST_TXN_READ => true
  | I2C_EVENT_STARTED_LAST_TXN_WRITE => true
  | _ => false

/-- Modelled from the spec: `PIOS_IRQ_Disable` and `PIOS_IRQ_Enable` (PiOS, not
among the sources) as a nesting counter.  The scan runs a trace from depth `d`:
a disable goes one level down, an enable one level up and is refused at depth
zero, and every other record (a write of `curr_state`, an entry action and all
it does) is refused at depth zero.  The result is the depth at the end, or
`none` when a record was refused. -/
def irq_scan : Nat → List Op → Option Nat
  | d, [] => some d
  | d, Op.PIOS_IRQ_Disable :: rest => irq_scan (d + 1) rest
  | d, Op.PIOS_IRQ_Enable :: rest => if d = 0 then none else irq_scan (d - 1) rest
  | d, _ :: rest => if d = 0 then none else irq_scan d rest

/-- From depth `d` at `a`, the trace added up to `b` is accepted and ends at
depth `d2`. -/
def irq_steps (d : Nat) (a b : pios_i2c_adapter) (d2 : Nat) : Prop :=
  ∃ mid, b.ops = a.ops ++ mid ∧ irq_scan d mid = some d2

/-- Trace records of the masking and unmasking of interrupts. -/
def is_irq_op : Op → Bool
  | Op.PIOS_IRQ_Disable => true
  | Op.PIOS_IRQ_Enable => true
  | _ => false

/-- The events of the cases EV7, EV8_2 and their variants. -/
def is_transfer_done_event : i2c_adapter_event → Bool
  | I2C_EVENT_TRANSFER_DONE_LEN_EQ_0 => true
  | I2C_EVENT_TRANSFER_DONE_LEN_EQ_1 => true
  | I2C_EVENT_TRANSFER_DONE_LEN_EQ_2 => true
  | I2C_EVENT_TRANSFER_DONE_LEN_GT_2 => true
  | _ => false

/-- Number of calls of `I2C_AcknowledgeConfig(DISABLE)` recorded in a trace. -/
def ack_disarms (ops : List Op) : Nat := ops.count (Op.I2C_AcknowledgeConfig false)

/-- The mutex is not acquired within the timeout. -/
def env_lock_timeout : TransferEnv := ⟨false, [], []⟩

/-- Number of low pulses driven on SCL: the calls `GPIO_ResetBits` on the clock
pin. -/
def scl_pulses (ops : List Op) : Nat := ops.count (Op.GPIO_ResetBits Pin.scl)

/-- Number of calls `PIOS_DELAY_WaituS(1)`, the delay of the wait loops. -/
def us_waits (ops : List Op) : Nat := ops.count (Op.PIOS_DELAY_WaituS 1)

/-- The adapter at the point of `i2c_adapter_reset_bus` where the two final
line waits have finished and the pins are about to be handed back to the
peripheral function. -/
def reset_bus_waited (a : pios_i2c_adapter) : pios_i2c_adapter :=
  let a := emit a Op.I2C_DeInit
  let a := emit a (Op.GPIO_SetBits Pin.scl)
  let a := emit a (Op.GPIO_Init Pin.scl PinMode.GPIO_Mode_Out_OD)
  let a := emit a (Op.GPIO_SetBits Pin.sda)
  let a := emit a (Op.GPIO_Init Pin.sda PinMode.GPIO_Mode_Out_OD)
  let a := set_retry_count_clk a 0
  let a := clock_out_sda 256 a
  let a := emit a (Op.GPIO_SetBits Pin.scl)
  let a := emit a (Op.PIOS_DELAY_WaituS 2)
  let a := emit a (Op.GPIO_ResetBits Pin.sda)
  let a := emit a (Op.PIOS_DELAY_WaituS 2)
  let a := emit a (Op.GPIO_SetBits Pin.sda)
  let a := emit a (Op.PIOS_DELAY_WaituS 2)
  let a := emit a (Op.GPIO_SetBits Pin.sda)
  let a := emit a (Op.GPIO_SetBits Pin.scl)
  let a := set_retry_count a 0
  let a := wait_line_high Pin.scl 256 a
  let a := set_retry_count a 0
  wait_line_high Pin.sda 256 a

/-- An idle adapter whose data line is held low by a slave. -/
def sda_low_adapter : pios_i2c_adapter :=
  { idle_adapter with sda_in := fun _ => false }

/-- Modelled from the spec: the BUSY bit of the status register SR2 in the
register map of the STM32F10x I2C peripheral (`stm32f10x.h`, not among the
sources), bit 1. -/
def I2C_SR2_BUSY : Nat := 0x0002

/-- An idle adapter whose peripheral reports SR2 with only the BUSY bit set. -/
def busy_adapter : pios_i2c_adapter :=
  { idle_adapter with sr2 := fun _ => 0x0002 }

/-- An idle adapter whose peripheral reports SR2 with only bit 5 set and BUSY
clear. -/
def bit5_adapter : pios_i2c_adapter :=
  { idle_adapter with sr2 := fun _ => 0x0020 }

/-- A one-byte read followed by a one-byte write. -/
def read_then_write : List pios_i2c_txn :=
  [⟨0x68, PIOS_I2C_TXN_READ, [0]⟩, ⟨0x68, PIOS_I2C_TXN_WRITE, [0x6B]⟩]

/-- The statuses of a well-behaved slave up to the start of the write of
`read_then_write`: the read is complete, the repeated start is answered by
EV5. -/
def statuses_to_write_address : List Irq :=
  [Irq.ev I2C_EVENT_MASTER_MODE_SELECT, Irq.ev I2C_EVENT_MASTER_RECEIVER_MODE_SELECTED,
   Irq.ev I2C_EVENT_MASTER_BYTE_RECEIVED, Irq.ev I2C_EVENT_MASTER_MODE_SELECT]

/-- The part of `common_ok` that does not speak of the trace: `last_txn` points
to the last element of the list and the buffers have kept their lengths. -/
def list_ok (l : List pios_i2c_txn) (a : pios_i2c_adapter) : Prop :=
  a.last_txn = (l.length : Int) - 1 ∧
    (∀ j : Int, (txn_at a.txns j).len = (txn_at l j).len)

/-- The twelve states of the read branches. -/
def is_read_state : i2c_adapter_state → Bool
  | I2C_STATE_R_MORE_TXN_ADDR => true
  | I2C_STATE_R_MORE_TXN_PRE_ONE => true
  | I2C_STATE_R_MORE_TXN_PRE_FIRST => true
  | I2C_STATE_R_MORE_TXN_PRE_MIDDLE => true
  | I2C_STATE_R_MORE_TXN_PRE_LAST => true
  | I2C_STATE_R_MORE_TXN_POST_LAST => true
  | I2C_STATE_R_LAST_TXN_ADDR => true
  | I2C_STATE_R_LAST_TXN_PRE_ONE => true
  | I2C_STATE_R_LAST_TXN_PRE_FIRST => true
  | I2C_STATE_R_LAST_TXN_PRE_MIDDLE => true
  | I2C_STATE_R_LAST_TXN_PRE_LAST => true
  | I2C_STATE_R_LAST_TXN_POST_LAST => true
  | _ => false

/-- A trace record made while the FSM is in a read state: the ghost records of
a state write and of an entry action name a read state. -/
def in_read_state : Op → Bool
  | Op.state_write s => is_read_state s
  | Op.entry_fn s => is_read_state s
  | _ => true

/-- Number of calls of `I2C_GenerateSTART` and `I2C_GenerateSTOP`. -/
def chain_requests (ops : List Op) : Nat := start_requests ops + stop_requests ops

/-- The calls that close a bus reset before the BUSY test: the pins are handed
back to the peripheral function and the peripheral is reset and initialised. -/
def reset_bus_reinit_ops : List Op :=
  [Op.GPIO_Init Pin.scl PinMode.cfg_init, Op.GPIO_Init Pin.sda PinMode.cfg_init,
   Op.I2C_DeInit, Op.I2C_Init]

/-- The trace of the two calls that pulse the software reset of the peripheral. -/
def software_reset_ops : List Op :=
  [Op.I2C_SoftwareResetCmd true, Op.I2C_SoftwareResetCmd false]

/-- The trace of a fault entry that chains to STOPPING: `s` is FSM_FAULT or
BUS_ERROR, `recovery` the calls of the bus reset between its first call and the
hand-back of the pins, `pulse` the software reset when it is made. -/
def fault_stop_ops (s : i2c_adapter_state) (recovery pulse : List Op) : List Op :=
  [Op.PIOS_IRQ_Disable, Op.state_write s, Op.entry_fn s, Op.I2C_DeInit] ++ recovery ++
    reset_bus_reinit_ops ++ pulse ++
    [Op.PIOS_IRQ_Disable, Op.state_write I2C_STATE_STOPPING, Op.entry_fn I2C_STATE_STOPPING,
     Op.I2C_ITConfig IT_ALL false, Op.PIOS_Semaphore_Give_FromISR,
     Op.PIOS_IRQ_Enable, Op.PIOS_IRQ_Enable]

/-! ## Concrete inputs -/

/-- A single one-byte read. -/
def one_byte_read : List pios_i2c_txn := [⟨0x68, PIOS_I2C_TXN_READ, [0]⟩]

/-- No interrupt before the semaphore wait times out, then one error interrupt
without acknowledge failure. -/
def env_timeout_then_error : TransferEnv := ⟨true, [], [Irq.er 0]⟩

/-- A well-behaved slave answers every status before the semaphore wait ends. -/
def env_well_behaved (l : List pios_i2c_txn) : TransferEnv := ⟨true, list_statuses l, []⟩

/-- The pair a transfer returns; a placeholder when it never returns. -/
def transfer_outcome (a : pios_i2c_adapter) (txn_list : List pios_i2c_txn)
    (env : TransferEnv) : Int × pios_i2c_adapter :=
  (PIOS_I2C_Transfer a txn_list env).getD (0, a)

/-- A write of two bytes. -/
def two_byte_write : List pios_i2c_txn := [⟨0x77, PIOS_I2C_TXN_WRITE, [0xF4, 0x34]⟩]

/-- The slave does not acknowledge its address: the start is answered by EV5,
the address by an error interrupt with the acknowledge-failure bit (0x400) set. -/
def env_nack_on_address : TransferEnv :=
  ⟨true, [Irq.ev I2C_EVENT_MASTER_MODE_SELECT, Irq.er 0x30400], []⟩

/-- A single three-byte read. -/
def three_byte_read : List pios_i2c_txn := [⟨0x68, PIOS_I2C_TXN_READ, [0, 0, 0]⟩]

/-- A one-byte read followed by a two-byte read. -/
def read_then_read : List pios_i2c_txn :=
  [⟨0x68, PIOS_I2C_TXN_READ, [0]⟩, ⟨0x68, PIOS_I2C_TXN_READ, [0, 0]⟩]

/-- A one-byte write followed by a six-byte read. -/
def write_then_read : List pios_i2c_txn :=
  [⟨0x1E, PIOS_I2C_TXN_WRITE, [0x00]⟩, ⟨0x1E, PIOS_I2C_TXN_READ, [0, 0, 0, 0, 0, 0]⟩]

/-! ## Theorems -/

/-! ### Frame lemmas -/

@[simp] theorem fsm_view_emit (a : pios_i2c_adapter) (o : Op) (h : is_reset_op o = true) :
    fsm_view (emit a o) = fsm_view a := by
  simp [fsm_view, emit, fsm_ops, List.filter_append, h]

@[simp] theorem fsm_view_set_retry_count (a : pios_i2c_adapter) (n : Nat) :
    fsm_view (set_retry_count a n) = fsm_view a := rfl

@[simp] theorem fsm_view_set_retry_count_clk (a : pios_i2c_adapter) (n : Nat) :
    fsm_view (set_retry_count_clk a n) = fsm_view a := rfl

@[simp] theorem fsm_view_read_SR2 (a : pios_i2c_adapter) :
    fsm_view (read_SR2 a).2 = fsm_view a := rfl

@[simp] theorem fsm_view_read_pin (a : pios_i2c_adapter) (pin : Pin) :
    fsm_view (GPIO_ReadInputDataBit a pin).2 = fsm_view a := by
  cases pin <;>
    simp [fsm_view, GPIO_ReadInputDataBit, fsm_ops, List.filter_append, is_reset_op]

@[simp] theorem fsm_view_wait_line_high (pin : Pin) (n : Nat) (a : pios_i2c_adapter) :
    fsm_view (wait_line_high pin n a) = fsm_view a := by
  induction n generalizing a with
  | zero => rfl
  | succ n ih =>
    simp only [wait_line_high]
    split
    · split <;> simp [ih, is_reset_op]
    · simp

@[simp] theorem fsm_view_clock_pulse (a : pios_i2c_adapter) :
    fsm_view (clock_pulse a) = fsm_view a := by
  simp [clock_pulse, is_reset_op]

@[simp] theorem fsm_view_clock_out_sda (n : Nat) (a : pios_i2c_adapter) :
    fsm_view (clock_out_sda n a) = fsm_view a := by
  induction n generalizing a with
  | zero => rfl
  | succ n ih =>
    simp only [clock_out_sda]
    split
    · split <;> simp [ih]
    · simp

@[simp] theorem fsm_view_reset_bus (a : pios_i2c_adapter) :
    fsm_view (i2c_adapter_reset_bus a) = fsm_view a := by
  simp only [i2c_adapter_reset_bus]
  split <;> simp [is_reset_op]

@[simp] theorem reset_bus_curr_state (a : pios_i2c_adapter) :
    (i2c_adapter_reset_bus a).curr_state = a.curr_state :=
  congrArg (fun v => v.1) (fsm_view_reset_bus a)

@[simp] theorem reset_bus_bus_error (a : pios_i2c_adapter) :
    (i2c_adapter_reset_bus a).bus_error = a.bus_error :=
  congrArg (fun v => v.2.2.2.2.2.2.1) (fsm_view_reset_bus a)

@[simp] theorem reset_bus_sem_ready (a : pios_i2c_adapter) :
    (i2c_adapter_reset_bus a).sem_ready = a.sem_ready :=
  congrArg (fun v => v.2.2.2.2.2.2.2.2.1) (fsm_view_reset_bus a)

@[simp] theorem reset_bus_fsm_ops (a : pios_i2c_adapter) :
    fsm_ops (i2c_adapter_reset_bus a).ops = fsm_ops a.ops :=
  congrArg (fun v => v.2.2.2.2.2.2.2.2.2.1) (fsm_view_reset_bus a)

/-! ### The state an injection ends in -/

theorem call_entry_fn_curr_state (a : pios_i2c_adapter) :
    (call_entry_fn a).curr_state = a.curr_state := by
  unfold call_entry_fn
  cases h : a.curr_state <;>
    simp [i2c_adapter_transitions, go_fsm_fault, go_bus_error, go_stopping, go_stopped,
      go_starting, go_r_any_txn_addr, go_r_more_txn_pre_one, go_r_last_txn_pre_one,
      go_r_any_txn_pre_first, go_r_any_txn_pre_middle, go_r_more_txn_pre_last,
      go_r_last_txn_pre_last, go_r_any_txn_post_last, go_w_any_txn_addr,
      go_w_any_txn_middle, go_w_more_txn_last, go_w_last_txn_last, go_nack, emit,
      store_active_byte, load_active_byte, I2C_ReceiveData, h]
  split <;> simp [h]

theorem process_auto_loop_curr_state (n : Nat) (a : pios_i2c_adapter) :
    (process_auto_loop n a).curr_state = auto_closure n a.curr_state := by
  induction n generalizing a with
  | zero => rfl
  | succ n ih =>
    simp only [process_auto_loop, auto_closure]
    split
    · rw [ih, call_entry_fn_curr_state]; rfl
    · rfl

theorem inject_event_curr_state (a : pios_i2c_adapter) (e : i2c_adapter_event) :
    (i2c_adapter_inject_event a e).curr_state = settle a.curr_state e := by
  simp only [i2c_adapter_inject_event, i2c_adapter_process_auto, emit, settle]
  rw [process_auto_loop_curr_state]
  show auto_closure _ (call_entry_fn _).curr_state = _
  rw [call_entry_fn_curr_state]
  rfl

theorem settle_ne_stopped (s : i2c_adapter_state) (e : i2c_adapter_event)
    (he : e ≠ I2C_EVENT_STOPPED) : settle s e ≠ I2C_STATE_STOPPED := by
  cases s <;> cases e <;> first | exact absurd rfl he | decide

theorem inject_settles (a : pios_i2c_adapter) (e : i2c_adapter_event)
    (h : isr_event e = true) :
    ∃ e1, isr_event e1 = true ∧
      (i2c_adapter_inject_event a e).curr_state = settle a.curr_state e1 :=
  ⟨e, h, inject_event_curr_state a e⟩

theorem ev_master_mode_select_curr_state (a : pios_i2c_adapter) :
    (ev_master_mode_select a).curr_state = a.curr_state ∨
      ∃ e, isr_event e = true ∧ (ev_master_mode_select a).curr_state = settle a.curr_state e := by
  unfold ev_master_mode_select
  split <;> split <;> try split
  all_goals first
    | exact Or.inl rfl
    | exact Or.inr (inject_settles _ _ rfl)

theorem ev_addr_sent_curr_state (a : pios_i2c_adapter) :
    ∃ e, isr_event e = true ∧ (ev_addr_sent a).curr_state = settle a.curr_state e := by
  unfold ev_addr_sent
  split_ifs <;> exact inject_settles _ _ rfl

theorem ev_transfer_done_curr_state (a : pios_i2c_adapter) :
    ∃ e, isr_event e = true ∧ (ev_transfer_done a).curr_state = settle a.curr_state e := by
  unfold ev_transfer_done
  split_ifs <;> exact inject_settles _ _ rfl

/-- One interrupt either leaves the FSM state alone or moves it as the injection
of one handler event does. -/
theorem serve_curr_state (a : pios_i2c_adapter) (i : Irq) :
    (serve a i).curr_state = a.curr_state ∨
      ∃ e, isr_event e = true ∧ (serve a i).curr_state = settle a.curr_state e := by
  cases i with
  | ev raw =>
    simp only [serve, PIOS_I2C_EV_IRQ_Handler]
    split_ifs
    · exact ev_master_mode_select_curr_state (I2C_ReceiveData a).2
    · exact ev_master_mode_select_curr_state a
    · exact Or.inr (ev_addr_sent_curr_state a)
    · exact Or.inl rfl
    · exact Or.inr (ev_transfer_done_curr_state a)
    · exact Or.inl rfl
    · exact Or.inl rfl
    · exact Or.inr (inject_settles _ _ rfl)
  | er raw =>
    simp only [serve, PIOS_I2C_ER_IRQ_Handler]
    split_ifs
    · exact Or.inr (inject_settles _ _ rfl)
    · exact Or.inr (inject_settles _ _ rfl)

theorem isr_event_ne_stopped (e : i2c_adapter_event) (h : isr_event e = true) :
    e ≠ I2C_EVENT_STOPPED := by
  intro he; subst he; exact absurd h (by decide)

theorem serve_ne_stopped (a : pios_i2c_adapter) (i : Irq)
    (h : a.curr_state ≠ I2C_STATE_STOPPED) : (serve a i).curr_state ≠ I2C_STATE_STOPPED := by
  rcases serve_curr_state a i with h1 | ⟨e, he, h1⟩
  · rw [h1]; exact h
  · rw [h1]; exact settle_ne_stopped _ _ (isr_event_ne_stopped e he)

theorem serve_all_ne_stopped (irqs : List Irq) (a : pios_i2c_adapter)
    (h : a.curr_state ≠ I2C_STATE_STOPPED) :
    (serve_all a irqs).curr_state ≠ I2C_STATE_STOPPED := by
  induction irqs generalizing a with
  | nil => exact h
  | cons i rest ih => exact ih (serve a i) (serve_ne_stopped a i h)

theorem terminated_iff (a : pios_i2c_adapter) :
    i2c_adapter_fsm_terminated a = true ↔
      a.curr_state = I2C_STATE_STOPPING ∨ a.curr_state = I2C_STATE_STOPPED := by
  unfold i2c_adapter_fsm_terminated
  cases a.curr_state <;> simp

/-- When the spin-wait exits, the FSM is in a terminal state, and it is in
STOPPED only if it was there when the spin began. -/
theorem spin_until_terminated_spec (irqs : List Irq) (a b : pios_i2c_adapter)
    (h : spin_until_terminated irqs a = some b) :
    i2c_adapter_fsm_terminated b = true ∧
      (a.curr_state ≠ I2C_STATE_STOPPED → b.curr_state ≠ I2C_STATE_STOPPED) := by
  induction irqs generalizing a with
  | nil =>
    simp only [spin_until_terminated] at h
    split at h
    · cases h; exact ⟨by assumption, id⟩
    · cases h
  | cons i rest ih =>
    simp only [spin_until_terminated] at h
    split at h
    · cases h; exact ⟨by assumption, id⟩
    · obtain ⟨h1, h2⟩ := ih _ h
      exact ⟨h1, fun hs => h2 (serve_ne_stopped a i hs)⟩

theorem transfer_outcome_spec (a : pios_i2c_adapter) (txn_list : List pios_i2c_txn)
    (env : TransferEnv) (h : (PIOS_I2C_Transfer a txn_list env).isSome = true) :
    PIOS_I2C_Transfer a txn_list env = some (transfer_outcome a txn_list env) := by
  unfold transfer_outcome
  cases hp : PIOS_I2C_Transfer a txn_list env with
  | none => rw [hp] at h; cases h
  | some p => rfl

theorem wait_for_stopped_loop_frame (g : Nat) (a : pios_i2c_adapter) :
    ∃ k, (wait_for_stopped_loop g a).2 = { a with n_cr1 := k } := by
  induction g generalizing a with
  | zero => exact ⟨a.n_cr1, rfl⟩
  | succ g ih =>
    simp only [wait_for_stopped_loop]
    split
    · obtain ⟨k, hk⟩ := ih (read_CR1 a).2
      exact ⟨k, by rw [hk]; rfl⟩
    · exact ⟨a.n_cr1 + 1, rfl⟩

theorem wait_for_stopped_frame (a : pios_i2c_adapter) :
    ∃ k, (i2c_adapter_wait_for_stopped a).2 = { a with n_cr1 := k } := by
  obtain ⟨k, hk⟩ := wait_for_stopped_loop_frame 1000000 a
  refine ⟨k, ?_⟩
  simp only [i2c_adapter_wait_for_stopped]
  split <;> exact hk

theorem transfer_start_ne_stopped (a : pios_i2c_adapter) (l : List pios_i2c_txn) :
    (transfer_start a l).curr_state ≠ I2C_STATE_STOPPED := by
  unfold transfer_start
  simp only [inject_event_curr_state]
  exact settle_ne_stopped _ _ (by decide)

theorem transfer_finish_curr_state (ok : Bool) (a : pios_i2c_adapter)
    (h : a.curr_state = I2C_STATE_STOPPING) :
    (transfer_finish ok a).2.curr_state = I2C_STATE_STOPPED := by
  obtain ⟨k, hk⟩ := wait_for_stopped_frame a
  simp only [transfer_finish, emit]
  split
  · simp only [inject_event_curr_state, hk, h]
    decide
  · rfl

/-! ### C1 -/

/-- C1: a call of PIOS_I2C_Transfer that acquired the mutex and returned yields
-2 when the wait on the completion semaphore failed, otherwise -1 when bus_error
is set, otherwise 0; a semaphore timeout takes precedence over a bus error. -/
theorem transfer_result_priority (a : pios_i2c_adapter) (txn_list : List pios_i2c_txn)
    (env : TransferEnv) (p : Int × pios_i2c_adapter) (hlock : env.lock_ok = true)
    (hret : PIOS_I2C_Transfer a txn_list env = some p) :
    p.1 = if (transfer_waited a txn_list env).sem_ready = false then -2
          else if p.2.bus_error = true then -1 else 0 := by
  unfold PIOS_I2C_Transfer at hret
  simp only [hlock, Bool.true_eq_false, if_false] at hret
  split at hret
  · exact absurd hret (by simp)
  · simp only [Option.some.injEq] at hret
    subst hret
    cases h : (transfer_waited a txn_list env).sem_ready <;>
      simp [transfer_finish, emit, h]

/-- Witness of C1: the semaphore wait times out, the error interrupt that follows
sets bus_error, and the call returns -2. -/
theorem transfer_result_priority_witness :
    env_timeout_then_error.lock_ok = true ∧
    PIOS_I2C_Transfer idle_adapter one_byte_read env_timeout_then_error
      = some (transfer_outcome idle_adapter one_byte_read env_timeout_then_error) ∧
    (transfer_outcome idle_adapter one_byte_read env_timeout_then_error).2.bus_error = true ∧
    (transfer_outcome idle_adapter one_byte_read env_timeout_then_error).1 = -2 :=
  ⟨rfl, transfer_outcome_spec _ _ _ (by decide), by decide,
    (transfer_result_priority idle_adapter one_byte_read env_timeout_then_error _ rfl
      (transfer_outcome_spec _ _ _ (by decide))).trans (by decide)⟩

/-! ### C2 -/

/-- C2: whenever PIOS_I2C_Transfer acquires the mutex and returns, curr_state is
STOPPED at the return, for every transaction list, every entry state and every
sequence of interrupts, on both exit paths (STOPPED injected, or FSM
re-initialised after the STOP-bit wait expired). -/
theorem transfer_returns_stopped (a : pios_i2c_adapter) (txn_list : List pios_i2c_txn)
    (env : TransferEnv) (p : Int × pios_i2c_adapter) (hlock : env.lock_ok = true)
    (hret : PIOS_I2C_Transfer a txn_list env = some p) :
    p.2.curr_state = I2C_STATE_STOPPED := by
  unfold PIOS_I2C_Transfer at hret
  simp only [hlock, Bool.true_eq_false, if_false] at hret
  split at hret
  · exact absurd hret (by simp)
  · rename_i b hspin
    simp only [Option.some.injEq] at hret
    subst hret
    obtain ⟨hterm, hne⟩ := spin_until_terminated_spec _ _ _ hspin
    have hw : (transfer_waited a txn_list env).curr_state ≠ I2C_STATE_STOPPED :=
      serve_all_ne_stopped _ _ (transfer_start_ne_stopped _ _)
    apply transfer_finish_curr_state
    rcases (terminated_iff b).1 hterm with h | h
    · exact h
    · exact absurd h (hne hw)

/-- Witness of C2: a one-byte read answered by a well-behaved slave. -/
theorem transfer_returns_stopped_witness :
    (env_well_behaved one_byte_read).lock_ok = true ∧
    PIOS_I2C_Transfer idle_adapter one_byte_read (env_well_behaved one_byte_read)
      = some (transfer_outcome idle_adapter one_byte_read (env_well_behaved one_byte_read)) ∧
    (transfer_outcome idle_adapter one_byte_read
      (env_well_behaved one_byte_read)).2.curr_state = I2C_STATE_STOPPED :=
  ⟨rfl, transfer_outcome_spec _ _ _ (by decide),
    transfer_returns_stopped idle_adapter one_byte_read (env_well_behaved one_byte_read) _ rfl
      (transfer_outcome_spec _ _ _ (by decide))⟩

/-! ### The flag `bus_error` and the fault entry actions -/

@[simp] theorem fault_entries_nil : fault_entries [] = 0 := rfl

@[simp] theorem fault_entries_append (l1 l2 : List Op) :
    fault_entries (l1 ++ l2) = fault_entries l1 + fault_entries l2 := by
  simp [fault_entries, List.countP_append]

@[simp] theorem fault_entries_cons (o : Op) (l : List Op) :
    fault_entries (o :: l) = fault_entries l + if is_fault_entry o = true then 1 else 0 := by
  simp [fault_entries, List.countP_cons]

theorem fault_entries_fsm_ops (ops : List Op) :
    fault_entries (fsm_ops ops) = fault_entries ops := by
  induction ops with
  | nil => rfl
  | cons o l ih =>
    cases h : is_reset_op o
    · simp [fsm_ops, List.filter_cons, h] at ih ⊢
      exact ih
    · have hf : is_fault_entry o = false := by
        cases o <;> first | rfl | cases h
      simp [fsm_ops, List.filter_cons, h, hf] at ih ⊢
      exact ih

@[simp] theorem fault_entries_reset_bus (a : pios_i2c_adapter) :
    fault_entries (i2c_adapter_reset_bus a).ops = fault_entries a.ops := by
  rw [← fault_entries_fsm_ops, reset_bus_fsm_ops, fault_entries_fsm_ops]

theorem flag_tracks_refl (a : pios_i2c_adapter) : flag_tracks a a :=
  ⟨le_refl _, by simp⟩

theorem flag_tracks_trans {a b c : pios_i2c_adapter} (h1 : flag_tracks a b)
    (h2 : flag_tracks b c) : flag_tracks a c := by
  obtain ⟨l1, e1⟩ := h1
  obtain ⟨l2, e2⟩ := h2
  refine ⟨le_trans l1 l2, ?_⟩
  rw [e2, e1]
  constructor
  · rintro (h | h)
    · rcases h with h | h
      · exact Or.inl h
      · exact Or.inr (lt_of_lt_of_le h l2)
    · exact Or.inr (lt_of_le_of_lt l1 h)
  · rintro (h | h)
    · exact Or.inl (Or.inl h)
    · by_cases hb : fault_entries a.ops < fault_entries b.ops
      · exact Or.inl (Or.inr hb)
      · exact Or.inr (by omega)

/-- A step that leaves the flag alone and records no fault entry. -/
theorem flag_tracks_of_eq {a b : pios_i2c_adapter} (hb : b.bus_error = a.bus_error)
    (ho : fault_entries b.ops = fault_entries a.ops) : flag_tracks a b :=
  ⟨by omega, by rw [hb, ho]; simp⟩

theorem flag_tracks_call_entry_fn (a : pios_i2c_adapter) :
    flag_tracks a (call_entry_fn a) := by
  unfold call_entry_fn flag_tracks
  cases h : a.curr_state <;>
    simp [i2c_adapter_transitions, go_fsm_fault, go_bus_error, go_stopping, go_stopped,
      go_starting, go_r_any_txn_addr, go_r_more_txn_pre_one, go_r_last_txn_pre_one,
      go_r_any_txn_pre_first, go_r_any_txn_pre_middle, go_r_more_txn_pre_last,
      go_r_last_txn_pre_last, go_r_any_txn_post_last, go_w_any_txn_addr,
      go_w_any_txn_middle, go_w_more_txn_last, go_w_last_txn_last, go_nack, emit,
      store_active_byte, load_active_byte, I2C_ReceiveData, is_fault_entry]
  split <;> simp [is_fault_entry]

theorem flag_tracks_process_auto_loop (n : Nat) (a : pios_i2c_adapter) :
    flag_tracks a (process_auto_loop n a) := by
  induction n generalizing a with
  | zero => exact flag_tracks_refl a
  | succ n ih =>
    simp only [process_auto_loop]
    split
    · refine flag_tracks_trans (flag_tracks_trans ?_ (flag_tracks_call_entry_fn _)) (ih _)
      exact flag_tracks_of_eq rfl (by simp [set_state, is_fault_entry])
    · exact flag_tracks_refl a

theorem flag_tracks_inject_event (a : pios_i2c_adapter) (e : i2c_adapter_event) :
    flag_tracks a (i2c_adapter_inject_event a e) := by
  unfold i2c_adapter_inject_event i2c_adapter_process_auto
  have h1 : flag_tracks a (set_state (emit a Op.PIOS_IRQ_Disable)
      ((i2c_adapter_transitions (emit a Op.PIOS_IRQ_Disable).curr_state).next_state e)) :=
    flag_tracks_of_eq rfl (by simp [set_state, emit, is_fault_entry])
  have h2 := flag_tracks_trans h1 (flag_tracks_call_entry_fn _)
  have h3 : flag_tracks a (emit (call_entry_fn (set_state (emit a Op.PIOS_IRQ_Disable)
      ((i2c_adapter_transitions (emit a Op.PIOS_IRQ_Disable).curr_state).next_state e)))
      Op.PIOS_IRQ_Disable) :=
    flag_tracks_trans h2 (flag_tracks_of_eq rfl (by simp [emit, is_fault_entry]))
  have h4 := flag_tracks_trans h3 (flag_tracks_process_auto_loop I2C_STATE_NUM_STATES _)
  refine flag_tracks_trans h4 (flag_tracks_trans (b := emit _ Op.PIOS_IRQ_Enable)
    (flag_tracks_of_eq rfl (by simp [emit, is_fault_entry]))
    (flag_tracks_of_eq rfl (by simp [emit, is_fault_entry])))

theorem flag_tracks_serve (a : pios_i2c_adapter) (i : Irq) : flag_tracks a (serve a i) := by
  have hrx : flag_tracks a (I2C_ReceiveData a).2 :=
    flag_tracks_of_eq rfl (by simp [I2C_ReceiveData, is_fault_entry])
  have hsel : ∀ b, flag_tracks b (ev_master_mode_select b) := by
    intro b
    unfold ev_master_mode_select
    split <;> split_ifs <;>
      first | exact flag_tracks_refl b | exact flag_tracks_inject_event b _
  cases i with
  | ev raw =>
    simp only [serve, PIOS_I2C_EV_IRQ_Handler, ev_addr_sent, ev_transfer_done]
    split_ifs <;>
      first
      | exact flag_tracks_refl a
      | exact flag_tracks_inject_event a _
      | exact hsel a
      | exact flag_tracks_trans hrx (hsel _)
  | er raw =>
    simp only [serve, PIOS_I2C_ER_IRQ_Handler]
    split_ifs
    · exact flag_tracks_trans (b := emit a (Op.I2C_ClearFlag I2C_FLAG_AF))
        (flag_tracks_of_eq rfl (by simp [emit, is_fault_entry])) (flag_tracks_inject_event _ _)
    · exact flag_tracks_inject_event a _

theorem flag_tracks_serve_all (irqs : List Irq) (a : pios_i2c_adapter) :
    flag_tracks a (serve_all a irqs) := by
  induction irqs generalizing a with
  | nil => exact flag_tracks_refl a
  | cons i rest ih => exact flag_tracks_trans (flag_tracks_serve a i) (ih _)

theorem flag_tracks_spin (irqs : List Irq) (a b : pios_i2c_adapter)
    (h : spin_until_terminated irqs a = some b) : flag_tracks a b := by
  induction irqs generalizing a with
  | nil =>
    simp only [spin_until_terminated] at h
    split at h
    · cases h; exact flag_tracks_refl _
    · cases h
  | cons i rest ih =>
    simp only [spin_until_terminated] at h
    split at h
    · cases h; exact flag_tracks_refl _
    · exact flag_tracks_trans (flag_tracks_serve a i) (ih _ h)

theorem flag_tracks_transfer_finish (ok : Bool) (a : pios_i2c_adapter) :
    flag_tracks a (transfer_finish ok a).2 := by
  obtain ⟨k, hk⟩ := wait_for_stopped_frame a
  have h1 : flag_tracks a (i2c_adapter_wait_for_stopped a).2 :=
    flag_tracks_of_eq (by rw [hk]) (by rw [hk])
  simp only [transfer_finish]
  split
  · exact flag_tracks_trans (flag_tracks_trans h1 (flag_tracks_inject_event _ _))
      (flag_tracks_of_eq rfl (by simp [emit, is_fault_entry]))
  · exact flag_tracks_trans h1
      (flag_tracks_of_eq (by simp [emit, i2c_adapter_fsm_init, set_state])
        (by simp [emit, i2c_adapter_fsm_init, set_state, is_fault_entry]))

/-! ### C3 -/

/-- C3: for every transfer that returns with the mutex acquired, bus_error is
true when the result is computed if and only if go_fsm_fault or go_bus_error ran
at least once during the call (after the entry cleared the flag): the trace of
the call holds one more fault entry action than the trace before it. -/
theorem bus_error_iff_fault_entry (a : pios_i2c_adapter) (txn_list : List pios_i2c_txn)
    (env : TransferEnv) (p : Int × pios_i2c_adapter) (hlock : env.lock_ok = true)
    (hret : PIOS_I2C_Transfer a txn_list env = some p) :
    p.2.bus_error = true ↔ fault_entries a.ops < fault_entries p.2.ops := by
  unfold PIOS_I2C_Transfer at hret
  simp only [hlock, Bool.true_eq_false, if_false] at hret
  split at hret
  · exact absurd hret (by simp)
  · rename_i b hspin
    simp only [Option.some.injEq] at hret
    subst hret
    have h0 : flag_tracks (transfer_install (emit a (Op.PIOS_Mutex_Lock true)) txn_list)
        (transfer_waited a txn_list env) :=
      flag_tracks_trans (flag_tracks_inject_event _ _) (flag_tracks_serve_all _ _)
    have h1 : flag_tracks (transfer_waited a txn_list env)
        (emit { transfer_waited a txn_list env with sem_ready := false }
          (Op.PIOS_Semaphore_Take true)) :=
      flag_tracks_of_eq rfl (by simp [emit, is_fault_entry])
    have h := flag_tracks_trans (flag_tracks_trans (flag_tracks_trans h0 h1)
      (flag_tracks_spin _ _ _ hspin))
      (flag_tracks_transfer_finish (transfer_waited a txn_list env).sem_ready b)
    obtain ⟨_, hiff⟩ := h
    rw [hiff]
    simp [transfer_install, emit, is_fault_entry]

/-- Witness of C3: an error interrupt during a one-byte read runs go_bus_error
once and the call returns with bus_error set. -/
theorem bus_error_iff_fault_entry_witness :
    env_timeout_then_error.lock_ok = true ∧
    PIOS_I2C_Transfer idle_adapter one_byte_read env_timeout_then_error
      = some (transfer_outcome idle_adapter one_byte_read env_timeout_then_error) ∧
    ((transfer_outcome idle_adapter one_byte_read env_timeout_then_error).2.bus_error = true ↔
      fault_entries idle_adapter.ops <
        fault_entries (transfer_outcome idle_adapter one_byte_read
          env_timeout_then_error).2.ops) ∧
    fault_entries (transfer_outcome idle_adapter one_byte_read
      env_timeout_then_error).2.ops = 1 :=
  ⟨rfl, transfer_outcome_spec _ _ _ (by decide),
    bus_error_iff_fault_entry idle_adapter one_byte_read env_timeout_then_error _ rfl
      (transfer_outcome_spec _ _ _ (by decide)), by decide⟩

/-! ### C4 -/

/-- C4 (evaluation at the failing input): a write whose address byte is not
acknowledged is aborted with a STOP request, yet bus_error stays clear and
PIOS_I2C_Transfer returns 0, not -1. -/
theorem nack_on_write_returns_zero :
    (PIOS_I2C_Transfer idle_adapter two_byte_write env_nack_on_address).isSome = true ∧
    (transfer_outcome idle_adapter two_byte_write env_nack_on_address).1 = 0 ∧
    (transfer_outcome idle_adapter two_byte_write env_nack_on_address).2.bus_error = false ∧
    Op.entry_fn I2C_STATE_NACK ∈
      (transfer_outcome idle_adapter two_byte_write env_nack_on_address).2.ops ∧
    Op.I2C_GenerateSTOP ∈
      (transfer_outcome idle_adapter two_byte_write env_nack_on_address).2.ops := by
  decide

/-! ### The shape of an injection -/

theorem process_auto_loop_rest (n : Nat) (a : pios_i2c_adapter)
    (h : (i2c_adapter_transitions a.curr_state).next_state I2C_EVENT_AUTO
      = I2C_STATE_FSM_FAULT) :
    process_auto_loop n a = a := by
  cases n with
  | zero => rfl
  | succ n => simp [process_auto_loop, h]

/-- An injection whose target state has no AUTO edge: the state is written, its
entry action runs, and the engine returns. -/
theorem inject_event_no_auto (a : pios_i2c_adapter) (e : i2c_adapter_event)
    (h : (i2c_adapter_transitions
      ((i2c_adapter_transitions a.curr_state).next_state e)).next_state I2C_EVENT_AUTO
        = I2C_STATE_FSM_FAULT) :
    i2c_adapter_inject_event a e =
      emit (emit (emit (call_entry_fn (set_state (emit a Op.PIOS_IRQ_Disable)
        ((i2c_adapter_transitions a.curr_state).next_state e))) Op.PIOS_IRQ_Disable)
        Op.PIOS_IRQ_Enable) Op.PIOS_IRQ_Enable := by
  simp only [i2c_adapter_inject_event, i2c_adapter_process_auto]
  rw [process_auto_loop_rest]
  · rfl
  · show (i2c_adapter_transitions (call_entry_fn _).curr_state).next_state _ = _
    rw [call_entry_fn_curr_state]
    exact h

/-- An injection whose target state has an AUTO edge to a state without one:
two states are written and two entry actions run. -/
theorem inject_event_one_auto (a : pios_i2c_adapter) (e : i2c_adapter_event)
    (s1 s2 : i2c_adapter_state)
    (h1 : (i2c_adapter_transitions a.curr_state).next_state e = s1)
    (h2 : (i2c_adapter_transitions s1).next_state I2C_EVENT_AUTO = s2)
    (h3 : s2 ≠ I2C_STATE_FSM_FAULT)
    (h4 : (i2c_adapter_transitions s2).next_state I2C_EVENT_AUTO = I2C_STATE_FSM_FAULT) :
    i2c_adapter_inject_event a e =
      emit (emit (call_entry_fn (set_state (emit (call_entry_fn (set_state
        (emit a Op.PIOS_IRQ_Disable) s1)) Op.PIOS_IRQ_Disable) s2))
        Op.PIOS_IRQ_Enable) Op.PIOS_IRQ_Enable := by
  simp only [i2c_adapter_inject_event, i2c_adapter_process_auto]
  have hc : (emit (call_entry_fn (set_state (emit a Op.PIOS_IRQ_Disable)
      ((i2c_adapter_transitions (emit a Op.PIOS_IRQ_Disable).curr_state).next_state e)))
      Op.PIOS_IRQ_Disable).curr_state = s1 := by
    show (call_entry_fn _).curr_state = s1
    rw [call_entry_fn_curr_state]
    exact h1
  rw [show I2C_STATE_NUM_STATES = 23 + 1 from rfl, process_auto_loop]
  rw [hc, h2, if_pos h3, process_auto_loop_rest]
  · show emit (emit (call_entry_fn (set_state (emit (call_entry_fn (set_state
      (emit a Op.PIOS_IRQ_Disable) ((i2c_adapter_transitions a.curr_state).next_state e)))
      Op.PIOS_IRQ_Disable) s2)) Op.PIOS_IRQ_Enable) Op.PIOS_IRQ_Enable = _
    rw [h1]
  · rw [call_entry_fn_curr_state]
    exact h4

/-! ### Well-behaved reads -/

theorem ev_handler_ev5 (a : pios_i2c_adapter) :
    PIOS_I2C_EV_IRQ_Handler a I2C_EVENT_MASTER_MODE_SELECT = ev_master_mode_select a := rfl

theorem ev_handler_ev6_receiver (a : pios_i2c_adapter) :
    PIOS_I2C_EV_IRQ_Handler a I2C_EVENT_MASTER_RECEIVER_MODE_SELECTED = ev_addr_sent a := rfl

theorem ev_handler_ev6_transmitter (a : pios_i2c_adapter) :
    PIOS_I2C_EV_IRQ_Handler a I2C_EVENT_MASTER_TRANSMITTER_MODE_SELECTED = ev_addr_sent a := rfl

theorem ev_handler_ev7 (a : pios_i2c_adapter) :
    PIOS_I2C_EV_IRQ_Handler a I2C_EVENT_MASTER_BYTE_RECEIVED = ev_transfer_done a := rfl

theorem ev_handler_ev8_2 (a : pios_i2c_adapter) :
    PIOS_I2C_EV_IRQ_Handler a I2C_EVENT_MASTER_BYTE_TRANSMITTED = ev_transfer_done a := rfl

theorem ev_transfer_done_gt_2 (a : pios_i2c_adapter)
    (h : 3 ≤ a.last_byte - a.active_byte + 1) :
    ev_transfer_done a = i2c_adapter_inject_event a I2C_EVENT_TRANSFER_DONE_LEN_GT_2 := by
  unfold ev_transfer_done
  rw [if_neg (by omega), if_neg (by omega), if_neg (by omega)]

theorem ev_transfer_done_eq_2 (a : pios_i2c_adapter)
    (h : a.last_byte - a.active_byte + 1 = 2) :
    ev_transfer_done a = i2c_adapter_inject_event a I2C_EVENT_TRANSFER_DONE_LEN_EQ_2 := by
  unfold ev_transfer_done
  rw [if_neg (by omega), if_neg (by omega), if_pos h]

theorem ev_transfer_done_eq_1 (a : pios_i2c_adapter)
    (h : a.last_byte - a.active_byte + 1 = 1) :
    ev_transfer_done a = i2c_adapter_inject_event a I2C_EVENT_TRANSFER_DONE_LEN_EQ_1 := by
  unfold ev_transfer_done
  rw [if_neg (by omega), if_pos h]

theorem ev_transfer_done_eq_0 (a : pios_i2c_adapter)
    (h : a.last_byte - a.active_byte + 1 = 0) :
    ev_transfer_done a = i2c_adapter_inject_event a I2C_EVENT_TRANSFER_DONE_LEN_EQ_0 := by
  unfold ev_transfer_done
  rw [if_pos h]

theorem go_starting_eq (a : pios_i2c_adapter) :
    go_starting a =
      { a with byte_txn := a.active_txn, active_byte := 0,
               last_byte := ((txn_at a.txns a.active_txn).len : Int) - 1,
               ops := a.ops ++ starting_body (txn_at a.txns a.active_txn) } := by
  simp only [go_starting]
  split <;> rename_i h <;> simp [emit, starting_body, h]

theorem read_middle_step (more : Bool) (a : pios_i2c_adapter)
    (hs : a.curr_state = r_pre_first more ∨ a.curr_state = r_pre_middle more)
    (hrem : 3 ≤ a.last_byte - a.active_byte + 1) :
    serve a (Irq.ev I2C_EVENT_MASTER_BYTE_RECEIVED) =
      { a with curr_state := r_pre_middle more, active_byte := a.active_byte + 1,
               txns := store_byte a.txns a.byte_txn a.active_byte (a.rx_data a.n_rx % 256),
               n_rx := a.n_rx + 1,
               ops := a.ops ++ step_ops (r_pre_middle more)
                 [Op.I2C_ReceiveData, Op.byte_access a.byte_txn a.active_byte a.last_byte] } := by
  show PIOS_I2C_EV_IRQ_Handler a I2C_EVENT_MASTER_BYTE_RECEIVED = _
  rw [ev_handler_ev7, ev_transfer_done_gt_2 a hrem]
  cases more <;> rcases hs with hs | hs <;>
    · rw [inject_event_no_auto _ _ (by rw [hs]; rfl)]
      simp [hs, r_pre_first, r_pre_middle, i2c_adapter_transitions, call_entry_fn, set_state,
        emit, go_r_any_txn_pre_middle, I2C_ReceiveData, store_active_byte, step_ops]

theorem read_pre_last_step (more : Bool) (a : pios_i2c_adapter)
    (hs : a.curr_state = r_pre_first more ∨ a.curr_state = r_pre_middle more)
    (hrem : a.last_byte - a.active_byte + 1 = 2) :
    serve a (Irq.ev I2C_EVENT_MASTER_BYTE_RECEIVED) =
      { a with curr_state := r_pre_last more, active_byte := a.active_byte + 1,
               txns := store_byte a.txns a.byte_txn a.active_byte (a.rx_data a.n_rx % 256),
               n_rx := a.n_rx + 1,
               ops := a.ops ++ pre_last_ops more a.byte_txn a.active_byte a.last_byte } := by
  show PIOS_I2C_EV_IRQ_Handler a I2C_EVENT_MASTER_BYTE_RECEIVED = _
  rw [ev_handler_ev7, ev_transfer_done_eq_2 a hrem]
  cases more <;> rcases hs with hs | hs <;>
    · rw [inject_event_no_auto _ _ (by rw [hs]; rfl)]
      simp [hs, r_pre_first, r_pre_middle, r_pre_last, i2c_adapter_transitions, call_entry_fn,
        set_state, emit, go_r_more_txn_pre_last, go_r_last_txn_pre_last, I2C_ReceiveData,
        store_active_byte, step_ops, pre_last_ops, chain_op]

theorem read_post_last_step (more : Bool) (a : pios_i2c_adapter)
    (hs : a.curr_state = r_pre_one more ∨ a.curr_state = r_pre_last more)
    (hrem : a.last_byte - a.active_byte + 1 = 1) :
    serve a (Irq.ev I2C_EVENT_MASTER_BYTE_RECEIVED) =
      finish_read more a
        (store_byte a.txns a.byte_txn a.active_byte (a.rx_data a.n_rx % 256)) (a.n_rx + 1)
        (post_last_ops more a.byte_txn a.active_byte a.last_byte
          (txn_at (store_byte a.txns a.byte_txn a.active_byte (a.rx_data a.n_rx % 256))
            (a.active_txn + 1))) := by
  show PIOS_I2C_EV_IRQ_Handler a I2C_EVENT_MASTER_BYTE_RECEIVED = _
  rw [ev_handler_ev7, ev_transfer_done_eq_1 a hrem]
  have hb : a.active_byte + 1 = a.last_byte + 1 := by omega
  cases more
  · rcases hs with hs | hs <;>
    · rw [inject_event_one_auto a _ (r_post_last false) (next_txn_state false)
        (by rw [hs]; rfl) rfl (by decide) rfl]
      simp [hs, r_post_last, next_txn_state, i2c_adapter_transitions,
        call_entry_fn, set_state, emit, go_r_any_txn_post_last, go_stopping,
        I2C_ReceiveData, store_active_byte, post_last_ops, auto_step_ops, finish_read,
        next_txn_body, stopping_body, hb]
  · rcases hs with hs | hs <;>
    · rw [inject_event_one_auto a _ (r_post_last true) (next_txn_state true)
        (by rw [hs]; rfl) rfl (by decide) rfl]
      simp [hs, r_post_last, next_txn_state, i2c_adapter_transitions,
        call_entry_fn, set_state, emit, go_r_any_txn_post_last, go_starting_eq,
        I2C_ReceiveData, store_active_byte, post_last_ops, auto_step_ops, finish_read,
        next_txn_body, hb]

theorem serve_all_cons (a : pios_i2c_adapter) (i : Irq) (rest : List Irq) :
    serve_all a (i :: rest) = serve_all (serve a i) rest := rfl

theorem serve_all_nil (a : pios_i2c_adapter) : serve_all a [] = a := rfl

theorem serve_all_append (a : pios_i2c_adapter) (l1 l2 : List Irq) :
    serve_all a (l1 ++ l2) = serve_all (serve_all a l1) l2 := by
  simp [serve_all, List.foldl_append]

/-- The bytes of a read from the moment at least two remain: `k` middle bytes,
the PRE_LAST byte and the POST_LAST byte. -/
theorem read_tail (more : Bool) (k : Nat) (a : pios_i2c_adapter)
    (hs : a.curr_state = r_pre_first more ∨ a.curr_state = r_pre_middle more)
    (hrem : a.last_byte - a.active_byte + 1 = (k : Int) + 2) :
    serve_all a (List.replicate (k + 2) (Irq.ev I2C_EVENT_MASTER_BYTE_RECEIVED)) =
      finish_read more a
        (read_fill a.rx_data a.byte_txn (k + 2) a.active_byte a.n_rx a.txns) (a.n_rx + (k + 2))
        (middle_ops more a.byte_txn a.last_byte k a.active_byte ++
          pre_last_ops more a.byte_txn (a.active_byte + k) a.last_byte ++
          post_last_ops more a.byte_txn (a.active_byte + k + 1) a.last_byte
            (txn_at (read_fill a.rx_data a.byte_txn (k + 2) a.active_byte a.n_rx a.txns)
              (a.active_txn + 1))) := by
  induction k generalizing a with
  | zero =>
    simp only [List.replicate, serve_all_cons, serve_all_nil]
    rw [read_pre_last_step more a hs (by simpa using hrem), read_post_last_step more]
    · cases more <;> simp [finish_read, read_fill, middle_ops]
    · exact Or.inr rfl
    · dsimp only; simp only [Nat.cast_zero] at hrem; omega
  | succ k ih =>
    rw [List.replicate_succ, serve_all_cons]
    rw [read_middle_step more a hs (by push_cast at hrem; omega), ih]
    · cases more <;>
        simp [finish_read, read_fill, middle_ops, add_assoc, add_comm, add_left_comm]
    · exact Or.inr rfl
    · dsimp only; push_cast at hrem ⊢; omega

theorem ev_addr_sent_eq_1 (a : pios_i2c_adapter) (h : a.last_byte - a.active_byte + 1 = 1) :
    ev_addr_sent a = i2c_adapter_inject_event a I2C_EVENT_ADDR_SENT_LEN_EQ_1 := by
  unfold ev_addr_sent
  rw [if_neg (by omega), if_pos h]

theorem ev_addr_sent_eq_2 (a : pios_i2c_adapter) (h : a.last_byte - a.active_byte + 1 = 2) :
    ev_addr_sent a = i2c_adapter_inject_event a I2C_EVENT_ADDR_SENT_LEN_EQ_2 := by
  unfold ev_addr_sent
  rw [if_neg (by omega), if_neg (by omega), if_pos h]

theorem ev_addr_sent_gt_2 (a : pios_i2c_adapter) (h : 3 ≤ a.last_byte - a.active_byte + 1) :
    ev_addr_sent a = i2c_adapter_inject_event a I2C_EVENT_ADDR_SENT_LEN_GT_2 := by
  unfold ev_addr_sent
  rw [if_neg (by omega), if_neg (by omega), if_neg (by omega)]

/-- The answer to EV5 in STARTING when the active transaction is a read. -/
theorem read_start_step (more : Bool) (a : pios_i2c_adapter)
    (hs : a.curr_state = I2C_STATE_STARTING)
    (hrw : (txn_at a.txns a.active_txn).rw = PIOS_I2C_TXN_READ)
    (hm : (more = true ∧ a.active_txn < a.last_txn) ∨
      (more = false ∧ a.active_txn = a.last_txn)) :
    serve a (Irq.ev I2C_EVENT_MASTER_MODE_SELECT) =
      { a with curr_state := r_addr more,
               ops := a.ops ++ step_ops (r_addr more)
                 [Op.I2C_Send7bitAddress (((txn_at a.txns a.active_txn).addr <<< 1) % 256)
                   I2C_Direction.I2C_Direction_Receiver] } := by
  show PIOS_I2C_EV_IRQ_Handler a I2C_EVENT_MASTER_MODE_SELECT = _
  rw [ev_handler_ev5]
  simp only [ev_master_mode_select, hrw]
  rcases hm with ⟨rfl, hlt⟩ | ⟨rfl, heq⟩
  · rw [if_neg (by omega), if_pos hlt, inject_event_no_auto _ _ (by rw [hs]; rfl)]
    simp [hs, r_addr, i2c_adapter_transitions, call_entry_fn, set_state, emit,
      go_r_any_txn_addr, step_ops]
  · rw [if_pos heq, inject_event_no_auto _ _ (by rw [hs]; rfl)]
    simp [hs, r_addr, i2c_adapter_transitions, call_entry_fn, set_state, emit,
      go_r_any_txn_addr, step_ops]

/-- The answer to EV6 in a read address state when one byte is to be read. -/
theorem read_addr_step_one (more : Bool) (a : pios_i2c_adapter)
    (hs : a.curr_state = r_addr more) (hrem : a.last_byte - a.active_byte + 1 = 1) :
    serve a (Irq.ev I2C_EVENT_MASTER_RECEIVER_MODE_SELECTED) =
      { a with curr_state := r_pre_one more,
               ops := a.ops ++ step_ops (r_pre_one more)
                 [Op.I2C_AcknowledgeConfig false, chain_op more] } := by
  show PIOS_I2C_EV_IRQ_Handler a I2C_EVENT_MASTER_RECEIVER_MODE_SELECTED = _
  rw [ev_handler_ev6_receiver, ev_addr_sent_eq_1 a hrem]
  cases more <;>
    · rw [inject_event_no_auto _ _ (by rw [hs]; rfl)]
      simp [hs, r_addr, r_pre_one, i2c_adapter_transitions, call_entry_fn, set_state, emit,
        go_r_more_txn_pre_one, go_r_last_txn_pre_one, step_ops, chain_op]

/-- The answer to EV6 in a read address state when two or more bytes are to be
read. -/
theorem read_addr_step_many (more : Bool) (a : pios_i2c_adapter)
    (hs : a.curr_state = r_addr more) (hrem : 2 ≤ a.last_byte - a.active_byte + 1) :
    serve a (Irq.ev I2C_EVENT_MASTER_RECEIVER_MODE_SELECTED) =
      { a with curr_state := r_pre_first more,
               ops := a.ops ++ step_ops (r_pre_first more) [Op.I2C_AcknowledgeConfig true] } := by
  show PIOS_I2C_EV_IRQ_Handler a I2C_EVENT_MASTER_RECEIVER_MODE_SELECTED = _
  rw [ev_handler_ev6_receiver]
  by_cases h2 : a.last_byte - a.active_byte + 1 = 2
  · rw [ev_addr_sent_eq_2 a h2]
    cases more <;>
      · rw [inject_event_no_auto _ _ (by rw [hs]; rfl)]
        simp [hs, r_addr, r_pre_first, i2c_adapter_transitions, call_entry_fn, set_state, emit,
          go_r_any_txn_pre_first, step_ops]
  · rw [ev_addr_sent_gt_2 a (by omega)]
    cases more <;>
      · rw [inject_event_no_auto _ _ (by rw [hs]; rfl)]
        simp [hs, r_addr, r_pre_first, i2c_adapter_transitions, call_entry_fn, set_state, emit,
          go_r_any_txn_pre_first, step_ops]

/-- A whole read transaction answered by a well-behaved slave, from STARTING to
the state after the transaction. -/
theorem read_txn_run (more : Bool) (a : pios_i2c_adapter)
    (hs : a.curr_state = I2C_STATE_STARTING)
    (hrw : (txn_at a.txns a.active_txn).rw = PIOS_I2C_TXN_READ)
    (hm : (more = true ∧ a.active_txn < a.last_txn) ∨
      (more = false ∧ a.active_txn = a.last_txn))
    (hlen : 1 ≤ (txn_at a.txns a.active_txn).len)
    (hbt : a.byte_txn = a.active_txn)
    (hact : a.active_byte = 0)
    (hlast : a.last_byte = ((txn_at a.txns a.active_txn).len : Int) - 1) :
    serve_all a (txn_statuses (txn_at a.txns a.active_txn)) =
      finish_read more a
        (read_fill a.rx_data a.active_txn (txn_at a.txns a.active_txn).len 0 a.n_rx a.txns)
        (a.n_rx + (txn_at a.txns a.active_txn).len)
        (read_txn_ops more a.active_txn (txn_at a.txns a.active_txn)
          (txn_at (read_fill a.rx_data a.active_txn (txn_at a.txns a.active_txn).len 0 a.n_rx
            a.txns) (a.active_txn + 1))) := by
  simp only [txn_statuses, hrw, serve_all_cons]
  rw [read_start_step more a hs hrw hm]
  generalize hN : (txn_at a.txns a.active_txn).len = N at hlen hlast ⊢
  match N, hlen with
  | 1, _ =>
    simp only [Nat.cast_one, sub_self] at hlast
    rw [List.replicate_succ, serve_all_cons, read_addr_step_one more, read_post_last_step more]
    · simp only [List.replicate, serve_all_nil]
      cases more <;> simp [finish_read, read_fill, read_txn_ops, hN, hact, hlast, hbt]
    · exact Or.inl rfl
    · dsimp only; omega
    · rfl
    · dsimp only; omega
  | k + 2, _ =>
    have hlast2 : a.last_byte = (k : Int) + 1 := by push_cast at hlast; omega
    rw [read_addr_step_many more, read_tail more k]
    · cases more <;>
        simp [finish_read, read_txn_ops, hN, hact, hlast2, hbt, List.append_assoc]
    · exact Or.inl rfl
    · dsimp only; push_cast at hlast; omega
    · rfl
    · dsimp only; push_cast at hlast; omega

/-! ### Well-behaved writes -/

/-- The answer to EV5 in STARTING when the active transaction is a write. -/
theorem write_start_step (more : Bool) (a : pios_i2c_adapter)
    (hs : a.curr_state = I2C_STATE_STARTING)
    (hrw : (txn_at a.txns a.active_txn).rw = PIOS_I2C_TXN_WRITE)
    (hm : (more = true ∧ a.active_txn < a.last_txn) ∨
      (more = false ∧ a.active_txn = a.last_txn)) :
    serve a (Irq.ev I2C_EVENT_MASTER_MODE_SELECT) =
      { a with curr_state := w_addr more,
               ops := a.ops ++ step_ops (w_addr more)
                 [Op.I2C_Send7bitAddress (((txn_at a.txns a.active_txn).addr <<< 1) % 256)
                   I2C_Direction.I2C_Direction_Transmitter] } := by
  show PIOS_I2C_EV_IRQ_Handler a I2C_EVENT_MASTER_MODE_SELECT = _
  rw [ev_handler_ev5]
  simp only [ev_master_mode_select, hrw]
  rcases hm with ⟨rfl, hlt⟩ | ⟨rfl, heq⟩
  · rw [if_neg (by omega), if_pos hlt, inject_event_no_auto _ _ (by rw [hs]; rfl)]
    simp [hs, w_addr, i2c_adapter_transitions, call_entry_fn, set_state, emit,
      go_w_any_txn_addr, step_ops]
  · rw [if_pos heq, inject_event_no_auto _ _ (by rw [hs]; rfl)]
    simp [hs, w_addr, i2c_adapter_transitions, call_entry_fn, set_state, emit,
      go_w_any_txn_addr, step_ops]

/-- An injection that enters the middle write state sends one byte. -/
theorem write_middle_inject (more : Bool) (a : pios_i2c_adapter) (e : i2c_adapter_event)
    (h : (i2c_adapter_transitions a.curr_state).next_state e = w_middle more) :
    i2c_adapter_inject_event a e =
      { a with curr_state := w_middle more, active_byte := a.active_byte + 1,
               ops := a.ops ++ step_ops (w_middle more)
                 [Op.byte_access a.byte_txn a.active_byte a.last_byte,
                  Op.I2C_SendData (byte_at (txn_at a.txns a.byte_txn).buf a.active_byte)] } := by
  rw [inject_event_no_auto _ _ (by rw [h]; cases more <;> rfl), h]
  cases more <;>
    simp [w_middle, i2c_adapter_transitions, call_entry_fn, set_state, emit,
      go_w_any_txn_middle, load_active_byte, load_byte, step_ops]

/-- An injection that enters the last write state sends the last byte; in the
MORE branch it also advances the transaction cursor, in the LAST branch it
requests the STOP. -/
theorem write_last_inject (more : Bool) (a : pios_i2c_adapter) (e : i2c_adapter_event)
    (h : (i2c_adapter_transitions a.curr_state).next_state e = w_last more) :
    i2c_adapter_inject_event a e =
      { a with curr_state := w_last more, active_byte := a.active_byte + 1,
               active_txn := if more then a.active_txn + 1 else a.active_txn,
               ops := a.ops ++ step_ops (w_last more)
                 (w_last_body more (txn_at a.txns a.byte_txn).buf a.byte_txn a.active_byte a.last_byte) } := by
  rw [inject_event_no_auto _ _ (by rw [h]; cases more <;> rfl), h]
  cases more <;>
    simp [w_last, i2c_adapter_transitions, call_entry_fn, set_state, emit,
      go_w_more_txn_last, go_w_last_txn_last, load_active_byte, load_byte, step_ops,
      w_last_body]

/-- The byte-transmitted status after the last byte of a write: STARTING for
the next transaction, or STOPPING. -/
theorem write_done_step (more : Bool) (a : pios_i2c_adapter)
    (hs : a.curr_state = w_last more) (hrem : a.last_byte - a.active_byte + 1 = 0) :
    serve a (Irq.ev I2C_EVENT_MASTER_BYTE_TRANSMITTED) =
      if more then
        { a with curr_state := I2C_STATE_STARTING, byte_txn := a.active_txn, active_byte := 0,
                 last_byte := ((txn_at a.txns a.active_txn).len : Int) - 1,
                 ops := a.ops ++ step_ops I2C_STATE_STARTING
                   (starting_body (txn_at a.txns a.active_txn)) }
      else
        { a with curr_state := I2C_STATE_STOPPING, sem_ready := true,
                 ops := a.ops ++ step_ops I2C_STATE_STOPPING stopping_body } := by
  show PIOS_I2C_EV_IRQ_Handler a I2C_EVENT_MASTER_BYTE_TRANSMITTED = _
  rw [ev_handler_ev8_2, ev_transfer_done_eq_0 a hrem]
  cases more <;>
    · rw [inject_event_no_auto _ _ (by rw [hs]; rfl)]
      simp [hs, w_last, i2c_adapter_transitions, call_entry_fn, set_state, emit,
        go_starting_eq, go_stopping, step_ops, stopping_body]

/-- The byte-transmitted status in the middle write state when the last byte is
next. -/
theorem write_last_step (more : Bool) (a : pios_i2c_adapter)
    (hs : a.curr_state = w_middle more) (hrem : a.last_byte - a.active_byte + 1 = 1) :
    serve a (Irq.ev I2C_EVENT_MASTER_BYTE_TRANSMITTED) =
      { a with curr_state := w_last more, active_byte := a.active_byte + 1,
               active_txn := if more then a.active_txn + 1 else a.active_txn,
               ops := a.ops ++ step_ops (w_last more)
                 (w_last_body more (txn_at a.txns a.byte_txn).buf a.byte_txn a.active_byte a.last_byte) } := by
  show PIOS_I2C_EV_IRQ_Handler a I2C_EVENT_MASTER_BYTE_TRANSMITTED = _
  rw [ev_handler_ev8_2, ev_transfer_done_eq_1 a hrem]
  exact write_last_inject more a _ (by rw [hs]; cases more <;> rfl)

/-- The byte-transmitted status in the middle write state when two or more
bytes remain. -/
theorem write_middle_step (more : Bool) (a : pios_i2c_adapter)
    (hs : a.curr_state = w_middle more) (hrem : 2 ≤ a.last_byte - a.active_byte + 1) :
    serve a (Irq.ev I2C_EVENT_MASTER_BYTE_TRANSMITTED) =
      { a with curr_state := w_middle more, active_byte := a.active_byte + 1,
               ops := a.ops ++ step_ops (w_middle more)
                 [Op.byte_access a.byte_txn a.active_byte a.last_byte,
                  Op.I2C_SendData (byte_at (txn_at a.txns a.byte_txn).buf a.active_byte)] } := by
  show PIOS_I2C_EV_IRQ_Handler a I2C_EVENT_MASTER_BYTE_TRANSMITTED = _
  rw [ev_handler_ev8_2]
  by_cases h2 : a.last_byte - a.active_byte + 1 = 2
  · rw [ev_transfer_done_eq_2 a h2]
    exact write_middle_inject more a _ (by rw [hs]; cases more <;> rfl)
  · rw [ev_transfer_done_gt_2 a (by omega)]
    exact write_middle_inject more a _ (by rw [hs]; cases more <;> rfl)

/-- The bytes of a write from the middle state on: `k` middle bytes, the last
byte, and the status after it. -/
theorem write_tail (more : Bool) (k : Nat) (a : pios_i2c_adapter)
    (hs : a.curr_state = w_middle more)
    (hrem : a.last_byte - a.active_byte + 1 = (k : Int) + 1) :
    serve_all a (List.replicate (k + 2) (Irq.ev I2C_EVENT_MASTER_BYTE_TRANSMITTED)) =
      finish_write more a
        (w_middle_ops more (txn_at a.txns a.byte_txn).buf a.byte_txn a.last_byte k a.active_byte ++
          w_last_ops more (txn_at a.txns a.byte_txn).buf a.byte_txn (a.active_byte + k) a.last_byte
            (txn_at a.txns (a.active_txn + 1))) := by
  induction k generalizing a with
  | zero =>
    simp only [List.replicate, serve_all_cons, serve_all_nil]
    rw [write_last_step more a hs (by simpa using hrem), write_done_step more]
    · have hb : a.active_byte + 1 = a.last_byte + 1 := by
        simp only [Nat.cast_zero] at hrem; omega
      cases more <;>
        simp [finish_write, w_middle_ops, w_last_ops, next_txn_state, next_txn_body, hb]
    · rfl
    · dsimp only; simp only [Nat.cast_zero] at hrem; omega
  | succ k ih =>
    rw [List.replicate_succ, serve_all_cons]
    rw [write_middle_step more a hs (by push_cast at hrem; omega), ih]
    · cases more <;>
        simp [finish_write, w_middle_ops, load_byte, add_assoc, add_comm, add_left_comm]
    · rfl
    · dsimp only; push_cast at hrem ⊢; omega

/-- The answer to EV6 in a write address state when one byte is to be sent. -/
theorem write_addr_step_one (more : Bool) (a : pios_i2c_adapter)
    (hs : a.curr_state = w_addr more) (hrem : a.last_byte - a.active_byte + 1 = 1) :
    ev_addr_sent a =
      { a with curr_state := w_last more, active_byte := a.active_byte + 1,
               active_txn := if more then a.active_txn + 1 else a.active_txn,
               ops := a.ops ++ step_ops (w_last more)
                 (w_last_body more (txn_at a.txns a.byte_txn).buf a.byte_txn a.active_byte a.last_byte) } := by
  rw [ev_addr_sent_eq_1 a hrem]
  exact write_last_inject more a _ (by rw [hs]; cases more <;> rfl)

/-- The answer to EV6 in a write address state when two or more bytes are to be
sent. -/
theorem write_addr_step_many (more : Bool) (a : pios_i2c_adapter)
    (hs : a.curr_state = w_addr more) (hrem : 2 ≤ a.last_byte - a.active_byte + 1) :
    ev_addr_sent a =
      { a with curr_state := w_middle more, active_byte := a.active_byte + 1,
               ops := a.ops ++ step_ops (w_middle more)
                 [Op.byte_access a.byte_txn a.active_byte a.last_byte,
                  Op.I2C_SendData (byte_at (txn_at a.txns a.byte_txn).buf a.active_byte)] } := by
  by_cases h2 : a.last_byte - a.active_byte + 1 = 2
  · rw [ev_addr_sent_eq_2 a h2]
    exact write_middle_inject more a _ (by rw [hs]; cases more <;> rfl)
  · rw [ev_addr_sent_gt_2 a (by omega)]
    exact write_middle_inject more a _ (by rw [hs]; cases more <;> rfl)

/-- A whole write transaction answered by a well-behaved slave, from STARTING
to the state after the transaction. -/
theorem write_txn_run (more : Bool) (a : pios_i2c_adapter)
    (hs : a.curr_state = I2C_STATE_STARTING)
    (hrw : (txn_at a.txns a.active_txn).rw = PIOS_I2C_TXN_WRITE)
    (hm : (more = true ∧ a.active_txn < a.last_txn) ∨
      (more = false ∧ a.active_txn = a.last_txn))
    (hlen : 1 ≤ (txn_at a.txns a.active_txn).len)
    (hbt : a.byte_txn = a.active_txn)
    (hact : a.active_byte = 0)
    (hlast : a.last_byte = ((txn_at a.txns a.active_txn).len : Int) - 1) :
    serve_all a (txn_statuses (txn_at a.txns a.active_txn)) =
      finish_write more a
        (write_txn_ops more a.active_txn (txn_at a.txns a.active_txn)
          (txn_at a.txns (a.active_txn + 1))) := by
  simp only [txn_statuses, hrw, serve_all_cons]
  rw [write_start_step more a hs hrw hm]
  generalize hN : (txn_at a.txns a.active_txn).len = N at hlen hlast ⊢
  show serve_all (PIOS_I2C_EV_IRQ_Handler _ I2C_EVENT_MASTER_TRANSMITTER_MODE_SELECTED) _ = _
  rw [ev_handler_ev6_transmitter]
  match N, hlen with
  | 1, _ =>
    simp only [Nat.cast_one, sub_self] at hlast
    rw [write_addr_step_one more, List.replicate_succ, serve_all_cons, write_done_step more]
    · simp only [List.replicate, serve_all_nil]
      cases more <;>
        simp [finish_write, write_txn_ops, w_middle_ops, w_last_ops, next_txn_state,
          next_txn_body, hN, hact, hlast, hbt]
    · rfl
    · dsimp only; omega
    · rfl
    · dsimp only; omega
  | k + 2, _ =>
    have hlast2 : a.last_byte = (k : Int) + 1 := by push_cast at hlast; omega
    rw [write_addr_step_many more, write_tail more k]
    · cases more <;>
        simp [finish_write, write_txn_ops, w_middle_ops, hN, hact, hlast2, hbt,
          List.append_assoc, add_comm]
    · rfl
    · dsimp only; omega
    · rfl
    · dsimp only; omega

/-! ### The memory after a read -/

theorem txn_at_nat (l : List pios_i2c_txn) (i : Nat) :
    txn_at l (i : Int) = l.getD i default := by
  simp [txn_at]

theorem txn_at_of_drop (l : List pios_i2c_txn) (i : Nat) (t : pios_i2c_txn)
    (rest : List pios_i2c_txn) (h : l.drop i = t :: rest) : txn_at l (i : Int) = t := by
  rw [txn_at_nat]
  have h0 : (l.drop i)[0]? = some t := by rw [h]; simp
  rw [List.getElem?_drop] at h0
  simp at h0
  simp [h0]

theorem store_byte_length (txns : List pios_i2c_txn) (i off : Int) (v : Nat) :
    (store_byte txns i off v).length = txns.length := by
  unfold store_byte
  split <;> simp

theorem store_byte_drop (txns : List pios_i2c_txn) (i : Nat) (off : Int) (v : Nat) :
    (store_byte txns (i : Int) off v).drop (i + 1) = txns.drop (i + 1) := by
  unfold store_byte
  split
  · simp only [Int.toNat_ofNat]
    exact List.drop_set_of_lt _ _ (Nat.lt_succ_self i)
  · rfl

theorem read_fill_length (rx : Nat → Nat) (i : Int) (k : Nat) (off : Int) (n : Nat)
    (txns : List pios_i2c_txn) : (read_fill rx i k off n txns).length = txns.length := by
  induction k generalizing off n txns with
  | zero => rfl
  | succ k ih => simp [read_fill, ih, store_byte_length]

theorem read_fill_drop (rx : Nat → Nat) (i : Nat) (k : Nat) (off : Int) (n : Nat)
    (txns : List pios_i2c_txn) :
    (read_fill rx (i : Int) k off n txns).drop (i + 1) = txns.drop (i + 1) := by
  induction k generalizing off n txns with
  | zero => rfl
  | succ k ih => simp [read_fill, ih, store_byte_drop]

theorem next_txn_body_last (n1 n2 : pios_i2c_txn) :
    next_txn_body false n1 = next_txn_body false n2 := rfl

theorem read_txn_ops_last (i : Int) (t n1 n2 : pios_i2c_txn) :
    read_txn_ops false i t n1 = read_txn_ops false i t n2 := by
  unfold read_txn_ops post_last_ops
  simp only [next_txn_body_last n1 n2]

theorem write_txn_ops_last (i : Int) (t n1 n2 : pios_i2c_txn) :
    write_txn_ops false i t n1 = write_txn_ops false i t n2 := by
  unfold write_txn_ops w_last_ops
  simp only [next_txn_body_last n1 n2]

/-! ### A whole list answered by a well-behaved slave -/

theorem list_run (rest : List pios_i2c_txn) :
    ∀ (a : pios_i2c_adapter) (i : Nat), rest ≠ [] → (∀ t ∈ rest, 1 ≤ t.len) →
      a.curr_state = I2C_STATE_STARTING → a.active_txn = (i : Int) →
      a.last_txn = (a.txns.length : Int) - 1 → a.txns.drop i = rest →
      a.byte_txn = (i : Int) → a.active_byte = 0 →
      a.last_byte = ((txn_at a.txns (i : Int)).len : Int) - 1 →
      (serve_all a (list_statuses rest)).curr_state = I2C_STATE_STOPPING ∧
      (serve_all a (list_statuses rest)).bus_error = a.bus_error ∧
      (serve_all a (list_statuses rest)).sem_ready = true ∧
      (serve_all a (list_statuses rest)).ops = a.ops ++ list_ops (i : Int) rest := by
  induction rest with
  | nil => intro a i h; exact absurd rfl h
  | cons t rest ih =>
    intro a i _ hlen hs hact hlt hdrop hbt hab hlb
    have ht : txn_at a.txns a.active_txn = t := by
      rw [hact]; exact txn_at_of_drop _ _ _ _ hdrop
    have hlen_t : 1 ≤ (txn_at a.txns a.active_txn).len := by
      rw [ht]; exact hlen t (List.mem_cons_self _ _)
    have hbt2 : a.byte_txn = a.active_txn := by rw [hbt, hact]
    have hlb2 : a.last_byte = ((txn_at a.txns a.active_txn).len : Int) - 1 := by
      rw [hact]; exact hlb
    have hlength : a.txns.length = i + (rest.length + 1) := by
      have := congrArg List.length hdrop
      simp only [List.length_drop, List.length_cons] at this
      omega
    rw [list_statuses, serve_all_append, ← ht]
    cases rest with
    | nil =>
      have hm : (false = true ∧ a.active_txn < a.last_txn) ∨
          (false = false ∧ a.active_txn = a.last_txn) := by
        refine Or.inr ⟨rfl, ?_⟩
        rw [hact, hlt, hlength]; simp
      simp only [list_statuses, serve_all_nil, list_ops]
      cases hrw : (txn_at a.txns a.active_txn).rw with
      | PIOS_I2C_TXN_READ =>
        rw [read_txn_run false a hs hrw hm hlen_t hbt2 hab hlb2]
        refine ⟨rfl, rfl, rfl, ?_⟩
        simp only [finish_read, Bool.false_eq_true, if_false, txn_ops, hrw]
        rw [← hact, read_txn_ops_last _ _ _ default]
      | PIOS_I2C_TXN_WRITE =>
        rw [write_txn_run false a hs hrw hm hlen_t hbt2 hab hlb2]
        refine ⟨rfl, rfl, rfl, ?_⟩
        simp only [finish_write, Bool.false_eq_true, if_false, txn_ops, hrw]
        rw [← hact, write_txn_ops_last _ _ _ default]
    | cons t2 rest2 =>
      have hm : (true = true ∧ a.active_txn < a.last_txn) ∨
          (true = false ∧ a.active_txn = a.last_txn) := by
        refine Or.inl ⟨rfl, ?_⟩
        rw [hact, hlt, hlength]; simp only [List.length_cons]; push_cast; omega
      have hdrop1 : a.txns.drop (i + 1) = t2 :: rest2 := by
        have := congrArg List.tail hdrop
        simpa [List.tail_drop] using this
      have hlen2 : ∀ t ∈ t2 :: rest2, 1 ≤ t.len :=
        fun t h => hlen t (List.mem_cons_of_mem _ h)
      cases hrw : (txn_at a.txns a.active_txn).rw with
      | PIOS_I2C_TXN_READ =>
        rw [read_txn_run true a hs hrw hm hlen_t hbt2 hab hlb2]
        have hd : (read_fill a.rx_data a.active_txn (txn_at a.txns a.active_txn).len 0
            a.n_rx a.txns).drop (i + 1) = t2 :: rest2 := by
          rw [hact, read_fill_drop, hdrop1]
        have hnext : txn_at (read_fill a.rx_data a.active_txn
            (txn_at a.txns a.active_txn).len 0 a.n_rx a.txns) (a.active_txn + 1) = t2 := by
          rw [hact] at hd ⊢
          exact_mod_cast txn_at_of_drop _ (i + 1) _ _ hd
        generalize hM : read_fill a.rx_data a.active_txn (txn_at a.txns a.active_txn).len 0
          a.n_rx a.txns = M at hd hnext ⊢
        have hMlen : M.length = a.txns.length := by rw [← hM]; exact read_fill_length _ _ _ _ _ _
        obtain ⟨h1, h2, h3, h4⟩ := ih (finish_read true a M
            (a.n_rx + (txn_at a.txns a.active_txn).len)
            (read_txn_ops true a.active_txn (txn_at a.txns a.active_txn)
              (txn_at M (a.active_txn + 1)))) (i + 1) (by simp) hlen2
          rfl (by simp [finish_read, hact])
          (by simp [finish_read, hMlen, hlt]) (by simpa [finish_read] using hd)
          (by simp [finish_read, hact]) rfl
          (by simp only [finish_read, if_true]; rw [hact]; push_cast; rfl)
        refine ⟨h1, h2, h3, ?_⟩
        rw [h4, list_ops, txn_ops, hrw, hnext]
        simp only [finish_read, if_true, List.append_assoc, hact]
        push_cast
        rfl
      | PIOS_I2C_TXN_WRITE =>
        rw [write_txn_run true a hs hrw hm hlen_t hbt2 hab hlb2]
        have hnext : txn_at a.txns (a.active_txn + 1) = t2 := by
          rw [hact]
          exact_mod_cast txn_at_of_drop _ (i + 1) _ _ hdrop1
        obtain ⟨h1, h2, h3, h4⟩ := ih (finish_write true a
            (write_txn_ops true a.active_txn (txn_at a.txns a.active_txn)
              (txn_at a.txns (a.active_txn + 1)))) (i + 1) (by simp) hlen2
          rfl (by simp [finish_write, hact])
          (by simp [finish_write, hlt]) (by simpa [finish_write] using hdrop1)
          (by simp [finish_write, hact]) rfl
          (by simp only [finish_write, if_true]; rw [hact]; push_cast; rfl)
        refine ⟨h1, h2, h3, ?_⟩
        rw [h4, list_ops, txn_ops, hrw, hnext]
        simp only [finish_write, if_true, List.append_assoc, hact]
        push_cast
        rfl

/-- The injection of START in STOPPED at the entry of a transfer. -/
theorem transfer_start_eq (a : pios_i2c_adapter) (l : List pios_i2c_txn)
    (h : a.curr_state = I2C_STATE_STOPPED) :
    transfer_start a l =
      { a with curr_state := I2C_STATE_STARTING, txns := l,
               last_txn := (l.length : Int) - 1, active_txn := 0, byte_txn := 0,
               active_byte := 0, last_byte := ((txn_at l 0).len : Int) - 1,
               sem_ready := false, bus_error := false,
               ops := a.ops ++ (Op.PIOS_Semaphore_Take false ::
                 step_ops I2C_STATE_STARTING (starting_body (txn_at l 0))) } := by
  unfold transfer_start
  rw [inject_event_no_auto _ _ (by simp only [transfer_install, emit, h]; rfl)]
  simp [transfer_install, h, i2c_adapter_transitions, call_entry_fn, set_state, emit,
    go_starting_eq, step_ops]

/-- A transfer of a non-empty list of non-empty transactions, entered in
STOPPED and answered by a well-behaved slave: the FSM ends in STOPPING with the
semaphore given and bus_error clear, and the trace is the expected one. -/
theorem well_behaved_run (a : pios_i2c_adapter) (l : List pios_i2c_txn)
    (hs : a.curr_state = I2C_STATE_STOPPED) (hne : l ≠ [])
    (hlen : ∀ t ∈ l, 1 ≤ t.len) :
    (serve_all (transfer_start a l) (list_statuses l)).curr_state = I2C_STATE_STOPPING ∧
    (serve_all (transfer_start a l) (list_statuses l)).bus_error = false ∧
    (serve_all (transfer_start a l) (list_statuses l)).sem_ready = true ∧
    (serve_all (transfer_start a l) (list_statuses l)).ops =
      a.ops ++ (Op.PIOS_Semaphore_Take false ::
        step_ops I2C_STATE_STARTING (starting_body (txn_at l 0))) ++ list_ops 0 l := by
  rw [transfer_start_eq a l hs]
  exact list_run l _ 0 hne hlen rfl rfl rfl rfl rfl rfl rfl

/-! ### What the expected trace shows -/

@[simp] theorem sent_bytes_append (l1 l2 : List Op) :
    sent_bytes (l1 ++ l2) = sent_bytes l1 ++ sent_bytes l2 := by
  simp [sent_bytes, List.filterMap_append]

@[simp] theorem sent_addresses_append (l1 l2 : List Op) :
    sent_addresses (l1 ++ l2) = sent_addresses l1 ++ sent_addresses l2 := by
  simp [sent_addresses, List.filterMap_append]

@[simp] theorem start_requests_append (l1 l2 : List Op) :
    start_requests (l1 ++ l2) = start_requests l1 + start_requests l2 := by
  simp [start_requests, List.count_append]

@[simp] theorem stop_requests_append (l1 l2 : List Op) :
    stop_requests (l1 ++ l2) = stop_requests l1 + stop_requests l2 := by
  simp [stop_requests, List.count_append]

@[simp] theorem data_reads_append (l1 l2 : List Op) :
    data_reads (l1 ++ l2) = data_reads l1 + data_reads l2 := by
  simp [data_reads, List.count_append]

@[simp] theorem sent_bytes_step_ops (s : i2c_adapter_state) (body : List Op) :
    sent_bytes (step_ops s body) = sent_bytes body := by
  simp [step_ops]; simp [sent_bytes]

@[simp] theorem sent_addresses_step_ops (s : i2c_adapter_state) (body : List Op) :
    sent_addresses (step_ops s body) = sent_addresses body := by
  simp [step_ops]; simp [sent_addresses]

@[simp] theorem start_requests_step_ops (s : i2c_adapter_state) (body : List Op) :
    start_requests (step_ops s body) = start_requests body := by
  simp [step_ops]; simp [start_requests]

@[simp] theorem stop_requests_step_ops (s : i2c_adapter_state) (body : List Op) :
    stop_requests (step_ops s body) = stop_requests body := by
  simp [step_ops]; simp [stop_requests]

@[simp] theorem data_reads_step_ops (s : i2c_adapter_state) (body : List Op) :
    data_reads (step_ops s body) = data_reads body := by
  simp [step_ops]; simp [data_reads]

@[simp] theorem fault_entries_step_ops (s : i2c_adapter_state) (body : List Op) :
    fault_entries (step_ops s body) =
      fault_entries body + if is_fault_entry (Op.entry_fn s) = true then 1 else 0 := by
  simp [step_ops, is_fault_entry]

@[simp] theorem sent_bytes_middle_ops (more : Bool) (i last : Int) (k : Nat) (off : Int) :
    sent_bytes (middle_ops more i last k off) = [] := by
  induction k generalizing off with
  | zero => rfl
  | succ k ih => simp [middle_ops, ih]; simp [sent_bytes]

@[simp] theorem sent_addresses_middle_ops (more : Bool) (i last : Int) (k : Nat) (off : Int) :
    sent_addresses (middle_ops more i last k off) = [] := by
  induction k generalizing off with
  | zero => rfl
  | succ k ih => simp [middle_ops, ih]; simp [sent_addresses]

@[simp] theorem start_requests_middle_ops (more : Bool) (i last : Int) (k : Nat) (off : Int) :
    start_requests (middle_ops more i last k off) = 0 := by
  induction k generalizing off with
  | zero => rfl
  | succ k ih => simp [middle_ops, ih]; simp [start_requests]

@[simp] theorem stop_requests_middle_ops (more : Bool) (i last : Int) (k : Nat) (off : Int) :
    stop_requests (middle_ops more i last k off) = 0 := by
  induction k generalizing off with
  | zero => rfl
  | succ k ih => simp [middle_ops, ih]; simp [stop_requests]

@[simp] theorem data_reads_middle_ops (more : Bool) (i last : Int) (k : Nat) (off : Int) :
    data_reads (middle_ops more i last k off) = k := by
  induction k generalizing off with
  | zero => rfl
  | succ k ih => simp [middle_ops, ih]; simp [data_reads]; omega

@[simp] theorem fault_entries_middle_ops (more : Bool) (i last : Int) (k : Nat) (off : Int) :
    fault_entries (middle_ops more i last k off) = 0 := by
  induction k generalizing off with
  | zero => rfl
  | succ k ih => cases more <;> simp [middle_ops, ih, r_pre_middle, is_fault_entry]

@[simp] theorem sent_addresses_w_middle_ops (more : Bool) (buf : List Nat) (i last : Int)
    (k : Nat) (off : Int) : sent_addresses (w_middle_ops more buf i last k off) = [] := by
  induction k generalizing off with
  | zero => rfl
  | succ k ih => simp [w_middle_ops, ih]; simp [sent_addresses]

@[simp] theorem start_requests_w_middle_ops (more : Bool) (buf : List Nat) (i last : Int)
    (k : Nat) (off : Int) : start_requests (w_middle_ops more buf i last k off) = 0 := by
  induction k generalizing off with
  | zero => rfl
  | succ k ih => simp [w_middle_ops, ih]; simp [start_requests]

@[simp] theorem stop_requests_w_middle_ops (more : Bool) (buf : List Nat) (i last : Int)
    (k : Nat) (off : Int) : stop_requests (w_middle_ops more buf i last k off) = 0 := by
  induction k generalizing off with
  | zero => rfl
  | succ k ih => simp [w_middle_ops, ih]; simp [stop_requests]

/-- The middle steps of a write send the bytes of the buffer from `off` on. -/
theorem sent_bytes_w_middle_ops (more : Bool) (buf : List Nat) (i last : Int) (k off : Nat)
    (h : off + k ≤ buf.length) :
    sent_bytes (w_middle_ops more buf i last k (off : Int)) = (buf.drop off).take k := by
  induction k generalizing off with
  | zero => simp [w_middle_ops, sent_bytes]
  | succ k ih =>
    have hlt : off < buf.length := by omega
    have ih2 := ih (off + 1) (by omega)
    push_cast at ih2
    simp only [w_middle_ops, sent_bytes_append, sent_bytes_step_ops, ih2]
    rw [List.drop_eq_getElem_cons hlt, List.take_succ_cons]
    simp [sent_bytes, byte_at, hlt]

/-! ### What the trace of one transaction shows -/

theorem start_requests_read_txn_ops (more : Bool) (i : Int) (t next : pios_i2c_txn)
    (h : 1 ≤ t.len) :
    start_requests (read_txn_ops more i t next) = if more then 2 else 0 := by
  unfold read_txn_ops
  rcases hl : t.len with _ | _ | k
  · omega
  · cases more <;>
      simp [post_last_ops, auto_step_ops, chain_op, next_txn_body, starting_body,
        stopping_body, r_addr, r_pre_one, r_pre_first, r_pre_last, r_post_last,
        next_txn_state, is_fault_entry] <;>
      (try simp [start_requests])
  · cases more <;>
      simp [pre_last_ops, post_last_ops, auto_step_ops, chain_op, next_txn_body,
        starting_body, stopping_body, r_addr, r_pre_one, r_pre_first, r_pre_last,
        r_post_last, next_txn_state, is_fault_entry] <;>
      (try simp [start_requests])

theorem stop_requests_read_txn_ops (more : Bool) (i : Int) (t next : pios_i2c_txn)
    (h : 1 ≤ t.len) :
    stop_requests (read_txn_ops more i t next) = if more then 0 else 1 := by
  unfold read_txn_ops
  rcases hl : t.len with _ | _ | k
  · omega
  · cases more <;>
      simp [post_last_ops, auto_step_ops, chain_op, next_txn_body, starting_body,
        stopping_body, r_addr, r_pre_one, r_pre_first, r_pre_last, r_post_last,
        next_txn_state, is_fault_entry] <;>
      (try simp [stop_requests])
  · cases more <;>
      simp [pre_last_ops, post_last_ops, auto_step_ops, chain_op, next_txn_body,
        starting_body, stopping_body, r_addr, r_pre_one, r_pre_first, r_pre_last,
        r_post_last, next_txn_state, is_fault_entry] <;>
      (try simp [stop_requests])

theorem data_reads_read_txn_ops (more : Bool) (i : Int) (t next : pios_i2c_txn)
    (h : 1 ≤ t.len) :
    data_reads (read_txn_ops more i t next) = t.len := by
  unfold read_txn_ops
  rcases hl : t.len with _ | _ | k
  · omega
  · cases more <;>
      simp [post_last_ops, auto_step_ops, chain_op, next_txn_body, starting_body,
        stopping_body, r_addr, r_pre_one, r_pre_first, r_pre_last, r_post_last,
        next_txn_state, is_fault_entry] <;>
      (try simp [data_reads])
  · cases more <;>
      simp [pre_last_ops, post_last_ops, auto_step_ops, chain_op, next_txn_body,
        starting_body, stopping_body, r_addr, r_pre_one, r_pre_first, r_pre_last,
        r_post_last, next_txn_state, is_fault_entry] <;>
      (try simp [data_reads])

theorem sent_bytes_read_txn_ops (more : Bool) (i : Int) (t next : pios_i2c_txn)
    (h : 1 ≤ t.len) :
    sent_bytes (read_txn_ops more i t next) = [] := by
  unfold read_txn_ops
  rcases hl : t.len with _ | _ | k
  · omega
  · cases more <;>
      simp [post_last_ops, auto_step_ops, chain_op, next_txn_body, starting_body,
        stopping_body, r_addr, r_pre_one, r_pre_first, r_pre_last, r_post_last,
        next_txn_state, is_fault_entry] <;>
      (try simp [sent_bytes])
  · cases more <;>
      simp [pre_last_ops, post_last_ops, auto_step_ops, chain_op, next_txn_body,
        starting_body, stopping_body, r_addr, r_pre_one, r_pre_first, r_pre_last,
        r_post_last, next_txn_state, is_fault_entry] <;>
      (try simp [sent_bytes])

theorem sent_addresses_read_txn_ops (more : Bool) (i : Int) (t next : pios_i2c_txn)
    (h : 1 ≤ t.len) :
    sent_addresses (read_txn_ops more i t next) = [((t.addr <<< 1) % 256, I2C_Direction.I2C_Direction_Receiver)] := by
  unfold read_txn_ops
  rcases hl : t.len with _ | _ | k
  · omega
  · cases more <;>
      simp [post_last_ops, auto_step_ops, chain_op, next_txn_body, starting_body,
        stopping_body, r_addr, r_pre_one, r_pre_first, r_pre_last, r_post_last,
        next_txn_state, is_fault_entry] <;>
      (try simp [sent_addresses])
  · cases more <;>
      simp [pre_last_ops, post_last_ops, auto_step_ops, chain_op, next_txn_body,
        starting_body, stopping_body, r_addr, r_pre_one, r_pre_first, r_pre_last,
        r_post_last, next_txn_state, is_fault_entry] <;>
      (try simp [sent_addresses])

theorem start_requests_write_txn_ops (more : Bool) (i : Int) (t next : pios_i2c_txn)
    (h : 1 ≤ t.len) :
    start_requests (write_txn_ops more i t next) = if more then 1 else 0 := by
  unfold write_txn_ops
  rcases hl : t.len with _ | k
  · omega
  · cases more <;>
      simp [w_last_ops, w_last_body, next_txn_body, starting_body, stopping_body, w_addr,
        w_middle, w_last, next_txn_state, is_fault_entry] <;>
      (try simp [start_requests])

theorem stop_requests_write_txn_ops (more : Bool) (i : Int) (t next : pios_i2c_txn)
    (h : 1 ≤ t.len) :
    stop_requests (write_txn_ops more i t next) = if more then 0 else 1 := by
  unfold write_txn_ops
  rcases hl : t.len with _ | k
  · omega
  · cases more <;>
      simp [w_last_ops, w_last_body, next_txn_body, starting_body, stopping_body, w_addr,
        w_middle, w_last, next_txn_state, is_fault_entry] <;>
      (try simp [stop_requests])

theorem sent_addresses_write_txn_ops (more : Bool) (i : Int) (t next : pios_i2c_txn)
    (h : 1 ≤ t.len) :
    sent_addresses (write_txn_ops more i t next) = [((t.addr <<< 1) % 256, I2C_Direction.I2C_Direction_Transmitter)] := by
  unfold write_txn_ops
  rcases hl : t.len with _ | k
  · omega
  · cases more <;>
      simp [w_last_ops, w_last_body, next_txn_body, starting_body, stopping_body, w_addr,
        w_middle, w_last, next_txn_state, is_fault_entry] <;>
      (try simp [sent_addresses])

theorem sent_bytes_write_txn_ops (more : Bool) (i : Int) (t next : pios_i2c_txn) :
    sent_bytes (write_txn_ops more i t next) = t.buf := by
  unfold write_txn_ops
  rcases hl : t.len with _ | k
  · have : t.buf = [] := List.length_eq_zero.1 hl
    simp [this]; simp [sent_bytes]
  · have hlen : t.buf.length = k + 1 := hl
    have h1 := sent_bytes_w_middle_ops more t.buf i (k : Int) k 0 (by omega)
    simp only [Nat.cast_zero, List.drop_zero] at h1
    have hk : k < t.buf.length := by omega
    have h2 : t.buf.take k ++ [byte_at t.buf (k : Int)] = t.buf := by
      have h3 : byte_at t.buf (k : Int) = t.buf[k] := by simp [byte_at, hk]
      have h4 := List.take_concat_get t.buf k hk
      have h5 : List.take (k + 1) t.buf = t.buf := List.take_of_length_le (by omega)
      rw [List.concat_eq_append, h5] at h4
      rw [h3]
      exact h4
    cases more <;>
      simp [w_last_ops, w_last_body, next_txn_body, starting_body, stopping_body, h1] <;>
      simp [sent_bytes] <;> exact h2

/-! ### What the trace of a list shows -/

theorem sent_bytes_list_ops (l : List pios_i2c_txn) :
    ∀ i : Int, (∀ t ∈ l, 1 ≤ t.len) → sent_bytes (list_ops i l) = written_bytes l := by
  induction l with
  | nil => intro i _; rfl
  | cons t rest ih =>
    intro i hlen
    have ht : 1 ≤ t.len := hlen t (List.mem_cons_self _ _)
    cases rest with
    | nil =>
      cases hrw : t.rw <;>
        simp [list_ops, txn_ops, written_bytes, hrw, sent_bytes_read_txn_ops _ _ _ _ ht,
          sent_bytes_write_txn_ops]
    | cons t2 rest2 =>
      have ih2 := ih (i + 1) (fun t h => hlen t (List.mem_cons_of_mem _ h))
      cases hrw : t.rw <;>
        simp [list_ops, txn_ops, hrw, sent_bytes_read_txn_ops _ _ _ _ ht,
          sent_bytes_write_txn_ops, ih2] <;>
        simp [written_bytes, hrw]

theorem sent_addresses_list_ops (l : List pios_i2c_txn) :
    ∀ i : Int, (∀ t ∈ l, 1 ≤ t.len) → sent_addresses (list_ops i l) = l.map txn_address := by
  induction l with
  | nil => intro i _; rfl
  | cons t rest ih =>
    intro i hlen
    have ht : 1 ≤ t.len := hlen t (List.mem_cons_self _ _)
    cases rest with
    | nil =>
      cases hrw : t.rw <;>
        simp [list_ops, txn_ops, txn_address, hrw, sent_addresses_read_txn_ops _ _ _ _ ht,
          sent_addresses_write_txn_ops _ _ _ _ ht]
    | cons t2 rest2 =>
      have ih2 := ih (i + 1) (fun t h => hlen t (List.mem_cons_of_mem _ h))
      cases hrw : t.rw <;>
        simp [list_ops, txn_ops, hrw, sent_addresses_read_txn_ops _ _ _ _ ht,
          sent_addresses_write_txn_ops _ _ _ _ ht, ih2] <;>
        simp [txn_address, hrw]

theorem stop_requests_list_ops (l : List pios_i2c_txn) :
    ∀ i : Int, l ≠ [] → (∀ t ∈ l, 1 ≤ t.len) → stop_requests (list_ops i l) = 1 := by
  induction l with
  | nil => intro i h; exact absurd rfl h
  | cons t rest ih =>
    intro i _ hlen
    have ht : 1 ≤ t.len := hlen t (List.mem_cons_self _ _)
    cases rest with
    | nil =>
      cases hrw : t.rw <;>
        simp [list_ops, txn_ops, hrw, stop_requests_read_txn_ops _ _ _ _ ht,
          stop_requests_write_txn_ops _ _ _ _ ht]
    | cons t2 rest2 =>
      have ih2 := ih (i + 1) (by simp) (fun t h => hlen t (List.mem_cons_of_mem _ h))
      cases hrw : t.rw <;>
        simp [list_ops, txn_ops, hrw, stop_requests_read_txn_ops _ _ _ _ ht,
          stop_requests_write_txn_ops _ _ _ _ ht, ih2]

theorem start_requests_list_ops (l : List pios_i2c_txn) :
    ∀ i : Int, (∀ t ∈ l, 1 ≤ t.len) →
      start_requests (list_ops i l) + 1 = l.length + reads_before_last l + (if l = [] then 1 else 0) := by
  induction l with
  | nil => intro i _; rfl
  | cons t rest ih =>
    intro i hlen
    have ht : 1 ≤ t.len := hlen t (List.mem_cons_self _ _)
    cases rest with
    | nil =>
      cases hrw : t.rw <;>
        simp [list_ops, txn_ops, hrw, start_requests_read_txn_ops _ _ _ _ ht,
          start_requests_write_txn_ops _ _ _ _ ht, reads_before_last]
    | cons t2 rest2 =>
      have ih2 := ih (i + 1) (fun t h => hlen t (List.mem_cons_of_mem _ h))
      simp only [List.length_cons, reduceCtorEq, if_false] at ih2 ⊢
      cases hrw : t.rw <;>
        simp [list_ops, txn_ops, hrw, start_requests_read_txn_ops _ _ _ _ ht,
          start_requests_write_txn_ops _ _ _ _ ht, reads_before_last] <;>
        omega

/-! ### The buffer after a read -/

theorem txn_at_store_byte (txns : List pios_i2c_txn) (i off : Nat) (v : Nat)
    (hi : i < txns.length) :
    txn_at (store_byte txns (i : Int) (off : Int) v) (i : Int) =
      { txn_at txns (i : Int) with buf := (txn_at txns (i : Int)).buf.set off v } := by
  simp [store_byte, txn_at_nat, hi]

/-- After `k` bytes were stored from offset `off` on, position `j` of the buffer
holds the received byte number `j - off` when it lies in the stored range, and
its old content otherwise. -/
theorem read_fill_get (rx : Nat → Nat) (i : Nat) (k : Nat) :
    ∀ (off n : Nat) (txns : List pios_i2c_txn), i < txns.length →
      off + k ≤ (txn_at txns (i : Int)).buf.length → ∀ j : Nat,
      (txn_at (read_fill rx (i : Int) k (off : Int) n txns) (i : Int)).buf[j]? =
        if off ≤ j ∧ j < off + k then some (rx (n + (j - off)) % 256)
        else (txn_at txns (i : Int)).buf[j]? := by
  induction k with
  | zero =>
    intro off n txns _ _ j
    rw [if_neg (by omega)]
    rfl
  | succ k ih =>
    intro off n txns hi hfit j
    have hi2 : i < (store_byte txns (i : Int) (off : Int) (rx n % 256)).length := by
      rw [store_byte_length]; exact hi
    have hbuf := txn_at_store_byte txns i off (rx n % 256) hi
    have ih2 := ih (off + 1) (n + 1) _ hi2 (by rw [hbuf]; simp; omega) j
    push_cast at ih2
    rw [read_fill, ih2, hbuf]
    simp only [List.getElem?_set]
    by_cases h1 : off + 1 ≤ j ∧ j < off + 1 + k
    · have hn : n + 1 + (j - (off + 1)) = n + (j - off) := by omega
      rw [if_pos h1, if_pos (by omega), hn]
    · rw [if_neg h1]
      by_cases h2 : off = j
      · subst h2
        rw [if_pos rfl, if_pos (by omega), if_pos (by omega)]
        simp
      · rw [if_neg h2, if_neg (by omega)]

theorem fault_entries_read_txn_ops (more : Bool) (i : Int) (t next : pios_i2c_txn)
    (h : 1 ≤ t.len) :
    fault_entries (read_txn_ops more i t next) = 0 := by
  unfold read_txn_ops
  rcases hl : t.len with _ | _ | k
  · omega
  · cases more <;>
      simp [post_last_ops, auto_step_ops, chain_op, next_txn_body, starting_body,
        stopping_body, r_addr, r_pre_one, r_post_last, next_txn_state, is_fault_entry]
  · cases more <;>
      simp [pre_last_ops, post_last_ops, auto_step_ops, chain_op, next_txn_body,
        starting_body, stopping_body, r_addr, r_pre_first, r_pre_last,
        r_post_last, next_txn_state, is_fault_entry]

/-! ### C5 -/

/-- C5: for a READ transaction of length N >= 1 for which the FSM rests in
STARTING, in the MORE or the LAST branch, the statuses EV5, EV6 (receiver) and
N times byte-received make the driver read the data register exactly N times,
store the k-th value read at buf[k] for k = 0..N-1, leave bus_error as it was
and call no fault entry action. -/
theorem well_behaved_read_fills_buffer (a : pios_i2c_adapter) (i : Nat)
    (h : starting_at a i) (hrw : (txn_at a.txns (i : Int)).rw = PIOS_I2C_TXN_READ)
    (hlen : 1 ≤ (txn_at a.txns (i : Int)).len) :
    data_reads (serve_all a (txn_statuses (txn_at a.txns (i : Int)))).ops
      = data_reads a.ops + (txn_at a.txns (i : Int)).len ∧
    (serve_all a (txn_statuses (txn_at a.txns (i : Int)))).n_rx
      = a.n_rx + (txn_at a.txns (i : Int)).len ∧
    (txn_at (serve_all a (txn_statuses (txn_at a.txns (i : Int)))).txns (i : Int)).buf
      = (List.range (txn_at a.txns (i : Int)).len).map (fun k => a.rx_data (a.n_rx + k) % 256) ∧
    (serve_all a (txn_statuses (txn_at a.txns (i : Int)))).bus_error = a.bus_error ∧
    fault_entries (serve_all a (txn_statuses (txn_at a.txns (i : Int)))).ops
      = fault_entries a.ops := by
  obtain ⟨hs, hact, hi, hle, hbt, hab, hlb⟩ := h
  have hmem : (txn_at (read_fill a.rx_data (i : Int) (txn_at a.txns (i : Int)).len 0 a.n_rx
      a.txns) (i : Int)).buf
      = (List.range (txn_at a.txns (i : Int)).len).map
          (fun k => a.rx_data (a.n_rx + k) % 256) := by
    apply List.ext_getElem?
    intro j
    have hg := read_fill_get a.rx_data i (txn_at a.txns (i : Int)).len 0 a.n_rx a.txns hi
      (by simp [pios_i2c_txn.len]) j
    simp only [Nat.cast_zero, Nat.zero_le, true_and, Nat.zero_add, Nat.sub_zero] at hg
    rw [hg]
    by_cases hj : j < (txn_at a.txns (i : Int)).len
    · simp [hj]
    · rw [if_neg hj]
      have h1 : (txn_at a.txns (i : Int)).buf.length ≤ j := by
        simp only [pios_i2c_txn.len] at hj; omega
      have h2 : (List.range (txn_at a.txns (i : Int)).len)[j]? = none :=
        List.getElem?_eq_none (by simp only [List.length_range]; omega)
      rw [List.getElem?_eq_none h1, List.getElem?_map, h2]
      rfl
  have hm : ∃ more : Bool, (more = true ∧ a.active_txn < a.last_txn) ∨
      (more = false ∧ a.active_txn = a.last_txn) := by
    by_cases hlt : a.active_txn < a.last_txn
    · exact ⟨true, Or.inl ⟨rfl, hlt⟩⟩
    · exact ⟨false, Or.inr ⟨rfl, by omega⟩⟩
  obtain ⟨more, hm⟩ := hm
  rw [← hact] at hrw hlen hlb hmem ⊢
  rw [read_txn_run more a hs hrw hm hlen hbt hab hlb]
  cases more <;>
    simp [finish_read, data_reads_read_txn_ops _ _ _ _ hlen,
      fault_entries_read_txn_ops _ _ _ _ hlen, hmem]

/-- Witness of C5: a three-byte read as the only transaction of a transfer. -/
theorem well_behaved_read_fills_buffer_witness :
    starting_at (transfer_start idle_adapter three_byte_read) 0 ∧
    (txn_at (serve_all (transfer_start idle_adapter three_byte_read)
      (list_statuses three_byte_read)).txns 0).buf = [0x10, 0x11, 0x12] ∧
    data_reads (serve_all (transfer_start idle_adapter three_byte_read)
      (list_statuses three_byte_read)).ops = 3 :=
  have hst : starting_at (transfer_start idle_adapter three_byte_read) 0 :=
    ⟨by decide, by decide, by decide, by decide, by decide, by decide, by decide⟩
  have h := well_behaved_read_fills_buffer (transfer_start idle_adapter three_byte_read) 0
    hst (by decide) (by decide)
  ⟨hst, h.2.2.1.trans (by decide), h.1.trans (by decide)⟩

/-! ### C6 -/

/-- C6: for a non-empty list of transactions of length >= 1 each, a transfer
entered in STOPPED and answered by the well-behaved status sequence ends in
STOPPING with bus_error false; the addresses handed to I2C_Send7bitAddress are
those of the transactions in list order, and the bytes handed to I2C_SendData
are the buffers of the WRITE transactions concatenated in list order, each byte
once. -/
theorem well_behaved_transfer_sends_write_buffers (a : pios_i2c_adapter)
    (l : List pios_i2c_txn) (hs : a.curr_state = I2C_STATE_STOPPED) (hne : l ≠ [])
    (hlen : ∀ t ∈ l, 1 ≤ t.len) :
    (serve_all (transfer_start a l) (list_statuses l)).curr_state = I2C_STATE_STOPPING ∧
    (serve_all (transfer_start a l) (list_statuses l)).bus_error = false ∧
    sent_addresses (serve_all (transfer_start a l) (list_statuses l)).ops
      = sent_addresses a.ops ++ l.map txn_address ∧
    sent_bytes (serve_all (transfer_start a l) (list_statuses l)).ops
      = sent_bytes a.ops ++ written_bytes l := by
  obtain ⟨h1, h2, _, h4⟩ := well_behaved_run a l hs hne hlen
  refine ⟨h1, h2, ?_, ?_⟩
  · rw [h4]
    simp only [sent_addresses_append, sent_addresses_list_ops l 0 hlen]
    simp [sent_addresses, step_ops, starting_body]
  · rw [h4]
    simp only [sent_bytes_append, sent_bytes_list_ops l 0 hlen]
    simp [sent_bytes, step_ops, starting_body]

/-- Witness of C6: a one-byte write followed by a six-byte read. -/
theorem well_behaved_transfer_sends_write_buffers_witness :
    idle_adapter.curr_state = I2C_STATE_STOPPED ∧ write_then_read ≠ [] ∧
    (∀ t ∈ write_then_read, 1 ≤ t.len) ∧
    (serve_all (transfer_start idle_adapter write_then_read)
      (list_statuses write_then_read)).curr_state = I2C_STATE_STOPPING ∧
    sent_addresses (serve_all (transfer_start idle_adapter write_then_read)
      (list_statuses write_then_read)).ops
      = [(0x3C, I2C_Direction.I2C_Direction_Transmitter),
         (0x3C, I2C_Direction.I2C_Direction_Receiver)] ∧
    sent_bytes (serve_all (transfer_start idle_adapter write_then_read)
      (list_statuses write_then_read)).ops = [0x00] :=
  have h := well_behaved_transfer_sends_write_buffers idle_adapter write_then_read rfl
    (by decide) (by decide)
  ⟨rfl, by decide, by decide, h.1, h.2.2.1.trans (by decide), h.2.2.2.trans (by decide)⟩

/-! ### C7 -/

/-- C7: for a chained list of a WRITE of length >= 1 followed by a READ of
length >= 1, answered by the well-behaved status sequence, the transfer requests
I2C_GenerateSTART exactly twice (the START and one repeated START) and
I2C_GenerateSTOP exactly once. -/
theorem chained_write_read_start_stop (a : pios_i2c_adapter) (w r : pios_i2c_txn)
    (hs : a.curr_state = I2C_STATE_STOPPED)
    (hw : w.rw = PIOS_I2C_TXN_WRITE) (hr : r.rw = PIOS_I2C_TXN_READ)
    (hwl : 1 ≤ w.len) (hrl : 1 ≤ r.len) :
    start_requests (serve_all (transfer_start a [w, r]) (list_statuses [w, r])).ops
      = start_requests a.ops + 2 ∧
    stop_requests (serve_all (transfer_start a [w, r]) (list_statuses [w, r])).ops
      = stop_requests a.ops + 1 := by
  have hlen : ∀ t ∈ [w, r], 1 ≤ t.len := by
    intro t ht
    simp only [List.mem_cons, List.mem_singleton, List.not_mem_nil, or_false] at ht
    rcases ht with rfl | rfl
    · exact hwl
    · exact hrl
  obtain ⟨_, _, _, h4⟩ := well_behaved_run a [w, r] hs (by simp) hlen
  rw [h4]
  have h5 := start_requests_list_ops [w, r] 0 hlen
  have h6 := stop_requests_list_ops [w, r] 0 (by simp) hlen
  simp only [reads_before_last, hw, List.length_cons, List.length_nil, reduceCtorEq,
    if_false] at h5
  constructor
  · simp only [start_requests_append]
    have h7 : start_requests (Op.PIOS_Semaphore_Take false ::
        step_ops I2C_STATE_STARTING (starting_body (txn_at [w, r] 0))) = 1 := by
      simp [start_requests, step_ops, starting_body]
    omega
  · simp only [stop_requests_append, h6]
    simp [stop_requests, step_ops, starting_body]

/-- Witness of C7: the one-byte write and six-byte read of the magnetometer
scenario. -/
theorem chained_write_read_start_stop_witness :
    start_requests (serve_all (transfer_start idle_adapter write_then_read)
      (list_statuses write_then_read)).ops = 2 ∧
    stop_requests (serve_all (transfer_start idle_adapter write_then_read)
      (list_statuses write_then_read)).ops = 1 :=
  chained_write_read_start_stop idle_adapter ⟨0x1E, PIOS_I2C_TXN_WRITE, [0x00]⟩
    ⟨0x1E, PIOS_I2C_TXN_READ, [0, 0, 0, 0, 0, 0]⟩ rfl rfl rfl (by decide) (by decide)

/-! ### C8 -/

/-- C8 (counterexample): for a one-byte read followed by a two-byte read the
transfer requests I2C_GenerateSTART three times, not twice: the PRE_ONE action
of the first read requests the repeated START and go_starting requests it
again. -/
theorem start_requests_exceed_list_length :
    read_then_read.length = 2 ∧
    start_requests (serve_all (transfer_start idle_adapter read_then_read)
      (list_statuses read_then_read)).ops = 3 := by
  decide

/-- C8 (amended): for a list of k >= 1 transactions of length >= 1 each,
answered by the well-behaved status sequence, I2C_GenerateSTART is requested
k + r times, r being the number of READ transactions other than the last one,
and I2C_GenerateSTOP is requested exactly once. -/
theorem start_stop_requests_of_list (a : pios_i2c_adapter) (l : List pios_i2c_txn)
    (hs : a.curr_state = I2C_STATE_STOPPED) (hne : l ≠ [])
    (hlen : ∀ t ∈ l, 1 ≤ t.len) :
    start_requests (serve_all (transfer_start a l) (list_statuses l)).ops
      = start_requests a.ops + l.length + reads_before_last l ∧
    stop_requests (serve_all (transfer_start a l) (list_statuses l)).ops
      = stop_requests a.ops + 1 := by
  obtain ⟨_, _, _, h4⟩ := well_behaved_run a l hs hne hlen
  rw [h4]
  have h5 := start_requests_list_ops l 0 hlen
  have h6 := stop_requests_list_ops l 0 hne hlen
  rw [if_neg hne] at h5
  constructor
  · simp only [start_requests_append]
    have h7 : start_requests (Op.PIOS_Semaphore_Take false ::
        step_ops I2C_STATE_STARTING (starting_body (txn_at l 0))) = 1 := by
      simp [start_requests, step_ops, starting_body]
    omega
  · simp only [stop_requests_append, h6]
    simp [stop_requests, step_ops, starting_body]

/-- Witness of C8 (amended): a one-byte read followed by a two-byte read. -/
theorem start_stop_requests_of_list_witness :
    idle_adapter.curr_state = I2C_STATE_STOPPED ∧ read_then_read ≠ [] ∧
    (∀ t ∈ read_then_read, 1 ≤ t.len) ∧
    start_requests (serve_all (transfer_start idle_adapter read_then_read)
      (list_statuses read_then_read)).ops
      = start_requests idle_adapter.ops + read_then_read.length
        + reads_before_last read_then_read ∧
    stop_requests (serve_all (transfer_start idle_adapter read_then_read)
      (list_statuses read_then_read)).ops = stop_requests idle_adapter.ops + 1 :=
  have h := start_stop_requests_of_list idle_adapter read_then_read rfl (by decide) (by decide)
  ⟨rfl, by decide, by decide, h.1, h.2⟩

/-! ### Every byte access is inside its buffer -/

theorem inject_event_eq_enter (a : pios_i2c_adapter) (e : i2c_adapter_event) :
    i2c_adapter_inject_event a e =
      enter a ((i2c_adapter_transitions a.curr_state).next_state e) := rfl

/-- The table sends a resting adapter, on an event a handler can inject, to a
state whose entry keeps the cursors inside the list and the buffer. -/
theorem table_entry_pre (l : List pios_i2c_txn) (a : pios_i2c_adapter)
    (e : i2c_adapter_event) (hr : rest_ok l a) (he : event_fits a e) :
    entry_pre l ((i2c_adapter_transitions a.curr_state).next_state e) a := by
  unfold rest_ok at hr
  cases hs : a.curr_state <;> rw [hs] at hr <;> cases e <;>
    simp only [i2c_adapter_transitions, entry_pre, event_fits, cursor_ok, txn_cursor_ok,
      is_more_state, if_true, if_false, Bool.false_eq_true, and_true, true_and] at hr he ⊢ <;>
    first
    | trivial
    | exact absurd hr id
    | exact absurd he id
    | (refine ⟨?_, ?_⟩ <;> omega)

theorem enter_no_auto (a : pios_i2c_adapter) (s : i2c_adapter_state)
    (h : (i2c_adapter_transitions s).next_state I2C_EVENT_AUTO = I2C_STATE_FSM_FAULT) :
    enter a s = emit (emit (emit (call_entry_fn (set_state (emit a Op.PIOS_IRQ_Disable) s))
      Op.PIOS_IRQ_Disable) Op.PIOS_IRQ_Enable) Op.PIOS_IRQ_Enable := by
  simp only [enter, i2c_adapter_process_auto]
  rw [process_auto_loop_rest]
  show (i2c_adapter_transitions (call_entry_fn _).curr_state).next_state _ = _
  rw [call_entry_fn_curr_state]
  exact h

theorem enter_one_auto (a : pios_i2c_adapter) (s s2 : i2c_adapter_state)
    (h2 : (i2c_adapter_transitions s).next_state I2C_EVENT_AUTO = s2)
    (h3 : s2 ≠ I2C_STATE_FSM_FAULT)
    (h4 : (i2c_adapter_transitions s2).next_state I2C_EVENT_AUTO = I2C_STATE_FSM_FAULT) :
    enter a s = emit (emit (call_entry_fn (set_state (emit (call_entry_fn (set_state
        (emit a Op.PIOS_IRQ_Disable) s)) Op.PIOS_IRQ_Disable) s2))
        Op.PIOS_IRQ_Enable) Op.PIOS_IRQ_Enable := by
  simp only [enter, i2c_adapter_process_auto]
  have hc : (emit (call_entry_fn (set_state (emit a Op.PIOS_IRQ_Disable) s))
      Op.PIOS_IRQ_Disable).curr_state = s := by
    show (call_entry_fn _).curr_state = s
    rw [call_entry_fn_curr_state]
    rfl
  rw [show I2C_STATE_NUM_STATES = 23 + 1 from rfl, process_auto_loop]
  rw [hc, h2, if_pos h3, process_auto_loop_rest]
  rw [call_entry_fn_curr_state]
  exact h4

theorem store_byte_len (txns : List pios_i2c_txn) (i off : Int) (v : Nat) (j : Int) :
    (txn_at (store_byte txns i off v) j).len = (txn_at txns j).len := by
  unfold store_byte
  split
  · rename_i h
    unfold txn_at
    split
    · rename_i hj
      by_cases hij : i.toNat = j.toNat
      · have : i = j := by omega
        subst this
        by_cases hlt : i.toNat < txns.length
        · simp [hlt, pios_i2c_txn.len, h.1]
        · simp [List.getElem?_eq_none (le_of_not_lt hlt), List.set_eq_of_length_le (le_of_not_lt hlt)]
      · simp [List.getElem?_set_ne hij]
    · rfl
  · rfl

theorem all_access_ok_append (l : List pios_i2c_txn) (ops1 ops2 : List Op) :
    all_access_ok l (ops1 ++ ops2) ↔ all_access_ok l ops1 ∧ all_access_ok l ops2 :=
  List.forall_mem_append

theorem all_access_ok_cons (l : List pios_i2c_txn) (o : Op) (ops : List Op) :
    all_access_ok l (o :: ops) ↔ access_ok l o ∧ all_access_ok l ops :=
  List.forall_mem_cons

theorem all_access_ok_nil (l : List pios_i2c_txn) : all_access_ok l [] ↔ True :=
  ⟨fun _ => trivial, fun _ => List.forall_mem_nil _⟩

theorem all_access_ok_reset_bus (l : List pios_i2c_txn) (a : pios_i2c_adapter) :
    all_access_ok l (i2c_adapter_reset_bus a).ops ↔ all_access_ok l a.ops := by
  have key : ∀ ops1 ops2 : List Op, fsm_ops ops1 = fsm_ops ops2 →
      (∀ o ∈ ops2, access_ok l o) → ∀ o ∈ ops1, access_ok l o := by
    intro ops1 ops2 heq h o ho
    by_cases hr : is_reset_op o = true
    · cases o <;> trivial
    · have : o ∈ fsm_ops ops1 := by
        simp [fsm_ops, List.mem_filter, ho, hr]
      rw [heq] at this
      exact h o (List.mem_of_mem_filter this)
  exact ⟨key _ _ (reset_bus_fsm_ops a).symm, key _ _ (reset_bus_fsm_ops a)⟩

@[simp] theorem reset_bus_last_txn (a : pios_i2c_adapter) :
    (i2c_adapter_reset_bus a).last_txn = a.last_txn :=
  congrArg (fun v => v.2.2.1) (fsm_view_reset_bus a)

@[simp] theorem reset_bus_txns (a : pios_i2c_adapter) :
    (i2c_adapter_reset_bus a).txns = a.txns :=
  congrArg (fun v => v.2.2.2.2.2.2.2.1) (fsm_view_reset_bus a)

set_option maxHeartbeats 4000000 in
theorem enter_ok (l : List pios_i2c_txn) (s : i2c_adapter_state) (a : pios_i2c_adapter) (hc : common_ok l a)
    (hp : entry_pre l s a) :
    common_ok l (enter a s) ∧ rest_ok l (enter a s) := by
  obtain ⟨hc1, hc2, hc3⟩ := hc
  have h1 := enter_no_auto a s
  have h2 := enter_one_auto a s
  cases s <;>
    (first | rw [h1 rfl] | rw [h2 _ rfl (by decide) rfl]) <;>
    simp only [entry_pre, cursor_ok, txn_cursor_ok, is_more_state, if_true, if_false,
      Bool.false_eq_true] at hp <;>
    simp only [common_ok, rest_ok, call_entry_fn, i2c_adapter_transitions, set_state, emit,
      go_fsm_fault, go_bus_error, go_stopping, go_stopped,
      go_starting_eq, go_r_any_txn_addr, go_r_more_txn_pre_one, go_r_last_txn_pre_one,
      go_r_any_txn_pre_first, go_r_any_txn_pre_middle, go_r_more_txn_pre_last,
      go_r_last_txn_pre_last, go_r_any_txn_post_last, go_w_any_txn_addr,
      go_w_any_txn_middle, go_w_more_txn_last, go_w_last_txn_last, go_nack,
      I2C_ReceiveData, store_active_byte, load_active_byte,
      cursor_ok, txn_cursor_ok, is_more_state, if_true, if_false, Bool.false_eq_true,
      store_byte_len, all_access_ok_append, all_access_ok_cons, all_access_ok_nil,
      access_ok, and_true, true_and, reset_bus_last_txn, reset_bus_txns, reset_bus_curr_state,
      all_access_ok_reset_bus, starting_body] <;>
    (try simp only [hc2]) <;>
    (repeat' apply And.intro) <;>
    first
    | exact hc1
    | exact hc2
    | exact hc3
    | trivial
    | omega
    | exact fun _ => trivial

/-- An injection by a handler keeps the invariant. -/
theorem inject_ok (l : List pios_i2c_txn) (a : pios_i2c_adapter) (e : i2c_adapter_event)
    (hc : common_ok l a) (hr : rest_ok l a) (he : event_fits a e) :
    common_ok l (i2c_adapter_inject_event a e) ∧ rest_ok l (i2c_adapter_inject_event a e) := by
  rw [inject_event_eq_enter]
  exact enter_ok l _ a hc (table_entry_pre l a e hr he)

/-- A call that only appends an operation other than a byte access keeps the
invariant. -/
theorem ok_of_same_cursors (l : List pios_i2c_txn) (a b : pios_i2c_adapter) (o : Op)
    (ho : access_ok l o)
    (h1 : b.curr_state = a.curr_state) (h2 : b.active_txn = a.active_txn)
    (h3 : b.last_txn = a.last_txn) (h4 : b.byte_txn = a.byte_txn)
    (h5 : b.active_byte = a.active_byte) (h6 : b.last_byte = a.last_byte)
    (h7 : b.txns = a.txns) (h8 : b.ops = a.ops ++ [o])
    (hc : common_ok l a) (hr : rest_ok l a) : common_ok l b ∧ rest_ok l b := by
  obtain ⟨hc1, hc2, hc3⟩ := hc
  refine ⟨⟨by rw [h3]; exact hc1, by rw [h7]; exact hc2, ?_⟩, ?_⟩
  · rw [h8, all_access_ok_append, all_access_ok_cons, all_access_ok_nil]
    exact ⟨hc3, ho, trivial⟩
  · unfold rest_ok cursor_ok txn_cursor_ok at *
    rw [h1, h2, h3, h4, h5, h6]
    exact hr

theorem ev_master_mode_select_ok (l : List pios_i2c_txn) (a : pios_i2c_adapter)
    (hc : common_ok l a) (hr : rest_ok l a) :
    common_ok l (ev_master_mode_select a) ∧ rest_ok l (ev_master_mode_select a) := by
  unfold ev_master_mode_select
  split <;> split_ifs with h1 h2
  · exact inject_ok l a _ hc hr h1
  · exact inject_ok l a _ hc hr h2
  · exact ⟨hc, hr⟩
  · exact inject_ok l a _ hc hr h1
  · exact inject_ok l a _ hc hr h2
  · exact ⟨hc, hr⟩

theorem ev_addr_sent_ok (l : List pios_i2c_txn) (a : pios_i2c_adapter)
    (hc : common_ok l a) (hr : rest_ok l a) :
    common_ok l (ev_addr_sent a) ∧ rest_ok l (ev_addr_sent a) := by
  unfold ev_addr_sent
  split_ifs with h1 h2 h3
  · exact inject_ok l a _ hc hr h1
  · exact inject_ok l a _ hc hr h2
  · exact inject_ok l a _ hc hr h3
  · exact inject_ok l a _ hc hr ⟨h1, h2, h3⟩

theorem ev_transfer_done_ok (l : List pios_i2c_txn) (a : pios_i2c_adapter)
    (hc : common_ok l a) (hr : rest_ok l a) :
    common_ok l (ev_transfer_done a) ∧ rest_ok l (ev_transfer_done a) := by
  unfold ev_transfer_done
  split_ifs with h1 h2 h3
  · exact inject_ok l a _ hc hr h1
  · exact inject_ok l a _ hc hr h2
  · exact inject_ok l a _ hc hr h3
  · exact inject_ok l a _ hc hr ⟨h1, h2, h3⟩

theorem ev_handler_ok (l : List pios_i2c_txn) (a : pios_i2c_adapter) (raw : Nat)
    (hc : common_ok l a) (hr : rest_ok l a) :
    common_ok l (PIOS_I2C_EV_IRQ_Handler a raw) ∧ rest_ok l (PIOS_I2C_EV_IRQ_Handler a raw) := by
  unfold PIOS_I2C_EV_IRQ_Handler
  generalize raw &&& EVENT_MASK = event
  dsimp only
  split_ifs
  · have h := ok_of_same_cursors l a (I2C_ReceiveData a).2 Op.I2C_ReceiveData trivial
      rfl rfl rfl rfl rfl rfl rfl rfl hc hr
    exact ev_master_mode_select_ok l _ h.1 h.2
  · exact ev_master_mode_select_ok l a hc hr
  · exact ev_addr_sent_ok l a hc hr
  · exact ⟨hc, hr⟩
  · exact ev_transfer_done_ok l a hc hr
  · exact ⟨hc, hr⟩
  · exact ⟨hc, hr⟩
  · exact inject_ok l a _ hc hr trivial

theorem er_handler_ok (l : List pios_i2c_txn) (a : pios_i2c_adapter) (raw : Nat)
    (hc : common_ok l a) (hr : rest_ok l a) :
    common_ok l (PIOS_I2C_ER_IRQ_Handler a raw) ∧ rest_ok l (PIOS_I2C_ER_IRQ_Handler a raw) := by
  unfold PIOS_I2C_ER_IRQ_Handler
  split_ifs
  · have h := ok_of_same_cursors l a (emit a (Op.I2C_ClearFlag I2C_FLAG_AF))
      (Op.I2C_ClearFlag I2C_FLAG_AF) trivial rfl rfl rfl rfl rfl rfl rfl rfl hc hr
    exact inject_ok l _ _ h.1 h.2 trivial
  · exact inject_ok l a _ hc hr trivial

/-- Serving one interrupt keeps the invariant. -/
theorem serve_ok (l : List pios_i2c_txn) (a : pios_i2c_adapter) (i : Irq)
    (hc : common_ok l a) (hr : rest_ok l a) :
    common_ok l (serve a i) ∧ rest_ok l (serve a i) := by
  cases i with
  | ev raw => exact ev_handler_ok l a raw hc hr
  | er raw => exact er_handler_ok l a raw hc hr

/-- Serving any sequence of interrupts keeps the invariant. -/
theorem serve_all_ok (l : List pios_i2c_txn) (irqs : List Irq) :
    ∀ a : pios_i2c_adapter, common_ok l a → rest_ok l a →
      common_ok l (serve_all a irqs) ∧ rest_ok l (serve_all a irqs) := by
  induction irqs with
  | nil => intro a hc hr; exact ⟨hc, hr⟩
  | cons i rest ih =>
    intro a hc hr
    have h := serve_ok l a i hc hr
    exact ih (serve a i) h.1 h.2

theorem next_state_start (s : i2c_adapter_state) :
    (i2c_adapter_transitions s).next_state I2C_EVENT_START = I2C_STATE_STARTING
      ∨ (i2c_adapter_transitions s).next_state I2C_EVENT_START = I2C_STATE_FSM_FAULT := by
  cases s <;> simp [i2c_adapter_transitions]

/-- The adapter rests inside the list once START has been injected at the entry
of a transfer of a non-empty list. -/
theorem transfer_start_ok (l : List pios_i2c_txn) (a : pios_i2c_adapter) (hl : l ≠ [])
    (ha : all_access_ok l a.ops) :
    common_ok l (transfer_start a l) ∧ rest_ok l (transfer_start a l) := by
  have hlen : 0 < l.length := List.length_pos.mpr hl
  have hc : common_ok l (transfer_install a l) := by
    refine ⟨rfl, fun _ => rfl, ?_⟩
    show all_access_ok l (a.ops ++ [Op.PIOS_Semaphore_Take false])
    rw [all_access_ok_append, all_access_ok_cons, all_access_ok_nil]
    exact ⟨ha, trivial, trivial⟩
  unfold transfer_start
  rw [inject_event_eq_enter]
  apply enter_ok l _ _ hc
  rcases next_state_start (transfer_install a l).curr_state with h | h <;> rw [h]
  · show (0 : Int) ≤ 0 ∧ (0 : Int) ≤ (l.length : Int) - 1
    omega
  · trivial

/-- C9: for every non-empty transaction list `l` and every sequence `irqs` of raw
statuses delivered to the event and error interrupt handlers after the entry of
the transfer, each data-byte access of an entry action (the stores of
PRE_MIDDLE, PRE_LAST and POST_LAST, the loads of W_*_TXN_MIDDLE and
W_*_TXN_LAST) is made with `buf[0] <= active_byte <= last_byte`, where
`last_byte` is the last element of the buffer of a transaction of `l`: no
access recorded in the trace falls outside its buffer, provided none did before
the transfer. -/
theorem byte_accesses_inside_buffer (l : List pios_i2c_txn) (a : pios_i2c_adapter)
    (irqs : List Irq) (hl : l ≠ []) (ha : all_access_ok l a.ops) :
    all_access_ok l (serve_all (transfer_start a l) irqs).ops :=
  let h := transfer_start_ok l a hl ha
  (serve_all_ok l irqs (transfer_start a l) h.1 h.2).1.2.2

/-- The two-byte write served with the statuses of a well-behaved slave: the
second byte is read at offset 1 of a buffer whose last offset is 1, and every
access of the trace is inside the buffer. -/
theorem byte_accesses_inside_buffer_witness :
    two_byte_write ≠ [] ∧ all_access_ok two_byte_write idle_adapter.ops ∧
      Op.byte_access 0 1 1 ∈ (serve_all (transfer_start idle_adapter two_byte_write)
        (list_statuses two_byte_write)).ops ∧
      all_access_ok two_byte_write (serve_all (transfer_start idle_adapter two_byte_write)
        (list_statuses two_byte_write)).ops :=
  ⟨by decide, (all_access_ok_nil two_byte_write).mpr trivial, by decide,
    byte_accesses_inside_buffer two_byte_write idle_adapter (list_statuses two_byte_write)
      (by decide) ((all_access_ok_nil two_byte_write).mpr trivial)⟩

/-! ### C11: the BUS_ERROR column of the table -/

/-- The row of FSM_FAULT has no BUS_ERROR slot: the event leads to FSM_FAULT, not
to BUS_ERROR. -/
theorem bus_error_event_in_fsm_fault :
    (i2c_adapter_transitions I2C_STATE_FSM_FAULT).next_state I2C_EVENT_BUS_ERROR
        = I2C_STATE_FSM_FAULT ∧
      (i2c_adapter_transitions I2C_STATE_FSM_FAULT).next_state I2C_EVENT_BUS_ERROR
        ≠ I2C_STATE_BUS_ERROR := by
  decide

/-- C11, amended: the table maps (s, I2C_EVENT_BUS_ERROR) to I2C_STATE_BUS_ERROR
for every state s in which the FSM can rest; the rows of the five transient
states FSM_FAULT, BUS_ERROR, NACK, R_MORE_TXN_POST_LAST and R_LAST_TXN_POST_LAST
hold only an AUTO edge, so there the event leads to I2C_STATE_FSM_FAULT. -/
theorem bus_error_edge_of_state (s : i2c_adapter_state) :
    (i2c_adapter_transitions s).next_state I2C_EVENT_BUS_ERROR =
      if is_transient s = true then I2C_STATE_FSM_FAULT else I2C_STATE_BUS_ERROR := by
  cases s <;> rfl

/-! ### C12: the NACK column of the table -/

/-- The read address states have no NACK slot, and STARTING has one. -/
theorem nack_event_in_read_address_and_starting :
    (i2c_adapter_transitions I2C_STATE_R_LAST_TXN_ADDR).next_state I2C_EVENT_NACK
        = I2C_STATE_FSM_FAULT ∧
      (i2c_adapter_transitions I2C_STATE_R_MORE_TXN_ADDR).next_state I2C_EVENT_NACK
        = I2C_STATE_FSM_FAULT ∧
      (i2c_adapter_transitions I2C_STATE_STARTING).next_state I2C_EVENT_NACK
        = I2C_STATE_NACK := by
  decide

/-- C12, amended: the table maps (s, I2C_EVENT_NACK) to I2C_STATE_NACK exactly
when s is STARTING, a write address state (W_MORE/W_LAST_TXN_ADDR) or a write
data state (W_*_TXN_MIDDLE, W_*_TXN_LAST); for every other state, the read
address states included, a NACK event leads to FSM_FAULT. -/
theorem nack_edge_of_state (s : i2c_adapter_state) :
    ((i2c_adapter_transitions s).next_state I2C_EVENT_NACK = I2C_STATE_NACK
        ↔ accepts_nack s = true) ∧
      ((i2c_adapter_transitions s).next_state I2C_EVENT_NACK = I2C_STATE_FSM_FAULT
        ↔ accepts_nack s = false) := by
  cases s <;> decide

/-! ### C13: an injection follows at most one AUTO edge -/

theorem auto_edge_ends (s : i2c_adapter_state) :
    (i2c_adapter_transitions s).next_state I2C_EVENT_AUTO ≠ I2C_STATE_FSM_FAULT →
      (i2c_adapter_transitions ((i2c_adapter_transitions s).next_state I2C_EVENT_AUTO)).next_state
        I2C_EVENT_AUTO = I2C_STATE_FSM_FAULT := by
  cases s <;> decide

theorem settle_rests (s : i2c_adapter_state) (e : i2c_adapter_event) :
    (i2c_adapter_transitions (settle s e)).next_state I2C_EVENT_AUTO = I2C_STATE_FSM_FAULT ∧
      is_transient (settle s e) = false := by
  cases s <;> cases e <;> decide

theorem inject_event_eq_at_auto_loop (a : pios_i2c_adapter) (e : i2c_adapter_event) :
    i2c_adapter_inject_event a e =
      emit (emit (process_auto_loop I2C_STATE_NUM_STATES (at_auto_loop a e))
        Op.PIOS_IRQ_Enable) Op.PIOS_IRQ_Enable := rfl

@[simp] theorem read_pin_retry_count (a : pios_i2c_adapter) (pin : Pin) :
    (GPIO_ReadInputDataBit a pin).2.retry_count = a.retry_count := by
  cases pin <;> rfl

@[simp] theorem read_pin_retry_count_clk (a : pios_i2c_adapter) (pin : Pin) :
    (GPIO_ReadInputDataBit a pin).2.retry_count_clk = a.retry_count_clk := by
  cases pin <;> rfl

/-- The wait loops of the bus reset leave by their own test: with `retry_count`
at most `MAX_I2C_RETRY_COUNT` on entry, `MAX_I2C_RETRY_COUNT + 1 - retry_count`
iterations are the most the loop makes, and more fuel changes nothing. -/
theorem wait_line_high_fuel (pin : Pin) :
    ∀ (m n : Nat) (a : pios_i2c_adapter), a.retry_count + m = MAX_I2C_RETRY_COUNT → m < n →
      wait_line_high pin n a = wait_line_high pin (m + 1) a := by
  intro m
  induction m with
  | zero =>
    intro n a h hn
    obtain ⟨n, rfl⟩ := Nat.exists_eq_succ_of_ne_zero (Nat.pos_iff_ne_zero.mp hn)
    have h2 : ¬ (a.retry_count < MAX_I2C_RETRY_COUNT) := by omega
    simp only [wait_line_high, read_pin_retry_count, h2, if_false]
  | succ m ih =>
    intro n a h hn
    obtain ⟨n, rfl⟩ := Nat.exists_eq_succ_of_ne_zero (Nat.pos_iff_ne_zero.mp (by omega : 0 < n))
    have h2 : a.retry_count < MAX_I2C_RETRY_COUNT := by omega
    have h3 : (a.retry_count + 1) % 256 + m = MAX_I2C_RETRY_COUNT := by
      unfold MAX_I2C_RETRY_COUNT at *
      omega
    rw [wait_line_high, wait_line_high]
    simp only [read_pin_retry_count, h2, if_true]
    split
    · exact ih n _ h3 (by omega)
    · rfl

theorem wait_line_high_retry_count_clk (pin : Pin) :
    ∀ (n : Nat) (a : pios_i2c_adapter),
      (wait_line_high pin n a).retry_count_clk = a.retry_count_clk := by
  intro n
  induction n with
  | zero => intro a; rfl
  | succ n ih =>
    intro a
    rw [wait_line_high]
    dsimp only
    split
    · split
      · rw [ih]
        exact read_pin_retry_count_clk a pin
      · exact read_pin_retry_count_clk a pin
    · exact read_pin_retry_count_clk a pin

@[simp] theorem clock_pulse_retry_count_clk (a : pios_i2c_adapter) :
    (clock_pulse a).retry_count_clk = a.retry_count_clk := by
  simp only [clock_pulse, emit, wait_line_high_retry_count_clk]
  rfl

/-- The SDA recovery loop leaves by its own test after at most
`MAX_I2C_RETRY_COUNT + 1 - retry_count_clk` iterations. -/
theorem clock_out_sda_fuel :
    ∀ (m n : Nat) (a : pios_i2c_adapter), a.retry_count_clk + m = MAX_I2C_RETRY_COUNT → m < n →
      clock_out_sda n a = clock_out_sda (m + 1) a := by
  intro m
  induction m with
  | zero =>
    intro n a h hn
    obtain ⟨n, rfl⟩ := Nat.exists_eq_succ_of_ne_zero (Nat.pos_iff_ne_zero.mp hn)
    have h2 : ¬ (a.retry_count_clk < MAX_I2C_RETRY_COUNT) := by omega
    simp only [clock_out_sda, read_pin_retry_count_clk, h2, if_false]
  | succ m ih =>
    intro n a h hn
    obtain ⟨n, rfl⟩ := Nat.exists_eq_succ_of_ne_zero (Nat.pos_iff_ne_zero.mp (by omega : 0 < n))
    have h2 : a.retry_count_clk < MAX_I2C_RETRY_COUNT := by omega
    have h3 : (a.retry_count_clk + 1) % 256 + m = MAX_I2C_RETRY_COUNT := by
      unfold MAX_I2C_RETRY_COUNT at *
      omega
    rw [clock_out_sda, clock_out_sda]
    simp only [read_pin_retry_count_clk, h2, if_true]
    split
    · apply ih n _ _ (by omega)
      rw [clock_pulse_retry_count_clk]
      exact h3
    · rfl

/-- C13: for every state and every event, i2c_adapter_inject_event returns: the
loop of i2c_adapter_process_auto runs its body at most once (any allowance of
one or more iterations gives the same adapter, so the loop leaves by its own
test), and on return curr_state has no AUTO edge: it is none of FSM_FAULT,
BUS_ERROR, NACK, R_MORE_TXN_POST_LAST and R_LAST_TXN_POST_LAST.  The loops of
the entry actions, all in the bus reset, leave by their retry counters
(wait_line_high_fuel, clock_out_sda_fuel). -/
theorem inject_event_follows_one_auto_edge (a : pios_i2c_adapter) (e : i2c_adapter_event) :
    (∀ fuel : Nat, process_auto_loop (fuel + 1) (at_auto_loop a e)
        = process_auto_loop 1 (at_auto_loop a e)) ∧
      i2c_adapter_inject_event a e =
        emit (emit (process_auto_loop 1 (at_auto_loop a e)) Op.PIOS_IRQ_Enable)
          Op.PIOS_IRQ_Enable ∧
      (i2c_adapter_transitions (i2c_adapter_inject_event a e).curr_state).next_state
        I2C_EVENT_AUTO = I2C_STATE_FSM_FAULT ∧
      is_transient (i2c_adapter_inject_event a e).curr_state = false := by
  have h1 : ∀ fuel : Nat, process_auto_loop (fuel + 1) (at_auto_loop a e)
      = process_auto_loop 1 (at_auto_loop a e) := by
    intro fuel
    simp only [process_auto_loop]
    split
    · rename_i h
      apply process_auto_loop_rest
      rw [call_entry_fn_curr_state]
      exact auto_edge_ends _ h
    · rfl
  refine ⟨h1, ?_, ?_⟩
  · rw [inject_event_eq_at_auto_loop, show I2C_STATE_NUM_STATES = 23 + 1 from rfl, h1]
  · rw [inject_event_curr_state]
    exact settle_rests _ _

/-! ### C14, C15: PIOS_I2C_CheckClear -/

/-- C14: PIOS_I2C_CheckClear returns -1 when the mutex is not acquired at once;
otherwise -2 when curr_state is not STOPPED; otherwise -3 when SDA reads low or
SCL reads low; otherwise 0, in that order of priority; it has no other
result. -/
theorem check_clear_result (a : pios_i2c_adapter) (lock_ok : Bool) :
    (PIOS_I2C_CheckClear a lock_ok).1 =
        (if lock_ok = false then -1
         else if a.curr_state ≠ I2C_STATE_STOPPED then -2
         else if a.sda_in a.n_sda = false ∨ a.scl_in a.n_scl = false then -3
         else 0) ∧
      ((PIOS_I2C_CheckClear a lock_ok).1 = 0 ∨ (PIOS_I2C_CheckClear a lock_ok).1 = -1 ∨
        (PIOS_I2C_CheckClear a lock_ok).1 = -2 ∨ (PIOS_I2C_CheckClear a lock_ok).1 = -3) := by
  unfold PIOS_I2C_CheckClear
  cases lock_ok
  · simp
  · by_cases hs : a.curr_state = I2C_STATE_STOPPED
    · cases h1 : a.sda_in a.n_sda <;> cases h2 : a.scl_in a.n_scl <;>
        simp [emit, GPIO_ReadInputDataBit, hs, h1, h2]
    · simp [emit, hs]

/-- The results of PIOS_I2C_CheckClear on an idle adapter with free lines, with
the mutex taken, in the middle of a transfer, and with SCL held low. -/
theorem check_clear_examples :
    (PIOS_I2C_CheckClear idle_adapter true).1 = 0 ∧
      (PIOS_I2C_CheckClear idle_adapter false).1 = -1 ∧
      (PIOS_I2C_CheckClear (transfer_start idle_adapter one_byte_read) true).1 = -2 ∧
      (PIOS_I2C_CheckClear lines_low_adapter true).1 = -3 := by
  decide

/-- C15: on every path PIOS_I2C_CheckClear leaves curr_state, the transaction
and byte cursors, bus_error, the transaction memory and the semaphore as they
were; what it adds to the trace is the mutex acquisition, then, only when the
mutex was acquired, reads of the input pins (no write to the peripheral or to
the pins) followed by exactly one release; when the acquisition failed nothing
follows it. -/
theorem check_clear_frame (a : pios_i2c_adapter) (lock_ok : Bool) :
    fsm_fields (PIOS_I2C_CheckClear a lock_ok).2 = fsm_fields a ∧
      ∃ reads : List Op, (∀ o ∈ reads, is_pin_read o = true) ∧
        (PIOS_I2C_CheckClear a lock_ok).2.ops =
          a.ops ++ Op.PIOS_Mutex_Lock lock_ok ::
            (if lock_ok = true then reads ++ [Op.PIOS_Mutex_Unlock] else []) := by
  unfold PIOS_I2C_CheckClear
  cases lock_ok
  · exact ⟨rfl, [], by simp, by simp [emit]⟩
  · by_cases hs : a.curr_state = I2C_STATE_STOPPED
    · cases h1 : a.sda_in a.n_sda
      · refine ⟨by simp [emit, GPIO_ReadInputDataBit, hs, h1, fsm_fields],
          [Op.GPIO_ReadInputDataBit Pin.sda], by simp [is_pin_read], ?_⟩
        simp [emit, GPIO_ReadInputDataBit, hs, h1]
      · cases h2 : a.scl_in a.n_scl <;>
        · refine ⟨by simp [emit, GPIO_ReadInputDataBit, hs, h1, h2, fsm_fields],
            [Op.GPIO_ReadInputDataBit Pin.sda, Op.GPIO_ReadInputDataBit Pin.scl],
            by simp [is_pin_read], ?_⟩
          simp [emit, GPIO_ReadInputDataBit, hs, h1, h2]
    · refine ⟨by simp [emit, hs, fsm_fields], [], by simp, ?_⟩
      simp [emit, hs]

/-! ### C16: the address byte -/

theorem shl_one_of_7bit (x : Nat) (h : x ≤ 0x7F) :
    (x <<< 1) % 256 = 2 * x ∧ (2 * x) ||| 1 = 2 * x + 1 ∧ (2 * x) &&& 0xFE = 2 * x := by
  have : x < 128 := by omega
  clear h
  interval_cases x <;> decide

theorem sent_addresses_append_step (ops : List Op) (s : i2c_adapter_state) (x : Nat)
    (d : I2C_Direction) :
    sent_addresses (ops ++ step_ops s [Op.I2C_Send7bitAddress x d]) =
      sent_addresses ops ++ [(x, d)] := by
  simp [sent_addresses, step_ops, List.filterMap_append]

/-- C16: for every 7-bit slave address x (at most 0x7F) of the active
transaction, both address entry actions hand `x << 1` to I2C_Send7bitAddress,
which is 2 * x, without truncation to eight bits and with bit 0 clear,
go_r_any_txn_addr with direction Receiver and go_w_any_txn_addr with direction
Transmitter; the address byte is then 2 * x + 1 for a read and 2 * x for a
write; and the answer to EV5 in STARTING runs the action of the direction of the
active transaction: Receiver for a READ, Transmitter for a WRITE. -/
theorem address_byte_of_txn (a : pios_i2c_adapter)
    (haddr : (txn_at a.txns a.active_txn).addr ≤ 0x7F) :
    go_r_any_txn_addr a = emit a (Op.I2C_Send7bitAddress
        (2 * (txn_at a.txns a.active_txn).addr) I2C_Direction.I2C_Direction_Receiver) ∧
      go_w_any_txn_addr a = emit a (Op.I2C_Send7bitAddress
        (2 * (txn_at a.txns a.active_txn).addr) I2C_Direction.I2C_Direction_Transmitter) ∧
      2 * (txn_at a.txns a.active_txn).addr < 256 ∧
      (2 * (txn_at a.txns a.active_txn).addr) % 2 = 0 ∧
      I2C_Send7bitAddress_byte (2 * (txn_at a.txns a.active_txn).addr)
        I2C_Direction.I2C_Direction_Receiver = 2 * (txn_at a.txns a.active_txn).addr + 1 ∧
      I2C_Send7bitAddress_byte (2 * (txn_at a.txns a.active_txn).addr)
        I2C_Direction.I2C_Direction_Transmitter = 2 * (txn_at a.txns a.active_txn).addr ∧
      (a.curr_state = I2C_STATE_STARTING → a.active_txn ≤ a.last_txn →
        sent_addresses (serve a (Irq.ev I2C_EVENT_MASTER_MODE_SELECT)).ops =
          sent_addresses a.ops ++ [(2 * (txn_at a.txns a.active_txn).addr,
            match (txn_at a.txns a.active_txn).rw with
            | PIOS_I2C_TXN_READ => I2C_Direction.I2C_Direction_Receiver
            | PIOS_I2C_TXN_WRITE => I2C_Direction.I2C_Direction_Transmitter)]) := by
  obtain ⟨h1, h2, h3⟩ := shl_one_of_7bit _ haddr
  refine ⟨by simp only [go_r_any_txn_addr, h1], by simp only [go_w_any_txn_addr, h1],
    by omega, by omega, h2, h3, ?_⟩
  intro hs hle
  have hm : ∀ more : Bool, more = decide (a.active_txn < a.last_txn) →
      (more = true ∧ a.active_txn < a.last_txn) ∨ (more = false ∧ a.active_txn = a.last_txn) := by
    intro more hmore
    by_cases hlt : a.active_txn < a.last_txn
    · exact Or.inl ⟨by simp [hmore, hlt], hlt⟩
    · exact Or.inr ⟨by simp [hmore, hlt], by omega⟩
  cases hrw : (txn_at a.txns a.active_txn).rw
  · rw [read_start_step _ a hs hrw (hm _ rfl)]
    dsimp only
    rw [sent_addresses_append_step, h1]
  · rw [write_start_step _ a hs hrw (hm _ rfl)]
    dsimp only
    rw [sent_addresses_append_step, h1]

/-- The one-byte read from 0x1E: the argument is 0x3C with direction Receiver, the
address byte 0x3D. -/
theorem address_byte_of_txn_witness :
    (txn_at (transfer_start idle_adapter read_1e).txns
        (transfer_start idle_adapter read_1e).active_txn).addr ≤ 0x7F ∧
      wire_addresses (serve (transfer_start idle_adapter read_1e)
        (Irq.ev I2C_EVENT_MASTER_MODE_SELECT)).ops = [0x3D] ∧
      sent_addresses (serve (transfer_start idle_adapter read_1e)
        (Irq.ev I2C_EVENT_MASTER_MODE_SELECT)).ops =
        sent_addresses (transfer_start idle_adapter read_1e).ops ++
          [(2 * 0x1E, I2C_Direction.I2C_Direction_Receiver)] :=
  ⟨by decide, by decide,
    (address_byte_of_txn (transfer_start idle_adapter read_1e) (by decide)).2.2.2.2.2.2
      (by decide) (by decide)⟩

/-- Address bytes of common devices: 0x1E gives 0x3D and 0x3C, 0x77 gives 0xEE
for a write, 0x68 gives 0xD1 for a read. -/
theorem address_byte_examples :
    I2C_Send7bitAddress_byte ((0x1E <<< 1) % 256) I2C_Direction.I2C_Direction_Receiver = 0x3D ∧
      I2C_Send7bitAddress_byte ((0x1E <<< 1) % 256) I2C_Direction.I2C_Direction_Transmitter
        = 0x3C ∧
      I2C_Send7bitAddress_byte ((0x77 <<< 1) % 256) I2C_Direction.I2C_Direction_Transmitter
        = 0xEE ∧
      I2C_Send7bitAddress_byte ((0x68 <<< 1) % 256) I2C_Direction.I2C_Direction_Receiver
        = 0xD1 := by
  decide

/-! ### C17: the exit path after a semaphore timeout -/

/-- A transfer that returns with the mutex acquired left the spin-wait in
STOPPING and went through the exit path from there. -/
theorem transfer_eq_finish (a : pios_i2c_adapter) (txn_list : List pios_i2c_txn)
    (env : TransferEnv) (p : Int × pios_i2c_adapter) (hlock : env.lock_ok = true)
    (hret : PIOS_I2C_Transfer a txn_list env = some p) :
    ∃ b, spin_until_terminated env.irqs_spin (transfer_at_spin a txn_list env) = some b ∧
      b.curr_state = I2C_STATE_STOPPING ∧
      p = transfer_finish (transfer_waited a txn_list env).sem_ready b := by
  unfold PIOS_I2C_Transfer at hret
  simp only [hlock, Bool.true_eq_false, if_false] at hret
  split at hret
  · exact absurd hret (by simp)
  · rename_i b hspin
    simp only [Option.some.injEq] at hret
    refine ⟨b, hspin, ?_, hret.symm⟩
    obtain ⟨hterm, hne⟩ := spin_until_terminated_spec _ _ _ hspin
    have hw : (transfer_waited a txn_list env).curr_state ≠ I2C_STATE_STOPPED :=
      serve_all_ne_stopped _ _ (transfer_start_ne_stopped _ _)
    rcases (terminated_iff b).mp hterm with h | h
    · exact h
    · exact absurd h (hne hw)

theorem emit_ops (a : pios_i2c_adapter) (o : Op) : (emit a o).ops = a.ops ++ [o] := rfl

/-- C18: with the mutex acquired and no interrupt delivered at all, the wait on
the semaphore times out with the FSM in STARTING, and the loop
`while (!i2c_adapter_fsm_terminated(i2c_adapter)) ;` never exits: the call has no
result. -/
theorem transfer_spins_when_stalled :
    (transfer_waited idle_adapter one_byte_read env_stalled).sem_ready = false ∧
      (transfer_at_spin idle_adapter one_byte_read env_stalled).curr_state
        = I2C_STATE_STARTING ∧
      i2c_adapter_fsm_terminated (transfer_at_spin idle_adapter one_byte_read env_stalled)
        = false ∧
      (PIOS_I2C_Transfer idle_adapter one_byte_read env_stalled).isNone = true := by
  decide

/-! ### C19: bus_error and the injected events -/

/-- The case EV5 is the injection of its event, if it has one. -/
theorem ev_master_mode_select_eq (a : pios_i2c_adapter) :
    ev_master_mode_select a = match ev_master_mode_select_event a with
      | some e => i2c_adapter_inject_event a e
      | none => a := by
  unfold ev_master_mode_select ev_master_mode_select_event
  cases (txn_at a.txns a.active_txn).rw <;> dsimp only <;> split_ifs <;> rfl

theorem ev_addr_sent_eq (a : pios_i2c_adapter) :
    ev_addr_sent a = i2c_adapter_inject_event a (ev_addr_sent_event a) := by
  unfold ev_addr_sent ev_addr_sent_event
  split_ifs <;> rfl

theorem ev_transfer_done_eq (a : pios_i2c_adapter) :
    ev_transfer_done a = i2c_adapter_inject_event a (ev_transfer_done_event a) := by
  unfold ev_transfer_done ev_transfer_done_event
  split_ifs <;> rfl

/-- The handler of one interrupt is its prologue followed by the injection of its
event, if it has one. -/
theorem serve_eq (a : pios_i2c_adapter) (i : Irq) :
    serve a i = match irq_event a i with
      | some e => i2c_adapter_inject_event (irq_prologue a i) e
      | none => irq_prologue a i := by
  cases i with
  | ev raw =>
    simp only [serve, PIOS_I2C_EV_IRQ_Handler, irq_event, irq_prologue]
    generalize raw &&& EVENT_MASK = event
    split_ifs
    · exact ev_master_mode_select_eq _
    · exact ev_master_mode_select_eq _
    · exact ev_addr_sent_eq _
    · rfl
    · exact ev_transfer_done_eq _
    · rfl
    · rfl
    · rfl
  | er raw =>
    simp only [serve, PIOS_I2C_ER_IRQ_Handler, irq_event, irq_prologue]
    split_ifs <;> rfl


/-- The entry into a state sets bus_error exactly for FSM_FAULT and BUS_ERROR. -/
theorem enter_bus_error (a : pios_i2c_adapter) (s : i2c_adapter_state) :
    (enter a s).bus_error = (a.bus_error || is_fault_state s) := by
  have h1 := enter_no_auto a s
  have h2 := enter_one_auto a s
  cases s <;>
    (first | rw [h1 rfl] | rw [h2 _ rfl (by decide) rfl]) <;>
    simp only [call_entry_fn, i2c_adapter_transitions, set_state, emit,
      go_fsm_fault, go_bus_error, go_stopping, go_stopped,
      go_starting_eq, go_r_any_txn_addr, go_r_more_txn_pre_one, go_r_last_txn_pre_one,
      go_r_any_txn_pre_first, go_r_any_txn_pre_middle, go_r_more_txn_pre_last,
      go_r_last_txn_pre_last, go_r_any_txn_post_last, go_w_any_txn_addr,
      go_w_any_txn_middle, go_w_more_txn_last, go_w_last_txn_last, go_nack,
      I2C_ReceiveData, store_active_byte, load_active_byte, reset_bus_bus_error,
      is_fault_state, Bool.or_false, Bool.or_true]

theorem is_fault_state_next (s : i2c_adapter_state) (e : i2c_adapter_event) :
    is_fault_state ((i2c_adapter_transitions s).next_state e) = raises_bus_error (s, e) := by
  cases s <;> cases e <;> rfl

theorem inject_event_bus_error (a : pios_i2c_adapter) (e : i2c_adapter_event) :
    (i2c_adapter_inject_event a e).bus_error
      = (a.bus_error || raises_bus_error (a.curr_state, e)) := by
  rw [inject_event_eq_enter, enter_bus_error, is_fault_state_next]

theorem irq_prologue_frame (a : pios_i2c_adapter) (i : Irq) :
    (irq_prologue a i).bus_error = a.bus_error ∧
      (irq_prologue a i).curr_state = a.curr_state := by
  cases i <;> simp only [irq_prologue] <;> split_ifs <;> exact ⟨rfl, rfl⟩

theorem serve_bus_error (a : pios_i2c_adapter) (i : Irq) :
    (serve a i).bus_error = (a.bus_error || (journal_entry a i).any raises_bus_error) := by
  rw [serve_eq, journal_entry]
  cases irq_event a i with
  | none => simp [(irq_prologue_frame a i).1]
  | some e =>
    simp [inject_event_bus_error, (irq_prologue_frame a i).1, (irq_prologue_frame a i).2]

theorem serve_all_bus_error (irqs : List Irq) (a : pios_i2c_adapter) :
    (serve_all a irqs).bus_error
      = (a.bus_error || (served_events a irqs).any raises_bus_error) := by
  induction irqs generalizing a with
  | nil => simp [serve_all, served_events]
  | cons i rest ih =>
    rw [serve_all_cons, ih, serve_bus_error, served_events, List.any_append, Bool.or_assoc]

theorem spin_bus_error (irqs : List Irq) (a b : pios_i2c_adapter)
    (h : spin_until_terminated irqs a = some b) :
    b.bus_error = (a.bus_error || (spun_events irqs a).any raises_bus_error) := by
  induction irqs generalizing a with
  | nil =>
    simp only [spin_until_terminated] at h
    split at h
    · cases h; simp [spun_events]
    · cases h
  | cons i rest ih =>
    simp only [spin_until_terminated] at h
    split at h
    · rename_i ht
      cases h
      simp [spun_events, ht]
    · rename_i ht
      rw [ih _ h, serve_bus_error, spun_events, if_neg ht, List.any_append, Bool.or_assoc]

theorem transfer_finish_bus_error (ok : Bool) (b : pios_i2c_adapter) :
    (transfer_finish ok b).2.bus_error
      = (b.bus_error || (exit_events b).any raises_bus_error) := by
  obtain ⟨k, hk⟩ := wait_for_stopped_frame b
  simp only [transfer_finish, exit_events, emit]
  split
  · simp [inject_event_bus_error, hk]
  · simp [i2c_adapter_fsm_init, set_state, hk]

/-- The flag at the return is the disjunction over the journal of the call. -/
theorem transfer_bus_error (a : pios_i2c_adapter) (txn_list : List pios_i2c_txn)
    (env : TransferEnv) (p : Int × pios_i2c_adapter) (hlock : env.lock_ok = true)
    (hret : PIOS_I2C_Transfer a txn_list env = some p) :
    p.2.bus_error = (transfer_events a txn_list env).any raises_bus_error := by
  obtain ⟨b, hspin, _, hp⟩ := transfer_eq_finish a txn_list env p hlock hret
  subst hp
  have h1 : (transfer_at_spin a txn_list env).bus_error
      = (raises_bus_error (a.curr_state, I2C_EVENT_START) ||
          (served_events (transfer_start (emit a (Op.PIOS_Mutex_Lock true)) txn_list)
            env.irqs_wait).any raises_bus_error) := by
    show (serve_all _ env.irqs_wait).bus_error = _
    rw [serve_all_bus_error]
    unfold transfer_start
    rw [inject_event_bus_error]
    rfl
  rw [transfer_finish_bus_error, spin_bus_error _ _ _ hspin, h1]
  simp only [transfer_events, hspin, List.any_cons, List.any_append, Bool.or_assoc]


/-- One stray byte-received status in STARTING: the handler injects
TRANSFER_DONE_LEN_EQ_1, for which STARTING has no transition; the transfer
returns -1 with bus_error set, and no BUS_ERROR event was injected. -/
theorem bus_error_without_bus_error_event :
    (PIOS_I2C_Transfer idle_adapter one_byte_read env_stray_status).isSome = true ∧
      (transfer_outcome idle_adapter one_byte_read env_stray_status).1 = -1 ∧
      (transfer_outcome idle_adapter one_byte_read env_stray_status).2.bus_error = true ∧
      transfer_events idle_adapter one_byte_read env_stray_status =
        [(I2C_STATE_STOPPED, I2C_EVENT_START),
         (I2C_STATE_STARTING, I2C_EVENT_TRANSFER_DONE_LEN_EQ_1),
         (I2C_STATE_STOPPING, I2C_EVENT_STOPPED)] := by
  decide

/-- C19, amended: for every transfer that acquires the mutex and returns,
bus_error is set at the return if and only if, during that transfer, an
I2C_EVENT_BUS_ERROR event was injected or some event was injected in a state
whose row of the table has no transition for it (the FSM fault, whose entry
action sets bus_error as well). -/
theorem bus_error_iff_bus_error_event_or_fault (a : pios_i2c_adapter)
    (txn_list : List pios_i2c_txn) (env : TransferEnv) (p : Int × pios_i2c_adapter)
    (hlock : env.lock_ok = true) (hret : PIOS_I2C_Transfer a txn_list env = some p) :
    p.2.bus_error = true ↔
      ∃ se ∈ transfer_events a txn_list env, se.2 = I2C_EVENT_BUS_ERROR ∨
        (i2c_adapter_transitions se.1).next_state se.2 = I2C_STATE_FSM_FAULT := by
  rw [transfer_bus_error a txn_list env p hlock hret, List.any_eq_true]
  simp only [raises_bus_error, decide_eq_true_eq]

/-- The transfer with the stray status: bus_error is set by the FSM fault. -/
theorem bus_error_iff_bus_error_event_or_fault_witness :
    (transfer_outcome idle_adapter one_byte_read env_stray_status).2.bus_error = true ↔
      ∃ se ∈ transfer_events idle_adapter one_byte_read env_stray_status,
        se.2 = I2C_EVENT_BUS_ERROR ∨
          (i2c_adapter_transitions se.1).next_state se.2 = I2C_STATE_FSM_FAULT :=
  bus_error_iff_bus_error_event_or_fault idle_adapter one_byte_read env_stray_status
    (transfer_outcome idle_adapter one_byte_read env_stray_status) rfl
    (transfer_outcome_spec _ _ _ (by decide))

/-! ### C20: the mutex around a transfer -/

theorem quiet_refl (a : pios_i2c_adapter) : quiet_ext a a := ⟨List.prefix_refl _, rfl⟩

theorem quiet_trans {a b c : pios_i2c_adapter} (h1 : quiet_ext a b) (h2 : quiet_ext b c) :
    quiet_ext a c := ⟨h1.1.trans h2.1, h2.2.trans h1.2⟩

theorem quiet_of_ops_eq {a b : pios_i2c_adapter} (h : b.ops = a.ops) : quiet_ext a b := by
  unfold quiet_ext
  rw [h]
  exact ⟨List.prefix_refl _, rfl⟩

theorem quiet_emit (a : pios_i2c_adapter) (o : Op) (h : is_mutex_op o = false) :
    quiet_ext a (emit a o) := by
  refine ⟨List.prefix_append _ _, ?_⟩
  simp [emit, mutex_ops, List.filter_append, h]

theorem quiet_read_pin (a : pios_i2c_adapter) (pin : Pin) :
    quiet_ext a (GPIO_ReadInputDataBit a pin).2 := by
  cases pin <;>
    exact ⟨List.prefix_append _ _, by
      simp [GPIO_ReadInputDataBit, mutex_ops, List.filter_append, is_mutex_op]⟩

theorem quiet_set_retry_count (a : pios_i2c_adapter) (n : Nat) :
    quiet_ext a (set_retry_count a n) := ⟨List.prefix_refl _, rfl⟩

theorem quiet_set_retry_count_clk (a : pios_i2c_adapter) (n : Nat) :
    quiet_ext a (set_retry_count_clk a n) := ⟨List.prefix_refl _, rfl⟩

theorem quiet_read_SR2 (a : pios_i2c_adapter) : quiet_ext a (read_SR2 a).2 :=
  ⟨List.prefix_refl _, rfl⟩

theorem quiet_wait_line_high (pin : Pin) (n : Nat) (a : pios_i2c_adapter) :
    quiet_ext a (wait_line_high pin n a) := by
  induction n generalizing a with
  | zero => exact quiet_refl a
  | succ n ih =>
    rw [wait_line_high]
    dsimp only
    split
    · split
      · refine quiet_trans ?_ (ih _)
        refine quiet_trans ?_ (quiet_emit _ _ rfl)
        refine quiet_trans ?_ (quiet_set_retry_count _ _)
        exact quiet_read_pin a pin
      · refine quiet_trans ?_ (quiet_set_retry_count _ _)
        exact quiet_read_pin a pin
    · exact quiet_read_pin a pin

theorem quiet_clock_pulse (a : pios_i2c_adapter) : quiet_ext a (clock_pulse a) := by
  unfold clock_pulse
  dsimp only
  refine quiet_trans ?_ (quiet_emit _ _ rfl)
  refine quiet_trans ?_ (quiet_emit _ _ rfl)
  refine quiet_trans ?_ (quiet_emit _ _ rfl)
  refine quiet_trans ?_ (quiet_emit _ _ rfl)
  refine quiet_trans ?_ (quiet_emit _ _ rfl)
  refine quiet_trans ?_ (quiet_wait_line_high _ _ _)
  refine quiet_trans ?_ (quiet_emit _ _ rfl)
  exact quiet_set_retry_count _ _

theorem quiet_clock_out_sda (n : Nat) (a : pios_i2c_adapter) :
    quiet_ext a (clock_out_sda n a) := by
  induction n generalizing a with
  | zero => exact quiet_refl a
  | succ n ih =>
    rw [clock_out_sda]
    dsimp only
    split
    · split
      · refine quiet_trans ?_ (ih _)
        refine quiet_trans ?_ (quiet_clock_pulse _)
        refine quiet_trans ?_ (quiet_set_retry_count_clk _ _)
        exact quiet_read_pin a Pin.sda
      · refine quiet_trans ?_ (quiet_set_retry_count_clk _ _)
        exact quiet_read_pin a Pin.sda
    · exact quiet_read_pin a Pin.sda

/-- The bus reset does not touch the mutex. -/
theorem quiet_reset_bus (a : pios_i2c_adapter) : quiet_ext a (i2c_adapter_reset_bus a) := by
  have h : ∀ X : pios_i2c_adapter, quiet_ext a X →
      quiet_ext a (read_SR2 (emit (emit (emit (emit (wait_line_high Pin.sda 256
        (set_retry_count (wait_line_high Pin.scl 256 (set_retry_count X 0)) 0))
        (Op.GPIO_Init Pin.scl PinMode.cfg_init)) (Op.GPIO_Init Pin.sda PinMode.cfg_init))
        Op.I2C_DeInit) Op.I2C_Init)).2 := by
    intro X hX
    refine quiet_trans ?_ (quiet_read_SR2 _)
    refine quiet_trans ?_ (quiet_emit _ _ rfl)
    refine quiet_trans ?_ (quiet_emit _ _ rfl)
    refine quiet_trans ?_ (quiet_emit _ _ rfl)
    refine quiet_trans ?_ (quiet_emit _ _ rfl)
    refine quiet_trans ?_ (quiet_wait_line_high _ _ _)
    refine quiet_trans ?_ (quiet_set_retry_count _ _)
    refine quiet_trans ?_ (quiet_wait_line_high _ _ _)
    exact quiet_trans hX (quiet_set_retry_count _ _)
  have h0 : quiet_ext a (emit (emit (emit (emit (emit (emit (emit (emit (clock_out_sda 256
      (set_retry_count_clk (emit (emit (emit (emit (emit a Op.I2C_DeInit)
        (Op.GPIO_SetBits Pin.scl)) (Op.GPIO_Init Pin.scl PinMode.GPIO_Mode_Out_OD))
        (Op.GPIO_SetBits Pin.sda)) (Op.GPIO_Init Pin.sda PinMode.GPIO_Mode_Out_OD)) 0))
      (Op.GPIO_SetBits Pin.scl)) (Op.PIOS_DELAY_WaituS 2)) (Op.GPIO_ResetBits Pin.sda))
      (Op.PIOS_DELAY_WaituS 2)) (Op.GPIO_SetBits Pin.sda)) (Op.PIOS_DELAY_WaituS 2))
      (Op.GPIO_SetBits Pin.sda)) (Op.GPIO_SetBits Pin.scl)) := by
    refine quiet_trans ?_ (quiet_emit _ _ rfl)
    refine quiet_trans ?_ (quiet_emit _ _ rfl)
    refine quiet_trans ?_ (quiet_emit _ _ rfl)
    refine quiet_trans ?_ (quiet_emit _ _ rfl)
    refine quiet_trans ?_ (quiet_emit _ _ rfl)
    refine quiet_trans ?_ (quiet_emit _ _ rfl)
    refine quiet_trans ?_ (quiet_emit _ _ rfl)
    refine quiet_trans ?_ (quiet_emit _ _ rfl)
    refine quiet_trans ?_ (quiet_clock_out_sda _ _)
    refine quiet_trans ?_ (quiet_set_retry_count_clk _ _)
    refine quiet_trans ?_ (quiet_emit _ _ rfl)
    refine quiet_trans ?_ (quiet_emit _ _ rfl)
    refine quiet_trans ?_ (quiet_emit _ _ rfl)
    refine quiet_trans ?_ (quiet_emit _ _ rfl)
    exact quiet_emit _ _ rfl
  have h1 := h _ h0
  simp only [i2c_adapter_reset_bus]
  split
  · refine quiet_trans ?_ (quiet_emit _ _ rfl)
    refine quiet_trans ?_ (quiet_emit _ _ rfl)
    exact h1
  · exact h1


theorem quiet_of_ops (a b : pios_i2c_adapter) (mid : List Op) (h : b.ops = a.ops ++ mid)
    (hm : mutex_ops mid = []) : quiet_ext a b := by
  unfold quiet_ext
  rw [h]
  refine ⟨List.prefix_append _ _, ?_⟩
  unfold mutex_ops at *
  rw [List.filter_append, hm, List.append_nil]

theorem quiet_call_entry_fn (a : pios_i2c_adapter) : quiet_ext a (call_entry_fn a) := by
  unfold call_entry_fn
  cases h : a.curr_state <;> simp only [i2c_adapter_transitions]
  case I2C_STATE_FSM_FAULT =>
    unfold go_fsm_fault
    refine quiet_trans ?_ (quiet_reset_bus _)
    exact quiet_of_ops _ _ [Op.entry_fn I2C_STATE_FSM_FAULT] rfl rfl
  case I2C_STATE_BUS_ERROR =>
    unfold go_bus_error
    refine quiet_trans ?_ (quiet_reset_bus _)
    exact quiet_of_ops _ _ [Op.entry_fn I2C_STATE_BUS_ERROR] rfl rfl
  all_goals
    simp [quiet_ext, mutex_ops, is_mutex_op, List.filter_append, emit,
      go_stopping, go_stopped,
      go_starting_eq, go_r_any_txn_addr, go_r_more_txn_pre_one, go_r_last_txn_pre_one,
      go_r_any_txn_pre_first, go_r_any_txn_pre_middle, go_r_more_txn_pre_last,
      go_r_last_txn_pre_last, go_r_any_txn_post_last, go_w_any_txn_addr,
      go_w_any_txn_middle, go_w_more_txn_last, go_w_last_txn_last, go_nack,
      I2C_ReceiveData, store_active_byte, load_active_byte, starting_body]

theorem quiet_set_state (a : pios_i2c_adapter) (s : i2c_adapter_state) :
    quiet_ext a (set_state a s) :=
  quiet_of_ops _ _ [Op.state_write s] rfl rfl

theorem quiet_process_auto_loop (n : Nat) (a : pios_i2c_adapter) :
    quiet_ext a (process_auto_loop n a) := by
  induction n generalizing a with
  | zero => exact quiet_refl a
  | succ n ih =>
    simp only [process_auto_loop]
    split
    · exact quiet_trans (quiet_trans (quiet_set_state _ _) (quiet_call_entry_fn _)) (ih _)
    · exact quiet_refl a

theorem quiet_inject_event (a : pios_i2c_adapter) (e : i2c_adapter_event) :
    quiet_ext a (i2c_adapter_inject_event a e) := by
  unfold i2c_adapter_inject_event i2c_adapter_process_auto
  dsimp only
  refine quiet_trans ?_ (quiet_emit _ _ rfl)
  refine quiet_trans ?_ (quiet_emit _ _ rfl)
  refine quiet_trans ?_ (quiet_process_auto_loop _ _)
  refine quiet_trans ?_ (quiet_emit _ _ rfl)
  refine quiet_trans ?_ (quiet_call_entry_fn _)
  refine quiet_trans ?_ (quiet_set_state _ _)
  exact quiet_emit _ _ rfl

theorem quiet_irq_prologue (a : pios_i2c_adapter) (i : Irq) :
    quiet_ext a (irq_prologue a i) := by
  cases i <;> simp only [irq_prologue] <;> split_ifs
  · exact quiet_of_ops _ _ [Op.I2C_ReceiveData] rfl rfl
  · exact quiet_refl a
  · exact quiet_emit _ _ rfl
  · exact quiet_refl a

theorem quiet_serve (a : pios_i2c_adapter) (i : Irq) : quiet_ext a (serve a i) := by
  rw [serve_eq]
  cases irq_event a i with
  | none => exact quiet_irq_prologue a i
  | some e => exact quiet_trans (quiet_irq_prologue a i) (quiet_inject_event _ e)

theorem quiet_serve_all (irqs : List Irq) (a : pios_i2c_adapter) :
    quiet_ext a (serve_all a irqs) := by
  induction irqs generalizing a with
  | nil => exact quiet_refl a
  | cons i rest ih => exact quiet_trans (quiet_serve a i) (ih _)

theorem quiet_spin (irqs : List Irq) (a b : pios_i2c_adapter)
    (h : spin_until_terminated irqs a = some b) : quiet_ext a b := by
  induction irqs generalizing a with
  | nil =>
    simp only [spin_until_terminated] at h
    split at h
    · cases h; exact quiet_refl _
    · cases h
  | cons i rest ih =>
    simp only [spin_until_terminated] at h
    split at h
    · cases h; exact quiet_refl _
    · exact quiet_trans (quiet_serve a i) (ih _ h)

/-- The exit path before the release of the mutex. -/
theorem quiet_exit (b : pios_i2c_adapter) :
    ∃ c, (∀ ok, (transfer_finish ok b).2 = emit c Op.PIOS_Mutex_Unlock) ∧ quiet_ext b c := by
  obtain ⟨k, hk⟩ := wait_for_stopped_frame b
  have hw : quiet_ext b (i2c_adapter_wait_for_stopped b).2 := by
    rw [hk]
    exact ⟨List.prefix_refl _, rfl⟩
  refine ⟨if (i2c_adapter_wait_for_stopped b).1 = true
      then i2c_adapter_inject_event (i2c_adapter_wait_for_stopped b).2 I2C_EVENT_STOPPED
      else i2c_adapter_fsm_init (i2c_adapter_wait_for_stopped b).2, fun ok => rfl, ?_⟩
  split
  · exact quiet_trans hw (quiet_inject_event _ _)
  · exact quiet_trans hw (quiet_trans (quiet_reset_bus _) (quiet_set_state _ _))


/-- A quiet continuation, spelled out. -/
theorem quiet_ext_mid {a b : pios_i2c_adapter} (h : quiet_ext a b) :
    ∃ mid, b.ops = a.ops ++ mid ∧ ∀ o ∈ mid, is_mutex_op o = false := by
  obtain ⟨⟨mid, hmid⟩, hf⟩ := h
  refine ⟨mid, hmid.symm, ?_⟩
  rw [← hmid] at hf
  unfold mutex_ops at hf
  rw [List.filter_append, List.append_right_eq_self, List.filter_eq_nil_iff] at hf
  intro o ho
  simpa using hf o ho

/-- C20: on every return path of PIOS_I2C_Transfer the mutex operations are
balanced.  When the acquisition succeeds, what the call adds to the trace is
the acquisition, then a stretch without any mutex operation that holds every
event injection and re-initialisation of the call, then exactly one release,
which is the last operation of the call; when the acquisition times out, the
failed acquisition is all the call adds and no release is issued. -/
theorem transfer_mutex_balanced (a : pios_i2c_adapter) (txn_list : List pios_i2c_txn)
    (env : TransferEnv) (p : Int × pios_i2c_adapter)
    (hret : PIOS_I2C_Transfer a txn_list env = some p) :
    if env.lock_ok = true then
      ∃ mid, p.2.ops = a.ops ++ Op.PIOS_Mutex_Lock true :: (mid ++ [Op.PIOS_Mutex_Unlock]) ∧
        ∀ o ∈ mid, is_mutex_op o = false
    else p.2.ops = a.ops ++ [Op.PIOS_Mutex_Lock false] := by
  cases hlock : env.lock_ok
  · simp only [Bool.false_eq_true, if_false]
    unfold PIOS_I2C_Transfer at hret
    simp only [hlock, if_true, Option.some.injEq] at hret
    subst hret
    rfl
  · simp only [if_true]
    obtain ⟨b, hspin, _, hp⟩ := transfer_eq_finish a txn_list env p hlock hret
    obtain ⟨c, hc, hq⟩ := quiet_exit b
    have h1 : quiet_ext (emit a (Op.PIOS_Mutex_Lock true)) (transfer_waited a txn_list env) := by
      unfold transfer_waited transfer_start
      refine quiet_trans ?_ (quiet_serve_all _ _)
      refine quiet_trans ?_ (quiet_inject_event _ _)
      exact quiet_of_ops _ _ [Op.PIOS_Semaphore_Take false] rfl rfl
    have h2 : quiet_ext (transfer_waited a txn_list env) (transfer_at_spin a txn_list env) :=
      quiet_of_ops _ _ [Op.PIOS_Semaphore_Take true] rfl rfl
    obtain ⟨mid, hmid, hquiet⟩ :=
      quiet_ext_mid (quiet_trans (quiet_trans (quiet_trans h1 h2) (quiet_spin _ _ _ hspin)) hq)
    refine ⟨mid, ?_, hquiet⟩
    rw [hp, hc, emit_ops, hmid, emit_ops]
    simp

/-- The well-behaved one-byte read: one release in the whole trace, at its end. -/
theorem transfer_mutex_balanced_witness :
    (transfer_outcome idle_adapter one_byte_read (env_well_behaved one_byte_read)).2.ops.count
        Op.PIOS_Mutex_Unlock = 1 ∧
      (if (env_well_behaved one_byte_read).lock_ok = true then
        ∃ mid, (transfer_outcome idle_adapter one_byte_read
            (env_well_behaved one_byte_read)).2.ops =
          idle_adapter.ops ++ Op.PIOS_Mutex_Lock true :: (mid ++ [Op.PIOS_Mutex_Unlock]) ∧
          ∀ o ∈ mid, is_mutex_op o = false
      else (transfer_outcome idle_adapter one_byte_read
          (env_well_behaved one_byte_read)).2.ops =
        idle_adapter.ops ++ [Op.PIOS_Mutex_Lock false]) :=
  ⟨by decide,
    transfer_mutex_balanced idle_adapter one_byte_read (env_well_behaved one_byte_read)
      (transfer_outcome idle_adapter one_byte_read (env_well_behaved one_byte_read))
      (transfer_outcome_spec _ _ _ (by decide))⟩

/-! ### C21: interrupts disabled in STOPPING and STOPPED -/

theorem it_mask_append (m : Nat) (xs ys : List Op) :
    it_mask m (xs ++ ys) = it_mask (it_mask m xs) ys := by
  induction xs generalizing m with
  | nil => rfl
  | cons o xs ih => cases o <;> simp [it_mask, ih]

theorem it_mask_cleared (m : Nat) :
    I2C_ITConfig_mask m IT_ALL false &&& I2C_IT_EVT = 0 ∧
      I2C_ITConfig_mask m IT_ALL false &&& I2C_IT_BUF = 0 ∧
      I2C_ITConfig_mask m IT_ALL false &&& I2C_IT_ERR = 0 := by
  simp only [I2C_ITConfig_mask, Bool.false_eq_true, if_false, Nat.and_assoc]
  refine ⟨?_, ?_, ?_⟩
  · rw [show (0xFFFF ^^^ IT_ALL) &&& I2C_IT_EVT = 0 from by decide, Nat.and_zero]
  · rw [show (0xFFFF ^^^ IT_ALL) &&& I2C_IT_BUF = 0 from by decide, Nat.and_zero]
  · rw [show (0xFFFF ^^^ IT_ALL) &&& I2C_IT_ERR = 0 from by decide, Nat.and_zero]

/-- The entry actions of STOPPING and STOPPED leave the three enables clear. -/
theorem call_entry_fn_stops_mask (b : pios_i2c_adapter) (m : Nat)
    (h : b.curr_state = I2C_STATE_STOPPING ∨ b.curr_state = I2C_STATE_STOPPED) :
    ∃ m1, it_mask m (call_entry_fn b).ops = I2C_ITConfig_mask m1 IT_ALL false := by
  rcases h with h | h
  · refine ⟨it_mask m b.ops, ?_⟩
    have : (call_entry_fn b).ops = b.ops ++ [Op.entry_fn I2C_STATE_STOPPING,
        Op.I2C_ITConfig IT_ALL false, Op.PIOS_Semaphore_Give_FromISR] := by
      simp [call_entry_fn, h, i2c_adapter_transitions, go_stopping, emit]
    rw [this, it_mask_append]
    rfl
  · refine ⟨it_mask m b.ops, ?_⟩
    have : (call_entry_fn b).ops = b.ops ++ [Op.entry_fn I2C_STATE_STOPPED,
        Op.I2C_ITConfig IT_ALL false, Op.I2C_AcknowledgeConfig true] := by
      simp [call_entry_fn, h, i2c_adapter_transitions, go_stopped, emit]
    rw [this, it_mask_append]
    rfl

theorem it_mask_emit_irq (m : Nat) (x : pios_i2c_adapter) :
    it_mask m (emit x Op.PIOS_IRQ_Enable).ops = it_mask m x.ops ∧
      it_mask m (emit x Op.PIOS_IRQ_Disable).ops = it_mask m x.ops := by
  simp only [emit_ops, it_mask_append]
  exact ⟨rfl, rfl⟩

theorem enter_tail_no_auto (a : pios_i2c_adapter) (s : i2c_adapter_state)
    (h : (i2c_adapter_transitions s).next_state I2C_EVENT_AUTO = I2C_STATE_FSM_FAULT) :
    ∃ Y : pios_i2c_adapter, Y.curr_state = (enter a s).curr_state ∧
      ∀ m, it_mask m (enter a s).ops = it_mask m (call_entry_fn Y).ops := by
  rw [enter_no_auto a s h]
  refine ⟨set_state (emit a Op.PIOS_IRQ_Disable) s, ?_, ?_⟩
  · show _ = (call_entry_fn _).curr_state
    rw [call_entry_fn_curr_state]
  · intro m
    simp only [(it_mask_emit_irq _ _).1, (it_mask_emit_irq _ _).2]

theorem enter_tail_one_auto (a : pios_i2c_adapter) (s s2 : i2c_adapter_state)
    (h2 : (i2c_adapter_transitions s).next_state I2C_EVENT_AUTO = s2)
    (h3 : s2 ≠ I2C_STATE_FSM_FAULT)
    (h4 : (i2c_adapter_transitions s2).next_state I2C_EVENT_AUTO = I2C_STATE_FSM_FAULT) :
    ∃ Y : pios_i2c_adapter, Y.curr_state = (enter a s).curr_state ∧
      ∀ m, it_mask m (enter a s).ops = it_mask m (call_entry_fn Y).ops := by
  rw [enter_one_auto a s s2 h2 h3 h4]
  refine ⟨set_state (emit (call_entry_fn (set_state (emit a Op.PIOS_IRQ_Disable) s))
    Op.PIOS_IRQ_Disable) s2, ?_, ?_⟩
  · show _ = (call_entry_fn _).curr_state
    rw [call_entry_fn_curr_state]
  · intro m
    simp only [(it_mask_emit_irq _ _).1, (it_mask_emit_irq _ _).2]

/-- Every injection ends with the entry action of the state it ends in, followed
only by the unmasking of interrupts. -/
theorem enter_tail (a : pios_i2c_adapter) (s : i2c_adapter_state) :
    ∃ Y : pios_i2c_adapter, Y.curr_state = (enter a s).curr_state ∧
      ∀ m, it_mask m (enter a s).ops = it_mask m (call_entry_fn Y).ops := by
  cases s <;>
    first
    | exact enter_tail_no_auto a _ rfl
    | exact enter_tail_one_auto a _ _ rfl (by decide) rfl

/-- C21: with I2C_ITConfig setting or clearing bits of an interrupt-enable mask,
after every call of i2c_adapter_inject_event that leaves curr_state in STOPPING
or STOPPED the event, buffer and error interrupt enables are all clear, whatever
the mask and the trace before the call and whichever path led there: the last
entry action of the call is go_stopping or go_stopped, which disables the three
of them, and only PIOS_IRQ_Enable follows. -/
theorem interrupts_disabled_when_stopped (a : pios_i2c_adapter) (e : i2c_adapter_event)
    (mask : Nat)
    (h : (i2c_adapter_inject_event a e).curr_state = I2C_STATE_STOPPING ∨
      (i2c_adapter_inject_event a e).curr_state = I2C_STATE_STOPPED) :
    it_mask mask (i2c_adapter_inject_event a e).ops &&& I2C_IT_EVT = 0 ∧
      it_mask mask (i2c_adapter_inject_event a e).ops &&& I2C_IT_BUF = 0 ∧
      it_mask mask (i2c_adapter_inject_event a e).ops &&& I2C_IT_ERR = 0 := by
  rw [inject_event_eq_enter] at h ⊢
  obtain ⟨Y, hY, hm⟩ := enter_tail a ((i2c_adapter_transitions a.curr_state).next_state e)
  obtain ⟨m1, hm1⟩ := call_entry_fn_stops_mask Y mask (by rw [hY]; exact h)
  rw [hm, hm1]
  exact it_mask_cleared m1

/-- A NACK while the one-byte read is starting: the enables set by go_starting
(0x700) are clear once the injection has left the FSM in STOPPING. -/
theorem interrupts_disabled_when_stopped_witness :
    it_mask 0 (transfer_start idle_adapter one_byte_read).ops = 0x700 ∧
      (i2c_adapter_inject_event (transfer_start idle_adapter one_byte_read)
        I2C_EVENT_NACK).curr_state = I2C_STATE_STOPPING ∧
      it_mask 0 (i2c_adapter_inject_event (transfer_start idle_adapter one_byte_read)
        I2C_EVENT_NACK).ops &&& I2C_IT_EVT = 0 :=
  ⟨by decide, by decide,
    (interrupts_disabled_when_stopped (transfer_start idle_adapter one_byte_read)
      I2C_EVENT_NACK 0 (Or.inl (by decide))).1⟩


/-! ### C22: a transaction of length zero -/

/-- An injection whose state leads by AUTO to STOPPING ends there with the
semaphore given. -/
theorem inject_event_via_stopping (a : pios_i2c_adapter) (e : i2c_adapter_event)
    (h2 : (i2c_adapter_transitions ((i2c_adapter_transitions a.curr_state).next_state e)).next_state
      I2C_EVENT_AUTO = I2C_STATE_STOPPING) :
    (i2c_adapter_inject_event a e).curr_state = I2C_STATE_STOPPING ∧
      (i2c_adapter_inject_event a e).sem_ready = true := by
  have heq := inject_event_one_auto a e _ I2C_STATE_STOPPING rfl h2 (by decide) rfl
  have hshape : i2c_adapter_inject_event a e =
      emit (emit (go_stopping (emit (set_state (emit (call_entry_fn (set_state
        (emit a Op.PIOS_IRQ_Disable) ((i2c_adapter_transitions a.curr_state).next_state e)))
        Op.PIOS_IRQ_Disable) I2C_STATE_STOPPING) (Op.entry_fn I2C_STATE_STOPPING)))
        Op.PIOS_IRQ_Enable) Op.PIOS_IRQ_Enable := by
    rw [heq]
    rfl
  rw [hshape]
  exact ⟨rfl, rfl⟩

/-- An injection without transition: FSM_FAULT, then STOPPING, with bus_error set
and the semaphore given. -/
theorem inject_event_fault (a : pios_i2c_adapter) (e : i2c_adapter_event)
    (h : (i2c_adapter_transitions a.curr_state).next_state e = I2C_STATE_FSM_FAULT) :
    (i2c_adapter_inject_event a e).curr_state = I2C_STATE_STOPPING ∧
      (i2c_adapter_inject_event a e).bus_error = true ∧
      (i2c_adapter_inject_event a e).sem_ready = true := by
  obtain ⟨h1, h2⟩ := inject_event_via_stopping a e (by rw [h]; rfl)
  refine ⟨h1, ?_, h2⟩
  rw [inject_event_bus_error]
  simp [raises_bus_error, h]

theorem no_slot_for_len_eq_0 (s : i2c_adapter_state) :
    (i2c_adapter_transitions s).next_state I2C_EVENT_ADDR_SENT_LEN_EQ_0
      = I2C_STATE_FSM_FAULT := by
  cases s <;> rfl

theorem ev_handler_of_ev6 (a : pios_i2c_adapter) (raw : Nat)
    (hraw : raw &&& EVENT_MASK = I2C_EVENT_MASTER_TRANSMITTER_MODE_SELECTED ∨
      raw &&& EVENT_MASK = I2C_EVENT_MASTER_RECEIVER_MODE_SELECTED) :
    PIOS_I2C_EV_IRQ_Handler a raw = ev_addr_sent a := by
  simp only [PIOS_I2C_EV_IRQ_Handler]
  rcases hraw with h | h <;> rw [h] <;>
    rw [if_neg (by decide), if_neg (by decide), if_pos (by decide)]

/-- The read of no byte, its start and its address acknowledged: the transaction
goes through STARTING and R_LAST_TXN_ADDR, the FSM faults on ADDR_SENT_LEN_EQ_0,
and the transfer returns -1. -/
theorem zero_length_returns_status :
    (PIOS_I2C_Transfer idle_adapter zero_length_read env_start_and_address).isSome = true ∧
      (transfer_outcome idle_adapter zero_length_read env_start_and_address).1 = -1 ∧
      transfer_events idle_adapter zero_length_read env_start_and_address =
        [(I2C_STATE_STOPPED, I2C_EVENT_START),
         (I2C_STATE_STARTING, I2C_EVENT_STARTED_LAST_TXN_READ),
         (I2C_STATE_R_LAST_TXN_ADDR, I2C_EVENT_ADDR_SENT_LEN_EQ_0),
         (I2C_STATE_STOPPING, I2C_EVENT_STOPPED)] := by
  decide

/-- C22, amended: a zero-length transaction is handled at run time.  No check
of the length precedes the FSM: go_starting leaves last_byte one below
active_byte, and when the address is acknowledged (EV6, either direction) with
last_byte - active_byte + 1 = 0 the event handler injects ADDR_SENT_LEN_EQ_0,
for which no state has a transition, so the FSM faults: bus_error is set and the
injection ends in STOPPING with the completion semaphore given. -/
theorem zero_length_faults_at_address (b : pios_i2c_adapter) (raw : Nat)
    (hraw : raw &&& EVENT_MASK = I2C_EVENT_MASTER_TRANSMITTER_MODE_SELECTED ∨
      raw &&& EVENT_MASK = I2C_EVENT_MASTER_RECEIVER_MODE_SELECTED)
    (hb : b.last_byte - b.active_byte + 1 = 0) :
    serve b (Irq.ev raw) = i2c_adapter_inject_event b I2C_EVENT_ADDR_SENT_LEN_EQ_0 ∧
      (serve b (Irq.ev raw)).curr_state = I2C_STATE_STOPPING ∧
      (serve b (Irq.ev raw)).bus_error = true ∧
      (serve b (Irq.ev raw)).sem_ready = true ∧
      ∀ a : pios_i2c_adapter, (txn_at a.txns a.active_txn).len = 0 →
        (go_starting a).last_byte - (go_starting a).active_byte + 1 = 0 := by
  have h : serve b (Irq.ev raw) = i2c_adapter_inject_event b I2C_EVENT_ADDR_SENT_LEN_EQ_0 := by
    show PIOS_I2C_EV_IRQ_Handler b raw = _
    rw [ev_handler_of_ev6 b raw hraw, ev_addr_sent, if_pos hb]
  rw [h]
  obtain ⟨h1, h2, h3⟩ := inject_event_fault b _ (no_slot_for_len_eq_0 _)
  refine ⟨rfl, h1, h2, h3, ?_⟩
  intro a hlen
  rw [go_starting_eq]
  simp [hlen]

/-- The read of no byte: the address state is reached, and EV6 faults there. -/
theorem zero_length_faults_at_address_witness :
    (serve (transfer_start idle_adapter zero_length_read)
        (Irq.ev I2C_EVENT_MASTER_MODE_SELECT)).curr_state = I2C_STATE_R_LAST_TXN_ADDR ∧
      (serve (serve (transfer_start idle_adapter zero_length_read)
        (Irq.ev I2C_EVENT_MASTER_MODE_SELECT))
        (Irq.ev I2C_EVENT_MASTER_RECEIVER_MODE_SELECTED)).curr_state = I2C_STATE_STOPPING ∧
      (serve (serve (transfer_start idle_adapter zero_length_read)
        (Irq.ev I2C_EVENT_MASTER_MODE_SELECT))
        (Irq.ev I2C_EVENT_MASTER_RECEIVER_MODE_SELECTED)).bus_error = true :=
  ⟨by decide,
    (zero_length_faults_at_address (serve (transfer_start idle_adapter zero_length_read)
      (Irq.ev I2C_EVENT_MASTER_MODE_SELECT)) I2C_EVENT_MASTER_RECEIVER_MODE_SELECTED
      (Or.inr (by decide)) (by decide)).2.1,
    (zero_length_faults_at_address (serve (transfer_start idle_adapter zero_length_read)
      (Irq.ev I2C_EVENT_MASTER_MODE_SELECT)) I2C_EVENT_MASTER_RECEIVER_MODE_SELECTED
      (Or.inr (by decide)) (by decide)).2.2.1⟩

/-! ### C24: the answer to EV5 in STARTING -/

theorem ev_handler_of_ev5 (a : pios_i2c_adapter) (raw : Nat)
    (hraw : raw &&& EVENT_MASK = I2C_EVENT_MASTER_MODE_SELECT) :
    PIOS_I2C_EV_IRQ_Handler a raw = ev_master_mode_select a := by
  simp only [PIOS_I2C_EV_IRQ_Handler]
  rw [hraw, if_neg (by decide), if_pos rfl]

/-- C24: when the event handler sees a status whose masked value is the
master-mode-select status (0x30001) while the FSM is in STARTING with
active_txn <= last_txn, the next state is the address state of the direction of
the active transaction, LAST when active_txn = last_txn and MORE when
active_txn < last_txn, and the address entry action of that direction runs
(I2C_Send7bitAddress with the shifted address and that direction); for a
transfer of a single transaction entered in STOPPED the branch is LAST. -/
theorem started_event_selects_address_state (a : pios_i2c_adapter) (raw : Nat)
    (hraw : raw &&& EVENT_MASK = I2C_EVENT_MASTER_MODE_SELECT)
    (hs : a.curr_state = I2C_STATE_STARTING) (hle : a.active_txn ≤ a.last_txn) :
    serve a (Irq.ev raw) =
        { a with curr_state := addr_state (txn_at a.txns a.active_txn).rw
                   (decide (a.active_txn < a.last_txn)),
                 ops := a.ops ++ step_ops (addr_state (txn_at a.txns a.active_txn).rw
                     (decide (a.active_txn < a.last_txn)))
                   [Op.I2C_Send7bitAddress (((txn_at a.txns a.active_txn).addr <<< 1) % 256)
                     (addr_direction (txn_at a.txns a.active_txn).rw)] } ∧
      ∀ (a0 : pios_i2c_adapter) (t : pios_i2c_txn), a0.curr_state = I2C_STATE_STOPPED →
        (serve (transfer_start a0 [t]) (Irq.ev raw)).curr_state = addr_state t.rw false := by
  have key : ∀ x : pios_i2c_adapter, x.curr_state = I2C_STATE_STARTING →
      x.active_txn ≤ x.last_txn →
      serve x (Irq.ev raw) =
        { x with curr_state := addr_state (txn_at x.txns x.active_txn).rw
                   (decide (x.active_txn < x.last_txn)),
                 ops := x.ops ++ step_ops (addr_state (txn_at x.txns x.active_txn).rw
                     (decide (x.active_txn < x.last_txn)))
                   [Op.I2C_Send7bitAddress (((txn_at x.txns x.active_txn).addr <<< 1) % 256)
                     (addr_direction (txn_at x.txns x.active_txn).rw)] } := by
    intro x hx hxle
    have hm : (decide (x.active_txn < x.last_txn) = true ∧ x.active_txn < x.last_txn) ∨
        (decide (x.active_txn < x.last_txn) = false ∧ x.active_txn = x.last_txn) := by
      by_cases hlt : x.active_txn < x.last_txn
      · exact Or.inl ⟨by simp [hlt], hlt⟩
      · exact Or.inr ⟨by simp [hlt], by omega⟩
    have h5 : serve x (Irq.ev raw) = serve x (Irq.ev I2C_EVENT_MASTER_MODE_SELECT) := by
      show PIOS_I2C_EV_IRQ_Handler x raw =
        PIOS_I2C_EV_IRQ_Handler x I2C_EVENT_MASTER_MODE_SELECT
      rw [ev_handler_of_ev5 x raw hraw, ev_handler_ev5]
    rw [h5]
    cases hrw : (txn_at x.txns x.active_txn).rw
    · rw [read_start_step _ x hx hrw hm]
      rfl
    · rw [write_start_step _ x hx hrw hm]
      rfl
  refine ⟨key a hs hle, ?_⟩
  intro a0 t h0
  have hst := transfer_start_eq a0 [t] h0
  rw [key _ (by rw [hst]) (by rw [hst]; simp), hst]
  simp [txn_at]

/-- A write followed by a read, status 0x30101 (0x30001 once masked): the write
is not the last transaction, the next state is W_MORE_TXN_ADDR. -/
theorem started_event_selects_address_state_witness :
    (serve (transfer_start idle_adapter write_then_read) (Irq.ev 0x30101)).curr_state
      = I2C_STATE_W_MORE_TXN_ADDR :=
  (congrArg pios_i2c_adapter.curr_state
    (started_event_selects_address_state (transfer_start idle_adapter write_then_read) 0x30101
      (by decide) (by decide) (by decide)).1).trans (by decide)

/-! ### C25: statuses the event handler ignores -/

/-- C25: for every raw status whose value masked with 0x000700FF is 0x70080
(EV8), 0x80, 0x30000, 0x30084 or 0x30003 (0x30403 masked), the event handler
returns the adapter as it received it, whatever the current state (curr_state,
the cursors, bus_error, the transaction buffers and the trace are unchanged),
and injects no event. -/
theorem ignored_statuses (a : pios_i2c_adapter) (raw : Nat)
    (hraw : raw &&& EVENT_MASK = 0x70080 ∨ raw &&& EVENT_MASK = 0x80 ∨
      raw &&& EVENT_MASK = 0x30000 ∨ raw &&& EVENT_MASK = 0x30084 ∨
      raw &&& EVENT_MASK = 0x30003) :
    PIOS_I2C_EV_IRQ_Handler a raw = a ∧ irq_event a (Irq.ev raw) = none := by
  simp only [PIOS_I2C_EV_IRQ_Handler, irq_event]
  rcases hraw with h | h | h | h | h <;> rw [h] <;> exact ⟨rfl, rfl⟩

/-- The status 0x30403 while the one-byte read is starting. -/
theorem ignored_statuses_witness :
    PIOS_I2C_EV_IRQ_Handler (transfer_start idle_adapter one_byte_read) 0x30403
        = transfer_start idle_adapter one_byte_read ∧
      irq_event (transfer_start idle_adapter one_byte_read) (Irq.ev 0x30403) = none :=
  ignored_statuses (transfer_start idle_adapter one_byte_read) 0x30403
    (Or.inr (Or.inr (Or.inr (Or.inr (by decide)))))

/-! ### C28: the error handler -/

/-- On a 24-bit status, the value `I2C_GetLastEvent` returns, the test against
`I2C_FLAG_AF` is the test of bit 0x400. -/
theorem af_bit_of_status (raw : Nat) (h : raw < 2 ^ 24) :
    raw &&& I2C_FLAG_AF = raw &&& 0x400 := by
  have h1 : raw &&& 0xFFFFFF = raw := by
    have := Nat.and_pow_two_sub_one_eq_mod raw 24
    simp only [Nat.reducePow, Nat.add_one_sub_one, Nat.reduceSub] at this
    rw [this]
    exact Nat.mod_eq_of_lt h
  calc raw &&& I2C_FLAG_AF = (raw &&& 0xFFFFFF) &&& I2C_FLAG_AF := by rw [h1]
    _ = raw &&& (0xFFFFFF &&& I2C_FLAG_AF) := Nat.and_assoc _ _ _
    _ = raw &&& 0x400 := by rw [show 0xFFFFFF &&& I2C_FLAG_AF = 0x400 from by decide]

theorem clear_count_append (xs ys : List Op) :
    clear_count (xs ++ ys) = clear_count xs + clear_count ys := by
  simp [clear_count, List.countP_append]

theorem clear_count_fsm_ops (ops : List Op) : clear_count (fsm_ops ops) = clear_count ops := by
  induction ops with
  | nil => rfl
  | cons o rest ih =>
    cases o <;>
      simp [fsm_ops, clear_count, List.filter_cons, List.countP_cons, is_reset_op,
        is_clear_flag] <;>
      simpa [fsm_ops, clear_count] using ih

theorem clear_count_reset_bus (a : pios_i2c_adapter) :
    clear_count (i2c_adapter_reset_bus a).ops = clear_count a.ops := by
  rw [← clear_count_fsm_ops, reset_bus_fsm_ops, clear_count_fsm_ops]

theorem clear_count_call_entry_fn (a : pios_i2c_adapter) :
    clear_count (call_entry_fn a).ops = clear_count a.ops := by
  unfold call_entry_fn
  cases h : a.curr_state <;> simp only [i2c_adapter_transitions]
  case I2C_STATE_FSM_FAULT =>
    unfold go_fsm_fault
    rw [clear_count_reset_bus]
    simp [emit, clear_count, is_clear_flag]
  case I2C_STATE_BUS_ERROR =>
    unfold go_bus_error
    rw [clear_count_reset_bus]
    simp [emit, clear_count, is_clear_flag]
  all_goals
    simp [clear_count, is_clear_flag, emit,
      go_stopping, go_stopped,
      go_starting_eq, go_r_any_txn_addr, go_r_more_txn_pre_one, go_r_last_txn_pre_one,
      go_r_any_txn_pre_first, go_r_any_txn_pre_middle, go_r_more_txn_pre_last,
      go_r_last_txn_pre_last, go_r_any_txn_post_last, go_w_any_txn_addr,
      go_w_any_txn_middle, go_w_more_txn_last, go_w_last_txn_last, go_nack,
      I2C_ReceiveData, store_active_byte, load_active_byte, starting_body]

theorem clear_count_process_auto_loop (n : Nat) (a : pios_i2c_adapter) :
    clear_count (process_auto_loop n a).ops = clear_count a.ops := by
  induction n generalizing a with
  | zero => rfl
  | succ n ih =>
    simp only [process_auto_loop]
    split
    · rw [ih, clear_count_call_entry_fn]
      simp [set_state, clear_count, is_clear_flag]
    · rfl

/-- No injection clears a status flag. -/
theorem clear_count_inject_event (a : pios_i2c_adapter) (e : i2c_adapter_event) :
    clear_count (i2c_adapter_inject_event a e).ops = clear_count a.ops := by
  rw [inject_event_eq_at_auto_loop]
  simp only [emit_ops, clear_count_append, clear_count_process_auto_loop, at_auto_loop,
    clear_count_call_entry_fn]
  simp [set_state, emit, clear_count, is_clear_flag]

/-- C28: on every latched status (a 24-bit value, as I2C_GetLastEvent returns
it) the error handler injects exactly one event.  When bit 0x400 (AF) is set it
clears the acknowledge-failure flag and then injects I2C_EVENT_NACK: one more
I2C_ClearFlag in the trace, before the injection.  Otherwise it injects
I2C_EVENT_BUS_ERROR and nothing else: no I2C_ClearFlag is added to the trace. -/
theorem er_handler_injects_one_event (a : pios_i2c_adapter) (raw : Nat) (h : raw < 2 ^ 24) :
    (raw &&& 0x400 ≠ 0 →
        PIOS_I2C_ER_IRQ_Handler a raw =
          i2c_adapter_inject_event (emit a (Op.I2C_ClearFlag I2C_FLAG_AF)) I2C_EVENT_NACK ∧
        irq_event a (Irq.er raw) = some I2C_EVENT_NACK ∧
        clear_count (PIOS_I2C_ER_IRQ_Handler a raw).ops = clear_count a.ops + 1) ∧
      (raw &&& 0x400 = 0 →
        PIOS_I2C_ER_IRQ_Handler a raw = i2c_adapter_inject_event a I2C_EVENT_BUS_ERROR ∧
        irq_event a (Irq.er raw) = some I2C_EVENT_BUS_ERROR ∧
        clear_count (PIOS_I2C_ER_IRQ_Handler a raw).ops = clear_count a.ops) := by
  have haf := af_bit_of_status raw h
  constructor
  · intro hset
    have hh : PIOS_I2C_ER_IRQ_Handler a raw =
        i2c_adapter_inject_event (emit a (Op.I2C_ClearFlag I2C_FLAG_AF)) I2C_EVENT_NACK := by
      simp only [PIOS_I2C_ER_IRQ_Handler]
      rw [if_pos (by rw [haf]; exact hset)]
    refine ⟨hh, ?_, ?_⟩
    · simp only [irq_event]
      rw [if_pos (by rw [haf]; exact hset)]
    · rw [hh, clear_count_inject_event, emit_ops, clear_count_append]
      rfl
  · intro hclr
    have hh : PIOS_I2C_ER_IRQ_Handler a raw = i2c_adapter_inject_event a I2C_EVENT_BUS_ERROR := by
      simp only [PIOS_I2C_ER_IRQ_Handler]
      rw [if_neg (by rw [haf]; exact not_not.mpr hclr)]
    refine ⟨hh, ?_, ?_⟩
    · simp only [irq_event]
      rw [if_neg (by rw [haf]; exact not_not.mpr hclr)]
    · rw [hh, clear_count_inject_event]

/-- The status 0x30400 (AF set) gives NACK after one I2C_ClearFlag; the status
0x30100 (bus error flag) gives BUS_ERROR without any. -/
theorem er_handler_injects_one_event_witness :
    irq_event idle_adapter (Irq.er 0x30400) = some I2C_EVENT_NACK ∧
      clear_count (PIOS_I2C_ER_IRQ_Handler idle_adapter 0x30400).ops
        = clear_count idle_adapter.ops + 1 ∧
      irq_event idle_adapter (Irq.er 0x30100) = some I2C_EVENT_BUS_ERROR ∧
      clear_count (PIOS_I2C_ER_IRQ_Handler idle_adapter 0x30100).ops
        = clear_count idle_adapter.ops :=
  ⟨((er_handler_injects_one_event idle_adapter 0x30400 (by decide)).1 (by decide)).2.1,
    ((er_handler_injects_one_event idle_adapter 0x30400 (by decide)).1 (by decide)).2.2,
    ((er_handler_injects_one_event idle_adapter 0x30100 (by decide)).2 (by decide)).2.1,
    ((er_handler_injects_one_event idle_adapter 0x30100 (by decide)).2 (by decide)).2.2⟩


/-! ### C26: statuses the event handler does not know -/

/-- A status that matches no case label takes the default branch. -/
theorem unknown_status_injects_bus_error (a : pios_i2c_adapter) (raw : Nat)
    (h : raw &&& EVENT_MASK ∉ known_statuses) :
    PIOS_I2C_EV_IRQ_Handler a raw = i2c_adapter_inject_event a I2C_EVENT_BUS_ERROR ∧
      irq_event a (Irq.ev raw) = some I2C_EVENT_BUS_ERROR := by
  simp only [known_statuses, List.mem_cons, List.mem_singleton, List.not_mem_nil, or_false,
    not_or] at h
  obtain ⟨h1, h2, h3, h4, h5, h6, h7, h8, h9, h10, h11, h12, h13, h14, h15, h16⟩ := h
  simp only [PIOS_I2C_EV_IRQ_Handler, irq_event]
  rw [if_neg h1, if_neg h2, if_neg (not_or.mpr ⟨h3, h4⟩), if_neg h5,
    if_neg (by simp only [not_or]; exact ⟨h6, h7, h8, h9, h10, h11, h12⟩), if_neg h13,
    if_neg (by simp only [not_or]; exact ⟨h14, h15, h16⟩)]
  rw [if_neg h1, if_neg h2, if_neg (not_or.mpr ⟨h3, h4⟩), if_neg h5,
    if_neg (by simp only [not_or]; exact ⟨h6, h7, h8, h9, h10, h11, h12⟩), if_neg h13,
    if_neg (by simp only [not_or]; exact ⟨h14, h15, h16⟩)]
  exact ⟨rfl, rfl⟩

theorem bus_error_event_stops (s : i2c_adapter_state) :
    (i2c_adapter_transitions ((i2c_adapter_transitions s).next_state
      I2C_EVENT_BUS_ERROR)).next_state I2C_EVENT_AUTO = I2C_STATE_STOPPING := by
  cases s <;> rfl

/-- The injection of BUS_ERROR in a state where the FSM can rest: BUS_ERROR is
entered, go_bus_error runs (flag, bus reset), then STOPPING by AUTO. -/
theorem inject_bus_error_shape (a : pios_i2c_adapter) (h : is_transient a.curr_state = false) :
    i2c_adapter_inject_event a I2C_EVENT_BUS_ERROR =
      emit (emit (go_stopping (emit (set_state (emit (go_bus_error (emit (set_state
        (emit a Op.PIOS_IRQ_Disable) I2C_STATE_BUS_ERROR) (Op.entry_fn I2C_STATE_BUS_ERROR)))
        Op.PIOS_IRQ_Disable) I2C_STATE_STOPPING) (Op.entry_fn I2C_STATE_STOPPING)))
        Op.PIOS_IRQ_Enable) Op.PIOS_IRQ_Enable := by
  have hn : (i2c_adapter_transitions a.curr_state).next_state I2C_EVENT_BUS_ERROR
      = I2C_STATE_BUS_ERROR := by
    revert h
    cases a.curr_state <;> decide
  rw [inject_event_one_auto a _ I2C_STATE_BUS_ERROR I2C_STATE_STOPPING hn rfl (by decide) rfl]
  rfl

theorem ev_master_mode_select_event_isr (a : pios_i2c_adapter) (e : i2c_adapter_event)
    (h : ev_master_mode_select_event a = some e) : isr_event e = true := by
  unfold ev_master_mode_select_event at h
  cases hrw : (txn_at a.txns a.active_txn).rw <;> rw [hrw] at h <;> dsimp only at h <;>
    split_ifs at h <;> (cases h; rfl)

theorem ev_addr_sent_event_isr (a : pios_i2c_adapter) :
    isr_event (ev_addr_sent_event a) = true := by
  unfold ev_addr_sent_event
  split_ifs <;> rfl

theorem ev_transfer_done_event_isr (a : pios_i2c_adapter) :
    isr_event (ev_transfer_done_event a) = true := by
  unfold ev_transfer_done_event
  split_ifs <;> rfl

/-- The handlers inject neither START nor STOPPED nor AUTO. -/
theorem irq_event_is_isr_event (a : pios_i2c_adapter) (i : Irq) (e : i2c_adapter_event)
    (h : irq_event a i = some e) : isr_event e = true := by
  cases i with
  | ev raw =>
    simp only [irq_event] at h
    split_ifs at h
    all_goals first
      | exact ev_master_mode_select_event_isr a e h
      | (cases h; exact ev_addr_sent_event_isr a)
      | (cases h; exact ev_transfer_done_event_isr a)
      | (cases h; rfl)
  | er raw =>
    simp only [irq_event] at h
    split_ifs at h <;> cases h <;> rfl

theorem isr_event_in_stopping (e : i2c_adapter_event) (h : isr_event e = true) :
    (i2c_adapter_transitions ((i2c_adapter_transitions I2C_STATE_STOPPING).next_state
      e)).next_state I2C_EVENT_AUTO = I2C_STATE_STOPPING := by
  revert h
  cases e <;> decide

theorem irq_prologue_sem_ready (a : pios_i2c_adapter) (i : Irq) :
    (irq_prologue a i).sem_ready = a.sem_ready := by
  cases i <;> simp only [irq_prologue] <;> split_ifs <;> rfl

/-- Once the FSM is in STOPPING with the semaphore given, every interrupt leaves
it there. -/
theorem serve_in_stopping (a : pios_i2c_adapter) (i : Irq)
    (hs : a.curr_state = I2C_STATE_STOPPING) (hsem : a.sem_ready = true) :
    (serve a i).curr_state = I2C_STATE_STOPPING ∧ (serve a i).sem_ready = true := by
  rw [serve_eq]
  cases he : irq_event a i with
  | none => exact ⟨by rw [(irq_prologue_frame a i).2]; exact hs,
      by rw [irq_prologue_sem_ready]; exact hsem⟩
  | some e =>
    apply inject_event_via_stopping
    rw [(irq_prologue_frame a i).2, hs]
    exact isr_event_in_stopping e (irq_event_is_isr_event a i e he)

theorem serve_all_in_stopping (irqs : List Irq) (a : pios_i2c_adapter)
    (hs : a.curr_state = I2C_STATE_STOPPING) (hsem : a.sem_ready = true) :
    (serve_all a irqs).curr_state = I2C_STATE_STOPPING ∧ (serve_all a irqs).sem_ready = true := by
  induction irqs generalizing a with
  | nil => exact ⟨hs, hsem⟩
  | cons i rest ih =>
    obtain ⟨h1, h2⟩ := serve_in_stopping a i hs hsem
    exact ih (serve a i) h1 h2

/-- A transfer whose semaphore wait ends with the FSM in STOPPING returns, with
the result the flags at that moment give. -/
theorem transfer_returns_after_stop (a : pios_i2c_adapter) (txn_list : List pios_i2c_txn)
    (env : TransferEnv) (hlock : env.lock_ok = true)
    (hs : (transfer_waited a txn_list env).curr_state = I2C_STATE_STOPPING) :
    ∃ p, PIOS_I2C_Transfer a txn_list env = some p ∧
      p.1 = if (transfer_waited a txn_list env).sem_ready = false then -2
            else if (transfer_waited a txn_list env).bus_error = true then -1 else 0 := by
  have hspin : spin_until_terminated env.irqs_spin (transfer_at_spin a txn_list env)
      = some (transfer_at_spin a txn_list env) := by
    have ht : i2c_adapter_fsm_terminated (transfer_at_spin a txn_list env) = true :=
      (terminated_iff _).mpr (Or.inl hs)
    cases env.irqs_spin <;> simp [spin_until_terminated, ht]
  refine ⟨transfer_finish (transfer_waited a txn_list env).sem_ready
    (transfer_at_spin a txn_list env), ?_, ?_⟩
  · unfold PIOS_I2C_Transfer
    simp only [hlock, Bool.true_eq_false, if_false]
    have hspin2 : spin_until_terminated env.irqs_spin
        (emit { transfer_waited a txn_list env with sem_ready := false }
          (Op.PIOS_Semaphore_Take true)) = some (transfer_at_spin a txn_list env) := hspin
    rw [hspin2]
  · have hb := transfer_finish_bus_error (transfer_waited a txn_list env).sem_ready
      (transfer_at_spin a txn_list env)
    have hx : (exit_events (transfer_at_spin a txn_list env)).any raises_bus_error = false := by
      unfold exit_events
      split
      · have : (transfer_at_spin a txn_list env).curr_state = I2C_STATE_STOPPING := hs
        simp [this, raises_bus_error, i2c_adapter_transitions]
      · rfl
    rw [hx, Bool.or_false] at hb
    have hb2 : (transfer_at_spin a txn_list env).bus_error
        = (transfer_waited a txn_list env).bus_error := rfl
    cases hsem : (transfer_waited a txn_list env).sem_ready <;>
      simp only [transfer_finish, hsem] <;> simp
    rw [← hb2, ← hb]
    simp [transfer_finish, emit]


/-! ### C27: EV5 with RxNE -/

@[simp] theorem reset_bus_active_txn (a : pios_i2c_adapter) :
    (i2c_adapter_reset_bus a).active_txn = a.active_txn :=
  congrArg (fun v => v.2.1) (fsm_view_reset_bus a)

@[simp] theorem reset_bus_byte_txn (a : pios_i2c_adapter) :
    (i2c_adapter_reset_bus a).byte_txn = a.byte_txn :=
  congrArg (fun v => v.2.2.2.1) (fsm_view_reset_bus a)

@[simp] theorem reset_bus_active_byte (a : pios_i2c_adapter) :
    (i2c_adapter_reset_bus a).active_byte = a.active_byte :=
  congrArg (fun v => v.2.2.2.2.1) (fsm_view_reset_bus a)

@[simp] theorem reset_bus_last_byte (a : pios_i2c_adapter) :
    (i2c_adapter_reset_bus a).last_byte = a.last_byte :=
  congrArg (fun v => v.2.2.2.2.2.1) (fsm_view_reset_bus a)

theorem started_event_target (s : i2c_adapter_state) (e : i2c_adapter_event)
    (h : is_started_event e = true) :
    (i2c_adapter_transitions s).next_state e = I2C_STATE_FSM_FAULT ∨
      (i2c_adapter_transitions s).next_state e = I2C_STATE_R_MORE_TXN_ADDR ∨
      (i2c_adapter_transitions s).next_state e = I2C_STATE_R_LAST_TXN_ADDR ∨
      (i2c_adapter_transitions s).next_state e = I2C_STATE_W_MORE_TXN_ADDR ∨
      (i2c_adapter_transitions s).next_state e = I2C_STATE_W_LAST_TXN_ADDR := by
  revert h
  cases s <;> cases e <;> decide

/-- The entry into an address state or into FSM_FAULT does not depend on a read
of the data register made before it. -/
theorem enter_after_stray_read (a : pios_i2c_adapter) (s : i2c_adapter_state)
    (h : s = I2C_STATE_FSM_FAULT ∨ s = I2C_STATE_R_MORE_TXN_ADDR ∨
      s = I2C_STATE_R_LAST_TXN_ADDR ∨ s = I2C_STATE_W_MORE_TXN_ADDR ∨
      s = I2C_STATE_W_LAST_TXN_ADDR) :
    fsm_fields (enter (I2C_ReceiveData a).2 s) = fsm_fields (enter a s) := by
  have h1 := fun x => enter_no_auto x s
  have h2 := fun x => enter_one_auto x s
  rcases h with h | h | h | h | h <;> subst h
  · rw [h2 _ _ rfl (by decide) rfl, h2 _ _ rfl (by decide) rfl]
    simp [fsm_fields, call_entry_fn, i2c_adapter_transitions, set_state, emit, go_fsm_fault,
      go_stopping, I2C_ReceiveData]
  all_goals
    rw [h1 _ rfl, h1 _ rfl]
    simp [fsm_fields, call_entry_fn, i2c_adapter_transitions, set_state, emit,
      go_r_any_txn_addr, go_w_any_txn_addr, I2C_ReceiveData]

theorem ev_master_mode_select_event_started (a : pios_i2c_adapter) (e : i2c_adapter_event)
    (h : ev_master_mode_select_event a = some e) : is_started_event e = true := by
  unfold ev_master_mode_select_event at h
  cases hrw : (txn_at a.txns a.active_txn).rw <;> rw [hrw] at h <;> dsimp only at h <;>
    split_ifs at h <;> (cases h; rfl)

theorem ev_handler_of_ev5_rxne (a : pios_i2c_adapter) (raw : Nat)
    (hraw : raw &&& EVENT_MASK = 0x30041) :
    PIOS_I2C_EV_IRQ_Handler a raw = ev_master_mode_select (I2C_ReceiveData a).2 := by
  simp only [PIOS_I2C_EV_IRQ_Handler]
  rw [hraw, if_pos (by decide)]

/-- C27: for every adapter, the event handler on a status whose masked value is
0x30041 (master-mode-select with RxNE) is one read of the data register, whose
value goes nowhere (the transaction memory is untouched), followed by the
handler on a status whose masked value is 0x30001; both inject the same event,
and both end with the same curr_state, cursors, bus_error, transaction memory
and semaphore. -/
theorem stray_rx_start_is_start (a : pios_i2c_adapter) (raw41 raw01 : Nat)
    (h41 : raw41 &&& EVENT_MASK = 0x30041) (h01 : raw01 &&& EVENT_MASK = 0x30001) :
    PIOS_I2C_EV_IRQ_Handler a raw41 = PIOS_I2C_EV_IRQ_Handler (I2C_ReceiveData a).2 raw01 ∧
      irq_event a (Irq.ev raw41) = irq_event a (Irq.ev raw01) ∧
      irq_prologue a (Irq.ev raw41) = (I2C_ReceiveData a).2 ∧
      irq_prologue a (Irq.ev raw01) = a ∧
      (I2C_ReceiveData a).2.txns = a.txns ∧
      fsm_fields (PIOS_I2C_EV_IRQ_Handler a raw41)
        = fsm_fields (PIOS_I2C_EV_IRQ_Handler a raw01) := by
  have e41 := ev_handler_of_ev5_rxne a raw41 h41
  have e01 : ∀ x, PIOS_I2C_EV_IRQ_Handler x raw01 = ev_master_mode_select x :=
    fun x => ev_handler_of_ev5 x raw01 h01
  refine ⟨by rw [e41, e01], ?_, ?_, ?_, rfl, ?_⟩
  · simp only [irq_event]
    rw [h41, h01, if_pos (by decide), if_neg (by decide), if_pos (by decide)]
  · simp only [irq_prologue]
    rw [h41, if_pos (by decide)]
  · simp only [irq_prologue]
    rw [h01, if_neg (by decide)]
  · rw [e41, e01, ev_master_mode_select_eq, ev_master_mode_select_eq]
    have hev : ev_master_mode_select_event (I2C_ReceiveData a).2
        = ev_master_mode_select_event a := rfl
    rw [hev]
    cases he : ev_master_mode_select_event a with
    | none => rfl
    | some e =>
      show fsm_fields (i2c_adapter_inject_event (I2C_ReceiveData a).2 e)
        = fsm_fields (i2c_adapter_inject_event a e)
      rw [inject_event_eq_enter, inject_event_eq_enter]
      exact enter_after_stray_read a _
        (started_event_target _ _ (ev_master_mode_select_event_started a e he))

/-- The one-byte read in STARTING: both statuses lead to R_LAST_TXN_ADDR, the
first with one read of the data register more. -/
theorem stray_rx_start_is_start_witness :
    (PIOS_I2C_EV_IRQ_Handler (transfer_start idle_adapter one_byte_read) 0x30041).curr_state
        = I2C_STATE_R_LAST_TXN_ADDR ∧
      (PIOS_I2C_EV_IRQ_Handler (transfer_start idle_adapter one_byte_read) 0x30041).n_rx = 1 ∧
      (PIOS_I2C_EV_IRQ_Handler (transfer_start idle_adapter one_byte_read) 0x30001).n_rx = 0 ∧
      fsm_fields (PIOS_I2C_EV_IRQ_Handler (transfer_start idle_adapter one_byte_read) 0x30041)
        = fsm_fields (PIOS_I2C_EV_IRQ_Handler (transfer_start idle_adapter one_byte_read)
            0x30001) :=
  ⟨by decide, by decide, by decide,
    (stray_rx_start_is_start (transfer_start idle_adapter one_byte_read) 0x30041 0x30001
      (by decide) (by decide)).2.2.2.2.2⟩

/-! ### C29: the nesting of PIOS_IRQ_Disable and PIOS_IRQ_Enable -/

theorem irq_scan_append (d d1 : Nat) (xs ys : List Op) (h : irq_scan d xs = some d1) :
    irq_scan d (xs ++ ys) = irq_scan d1 ys := by
  induction xs generalizing d with
  | nil =>
    simp only [irq_scan, Option.some.injEq] at h
    subst h
    rfl
  | cons o xs ih =>
    cases o <;> simp only [irq_scan, List.cons_append] at h ⊢ <;>
      first
      | exact ih _ h
      | (split_ifs at h ⊢ with hd
         exact ih _ h)

theorem irq_steps_refl (d : Nat) (a : pios_i2c_adapter) : irq_steps d a a d :=
  ⟨[], by simp, rfl⟩

theorem irq_steps_trans {d d1 d2 : Nat} {a b c : pios_i2c_adapter}
    (h1 : irq_steps d a b d1) (h2 : irq_steps d1 b c d2) : irq_steps d a c d2 := by
  obtain ⟨m1, e1, s1⟩ := h1
  obtain ⟨m2, e2, s2⟩ := h2
  refine ⟨m1 ++ m2, by rw [e2, e1, List.append_assoc], ?_⟩
  rw [irq_scan_append d d1 m1 m2 s1, s2]

theorem irq_scan_inner (d : Nat) (mid : List Op) (h : ∀ o ∈ mid, is_irq_op o = false) :
    irq_scan (d + 1) mid = some (d + 1) := by
  induction mid with
  | nil => rfl
  | cons o rest ih =>
    have ho := h o (List.mem_cons_self _ _)
    have hr := ih (fun o ho => h o (List.mem_cons_of_mem _ ho))
    cases o <;> simp only [irq_scan, Nat.succ_ne_zero, if_false] <;>
      first
      | exact hr
      | exact absurd ho (by decide)

theorem irq_steps_of_ops (d : Nat) (a b : pios_i2c_adapter) (mid : List Op)
    (h : b.ops = a.ops ++ mid) (hm : irq_scan d mid = some d) : irq_steps d a b d :=
  ⟨mid, h, hm⟩

/-- The bus reset adds only records of the reset itself. -/
theorem reset_bus_mid (a : pios_i2c_adapter) :
    ∃ mid, (i2c_adapter_reset_bus a).ops = a.ops ++ mid ∧ ∀ o ∈ mid, is_reset_op o = true := by
  obtain ⟨⟨mid, hmid⟩, _⟩ := quiet_reset_bus a
  refine ⟨mid, hmid.symm, ?_⟩
  have hf := reset_bus_fsm_ops a
  rw [← hmid] at hf
  unfold fsm_ops at hf
  rw [List.filter_append, List.append_right_eq_self, List.filter_eq_nil_iff] at hf
  intro o ho
  simpa using hf o ho

theorem irq_steps_reset_bus (d : Nat) (a : pios_i2c_adapter) :
    irq_steps (d + 1) a (i2c_adapter_reset_bus a) (d + 1) := by
  obtain ⟨mid, hmid, hr⟩ := reset_bus_mid a
  refine ⟨mid, hmid, irq_scan_inner d mid ?_⟩
  intro o ho
  have := hr o ho
  revert this
  cases o <;> simp [is_reset_op, is_irq_op]

theorem irq_steps_call_entry_fn (d : Nat) (a : pios_i2c_adapter) :
    irq_steps (d + 1) a (call_entry_fn a) (d + 1) := by
  unfold call_entry_fn
  cases h : a.curr_state <;> simp only [i2c_adapter_transitions]
  case I2C_STATE_FSM_FAULT =>
    unfold go_fsm_fault
    refine irq_steps_trans ?_ (irq_steps_reset_bus d _)
    exact ⟨[Op.entry_fn I2C_STATE_FSM_FAULT], rfl, by simp [irq_scan]⟩
  case I2C_STATE_BUS_ERROR =>
    unfold go_bus_error
    refine irq_steps_trans ?_ (irq_steps_reset_bus d _)
    exact ⟨[Op.entry_fn I2C_STATE_BUS_ERROR], rfl, by simp [irq_scan]⟩
  all_goals
    simp [irq_steps, irq_scan, emit,
      go_stopping, go_stopped,
      go_starting_eq, go_r_any_txn_addr, go_r_more_txn_pre_one, go_r_last_txn_pre_one,
      go_r_any_txn_pre_first, go_r_any_txn_pre_middle, go_r_more_txn_pre_last,
      go_r_last_txn_pre_last, go_r_any_txn_post_last, go_w_any_txn_addr,
      go_w_any_txn_middle, go_w_more_txn_last, go_w_last_txn_last, go_nack,
      I2C_ReceiveData, store_active_byte, load_active_byte, starting_body]


theorem irq_steps_set_state (d : Nat) (a : pios_i2c_adapter) (s : i2c_adapter_state) :
    irq_steps (d + 1) a (set_state a s) (d + 1) :=
  ⟨[Op.state_write s], rfl, by simp [irq_scan]⟩

theorem irq_steps_disable (d : Nat) (a : pios_i2c_adapter) :
    irq_steps d a (emit a Op.PIOS_IRQ_Disable) (d + 1) :=
  ⟨[Op.PIOS_IRQ_Disable], rfl, by simp [irq_scan]⟩

theorem irq_steps_enable (d : Nat) (a : pios_i2c_adapter) :
    irq_steps (d + 1) a (emit a Op.PIOS_IRQ_Enable) d :=
  ⟨[Op.PIOS_IRQ_Enable], rfl, by simp [irq_scan]⟩

theorem irq_steps_process_auto_loop (d n : Nat) (a : pios_i2c_adapter) :
    irq_steps (d + 1) a (process_auto_loop n a) (d + 1) := by
  induction n generalizing a with
  | zero => exact irq_steps_refl _ a
  | succ n ih =>
    simp only [process_auto_loop]
    split
    · exact irq_steps_trans (irq_steps_trans (irq_steps_set_state d _ _)
        (irq_steps_call_entry_fn d _)) (ih _)
    · exact irq_steps_refl _ a

/-- C29: with PIOS_IRQ_Disable and PIOS_IRQ_Enable as a nesting counter, every
call of i2c_adapter_inject_event issues balanced pairs.  The scan of what the
call adds to the trace, started at depth zero relative to the entry, is accepted
and ends at depth zero: the depth is at least 1 at every write of curr_state and
at everything an entry action does (the actions run by AUTO chaining and the
inner critical sections of the PRE_LAST actions included), no enable happens at
the entry depth before the last one, and the depth on return is the depth at
entry. -/
theorem inject_event_irq_balanced (a : pios_i2c_adapter) (e : i2c_adapter_event) :
    ∃ mid, (i2c_adapter_inject_event a e).ops = a.ops ++ mid ∧ irq_scan 0 mid = some 0 := by
  show irq_steps 0 a (i2c_adapter_inject_event a e) 0
  rw [inject_event_eq_at_auto_loop]
  refine irq_steps_trans ?_ (irq_steps_enable 0 _)
  refine irq_steps_trans ?_ (irq_steps_enable 1 _)
  refine irq_steps_trans ?_ (irq_steps_process_auto_loop 1 _ _)
  unfold at_auto_loop
  refine irq_steps_trans ?_ (irq_steps_disable 1 _)
  refine irq_steps_trans ?_ (irq_steps_call_entry_fn 0 _)
  refine irq_steps_trans ?_ (irq_steps_set_state 0 _ _)
  exact irq_steps_disable 0 a

/-- The traces of the scan: the injection into R_MORE_TXN_PRE_LAST, with its inner
critical section, is accepted; an enable at depth zero and a state write at depth
zero are refused. -/
theorem irq_scan_examples :
    irq_scan 0 (step_ops I2C_STATE_R_MORE_TXN_PRE_LAST
        [Op.I2C_AcknowledgeConfig false, Op.PIOS_IRQ_Disable, Op.I2C_ITConfig IT_ALL false,
         Op.I2C_GenerateSTART, Op.I2C_ReceiveData, Op.byte_access 0 0 1,
         Op.I2C_ITConfig IT_ALL true, Op.PIOS_IRQ_Enable]) = some 0 ∧
      irq_scan 0 [Op.PIOS_IRQ_Disable, Op.PIOS_IRQ_Enable, Op.PIOS_IRQ_Enable] = none ∧
      irq_scan 0 [Op.state_write I2C_STATE_STOPPED] = none := by
  decide

/-! ### C30: the order of operations in the PRE_LAST actions -/

/-- Both PRE_LAST actions on the idle adapter: the acknowledge is disarmed first,
before PIOS_IRQ_Disable and before the interrupts of the peripheral are
disabled. -/
theorem pre_last_disarms_before_masking :
    (go_r_more_txn_pre_last idle_adapter).ops =
        [Op.I2C_AcknowledgeConfig false, Op.PIOS_IRQ_Disable, Op.I2C_ITConfig IT_ALL false,
         Op.I2C_GenerateSTART, Op.I2C_ReceiveData, Op.byte_access 0 0 0,
         Op.I2C_ITConfig IT_ALL true, Op.PIOS_IRQ_Enable] ∧
      (go_r_last_txn_pre_last idle_adapter).ops =
        [Op.I2C_AcknowledgeConfig false, Op.PIOS_IRQ_Disable, Op.I2C_ITConfig IT_ALL false,
         Op.I2C_GenerateSTOP, Op.I2C_ReceiveData, Op.byte_access 0 0 0,
         Op.I2C_ITConfig IT_ALL true, Op.PIOS_IRQ_Enable] ∧
      List.indexOf (Op.I2C_AcknowledgeConfig false) (go_r_more_txn_pre_last idle_adapter).ops
        < List.indexOf (Op.I2C_ITConfig IT_ALL false)
            (go_r_more_txn_pre_last idle_adapter).ops := by
  decide

/-- C30, amended: in both PRE_LAST entry actions the operations occur in the
order: disarm ACK, PIOS_IRQ_Disable, disable the event, buffer and error
interrupts, request the repeated START (MORE) or the STOP (LAST), read the data
byte into `*active_byte`, re-enable the interrupts, PIOS_IRQ_Enable.  The
START or STOP request and the data read lie between the interrupt disable and
the re-enable issued by the action itself; the ACK disarm precedes both. -/
theorem pre_last_order (a : pios_i2c_adapter) :
    (go_r_more_txn_pre_last a).ops = a.ops ++
        [Op.I2C_AcknowledgeConfig false, Op.PIOS_IRQ_Disable, Op.I2C_ITConfig IT_ALL false,
         Op.I2C_GenerateSTART, Op.I2C_ReceiveData,
         Op.byte_access a.byte_txn a.active_byte a.last_byte,
         Op.I2C_ITConfig IT_ALL true, Op.PIOS_IRQ_Enable] ∧
      (go_r_last_txn_pre_last a).ops = a.ops ++
        [Op.I2C_AcknowledgeConfig false, Op.PIOS_IRQ_Disable, Op.I2C_ITConfig IT_ALL false,
         Op.I2C_GenerateSTOP, Op.I2C_ReceiveData,
         Op.byte_access a.byte_txn a.active_byte a.last_byte,
         Op.I2C_ITConfig IT_ALL true, Op.PIOS_IRQ_Enable] ∧
      (go_r_more_txn_pre_last a).txns
        = store_byte a.txns a.byte_txn a.active_byte (a.rx_data a.n_rx % 256) ∧
      (go_r_last_txn_pre_last a).txns
        = store_byte a.txns a.byte_txn a.active_byte (a.rx_data a.n_rx % 256) := by
  simp [go_r_more_txn_pre_last, go_r_last_txn_pre_last, emit, I2C_ReceiveData,
    store_active_byte]

/-! ### C32: the ACK disarm of a single-byte read -/

/-- In the one-byte read, after EV5 has been served the FSM rests in
R_LAST_TXN_ADDR, the address has been sent and ACK has not been disarmed; the
disarm is made while EV6 is served. -/
theorem single_byte_read_disarms_at_ev6 :
    (serve (transfer_start idle_adapter one_byte_read)
        (Irq.ev I2C_EVENT_MASTER_MODE_SELECT)).curr_state = I2C_STATE_R_LAST_TXN_ADDR ∧
      Op.I2C_Send7bitAddress 0xD0 I2C_Direction.I2C_Direction_Receiver ∈
        (serve (transfer_start idle_adapter one_byte_read)
          (Irq.ev I2C_EVENT_MASTER_MODE_SELECT)).ops ∧
      ack_disarms (serve (transfer_start idle_adapter one_byte_read)
        (Irq.ev I2C_EVENT_MASTER_MODE_SELECT)).ops = 0 ∧
      ack_disarms (serve (serve (transfer_start idle_adapter one_byte_read)
        (Irq.ev I2C_EVENT_MASTER_MODE_SELECT))
        (Irq.ev I2C_EVENT_MASTER_RECEIVER_MODE_SELECTED)).ops = 1 := by
  decide

/-- C32 (amended): for a read transaction of one byte, started from STARTING with
EV5, the entry action of R_*_TXN_ADDR only sends the address and disarms nothing;
ACK is disarmed by the entry action of R_*_TXN_PRE_ONE, run while the event ISR
serves EV6, followed by the STOP or repeated START request, and no byte has been
read from the data register by then. -/
theorem single_byte_read_ack_disarm (more : Bool) (a : pios_i2c_adapter)
    (hs : a.curr_state = I2C_STATE_STARTING)
    (hrw : (txn_at a.txns a.active_txn).rw = PIOS_I2C_TXN_READ)
    (hm : (more = true ∧ a.active_txn < a.last_txn) ∨
      (more = false ∧ a.active_txn = a.last_txn))
    (hrem : a.last_byte - a.active_byte + 1 = 1) :
    (serve a (Irq.ev I2C_EVENT_MASTER_MODE_SELECT)).ops = a.ops ++ step_ops (r_addr more)
        [Op.I2C_Send7bitAddress (((txn_at a.txns a.active_txn).addr <<< 1) % 256)
          I2C_Direction.I2C_Direction_Receiver] ∧
      ack_disarms (serve a (Irq.ev I2C_EVENT_MASTER_MODE_SELECT)).ops = ack_disarms a.ops ∧
      (serve (serve a (Irq.ev I2C_EVENT_MASTER_MODE_SELECT))
          (Irq.ev I2C_EVENT_MASTER_RECEIVER_MODE_SELECTED)).ops =
        (serve a (Irq.ev I2C_EVENT_MASTER_MODE_SELECT)).ops ++ step_ops (r_pre_one more)
          [Op.I2C_AcknowledgeConfig false, chain_op more] ∧
      data_reads (serve (serve a (Irq.ev I2C_EVENT_MASTER_MODE_SELECT))
          (Irq.ev I2C_EVENT_MASTER_RECEIVER_MODE_SELECTED)).ops = data_reads a.ops := by
  have h1 := read_start_step more a hs hrw hm
  have h2 := read_addr_step_one more (serve a (Irq.ev I2C_EVENT_MASTER_MODE_SELECT))
    (by rw [h1]) (by rw [h1]; exact hrem)
  rw [h2]
  rw [h1]
  refine ⟨rfl, ?_, rfl, ?_⟩
  · simp [ack_disarms, step_ops]
  · cases more <;> simp [data_reads, step_ops, chain_op]

/-- A one-byte read is in STARTING when EV5 and then EV6 arrive: the disarm is
in the trace of EV6, not before. -/
theorem single_byte_read_ack_disarm_witness :
    (transfer_start idle_adapter one_byte_read).curr_state = I2C_STATE_STARTING ∧
      ack_disarms (serve (transfer_start idle_adapter one_byte_read)
        (Irq.ev I2C_EVENT_MASTER_MODE_SELECT)).ops
          = ack_disarms (transfer_start idle_adapter one_byte_read).ops :=
  ⟨by decide,
    (single_byte_read_ack_disarm false (transfer_start idle_adapter one_byte_read)
      (by decide) (by decide) (Or.inr ⟨rfl, by decide⟩) (by decide)).2.1⟩

/-! ### C33: the answer to an accepted NACK -/

/-- C33: when the row of the current state has a NACK slot, the injection of NACK
enters I2C_STATE_NACK, whose entry action disables the event, buffer and error
interrupts, disarms ACK and requests STOP, in this order, then follows the AUTO
edge to STOPPING, whose entry action gives the semaphore; the trace gains no
I2C_SendData and no address, and active_byte, active_txn and every other cursor
keep their values. -/
theorem nack_aborts_with_stop (a : pios_i2c_adapter)
    (h : (i2c_adapter_transitions a.curr_state).next_state I2C_EVENT_NACK = I2C_STATE_NACK) :
    i2c_adapter_inject_event a I2C_EVENT_NACK =
      { a with curr_state := I2C_STATE_STOPPING, sem_ready := true,
               ops := a.ops ++ auto_step_ops I2C_STATE_NACK
                 [Op.I2C_ITConfig IT_ALL false, Op.I2C_AcknowledgeConfig false,
                  Op.I2C_GenerateSTOP]
                 I2C_STATE_STOPPING
                 [Op.I2C_ITConfig IT_ALL false, Op.PIOS_Semaphore_Give_FromISR] } ∧
      sent_bytes (i2c_adapter_inject_event a I2C_EVENT_NACK).ops = sent_bytes a.ops ∧
      sent_addresses (i2c_adapter_inject_event a I2C_EVENT_NACK).ops = sent_addresses a.ops ∧
      (i2c_adapter_inject_event a I2C_EVENT_NACK).active_byte = a.active_byte ∧
      (i2c_adapter_inject_event a I2C_EVENT_NACK).active_txn = a.active_txn := by
  rw [inject_event_one_auto a _ I2C_STATE_NACK I2C_STATE_STOPPING h rfl (by decide) rfl]
  simp [call_entry_fn, i2c_adapter_transitions, set_state, emit, go_nack, go_stopping,
    auto_step_ops, sent_bytes, sent_addresses]

/-- A NACK of the address of the two-byte write: the FSM goes to STOPPING and the
cursors stay where they were. -/
theorem nack_aborts_with_stop_witness :
    (i2c_adapter_transitions (serve (transfer_start idle_adapter two_byte_write)
        (Irq.ev I2C_EVENT_MASTER_MODE_SELECT)).curr_state).next_state I2C_EVENT_NACK
        = I2C_STATE_NACK ∧
      sent_bytes (i2c_adapter_inject_event (serve (transfer_start idle_adapter two_byte_write)
        (Irq.ev I2C_EVENT_MASTER_MODE_SELECT)) I2C_EVENT_NACK).ops = [] :=
  ⟨by decide,
    (nack_aborts_with_stop (serve (transfer_start idle_adapter two_byte_write)
      (Irq.ev I2C_EVENT_MASTER_MODE_SELECT)) (by decide)).2.1.trans (by decide)⟩

/-! ### C38: the mutex is not acquired -/

/-- C38: when the mutex is not acquired within the timeout, PIOS_I2C_Transfer
returns -2 and the adapter is as it was but for the record of the failed
PIOS_Mutex_Lock: the list is not installed, bus_error is not cleared, the
semaphore is not taken, no event is injected and the peripheral is not touched;
curr_state, active_txn, last_txn, the byte cursors and bus_error keep their
values. -/
theorem lock_timeout_touches_nothing (a : pios_i2c_adapter) (txn_list : List pios_i2c_txn)
    (env : TransferEnv) (h : env.lock_ok = false) :
    PIOS_I2C_Transfer a txn_list env = some (-2, emit a (Op.PIOS_Mutex_Lock false)) ∧
      fsm_fields (emit a (Op.PIOS_Mutex_Lock false)) = fsm_fields a ∧
      (emit a (Op.PIOS_Mutex_Lock false)).ops = a.ops ++ [Op.PIOS_Mutex_Lock false] := by
  refine ⟨?_, rfl, rfl⟩
  unfold PIOS_I2C_Transfer
  rw [if_pos h]

/-- A transfer on a busy adapter whose mutex is held elsewhere. -/
theorem lock_timeout_touches_nothing_witness :
    env_lock_timeout.lock_ok = false ∧
      PIOS_I2C_Transfer idle_adapter one_byte_read env_lock_timeout
        = some (-2, emit idle_adapter (Op.PIOS_Mutex_Lock false)) :=
  ⟨rfl, (lock_timeout_touches_nothing idle_adapter one_byte_read env_lock_timeout rfl).1⟩

/-! ### C39: the masked status zero -/

theorem ev_handler_of_zero (a : pios_i2c_adapter) (raw : Nat)
    (hraw : raw &&& EVENT_MASK = 0) :
    PIOS_I2C_EV_IRQ_Handler a raw = ev_transfer_done a ∧
      irq_event a (Irq.ev raw) = some (ev_transfer_done_event a) := by
  simp only [PIOS_I2C_EV_IRQ_Handler, irq_event]
  rw [hraw]
  exact ⟨rfl, rfl⟩

theorem ev_transfer_done_event_class (a : pios_i2c_adapter) :
    is_transfer_done_event (ev_transfer_done_event a) = true := by
  unfold ev_transfer_done_event
  split_ifs <;> rfl

theorem transfer_done_not_accepted (e : i2c_adapter_event)
    (h : is_transfer_done_event e = true) :
    (i2c_adapter_transitions I2C_STATE_STARTING).next_state e = I2C_STATE_FSM_FAULT ∧
      (i2c_adapter_transitions I2C_STATE_R_MORE_TXN_ADDR).next_state e = I2C_STATE_FSM_FAULT ∧
      (i2c_adapter_transitions I2C_STATE_R_LAST_TXN_ADDR).next_state e = I2C_STATE_FSM_FAULT ∧
      (i2c_adapter_transitions I2C_STATE_W_MORE_TXN_ADDR).next_state e = I2C_STATE_FSM_FAULT ∧
      (i2c_adapter_transitions I2C_STATE_W_LAST_TXN_ADDR).next_state e = I2C_STATE_FSM_FAULT := by
  revert h
  cases e <;> decide

/-- C39: a raw status whose masked value is 0 is served by the event ISR as the
transfer-done cases are: it injects the TRANSFER_DONE event chosen by
last_byte - active_byte + 1 (LEN_EQ_0, LEN_EQ_1, LEN_EQ_2, else LEN_GT_2); it is
not ignored and not turned into BUS_ERROR.  Where the row of the current state
has no slot for that event, as in STARTING and the four ADDR states, the FSM
passes through FSM_FAULT to STOPPING with bus_error set. -/
theorem zero_status_is_transfer_done (a : pios_i2c_adapter) (raw : Nat)
    (hraw : raw &&& EVENT_MASK = 0) :
    PIOS_I2C_EV_IRQ_Handler a raw
        = i2c_adapter_inject_event a (ev_transfer_done_event a) ∧
      irq_event a (Irq.ev raw) = some (ev_transfer_done_event a) ∧
      ev_transfer_done_event a =
        (if a.last_byte - a.active_byte + 1 = 0 then I2C_EVENT_TRANSFER_DONE_LEN_EQ_0
         else if a.last_byte - a.active_byte + 1 = 1 then I2C_EVENT_TRANSFER_DONE_LEN_EQ_1
         else if a.last_byte - a.active_byte + 1 = 2 then I2C_EVENT_TRANSFER_DONE_LEN_EQ_2
         else I2C_EVENT_TRANSFER_DONE_LEN_GT_2) ∧
      ((i2c_adapter_transitions a.curr_state).next_state (ev_transfer_done_event a)
          = I2C_STATE_FSM_FAULT →
        (PIOS_I2C_EV_IRQ_Handler a raw).curr_state = I2C_STATE_STOPPING ∧
        (PIOS_I2C_EV_IRQ_Handler a raw).bus_error = true ∧
        (PIOS_I2C_EV_IRQ_Handler a raw).sem_ready = true ∧
        fault_entries (PIOS_I2C_EV_IRQ_Handler a raw).ops = fault_entries a.ops + 1) ∧
      ((a.curr_state = I2C_STATE_STARTING ∨ a.curr_state = I2C_STATE_R_MORE_TXN_ADDR ∨
          a.curr_state = I2C_STATE_R_LAST_TXN_ADDR ∨ a.curr_state = I2C_STATE_W_MORE_TXN_ADDR ∨
          a.curr_state = I2C_STATE_W_LAST_TXN_ADDR) →
        (i2c_adapter_transitions a.curr_state).next_state (ev_transfer_done_event a)
          = I2C_STATE_FSM_FAULT) := by
  obtain ⟨h1, h2⟩ := ev_handler_of_zero a raw hraw
  have h3 : PIOS_I2C_EV_IRQ_Handler a raw
      = i2c_adapter_inject_event a (ev_transfer_done_event a) := by
    rw [h1, ev_transfer_done_eq]
  refine ⟨h3, h2, rfl, ?_, ?_⟩
  · intro hf
    rw [h3]
    obtain ⟨ha, hb, hc⟩ := inject_event_fault a _ hf
    refine ⟨ha, hb, hc, ?_⟩
    rw [inject_event_one_auto a _ I2C_STATE_FSM_FAULT I2C_STATE_STOPPING hf rfl (by decide) rfl]
    simp [call_entry_fn, i2c_adapter_transitions, emit, go_stopping, set_state, go_fsm_fault,
      is_fault_entry]
  · intro hs
    obtain ⟨t1, t2, t3, t4, t5⟩ :=
      transfer_done_not_accepted _ (ev_transfer_done_event_class a)
    rcases hs with h | h | h | h | h <;> rw [h] <;> assumption

/-- Status 0 while the one-byte read is in STARTING: the FSM ends in STOPPING
with bus_error set. -/
theorem zero_status_is_transfer_done_witness :
    0 &&& EVENT_MASK = 0 ∧
      (PIOS_I2C_EV_IRQ_Handler (transfer_start idle_adapter one_byte_read) 0).curr_state
        = I2C_STATE_STOPPING ∧
      (PIOS_I2C_EV_IRQ_Handler (transfer_start idle_adapter one_byte_read) 0).bus_error
        = true :=
  have h := (zero_status_is_transfer_done (transfer_start idle_adapter one_byte_read) 0
    (by decide)).2.2.2.1 (by decide)
  ⟨by decide, h.1, h.2.1⟩

/-! ### C34: the bounds of the bus reset -/

@[simp] theorem scl_pulses_append (xs ys : List Op) :
    scl_pulses (xs ++ ys) = scl_pulses xs + scl_pulses ys := by
  simp [scl_pulses]

@[simp] theorem us_waits_append (xs ys : List Op) :
    us_waits (xs ++ ys) = us_waits xs + us_waits ys := by
  simp [us_waits]

theorem read_pin_counts (a : pios_i2c_adapter) (pin : Pin) :
    us_waits (GPIO_ReadInputDataBit a pin).2.ops = us_waits a.ops ∧
      scl_pulses (GPIO_ReadInputDataBit a pin).2.ops = scl_pulses a.ops ∧
      (GPIO_ReadInputDataBit a pin).2.sda_in = a.sda_in := by
  cases pin <;> simp [GPIO_ReadInputDataBit, us_waits, scl_pulses]

/-- One wait loop entered with `retry_count` at most 10: the counter ends at
most at 11, at most `10 - retry_count` delays of one microsecond are made, and
SCL is not pulsed. -/
theorem wait_line_high_bounds (pin : Pin) :
    ∀ (n : Nat) (a : pios_i2c_adapter), a.retry_count ≤ MAX_I2C_RETRY_COUNT →
      (wait_line_high pin n a).retry_count ≤ MAX_I2C_RETRY_COUNT + 1 ∧
      us_waits (wait_line_high pin n a).ops + a.retry_count
        ≤ us_waits a.ops + MAX_I2C_RETRY_COUNT ∧
      scl_pulses (wait_line_high pin n a).ops = scl_pulses a.ops ∧
      (wait_line_high pin n a).sda_in = a.sda_in := by
  intro n
  induction n with
  | zero =>
    intro a h
    refine ⟨?_, ?_, rfl, rfl⟩
    · show a.retry_count ≤ _
      omega
    · show us_waits a.ops + a.retry_count ≤ _
      omega
  | succ n ih =>
    intro a h
    obtain ⟨r1, r2, r3⟩ := read_pin_counts a pin
    have r4 := read_pin_retry_count a pin
    rw [wait_line_high]
    dsimp only
    split
    · split
      · rename_i hlt
        rw [r4] at hlt
        have hh := ih (emit (set_retry_count (GPIO_ReadInputDataBit a pin).2
          (((GPIO_ReadInputDataBit a pin).2.retry_count + 1) % 256)) (Op.PIOS_DELAY_WaituS 1))
          (by
            show ((GPIO_ReadInputDataBit a pin).2.retry_count + 1) % 256 ≤ _
            rw [r4]
            unfold MAX_I2C_RETRY_COUNT at *
            omega)
        obtain ⟨h1, h2, h3, h4⟩ := hh
        have e1 : (emit (set_retry_count (GPIO_ReadInputDataBit a pin).2
          (((GPIO_ReadInputDataBit a pin).2.retry_count + 1) % 256))
            (Op.PIOS_DELAY_WaituS 1)).retry_count = (a.retry_count + 1) % 256 := by
          show ((GPIO_ReadInputDataBit a pin).2.retry_count + 1) % 256 = _
          rw [r4]
        have e2 : us_waits (emit (set_retry_count (GPIO_ReadInputDataBit a pin).2
          (((GPIO_ReadInputDataBit a pin).2.retry_count + 1) % 256))
            (Op.PIOS_DELAY_WaituS 1)).ops = us_waits a.ops + 1 := by
          show us_waits ((GPIO_ReadInputDataBit a pin).2.ops ++ [Op.PIOS_DELAY_WaituS 1]) = _
          rw [us_waits_append, r1]
          rfl
        have e3 : scl_pulses (emit (set_retry_count (GPIO_ReadInputDataBit a pin).2
          (((GPIO_ReadInputDataBit a pin).2.retry_count + 1) % 256))
            (Op.PIOS_DELAY_WaituS 1)).ops = scl_pulses a.ops := by
          show scl_pulses ((GPIO_ReadInputDataBit a pin).2.ops ++ [Op.PIOS_DELAY_WaituS 1]) = _
          rw [scl_pulses_append, r2]
          rfl
        rw [e1] at h2
        rw [e2] at h2
        rw [e3] at h3
        refine ⟨h1, ?_, h3, h4.trans r3⟩
        unfold MAX_I2C_RETRY_COUNT at *
        omega
      · rename_i hlt
        rw [r4] at hlt
        refine ⟨?_, ?_, r2, r3⟩
        · show ((GPIO_ReadInputDataBit a pin).2.retry_count + 1) % 256 ≤ _
          rw [r4]
          unfold MAX_I2C_RETRY_COUNT at *
          omega
        · show us_waits (GPIO_ReadInputDataBit a pin).2.ops + _ ≤ _
          rw [r1]
          omega
    · exact ⟨by rw [r4]; omega, by rw [r1]; omega, r2, r3⟩

theorem clock_pulse_shape (a : pios_i2c_adapter) :
    (clock_pulse a).ops = (wait_line_high Pin.scl 256
        (emit (set_retry_count a 0) (Op.GPIO_SetBits Pin.scl))).ops ++
        [Op.PIOS_DELAY_WaituS 2, Op.GPIO_ResetBits Pin.scl, Op.PIOS_DELAY_WaituS 2,
         Op.GPIO_SetBits Pin.scl, Op.PIOS_DELAY_WaituS 2] ∧
      (clock_pulse a).retry_count = (wait_line_high Pin.scl 256
        (emit (set_retry_count a 0) (Op.GPIO_SetBits Pin.scl))).retry_count ∧
      (clock_pulse a).sda_in = (wait_line_high Pin.scl 256
        (emit (set_retry_count a 0) (Op.GPIO_SetBits Pin.scl))).sda_in := by
  simp only [clock_pulse, emit, List.append_assoc, List.cons_append, List.nil_append]
  exact ⟨trivial, trivial, trivial⟩

/-- One manual clock pulse: one low pulse on SCL, preceded by at most ten delays
of one microsecond. -/
theorem clock_pulse_bounds (a : pios_i2c_adapter) :
    (clock_pulse a).retry_count ≤ MAX_I2C_RETRY_COUNT + 1 ∧
      us_waits (clock_pulse a).ops ≤ us_waits a.ops + MAX_I2C_RETRY_COUNT ∧
      scl_pulses (clock_pulse a).ops = scl_pulses a.ops + 1 ∧
      (clock_pulse a).sda_in = a.sda_in := by
  obtain ⟨s1, s2, s3⟩ := clock_pulse_shape a
  have h0 : (emit (set_retry_count a 0) (Op.GPIO_SetBits Pin.scl)).retry_count
      ≤ MAX_I2C_RETRY_COUNT := by
    show 0 ≤ _
    exact Nat.zero_le _
  obtain ⟨h1, h2, h3, h4⟩ := wait_line_high_bounds Pin.scl 256
    (emit (set_retry_count a 0) (Op.GPIO_SetBits Pin.scl)) h0
  have e2 : us_waits (emit (set_retry_count a 0) (Op.GPIO_SetBits Pin.scl)).ops
      = us_waits a.ops := by
    show us_waits (a.ops ++ _) = _
    rw [us_waits_append]
    rfl
  have e3 : scl_pulses (emit (set_retry_count a 0) (Op.GPIO_SetBits Pin.scl)).ops
      = scl_pulses a.ops := by
    show scl_pulses (a.ops ++ _) = _
    rw [scl_pulses_append]
    rfl
  rw [e2] at h2
  rw [e3] at h3
  rw [s1, s2, s3, us_waits_append, scl_pulses_append, h3]
  refine ⟨h1, ?_, ?_, h4⟩
  · have : us_waits [Op.PIOS_DELAY_WaituS 2, Op.GPIO_ResetBits Pin.scl, Op.PIOS_DELAY_WaituS 2,
         Op.GPIO_SetBits Pin.scl, Op.PIOS_DELAY_WaituS 2] = 0 := by decide
    omega
  · have : scl_pulses [Op.PIOS_DELAY_WaituS 2, Op.GPIO_ResetBits Pin.scl, Op.PIOS_DELAY_WaituS 2,
         Op.GPIO_SetBits Pin.scl, Op.PIOS_DELAY_WaituS 2] = 1 := by decide
    omega

theorem clock_out_sda_step (n : Nat) (a : pios_i2c_adapter) :
    clock_out_sda (n + 1) a =
      if a.sda_in a.n_sda = false then
        if a.retry_count_clk < MAX_I2C_RETRY_COUNT then
          clock_out_sda n (clock_pulse (set_retry_count_clk (GPIO_ReadInputDataBit a Pin.sda).2
            ((a.retry_count_clk + 1) % 256)))
        else set_retry_count_clk (GPIO_ReadInputDataBit a Pin.sda).2
          ((a.retry_count_clk + 1) % 256)
      else (GPIO_ReadInputDataBit a Pin.sda).2 := by
  rw [clock_out_sda]
  rfl

/-- The SDA recovery loop entered with `retry_count_clk` at most 10: the counter
ends at most at 11, at most `10 - retry_count_clk` pulses are made, each with at
most ten delays of one microsecond. -/
theorem clock_out_sda_bounds :
    ∀ (n : Nat) (a : pios_i2c_adapter), a.retry_count_clk ≤ MAX_I2C_RETRY_COUNT →
      (clock_out_sda n a).retry_count_clk ≤ MAX_I2C_RETRY_COUNT + 1 ∧
      scl_pulses a.ops ≤ scl_pulses (clock_out_sda n a).ops ∧
      scl_pulses (clock_out_sda n a).ops + a.retry_count_clk
        ≤ scl_pulses a.ops + MAX_I2C_RETRY_COUNT ∧
      us_waits (clock_out_sda n a).ops + MAX_I2C_RETRY_COUNT * scl_pulses a.ops
        ≤ us_waits a.ops + MAX_I2C_RETRY_COUNT * scl_pulses (clock_out_sda n a).ops ∧
      ((clock_out_sda n a).retry_count ≤ MAX_I2C_RETRY_COUNT + 1 ∨
        (clock_out_sda n a).retry_count = a.retry_count) ∧
      (clock_out_sda n a).sda_in = a.sda_in := by
  intro n
  induction n with
  | zero =>
    intro a h
    refine ⟨?_, le_refl _, ?_, le_refl _, Or.inr rfl, rfl⟩
    · show a.retry_count_clk ≤ _
      omega
    · show scl_pulses a.ops + a.retry_count_clk ≤ _
      omega
  | succ n ih =>
    intro a h
    obtain ⟨r1, r2, r3⟩ := read_pin_counts a Pin.sda
    rw [clock_out_sda_step]
    split
    · split
      · rename_i hlt
        obtain ⟨p1, p2, p3, p4⟩ := clock_pulse_bounds
          (set_retry_count_clk (GPIO_ReadInputDataBit a Pin.sda).2 ((a.retry_count_clk + 1) % 256))
        have q1 : (clock_pulse (set_retry_count_clk (GPIO_ReadInputDataBit a Pin.sda).2
            ((a.retry_count_clk + 1) % 256))).retry_count_clk = (a.retry_count_clk + 1) % 256 := by
          rw [clock_pulse_retry_count_clk]
          rfl
        obtain ⟨h1, h2, h3, h4, h5, h6⟩ := ih (clock_pulse (set_retry_count_clk
          (GPIO_ReadInputDataBit a Pin.sda).2 ((a.retry_count_clk + 1) % 256)))
          (by rw [q1]; unfold MAX_I2C_RETRY_COUNT at *; omega)
        rw [q1] at h3
        have p2b : us_waits (clock_pulse (set_retry_count_clk (GPIO_ReadInputDataBit a Pin.sda).2
            ((a.retry_count_clk + 1) % 256))).ops ≤ us_waits a.ops + MAX_I2C_RETRY_COUNT := by
          refine le_trans p2 ?_
          show us_waits (GPIO_ReadInputDataBit a Pin.sda).2.ops + _ ≤ _
          rw [r1]
        have p3b : scl_pulses (clock_pulse (set_retry_count_clk (GPIO_ReadInputDataBit a Pin.sda).2
            ((a.retry_count_clk + 1) % 256))).ops = scl_pulses a.ops + 1 := by
          rw [p3]
          show scl_pulses (GPIO_ReadInputDataBit a Pin.sda).2.ops + 1 = _
          rw [r2]
        rw [p3b] at h2 h3 h4
        refine ⟨h1, by omega, ?_, ?_, ?_, ?_⟩
        · unfold MAX_I2C_RETRY_COUNT at *
          omega
        · unfold MAX_I2C_RETRY_COUNT at *
          omega
        · rcases h5 with h5 | h5
          · exact Or.inl h5
          · exact Or.inl (h5 ▸ p1)
        · rw [h6, p4]
          exact r3
      · rename_i hlt
        refine ⟨?_, ?_, ?_, ?_, Or.inr ?_, r3⟩
        · show (a.retry_count_clk + 1) % 256 ≤ _
          unfold MAX_I2C_RETRY_COUNT at *
          omega
        · show scl_pulses a.ops ≤ scl_pulses (GPIO_ReadInputDataBit a Pin.sda).2.ops
          rw [r2]
        · show scl_pulses (GPIO_ReadInputDataBit a Pin.sda).2.ops + _ ≤ _
          rw [r2]
          omega
        · show us_waits (GPIO_ReadInputDataBit a Pin.sda).2.ops + _ ≤
            _ + _ * scl_pulses (GPIO_ReadInputDataBit a Pin.sda).2.ops
          rw [r1, r2]
        · exact read_pin_retry_count a Pin.sda
    · refine ⟨?_, ?_, ?_, ?_, Or.inr ?_, r3⟩
      · rw [read_pin_retry_count_clk]
        omega
      · rw [r2]
      · rw [r2]
        omega
      · rw [r1, r2]
      · exact read_pin_retry_count a Pin.sda

/-- With SDA reading low at every read, the recovery loop makes all the pulses
its counter allows. -/
theorem clock_out_sda_stuck :
    ∀ (m n : Nat) (a : pios_i2c_adapter), (∀ k, a.sda_in k = false) →
      a.retry_count_clk + m = MAX_I2C_RETRY_COUNT → m < n →
      scl_pulses (clock_out_sda n a).ops = scl_pulses a.ops + m := by
  intro m
  induction m with
  | zero =>
    intro n a hs h hn
    obtain ⟨n, rfl⟩ := Nat.exists_eq_succ_of_ne_zero (Nat.pos_iff_ne_zero.mp hn)
    rw [clock_out_sda_step, if_pos (hs _), if_neg (by omega)]
    exact (read_pin_counts a Pin.sda).2.1
  | succ m ih =>
    intro n a hs h hn
    obtain ⟨n, rfl⟩ := Nat.exists_eq_succ_of_ne_zero (Nat.pos_iff_ne_zero.mp (by omega : 0 < n))
    rw [clock_out_sda_step, if_pos (hs _), if_pos (by omega)]
    obtain ⟨p1, p2, p3, p4⟩ := clock_pulse_bounds
      (set_retry_count_clk (GPIO_ReadInputDataBit a Pin.sda).2 ((a.retry_count_clk + 1) % 256))
    rw [ih n _ (by
        intro k
        rw [p4]
        show (GPIO_ReadInputDataBit a Pin.sda).2.sda_in k = false
        rw [(read_pin_counts a Pin.sda).2.2]
        exact hs k)
      (by
        rw [clock_pulse_retry_count_clk]
        show (a.retry_count_clk + 1) % 256 + m = _
        unfold MAX_I2C_RETRY_COUNT at *
        omega) (by omega), p3]
    show scl_pulses (GPIO_ReadInputDataBit a Pin.sda).2.ops + 1 + m = _
    rw [(read_pin_counts a Pin.sda).2.1]
    omega

/-- With SDA reading high at the first read, the recovery loop makes no
pulse. -/
theorem clock_out_sda_free (n : Nat) (a : pios_i2c_adapter) (h : a.sda_in a.n_sda = true) :
    scl_pulses (clock_out_sda (n + 1) a).ops = scl_pulses a.ops := by
  rw [clock_out_sda_step, if_neg (by rw [h]; decide)]
  exact (read_pin_counts a Pin.sda).2.1

theorem reset_bus_eq_waited (a : pios_i2c_adapter) :
    i2c_adapter_reset_bus a =
      if (read_SR2 (emit (emit (emit (emit (reset_bus_waited a)
          (Op.GPIO_Init Pin.scl PinMode.cfg_init)) (Op.GPIO_Init Pin.sda PinMode.cfg_init))
          Op.I2C_DeInit) Op.I2C_Init)).1 &&& I2C_BUSY ≠ 0 then
        emit (emit (read_SR2 (emit (emit (emit (emit (reset_bus_waited a)
          (Op.GPIO_Init Pin.scl PinMode.cfg_init)) (Op.GPIO_Init Pin.sda PinMode.cfg_init))
          Op.I2C_DeInit) Op.I2C_Init)).2 (Op.I2C_SoftwareResetCmd true))
          (Op.I2C_SoftwareResetCmd false)
      else (read_SR2 (emit (emit (emit (emit (reset_bus_waited a)
          (Op.GPIO_Init Pin.scl PinMode.cfg_init)) (Op.GPIO_Init Pin.sda PinMode.cfg_init))
          Op.I2C_DeInit) Op.I2C_Init)).2 := by
  simp only [i2c_adapter_reset_bus, reset_bus_waited]

theorem reset_bus_counts (a : pios_i2c_adapter) :
    (i2c_adapter_reset_bus a).retry_count = (reset_bus_waited a).retry_count ∧
      (i2c_adapter_reset_bus a).retry_count_clk = (reset_bus_waited a).retry_count_clk ∧
      us_waits (i2c_adapter_reset_bus a).ops = us_waits (reset_bus_waited a).ops ∧
      scl_pulses (i2c_adapter_reset_bus a).ops = scl_pulses (reset_bus_waited a).ops := by
  rw [reset_bus_eq_waited]
  generalize reset_bus_waited a = w
  split <;> simp [emit, read_SR2, us_waits, scl_pulses]

theorem reset_bus_waited_bounds (a : pios_i2c_adapter) :
    (reset_bus_waited a).retry_count ≤ MAX_I2C_RETRY_COUNT + 1 ∧
      (reset_bus_waited a).retry_count_clk ≤ MAX_I2C_RETRY_COUNT + 1 ∧
      scl_pulses a.ops ≤ scl_pulses (reset_bus_waited a).ops ∧
      scl_pulses (reset_bus_waited a).ops ≤ scl_pulses a.ops + MAX_I2C_RETRY_COUNT ∧
      us_waits (reset_bus_waited a).ops + MAX_I2C_RETRY_COUNT * scl_pulses a.ops
        ≤ us_waits a.ops + MAX_I2C_RETRY_COUNT * scl_pulses (reset_bus_waited a).ops
          + 2 * MAX_I2C_RETRY_COUNT ∧
      ((∀ k, a.sda_in k = false) →
        scl_pulses (reset_bus_waited a).ops = scl_pulses a.ops + MAX_I2C_RETRY_COUNT) ∧
      (a.sda_in a.n_sda = true → scl_pulses (reset_bus_waited a).ops = scl_pulses a.ops) := by
  obtain ⟨a0, ha0⟩ : ∃ a0, a0 = set_retry_count_clk (emit (emit (emit (emit (emit a
      Op.I2C_DeInit) (Op.GPIO_SetBits Pin.scl)) (Op.GPIO_Init Pin.scl PinMode.GPIO_Mode_Out_OD))
      (Op.GPIO_SetBits Pin.sda)) (Op.GPIO_Init Pin.sda PinMode.GPIO_Mode_Out_OD)) 0 := ⟨_, rfl⟩
  have k1 : a0.retry_count_clk = 0 := by rw [ha0]; simp only [set_retry_count_clk]
  have k2 : a0.sda_in = a.sda_in := by rw [ha0]; simp only [set_retry_count_clk, emit]
  have k3 : a0.n_sda = a.n_sda := by rw [ha0]; simp only [set_retry_count_clk, emit]
  have k4 : us_waits a0.ops = us_waits a.ops := by
    rw [ha0]
    simp [set_retry_count_clk, emit, us_waits]
  have k5 : scl_pulses a0.ops = scl_pulses a.ops := by
    rw [ha0]
    simp [set_retry_count_clk, emit, scl_pulses]
  obtain ⟨c1, c2, c3, c4, -, -⟩ := clock_out_sda_bounds 256 a0 (by rw [k1]; exact Nat.zero_le _)
  have c5 := clock_out_sda_stuck MAX_I2C_RETRY_COUNT 256 a0
  have c6 := clock_out_sda_free 255 a0
  have e : reset_bus_waited a = wait_line_high Pin.sda 256 (set_retry_count
      (wait_line_high Pin.scl 256 (set_retry_count (emit (emit (emit (emit (emit (emit (emit
        (emit (clock_out_sda 256 a0) (Op.GPIO_SetBits Pin.scl)) (Op.PIOS_DELAY_WaituS 2))
        (Op.GPIO_ResetBits Pin.sda)) (Op.PIOS_DELAY_WaituS 2)) (Op.GPIO_SetBits Pin.sda))
        (Op.PIOS_DELAY_WaituS 2)) (Op.GPIO_SetBits Pin.sda)) (Op.GPIO_SetBits Pin.scl)) 0)) 0) := by
    rw [ha0]
    simp only [reset_bus_waited]
  rw [e]
  rw [k1, k5] at c3
  rw [k4, k5] at c4
  rw [k5] at c2 c5 c6
  rw [k2, k1] at c5
  rw [k2, k3] at c6
  generalize clock_out_sda 256 a0 = a1 at *
  obtain ⟨p2, hp2⟩ : ∃ p2, p2 = set_retry_count (emit (emit (emit (emit (emit (emit (emit
        (emit a1 (Op.GPIO_SetBits Pin.scl)) (Op.PIOS_DELAY_WaituS 2))
        (Op.GPIO_ResetBits Pin.sda)) (Op.PIOS_DELAY_WaituS 2)) (Op.GPIO_SetBits Pin.sda))
        (Op.PIOS_DELAY_WaituS 2)) (Op.GPIO_SetBits Pin.sda)) (Op.GPIO_SetBits Pin.scl)) 0 :=
    ⟨_, rfl⟩
  have m1 : p2.retry_count = 0 := by rw [hp2]; simp only [set_retry_count]
  have m2 : p2.retry_count_clk = a1.retry_count_clk := by
    rw [hp2]; simp only [set_retry_count, emit]
  have m4 : us_waits p2.ops = us_waits a1.ops := by
    rw [hp2]
    simp [set_retry_count, emit, us_waits]
  have m5 : scl_pulses p2.ops = scl_pulses a1.ops := by
    rw [hp2]
    simp [set_retry_count, emit, scl_pulses]
  rw [← hp2]
  obtain ⟨w1, w2, w3, -⟩ := wait_line_high_bounds Pin.scl 256 p2 (by rw [m1]; exact Nat.zero_le _)
  have w4 := wait_line_high_retry_count_clk Pin.scl 256 p2
  rw [m1, m4] at w2
  rw [m5] at w3
  rw [m2] at w4
  generalize wait_line_high Pin.scl 256 p2 = a2 at *
  have n1 : (set_retry_count a2 0).retry_count = 0 := rfl
  have n2 : (set_retry_count a2 0).retry_count_clk = a2.retry_count_clk := rfl
  have n4 : (set_retry_count a2 0).ops = a2.ops := rfl
  obtain ⟨x1, x2, x3, -⟩ := wait_line_high_bounds Pin.sda 256 (set_retry_count a2 0)
    (by rw [n1]; exact Nat.zero_le _)
  have x4 := wait_line_high_retry_count_clk Pin.sda 256 (set_retry_count a2 0)
  rw [n1, n4] at x2
  rw [n4] at x3
  rw [n2] at x4
  generalize wait_line_high Pin.sda 256 (set_retry_count a2 0) = a3 at *
  rw [x4, w4, x3, w3]
  refine ⟨x1, c1, c2, ?_, ?_, ?_, ?_⟩
  · omega
  · unfold MAX_I2C_RETRY_COUNT at *
    omega
  · intro hs
    rw [c5 hs (by unfold MAX_I2C_RETRY_COUNT; omega) (by unfold MAX_I2C_RETRY_COUNT; omega)]
  · exact c6

/-- C34: for every behaviour of the SDA and SCL input reads the loops of
i2c_adapter_reset_bus leave by their own test (any allowance above eleven
iterations gives the same adapter), so the function returns.  Its SDA recovery
loop drives at most 10 low pulses on SCL, exactly 10 when SDA reads low at
every read and none when SDA reads high at the first read; each pulse is
preceded by at most 10 delays of one microsecond, each of the two final line
waits makes at most 10 of them, and the counters retry_count and
retry_count_clk are at most 11 at the head of every iteration and on
return. -/
theorem reset_bus_bounded (a : pios_i2c_adapter) :
    (∀ (x : pios_i2c_adapter) (pin : Pin) (n : Nat),
        wait_line_high pin (n + 11) (set_retry_count x 0)
          = wait_line_high pin 11 (set_retry_count x 0)) ∧
      (∀ (x : pios_i2c_adapter) (n : Nat),
        clock_out_sda (n + 11) (set_retry_count_clk x 0)
          = clock_out_sda 11 (set_retry_count_clk x 0)) ∧
      scl_pulses (i2c_adapter_reset_bus a).ops ≤ scl_pulses a.ops + 10 ∧
      ((∀ k, a.sda_in k = false) →
        scl_pulses (i2c_adapter_reset_bus a).ops = scl_pulses a.ops + 10) ∧
      (a.sda_in a.n_sda = true →
        scl_pulses (i2c_adapter_reset_bus a).ops = scl_pulses a.ops) ∧
      (∀ x : pios_i2c_adapter, scl_pulses (clock_pulse x).ops = scl_pulses x.ops + 1 ∧
        us_waits (clock_pulse x).ops ≤ us_waits x.ops + 10) ∧
      (∀ (x : pios_i2c_adapter) (pin : Pin) (n : Nat),
        us_waits (wait_line_high pin n (set_retry_count x 0)).ops ≤ us_waits x.ops + 10) ∧
      us_waits (i2c_adapter_reset_bus a).ops + 10 * scl_pulses a.ops
        ≤ us_waits a.ops + 10 * scl_pulses (i2c_adapter_reset_bus a).ops + 20 ∧
      (∀ (x : pios_i2c_adapter) (pin : Pin) (n : Nat),
        (wait_line_high pin n (set_retry_count x 0)).retry_count ≤ 11) ∧
      (∀ (x : pios_i2c_adapter) (n : Nat),
        (clock_out_sda n (set_retry_count_clk x 0)).retry_count_clk ≤ 11) ∧
      (i2c_adapter_reset_bus a).retry_count ≤ 11 ∧
      (i2c_adapter_reset_bus a).retry_count_clk ≤ 11 := by
  obtain ⟨r1, r2, r3, r4⟩ := reset_bus_counts a
  obtain ⟨b1, b2, b3, b4, b5, b6, b7⟩ := reset_bus_waited_bounds a
  rw [r1, r2, r3, r4]
  have hw : ∀ (x : pios_i2c_adapter), (set_retry_count x 0).retry_count
      ≤ MAX_I2C_RETRY_COUNT := fun x => Nat.zero_le _
  have hc : ∀ (x : pios_i2c_adapter), (set_retry_count_clk x 0).retry_count_clk
      ≤ MAX_I2C_RETRY_COUNT := fun x => Nat.zero_le _
  refine ⟨?_, ?_, b4, b6, b7, ?_, ?_, ?_, ?_, ?_, b1, b2⟩
  · intro x pin n
    exact wait_line_high_fuel pin 10 (n + 11) (set_retry_count x 0) rfl (by omega)
  · intro x n
    exact clock_out_sda_fuel 10 (n + 11) (set_retry_count_clk x 0) rfl (by omega)
  · intro x
    exact ⟨(clock_pulse_bounds x).2.2.1, (clock_pulse_bounds x).2.1⟩
  · intro x pin n
    have h := (wait_line_high_bounds pin n (set_retry_count x 0) (hw x)).2.1
    have e : us_waits (set_retry_count x 0).ops = us_waits x.ops := rfl
    rw [e] at h
    unfold MAX_I2C_RETRY_COUNT at h
    omega
  · unfold MAX_I2C_RETRY_COUNT at b5
    omega
  · intro x pin n
    exact (wait_line_high_bounds pin n (set_retry_count x 0) (hw x)).1
  · intro x n
    exact (clock_out_sda_bounds n (set_retry_count_clk x 0) (hc x)).1

/-- A data line held low is clocked ten times; a free bus is not clocked. -/
theorem reset_bus_bounded_witness :
    scl_pulses (i2c_adapter_reset_bus sda_low_adapter).ops = 10 ∧
      scl_pulses (i2c_adapter_reset_bus idle_adapter).ops = 0 ∧
      us_waits (i2c_adapter_reset_bus lines_low_adapter).ops = 10 :=
  ⟨(reset_bus_bounded sda_low_adapter).2.2.2.1 (fun _ => rfl),
    (reset_bus_bounded idle_adapter).2.2.2.2.1 rfl, by decide⟩

/-- C35: with SCL held low the wait for SCL gives up after eleven reads that all
returned low, and the pins are handed back to the peripheral function with SCL
still reading low, against the comment "Bus signals are guaranteed to be high
(ie. free) after this point". -/
theorem reset_bus_hands_back_low_lines :
    (reset_bus_waited lines_low_adapter).n_scl = 11 ∧
      (∀ k, k < 11 → lines_low_adapter.scl_in k = false) ∧
      (reset_bus_waited lines_low_adapter).scl_in (reset_bus_waited lines_low_adapter).n_scl
        = false ∧
      (reset_bus_waited lines_low_adapter).retry_count_clk = 0 ∧
      (i2c_adapter_reset_bus lines_low_adapter).ops
        = (reset_bus_waited lines_low_adapter).ops ++
          [Op.GPIO_Init Pin.scl PinMode.cfg_init, Op.GPIO_Init Pin.sda PinMode.cfg_init,
           Op.I2C_DeInit, Op.I2C_Init] := by
  decide

/-- C36: the test at the end of i2c_adapter_reset_bus masks SR2 with 0x20, not
with the BUSY bit: with only BUSY set in SR2 the software reset is not pulsed,
and with only bit 5 set (BUSY clear) it is. -/
theorem software_reset_ignores_busy :
    busy_adapter.sr2 0 &&& I2C_SR2_BUSY ≠ 0 ∧
      Op.I2C_SoftwareResetCmd true ∉ (i2c_adapter_reset_bus busy_adapter).ops ∧
      bit5_adapter.sr2 0 &&& I2C_SR2_BUSY = 0 ∧
      (i2c_adapter_reset_bus bit5_adapter).ops.drop 20
        = [Op.I2C_SoftwareResetCmd true, Op.I2C_SoftwareResetCmd false] := by
  decide

/-- C37: a write that follows a read in the same list starts with the buffer
interrupt still enabled: go_starting enabled it for the read and enables only
the event and error interrupts for the write, without disabling the buffer
interrupt, so the FSM rests in W_LAST_TXN_ADDR with I2C_IT_BUF set.  A write that
opens the list rests there with I2C_IT_BUF clear. -/
theorem buffer_interrupt_left_enabled_for_write :
    (serve_all (transfer_start idle_adapter read_then_write)
        statuses_to_write_address).curr_state = I2C_STATE_W_LAST_TXN_ADDR ∧
      it_mask 0 (serve_all (transfer_start idle_adapter read_then_write)
        statuses_to_write_address).ops &&& I2C_IT_BUF = I2C_IT_BUF ∧
      (serve (transfer_start idle_adapter two_byte_write)
        (Irq.ev I2C_EVENT_MASTER_MODE_SELECT)).curr_state = I2C_STATE_W_LAST_TXN_ADDR ∧
      it_mask 0 (serve (transfer_start idle_adapter two_byte_write)
        (Irq.ev I2C_EVENT_MASTER_MODE_SELECT)).ops &&& I2C_IT_BUF = 0 := by
  decide

/-! ### C40: the transaction cursor stays inside the list -/

set_option maxHeartbeats 4000000 in
theorem enter_cursors_ok (l : List pios_i2c_txn) (s : i2c_adapter_state) (a : pios_i2c_adapter)
    (hc : list_ok l a) (hp : entry_pre l s a) :
    list_ok l (enter a s) ∧ rest_ok l (enter a s) := by
  obtain ⟨hc1, hc2⟩ := hc
  have h1 := enter_no_auto a s
  have h2 := enter_one_auto a s
  cases s <;>
    (first | rw [h1 rfl] | rw [h2 _ rfl (by decide) rfl]) <;>
    simp only [entry_pre, cursor_ok, txn_cursor_ok, is_more_state, if_true, if_false,
      Bool.false_eq_true] at hp <;>
    simp only [list_ok, rest_ok, call_entry_fn, i2c_adapter_transitions, set_state, emit,
      go_fsm_fault, go_bus_error, go_stopping, go_stopped,
      go_starting_eq, go_r_any_txn_addr, go_r_more_txn_pre_one, go_r_last_txn_pre_one,
      go_r_any_txn_pre_first, go_r_any_txn_pre_middle, go_r_more_txn_pre_last,
      go_r_last_txn_pre_last, go_r_any_txn_post_last, go_w_any_txn_addr,
      go_w_any_txn_middle, go_w_more_txn_last, go_w_last_txn_last, go_nack,
      I2C_ReceiveData, store_active_byte, load_active_byte,
      cursor_ok, txn_cursor_ok, is_more_state, if_true, if_false, Bool.false_eq_true,
      store_byte_len, and_true, true_and, reset_bus_last_txn, reset_bus_txns,
      reset_bus_curr_state, starting_body] <;>
    (try simp only [hc2]) <;>
    (repeat' apply And.intro) <;>
    first
    | exact hc1
    | exact hc2
    | trivial
    | omega
    | exact fun _ => trivial

theorem inject_cursors_ok (l : List pios_i2c_txn) (a : pios_i2c_adapter) (e : i2c_adapter_event)
    (hc : list_ok l a) (hr : rest_ok l a) (he : event_fits a e) :
    list_ok l (i2c_adapter_inject_event a e) ∧ rest_ok l (i2c_adapter_inject_event a e) := by
  rw [inject_event_eq_enter]
  exact enter_cursors_ok l _ a hc (table_entry_pre l a e hr he)

theorem cursors_ok_of_same (l : List pios_i2c_txn) (a b : pios_i2c_adapter)
    (h1 : b.curr_state = a.curr_state) (h2 : b.active_txn = a.active_txn)
    (h3 : b.last_txn = a.last_txn) (h4 : b.byte_txn = a.byte_txn)
    (h5 : b.active_byte = a.active_byte) (h6 : b.last_byte = a.last_byte)
    (h7 : b.txns = a.txns)
    (hc : list_ok l a) (hr : rest_ok l a) : list_ok l b ∧ rest_ok l b := by
  obtain ⟨hc1, hc2⟩ := hc
  refine ⟨⟨by rw [h3]; exact hc1, by rw [h7]; exact hc2⟩, ?_⟩
  unfold rest_ok cursor_ok txn_cursor_ok at *
  rw [h1, h2, h3, h4, h5, h6]
  exact hr

theorem ev_master_mode_select_cursors_ok (l : List pios_i2c_txn) (a : pios_i2c_adapter)
    (hc : list_ok l a) (hr : rest_ok l a) :
    list_ok l (ev_master_mode_select a) ∧ rest_ok l (ev_master_mode_select a) := by
  unfold ev_master_mode_select
  split <;> split_ifs with h1 h2
  · exact inject_cursors_ok l a _ hc hr h1
  · exact inject_cursors_ok l a _ hc hr h2
  · exact ⟨hc, hr⟩
  · exact inject_cursors_ok l a _ hc hr h1
  · exact inject_cursors_ok l a _ hc hr h2
  · exact ⟨hc, hr⟩

theorem ev_addr_sent_cursors_ok (l : List pios_i2c_txn) (a : pios_i2c_adapter)
    (hc : list_ok l a) (hr : rest_ok l a) :
    list_ok l (ev_addr_sent a) ∧ rest_ok l (ev_addr_sent a) := by
  unfold ev_addr_sent
  split_ifs with h1 h2 h3
  · exact inject_cursors_ok l a _ hc hr h1
  · exact inject_cursors_ok l a _ hc hr h2
  · exact inject_cursors_ok l a _ hc hr h3
  · exact inject_cursors_ok l a _ hc hr ⟨h1, h2, h3⟩

theorem ev_transfer_done_cursors_ok (l : List pios_i2c_txn) (a : pios_i2c_adapter)
    (hc : list_ok l a) (hr : rest_ok l a) :
    list_ok l (ev_transfer_done a) ∧ rest_ok l (ev_transfer_done a) := by
  unfold ev_transfer_done
  split_ifs with h1 h2 h3
  · exact inject_cursors_ok l a _ hc hr h1
  · exact inject_cursors_ok l a _ hc hr h2
  · exact inject_cursors_ok l a _ hc hr h3
  · exact inject_cursors_ok l a _ hc hr ⟨h1, h2, h3⟩

theorem ev_handler_cursors_ok (l : List pios_i2c_txn) (a : pios_i2c_adapter) (raw : Nat)
    (hc : list_ok l a) (hr : rest_ok l a) :
    list_ok l (PIOS_I2C_EV_IRQ_Handler a raw) ∧ rest_ok l (PIOS_I2C_EV_IRQ_Handler a raw) := by
  unfold PIOS_I2C_EV_IRQ_Handler
  generalize raw &&& EVENT_MASK = event
  dsimp only
  split_ifs
  · have h := cursors_ok_of_same l a (I2C_ReceiveData a).2
      rfl rfl rfl rfl rfl rfl rfl hc hr
    exact ev_master_mode_select_cursors_ok l _ h.1 h.2
  · exact ev_master_mode_select_cursors_ok l a hc hr
  · exact ev_addr_sent_cursors_ok l a hc hr
  · exact ⟨hc, hr⟩
  · exact ev_transfer_done_cursors_ok l a hc hr
  · exact ⟨hc, hr⟩
  · exact ⟨hc, hr⟩
  · exact inject_cursors_ok l a _ hc hr trivial

theorem er_handler_cursors_ok (l : List pios_i2c_txn) (a : pios_i2c_adapter) (raw : Nat)
    (hc : list_ok l a) (hr : rest_ok l a) :
    list_ok l (PIOS_I2C_ER_IRQ_Handler a raw) ∧ rest_ok l (PIOS_I2C_ER_IRQ_Handler a raw) := by
  unfold PIOS_I2C_ER_IRQ_Handler
  split_ifs
  · have h := cursors_ok_of_same l a (emit a (Op.I2C_ClearFlag I2C_FLAG_AF))
      rfl rfl rfl rfl rfl rfl rfl hc hr
    exact inject_cursors_ok l _ _ h.1 h.2 trivial
  · exact inject_cursors_ok l a _ hc hr trivial

theorem serve_cursors_ok (l : List pios_i2c_txn) (a : pios_i2c_adapter) (i : Irq)
    (hc : list_ok l a) (hr : rest_ok l a) :
    list_ok l (serve a i) ∧ rest_ok l (serve a i) := by
  cases i with
  | ev raw => exact ev_handler_cursors_ok l a raw hc hr
  | er raw => exact er_handler_cursors_ok l a raw hc hr

theorem serve_all_cursors_ok (l : List pios_i2c_txn) (irqs : List Irq) :
    ∀ a : pios_i2c_adapter, list_ok l a → rest_ok l a →
      list_ok l (serve_all a irqs) ∧ rest_ok l (serve_all a irqs) := by
  induction irqs with
  | nil => intro a hc hr; exact ⟨hc, hr⟩
  | cons i rest ih =>
    intro a hc hr
    have h := serve_cursors_ok l a i hc hr
    exact ih (serve a i) h.1 h.2

theorem transfer_start_cursors_ok (l : List pios_i2c_txn) (a : pios_i2c_adapter) (hl : l ≠ []) :
    list_ok l (transfer_start a l) ∧ rest_ok l (transfer_start a l) := by
  have hlen : 0 < l.length := List.length_pos.mpr hl
  have hc : list_ok l (transfer_install a l) := ⟨rfl, fun _ => rfl⟩
  unfold transfer_start
  rw [inject_event_eq_enter]
  apply enter_cursors_ok l _ _ hc
  rcases next_state_start (transfer_install a l).curr_state with h | h <;> rw [h]
  · show (0 : Int) ≤ 0 ∧ (0 : Int) ≤ (l.length : Int) - 1
    omega
  · trivial

/-- What `rest_ok` says of the transaction cursor. -/
theorem rest_ok_txn_cursor (l : List pios_i2c_txn) (b : pios_i2c_adapter)
    (hr : rest_ok l b) :
    is_transient b.curr_state = false ∧
      (b.curr_state ≠ I2C_STATE_STOPPING → b.curr_state ≠ I2C_STATE_STOPPED →
        0 ≤ b.active_txn ∧ b.active_txn ≤ b.last_txn ∧
        (is_more_state b.curr_state = true → b.active_txn < b.last_txn)) := by
  unfold rest_ok at hr
  cases hs : b.curr_state <;> rw [hs] at hr <;>
    simp only [cursor_ok, txn_cursor_ok, is_more_state, if_true, if_false,
      Bool.false_eq_true] at hr <;>
    first
    | exact absurd hr id
    | exact ⟨rfl, fun h _ => absurd rfl h⟩
    | exact ⟨rfl, fun _ h => absurd rfl h⟩
    | exact ⟨rfl, fun _ _ => ⟨hr.2.1, le_of_lt hr.2.2, fun _ => hr.2.2⟩⟩
    | exact ⟨rfl, fun _ _ => ⟨hr.2.1, hr.2.2, fun h => absurd h (by decide)⟩⟩

/-- C40: for every non-empty list `l` and every sequence `irqs` of raw statuses
delivered to the event and error interrupt handlers after the entry of the
transfer, the FSM never rests in a state with an AUTO edge, and whenever it rests
in a state other than STOPPING and STOPPED the transaction cursor is inside the
list, `0 <= active_txn <= last_txn` with `last_txn` the last element of `l`, so
the read of `active_txn->rw` by the event ISR stays inside the list.  In the MORE
states that have not yet moved the cursor `active_txn < last_txn` holds; in
W_MORE_TXN_LAST, whose entry action has moved the cursor one element on, the
transaction that was started is before `last_txn`. -/
theorem txn_cursor_inside_list (l : List pios_i2c_txn) (a : pios_i2c_adapter)
    (irqs : List Irq) (hl : l ≠ []) :
    is_transient (serve_all (transfer_start a l) irqs).curr_state = false ∧
      ((serve_all (transfer_start a l) irqs).curr_state ≠ I2C_STATE_STOPPING →
        (serve_all (transfer_start a l) irqs).curr_state ≠ I2C_STATE_STOPPED →
        0 ≤ (serve_all (transfer_start a l) irqs).active_txn ∧
        (serve_all (transfer_start a l) irqs).active_txn
          ≤ (serve_all (transfer_start a l) irqs).last_txn ∧
        (serve_all (transfer_start a l) irqs).last_txn = (l.length : Int) - 1 ∧
        (is_more_state (serve_all (transfer_start a l) irqs).curr_state = true →
          (serve_all (transfer_start a l) irqs).active_txn
            < (serve_all (transfer_start a l) irqs).last_txn) ∧
        ((serve_all (transfer_start a l) irqs).curr_state = I2C_STATE_W_MORE_TXN_LAST →
          (serve_all (transfer_start a l) irqs).active_txn - 1
            < (serve_all (transfer_start a l) irqs).last_txn)) := by
  have h0 := transfer_start_cursors_ok l a hl
  have h := serve_all_cursors_ok l irqs (transfer_start a l) h0.1 h0.2
  obtain ⟨t1, t2⟩ := rest_ok_txn_cursor l _ h.2
  refine ⟨t1, fun n1 n2 => ?_⟩
  obtain ⟨u1, u2, u3⟩ := t2 n1 n2
  exact ⟨u1, u2, h.1.1, u3, fun _ => by omega⟩

/-- The one-byte read followed by a one-byte write, after EV5: the FSM rests in
R_MORE_TXN_ADDR with the cursor on the first of the two transactions. -/
theorem txn_cursor_inside_list_witness :
    read_then_write ≠ [] ∧
      (serve_all (transfer_start idle_adapter read_then_write)
        [Irq.ev I2C_EVENT_MASTER_MODE_SELECT]).curr_state = I2C_STATE_R_MORE_TXN_ADDR ∧
      (serve_all (transfer_start idle_adapter read_then_write)
        [Irq.ev I2C_EVENT_MASTER_MODE_SELECT]).active_txn
        < (serve_all (transfer_start idle_adapter read_then_write)
          [Irq.ev I2C_EVENT_MASTER_MODE_SELECT]).last_txn :=
  ⟨by decide, by decide,
    ((txn_cursor_inside_list read_then_write idle_adapter [Irq.ev I2C_EVENT_MASTER_MODE_SELECT]
      (by decide)).2 (by decide) (by decide)).2.2.2.1 (by decide)⟩

/-! ### C31: the order of ACK disarm, STOP or repeated START and data reads -/

@[simp] theorem ack_disarms_append (xs ys : List Op) :
    ack_disarms (xs ++ ys) = ack_disarms xs + ack_disarms ys := by
  simp [ack_disarms]

@[simp] theorem chain_requests_append (xs ys : List Op) :
    chain_requests (xs ++ ys) = chain_requests xs + chain_requests ys := by
  simp only [chain_requests, start_requests_append, stop_requests_append]
  omega

theorem middle_ops_quiet (more : Bool) (i last : Int) :
    ∀ (k : Nat) (off : Int),
      (middle_ops more i last k off).all in_read_state = true ∧
      ack_disarms (middle_ops more i last k off) = 0 ∧
      chain_requests (middle_ops more i last k off) = 0 := by
  intro k
  induction k with
  | zero =>
    intro off
    simp [middle_ops, ack_disarms, chain_requests, start_requests, stop_requests]
  | succ k ih =>
    intro off
    obtain ⟨h1, h2, h3⟩ := ih (off + 1)
    rw [middle_ops, List.all_append, ack_disarms_append, chain_requests_append, h1, h2, h3]
    refine ⟨?_, ?_, ?_⟩
    · cases more <;> simp [step_ops, r_pre_middle, in_read_state, is_read_state]
    · simp [step_ops, ack_disarms]
    · simp [step_ops, chain_requests, start_requests, stop_requests]

/-- The trace of a well-behaved read of one or more bytes, cut at the ACK disarm,
at the STOP or repeated START request and at the write of the state that follows
the read states. -/
theorem read_txn_ops_split (more : Bool) (i : Int) (t next : pios_i2c_txn)
    (hl : 1 ≤ t.len) :
    ∃ pre mid post tail : List Op,
      read_txn_ops more i t next = pre ++ Op.I2C_AcknowledgeConfig false :: (mid ++
        chain_op more :: (post ++ Op.state_write (next_txn_state more) :: tail)) ∧
      (∀ s, Op.state_write s ∉ tail) ∧
      (pre ++ mid ++ post).all in_read_state = true ∧
      ack_disarms (pre ++ mid ++ post) = 0 ∧
      chain_requests (pre ++ mid ++ post) = 0 ∧
      data_reads pre = t.len - 2 ∧ data_reads mid = 0 ∧ data_reads post = min t.len 2 ∧
      (2 ≤ t.len → ∃ p1 p2 : List Op, pre = p1 ++ Op.I2C_AcknowledgeConfig true :: p2 ∧
        data_reads p1 = 0) := by
  unfold read_txn_ops
  rcases hlen : t.len with _ | _ | k
  · omega
  · refine ⟨step_ops (r_addr more) [Op.I2C_Send7bitAddress ((t.addr <<< 1) % 256)
        I2C_Direction.I2C_Direction_Receiver] ++
        [Op.PIOS_IRQ_Disable, Op.state_write (r_pre_one more), Op.entry_fn (r_pre_one more)],
      [],
      [Op.PIOS_IRQ_Disable, Op.PIOS_IRQ_Enable, Op.PIOS_IRQ_Enable, Op.PIOS_IRQ_Disable,
        Op.state_write (r_post_last more), Op.entry_fn (r_post_last more), Op.I2C_ReceiveData,
        Op.byte_access i 0 0, Op.PIOS_IRQ_Disable],
      Op.entry_fn (next_txn_state more) :: (next_txn_body more next ++
        [Op.PIOS_IRQ_Enable, Op.PIOS_IRQ_Enable]), ?_, ?_, ?_, ?_, ?_, ?_, ?_, ?_, ?_⟩
    · simp [step_ops, post_last_ops, auto_step_ops]
    · cases more <;> simp [next_txn_body, starting_body, stopping_body]
    · cases more <;>
        simp [step_ops, r_addr, r_pre_one, r_post_last, in_read_state, is_read_state]
    · simp [step_ops, ack_disarms]
    · simp [step_ops, chain_requests, start_requests, stop_requests]
    · simp [step_ops, data_reads]
    · rfl
    · simp [data_reads]
    · intro h
      omega
  · obtain ⟨m1, m2, m3⟩ := middle_ops_quiet more i ((k : Int) + 1) k 0
    refine ⟨step_ops (r_addr more) [Op.I2C_Send7bitAddress ((t.addr <<< 1) % 256)
        I2C_Direction.I2C_Direction_Receiver] ++
        step_ops (r_pre_first more) [Op.I2C_AcknowledgeConfig true] ++
        middle_ops more i ((k : Int) + 1) k 0 ++
        [Op.PIOS_IRQ_Disable, Op.state_write (r_pre_last more), Op.entry_fn (r_pre_last more)],
      [Op.PIOS_IRQ_Disable, Op.I2C_ITConfig IT_ALL false],
      [Op.I2C_ReceiveData, Op.byte_access i k ((k : Int) + 1), Op.I2C_ITConfig IT_ALL true,
        Op.PIOS_IRQ_Enable, Op.PIOS_IRQ_Disable, Op.PIOS_IRQ_Enable, Op.PIOS_IRQ_Enable,
        Op.PIOS_IRQ_Disable, Op.state_write (r_post_last more),
        Op.entry_fn (r_post_last more), Op.I2C_ReceiveData,
        Op.byte_access i ((k : Int) + 1) ((k : Int) + 1), Op.PIOS_IRQ_Disable],
      Op.entry_fn (next_txn_state more) :: (next_txn_body more next ++
        [Op.PIOS_IRQ_Enable, Op.PIOS_IRQ_Enable]), ?_, ?_, ?_, ?_, ?_, ?_, ?_, ?_, ?_⟩
    · simp [step_ops, pre_last_ops, post_last_ops, auto_step_ops]
    · cases more <;> simp [next_txn_body, starting_body, stopping_body]
    · simp only [List.all_append, m1]
      cases more <;>
        simp [step_ops, r_addr, r_pre_first, r_pre_last, r_post_last, in_read_state,
          is_read_state]
    · simp only [ack_disarms_append, m2]
      simp [step_ops, ack_disarms]
    · simp only [chain_requests_append, m3]
      simp [step_ops, chain_requests, start_requests, stop_requests]
    · simp only [data_reads_append, data_reads_middle_ops, data_reads_step_ops]
      simp [data_reads]
    · simp [data_reads]
    · simp [data_reads]
    · intro _
      refine ⟨step_ops (r_addr more) [Op.I2C_Send7bitAddress ((t.addr <<< 1) % 256)
          I2C_Direction.I2C_Direction_Receiver] ++
          [Op.PIOS_IRQ_Disable, Op.state_write (r_pre_first more),
            Op.entry_fn (r_pre_first more)],
        [Op.PIOS_IRQ_Disable, Op.PIOS_IRQ_Enable, Op.PIOS_IRQ_Enable] ++
          middle_ops more i ((k : Int) + 1) k 0 ++
          [Op.PIOS_IRQ_Disable, Op.state_write (r_pre_last more),
            Op.entry_fn (r_pre_last more)], ?_, ?_⟩
      · simp [step_ops]
      · simp [step_ops, data_reads]

/-- C31: in the well-behaved read of N >= 1 bytes, started from STARTING, the
trace the read states add holds exactly one ACK disarm and exactly one STOP
request (last transaction) or repeated START request (more transactions follow),
the disarm first: the trace is `pre`, the disarm, `mid`, the request, `post`, then
the write of the state that follows the read states and what is done in that
state, where `pre`, `mid` and `post` are made in read states and hold no disarm,
no START and no STOP; `pre`
holds N - 2 reads of the data register (none for N = 1), `mid` none, and `post`
the remaining min(N, 2).  For N >= 2 ACK is armed in `pre` before the first read
of the data register. -/
theorem read_disarm_and_chain_order (a : pios_i2c_adapter) (i : Nat)
    (h : starting_at a i) (hrw : (txn_at a.txns (i : Int)).rw = PIOS_I2C_TXN_READ)
    (hlen : 1 ≤ (txn_at a.txns (i : Int)).len) :
    ∃ pre mid post tail : List Op,
      (serve_all a (txn_statuses (txn_at a.txns (i : Int)))).ops =
        a.ops ++ (pre ++ Op.I2C_AcknowledgeConfig false :: (mid ++
          chain_op (decide (a.active_txn < a.last_txn)) :: (post ++
            Op.state_write (next_txn_state (decide (a.active_txn < a.last_txn))) :: tail))) ∧
      (∀ s, Op.state_write s ∉ tail) ∧
      (pre ++ mid ++ post).all in_read_state = true ∧
      ack_disarms (pre ++ mid ++ post) = 0 ∧
      chain_requests (pre ++ mid ++ post) = 0 ∧
      data_reads pre = (txn_at a.txns (i : Int)).len - 2 ∧
      data_reads mid = 0 ∧
      data_reads post = min (txn_at a.txns (i : Int)).len 2 ∧
      (2 ≤ (txn_at a.txns (i : Int)).len →
        ∃ p1 p2 : List Op, pre = p1 ++ Op.I2C_AcknowledgeConfig true :: p2 ∧
          data_reads p1 = 0) := by
  obtain ⟨hs, hact, hi, hle, hbt, hab, hlb⟩ := h
  have hm : (decide (a.active_txn < a.last_txn) = true ∧ a.active_txn < a.last_txn) ∨
      (decide (a.active_txn < a.last_txn) = false ∧ a.active_txn = a.last_txn) := by
    by_cases hlt : a.active_txn < a.last_txn
    · exact Or.inl ⟨decide_eq_true hlt, hlt⟩
    · exact Or.inr ⟨decide_eq_false hlt, by omega⟩
  rw [← hact] at hrw hlen hlb ⊢
  rw [read_txn_run _ a hs hrw hm hlen hbt hab hlb]
  obtain ⟨pre, mid, post, tail, e, r⟩ := read_txn_ops_split
    (decide (a.active_txn < a.last_txn)) a.active_txn (txn_at a.txns a.active_txn)
    (txn_at (read_fill a.rx_data a.active_txn (txn_at a.txns a.active_txn).len 0 a.n_rx
      a.txns) (a.active_txn + 1)) hlen
  refine ⟨pre, mid, post, tail, ?_, r⟩
  rw [← e]
  unfold finish_read
  split <;> rfl

/-- A three-byte read as the only transaction: ACK is armed, one byte is read,
ACK is disarmed and STOP requested, then the two last bytes are read. -/
theorem read_disarm_and_chain_order_witness :
    starting_at (transfer_start idle_adapter three_byte_read) 0 ∧
      ∃ pre mid post tail : List Op,
        (serve_all (transfer_start idle_adapter three_byte_read)
          (txn_statuses (txn_at (transfer_start idle_adapter three_byte_read).txns
            ((0 : Nat) : Int)))).ops =
          (transfer_start idle_adapter three_byte_read).ops ++
            (pre ++ Op.I2C_AcknowledgeConfig false :: (mid ++ Op.I2C_GenerateSTOP :: (post ++
              Op.state_write I2C_STATE_STOPPING :: tail))) ∧
        data_reads pre = 1 ∧ data_reads post = 2 :=
  have hst : starting_at (transfer_start idle_adapter three_byte_read) 0 :=
    ⟨by decide, by decide, by decide, by decide, by decide, by decide, by decide⟩
  have h := read_disarm_and_chain_order (transfer_start idle_adapter three_byte_read) 0
    hst (by decide) (by decide)
  ⟨hst, h.elim fun pre h => h.elim fun mid h => h.elim fun post h => h.elim fun tail h =>
    ⟨pre, mid, post, tail, h.1, h.2.2.2.2.2.1, h.2.2.2.2.2.2.2.1⟩⟩

/-! ### C10 and C26: the fault entries reset the bus -/

theorem quiet_reset_bus_waited (a : pios_i2c_adapter) :
    quiet_ext (emit a Op.I2C_DeInit) (reset_bus_waited a) := by
  simp only [reset_bus_waited]
  refine quiet_trans ?_ (quiet_wait_line_high _ _ _)
  refine quiet_trans ?_ (quiet_set_retry_count _ _)
  refine quiet_trans ?_ (quiet_wait_line_high _ _ _)
  refine quiet_trans ?_ (quiet_set_retry_count _ _)
  refine quiet_trans ?_ (quiet_emit _ _ rfl)
  refine quiet_trans ?_ (quiet_emit _ _ rfl)
  refine quiet_trans ?_ (quiet_emit _ _ rfl)
  refine quiet_trans ?_ (quiet_emit _ _ rfl)
  refine quiet_trans ?_ (quiet_emit _ _ rfl)
  refine quiet_trans ?_ (quiet_emit _ _ rfl)
  refine quiet_trans ?_ (quiet_emit _ _ rfl)
  refine quiet_trans ?_ (quiet_emit _ _ rfl)
  refine quiet_trans ?_ (quiet_clock_out_sda _ _)
  refine quiet_trans ?_ (quiet_set_retry_count_clk _ _)
  refine quiet_trans ?_ (quiet_emit _ _ rfl)
  refine quiet_trans ?_ (quiet_emit _ _ rfl)
  refine quiet_trans ?_ (quiet_emit _ _ rfl)
  exact quiet_emit _ _ rfl

/-- The trace of a bus reset: `I2C_DeInit` first, then the recovery of the lines
(only calls of the reset), then the hand-back of the pins with `I2C_DeInit` and
`I2C_Init`, then the software reset pulse when the test of SR2 asks for it. -/
theorem reset_bus_trace (a : pios_i2c_adapter) :
    ∃ recovery pulse : List Op,
      (i2c_adapter_reset_bus a).ops =
        a.ops ++ Op.I2C_DeInit :: (recovery ++ reset_bus_reinit_ops ++ pulse) ∧
      (∀ o ∈ recovery, is_reset_op o = true) ∧
      (pulse = [] ∨ pulse = software_reset_ops) := by
  obtain ⟨⟨m1, hm1⟩, -⟩ := quiet_reset_bus_waited a
  obtain ⟨mid, hmid, hall⟩ := reset_bus_mid a
  have hw : (reset_bus_waited a).ops = a.ops ++ Op.I2C_DeInit :: m1 := by
    rw [← hm1, emit_ops]
    simp
  have key : ∀ pulse : List Op, (pulse = [] ∨ pulse = software_reset_ops) →
      (i2c_adapter_reset_bus a).ops = (reset_bus_waited a).ops ++ reset_bus_reinit_ops ++ pulse →
      ∃ recovery pulse : List Op,
        (i2c_adapter_reset_bus a).ops =
          a.ops ++ Op.I2C_DeInit :: (recovery ++ reset_bus_reinit_ops ++ pulse) ∧
        (∀ o ∈ recovery, is_reset_op o = true) ∧
        (pulse = [] ∨ pulse = software_reset_ops) := by
    intro pulse hp he
    have e2 : (i2c_adapter_reset_bus a).ops =
        a.ops ++ Op.I2C_DeInit :: (m1 ++ reset_bus_reinit_ops ++ pulse) := by
      rw [he, hw]
      simp
    refine ⟨m1, pulse, e2, ?_, hp⟩
    rw [hmid] at e2
    have e3 := List.append_cancel_left e2
    intro o ho
    apply hall o
    rw [e3]
    simp [ho]
  have hsplit := reset_bus_eq_waited a
  generalize reset_bus_waited a = w at hsplit key
  split at hsplit
  · exact key software_reset_ops (Or.inr rfl) (by
      rw [hsplit]
      simp [emit, read_SR2, reset_bus_reinit_ops, software_reset_ops])
  · exact key [] (Or.inl rfl) (by
      rw [hsplit]
      simp [emit, read_SR2, reset_bus_reinit_ops])

/-- The trace of an injection that enters the fault state `s` (FSM_FAULT or
BUS_ERROR) and chains to STOPPING. -/
theorem fault_entry_trace (a : pios_i2c_adapter) (s : i2c_adapter_state) :
    ∃ recovery pulse : List Op,
      (emit (emit (go_stopping (emit (set_state (emit (i2c_adapter_reset_bus
        { emit (set_state (emit a Op.PIOS_IRQ_Disable) s) (Op.entry_fn s) with
            bus_error := true })
        Op.PIOS_IRQ_Disable) I2C_STATE_STOPPING) (Op.entry_fn I2C_STATE_STOPPING)))
        Op.PIOS_IRQ_Enable) Op.PIOS_IRQ_Enable).ops = a.ops ++ fault_stop_ops s recovery pulse ∧
      (∀ o ∈ recovery, is_reset_op o = true) ∧
      (pulse = [] ∨ pulse = software_reset_ops) := by
  generalize hx : ({ emit (set_state (emit a Op.PIOS_IRQ_Disable) s) (Op.entry_fn s) with
    bus_error := true } : pios_i2c_adapter) = x
  have hxo : x.ops = a.ops ++ [Op.PIOS_IRQ_Disable, Op.state_write s, Op.entry_fn s] := by
    rw [← hx]
    simp [emit, set_state]
  obtain ⟨recovery, pulse, h1, h2, h3⟩ := reset_bus_trace x
  refine ⟨recovery, pulse, ?_, h2, h3⟩
  have e : (emit (emit (go_stopping (emit (set_state (emit (i2c_adapter_reset_bus x)
      Op.PIOS_IRQ_Disable) I2C_STATE_STOPPING) (Op.entry_fn I2C_STATE_STOPPING)))
      Op.PIOS_IRQ_Enable) Op.PIOS_IRQ_Enable).ops = (i2c_adapter_reset_bus x).ops ++
      [Op.PIOS_IRQ_Disable, Op.state_write I2C_STATE_STOPPING, Op.entry_fn I2C_STATE_STOPPING,
       Op.I2C_ITConfig IT_ALL false, Op.PIOS_Semaphore_Give_FromISR,
       Op.PIOS_IRQ_Enable, Op.PIOS_IRQ_Enable] := by
    generalize i2c_adapter_reset_bus x = y
    simp [emit, go_stopping, set_state]
  rw [e, h1, hxo]
  simp [fault_stop_ops]

/-- C10: in every state, an event whose slot of the table has no initialiser
(the slot is zero, I2C_STATE_FSM_FAULT) makes i2c_adapter_inject_event enter
FSM_FAULT, run go_fsm_fault (bus_error set, bus reset), chain by AUTO to
STOPPING and run go_stopping (semaphore given): the result is exactly that
composition, with curr_state STOPPING, bus_error set and the semaphore given.
The trace gains the entry into FSM_FAULT, the calls of the bus reset (I2C_DeInit,
the recovery of the lines, the hand-back of the pins, I2C_DeInit and I2C_Init,
the software reset pulse when the test of SR2 asks for it), then the entry into
STOPPING. -/
theorem absent_transition_faults (a : pios_i2c_adapter) (e : i2c_adapter_event)
    (h : (i2c_adapter_transitions a.curr_state).next_state e = I2C_STATE_FSM_FAULT) :
    i2c_adapter_inject_event a e =
      emit (emit (go_stopping (emit (set_state (emit (go_fsm_fault (emit (set_state
        (emit a Op.PIOS_IRQ_Disable) I2C_STATE_FSM_FAULT) (Op.entry_fn I2C_STATE_FSM_FAULT)))
        Op.PIOS_IRQ_Disable) I2C_STATE_STOPPING) (Op.entry_fn I2C_STATE_STOPPING)))
        Op.PIOS_IRQ_Enable) Op.PIOS_IRQ_Enable ∧
    (i2c_adapter_inject_event a e).curr_state = I2C_STATE_STOPPING ∧
    (i2c_adapter_inject_event a e).bus_error = true ∧
    (i2c_adapter_inject_event a e).sem_ready = true ∧
    fault_entries (i2c_adapter_inject_event a e).ops = fault_entries a.ops + 1 ∧
    (∃ recovery pulse : List Op,
      (i2c_adapter_inject_event a e).ops
        = a.ops ++ fault_stop_ops I2C_STATE_FSM_FAULT recovery pulse ∧
      (∀ o ∈ recovery, is_reset_op o = true) ∧
      (pulse = [] ∨ pulse = software_reset_ops)) := by
  have heq := inject_event_one_auto a e I2C_STATE_FSM_FAULT I2C_STATE_STOPPING h rfl
    (by decide) rfl
  have hshape : i2c_adapter_inject_event a e =
      emit (emit (go_stopping (emit (set_state (emit (go_fsm_fault (emit (set_state
        (emit a Op.PIOS_IRQ_Disable) I2C_STATE_FSM_FAULT) (Op.entry_fn I2C_STATE_FSM_FAULT)))
        Op.PIOS_IRQ_Disable) I2C_STATE_STOPPING) (Op.entry_fn I2C_STATE_STOPPING)))
        Op.PIOS_IRQ_Enable) Op.PIOS_IRQ_Enable := by
    rw [heq]
    rfl
  refine ⟨hshape, ?_, ?_, ?_, ?_, ?_⟩
  · rw [inject_event_curr_state, settle, h]; rfl
  · rw [hshape]; simp [emit, go_stopping, set_state, go_fsm_fault]
  · rw [hshape]; simp [emit, go_stopping]
  · rw [hshape]; simp [emit, go_stopping, set_state, go_fsm_fault, is_fault_entry]
  · rw [hshape]
    simp only [go_fsm_fault]
    exact fault_entry_trace a I2C_STATE_FSM_FAULT

/-- Witness of C10: a NACK event in STOPPED, a slot the table leaves empty; the
trace, empty before, holds the initialisation of the peripheral by the bus
reset. -/
theorem absent_transition_faults_witness :
    (i2c_adapter_transitions idle_adapter.curr_state).next_state I2C_EVENT_NACK
      = I2C_STATE_FSM_FAULT ∧
    (i2c_adapter_inject_event idle_adapter I2C_EVENT_NACK).curr_state = I2C_STATE_STOPPING ∧
    (i2c_adapter_inject_event idle_adapter I2C_EVENT_NACK).bus_error = true ∧
    (i2c_adapter_inject_event idle_adapter I2C_EVENT_NACK).sem_ready = true ∧
    idle_adapter.ops = [] ∧
    Op.I2C_Init ∈ (i2c_adapter_inject_event idle_adapter I2C_EVENT_NACK).ops :=
  ⟨rfl, (absent_transition_faults idle_adapter I2C_EVENT_NACK rfl).2.1,
    (absent_transition_faults idle_adapter I2C_EVENT_NACK rfl).2.2.1,
    (absent_transition_faults idle_adapter I2C_EVENT_NACK rfl).2.2.2.1, rfl,
    (absent_transition_faults idle_adapter I2C_EVENT_NACK rfl).2.2.2.2.2.elim
      fun recovery h => h.elim fun pulse h => by
        rw [h.1]
        simp [fault_stop_ops, reset_bus_reinit_ops]⟩

/-- C26: for every raw status whose masked value matches none of the case labels
of the event handler, the handler injects I2C_EVENT_BUS_ERROR.  In every state
where the FSM can rest this enters BUS_ERROR, runs go_bus_error (bus_error set,
bus reset), chains by AUTO to STOPPING and runs go_stopping: curr_state is
STOPPING, bus_error is set, the semaphore is given, and the trace gains the
entry into BUS_ERROR, the calls of the bus reset (I2C_DeInit, the recovery of the
lines, the hand-back of the pins, I2C_DeInit and I2C_Init, the software reset
pulse when the test of SR2 asks for it), then the entry into STOPPING.  A
transfer during whose
semaphore wait such a status is served returns -1; and any transfer that returns
after a BUS_ERROR event was injected returns -1 unless the semaphore wait timed
out, when it returns -2. -/
theorem unknown_status_is_bus_error (a : pios_i2c_adapter) (raw : Nat)
    (h : raw &&& EVENT_MASK ∉ known_statuses) :
    PIOS_I2C_EV_IRQ_Handler a raw = i2c_adapter_inject_event a I2C_EVENT_BUS_ERROR ∧
      (is_transient a.curr_state = false →
        PIOS_I2C_EV_IRQ_Handler a raw =
          emit (emit (go_stopping (emit (set_state (emit (go_bus_error (emit (set_state
            (emit a Op.PIOS_IRQ_Disable) I2C_STATE_BUS_ERROR)
            (Op.entry_fn I2C_STATE_BUS_ERROR))) Op.PIOS_IRQ_Disable) I2C_STATE_STOPPING)
            (Op.entry_fn I2C_STATE_STOPPING))) Op.PIOS_IRQ_Enable) Op.PIOS_IRQ_Enable ∧
        (PIOS_I2C_EV_IRQ_Handler a raw).curr_state = I2C_STATE_STOPPING ∧
        (PIOS_I2C_EV_IRQ_Handler a raw).bus_error = true ∧
        (PIOS_I2C_EV_IRQ_Handler a raw).sem_ready = true ∧
        (∃ recovery pulse : List Op,
          (PIOS_I2C_EV_IRQ_Handler a raw).ops
            = a.ops ++ fault_stop_ops I2C_STATE_BUS_ERROR recovery pulse ∧
          (∀ o ∈ recovery, is_reset_op o = true) ∧
          (pulse = [] ∨ pulse = software_reset_ops))) ∧
      (∀ (a0 : pios_i2c_adapter) (l : List pios_i2c_txn) (env : TransferEnv)
          (pre post : List Irq),
        env.lock_ok = true → env.irqs_wait = pre ++ Irq.ev raw :: post →
        ∃ p, PIOS_I2C_Transfer a0 l env = some p ∧ p.1 = -1) ∧
      (∀ (a0 : pios_i2c_adapter) (l : List pios_i2c_txn) (env : TransferEnv)
          (p : Int × pios_i2c_adapter),
        env.lock_ok = true → PIOS_I2C_Transfer a0 l env = some p →
        (∃ se ∈ transfer_events a0 l env, se.2 = I2C_EVENT_BUS_ERROR) →
        p.1 = if (transfer_waited a0 l env).sem_ready = false then -2 else -1) := by
  have hinj : ∀ x : pios_i2c_adapter,
      PIOS_I2C_EV_IRQ_Handler x raw = i2c_adapter_inject_event x I2C_EVENT_BUS_ERROR :=
    fun x => (unknown_status_injects_bus_error x raw h).1
  have hstop : ∀ x : pios_i2c_adapter,
      (i2c_adapter_inject_event x I2C_EVENT_BUS_ERROR).curr_state = I2C_STATE_STOPPING ∧
      (i2c_adapter_inject_event x I2C_EVENT_BUS_ERROR).bus_error = true ∧
      (i2c_adapter_inject_event x I2C_EVENT_BUS_ERROR).sem_ready = true := by
    intro x
    obtain ⟨h1, h2⟩ := inject_event_via_stopping x I2C_EVENT_BUS_ERROR (bus_error_event_stops _)
    refine ⟨h1, ?_, h2⟩
    rw [inject_event_bus_error]
    simp [raises_bus_error]
  refine ⟨hinj a, ?_, ?_, ?_⟩
  · intro hrest
    rw [hinj a]
    obtain ⟨s1, s2, s3⟩ := hstop a
    refine ⟨inject_bus_error_shape a hrest, s1, s2, s3, ?_⟩
    rw [inject_bus_error_shape a hrest]
    simp only [go_bus_error]
    exact fault_entry_trace a I2C_STATE_BUS_ERROR
  · intro a0 l env pre post hlock hirqs
    have hw : transfer_waited a0 l env =
        serve_all (serve (serve_all (transfer_start (emit a0 (Op.PIOS_Mutex_Lock true)) l) pre)
          (Irq.ev raw)) post := by
      unfold transfer_waited
      rw [hirqs, serve_all_append, serve_all_cons]
    have hserve : ∀ x : pios_i2c_adapter,
        serve x (Irq.ev raw) = i2c_adapter_inject_event x I2C_EVENT_BUS_ERROR := hinj
    obtain ⟨h1, h2, h3⟩ := hstop (serve_all (transfer_start (emit a0 (Op.PIOS_Mutex_Lock true)) l) pre)
    rw [← hserve] at h1 h2 h3
    obtain ⟨h4, h5⟩ := serve_all_in_stopping post _ h1 h3
    have h6 : (transfer_waited a0 l env).bus_error = true := by
      rw [hw, serve_all_bus_error, h2]
      rfl
    rw [← hw] at h4 h5
    obtain ⟨p, hp, hres⟩ := transfer_returns_after_stop a0 l env hlock h4
    refine ⟨p, hp, ?_⟩
    rw [hres, h5, h6]
    rfl
  · intro a0 l env p hlock hret hev
    have hb : p.2.bus_error = true := by
      rw [transfer_bus_error a0 l env p hlock hret, List.any_eq_true]
      obtain ⟨se, hse, he⟩ := hev
      exact ⟨se, hse, by simp [raises_bus_error, he]⟩
    obtain ⟨b, _, _, hp⟩ := transfer_eq_finish a0 l env p hlock hret
    have hb2 : (transfer_finish (transfer_waited a0 l env).sem_ready b).2.bus_error = true := by
      rw [← hp]; exact hb
    rw [hp]
    cases hsem : (transfer_waited a0 l env).sem_ready
    · simp [transfer_finish]
    · simp only [transfer_finish, emit] at hb2 ⊢
      simp [hb2]

/-- The status 0x20000 while the one-byte read is starting: BUS_ERROR is injected
and the transfer returns -1. -/
theorem unknown_status_is_bus_error_witness :
    0x20000 &&& EVENT_MASK ∉ known_statuses ∧
      PIOS_I2C_EV_IRQ_Handler (transfer_start idle_adapter one_byte_read) 0x20000 =
        i2c_adapter_inject_event (transfer_start idle_adapter one_byte_read)
          I2C_EVENT_BUS_ERROR ∧
      (transfer_outcome idle_adapter one_byte_read env_unknown_status).1 = -1 ∧
      Op.I2C_Init ∉ (transfer_start idle_adapter one_byte_read).ops ∧
      Op.I2C_Init ∈
        (PIOS_I2C_EV_IRQ_Handler (transfer_start idle_adapter one_byte_read) 0x20000).ops :=
  ⟨by decide,
    (unknown_status_is_bus_error (transfer_start idle_adapter one_byte_read) 0x20000
      (by decide)).1,
    by decide, by decide,
    ((unknown_status_is_bus_error (transfer_start idle_adapter one_byte_read) 0x20000
      (by decide)).2.1 (by decide)).2.2.2.2.elim
        fun recovery h => h.elim fun pulse h => by
          rw [h.1]
          simp [fault_stop_ops, reset_bus_reinit_ops]⟩

end PiosI2C
